import Mathlib

/-!
# EncryptionThreadPool.c : a shallow embedding

Verification development for `src/Common/EncryptionThreadPool.c` (VeraCrypt).
The static variables of the file become the fields of `Pool`; every function
of the file becomes a function on `Pool`. Pointers into `WorkItemQueue` are
queue indices, pointers into caller memory are byte addresses (`Nat`), and the
unit number of a data unit is a `uint64` (arithmetic modulo `2 ^ 64`).
-/

namespace EncryptionThreadPool

/-! ## Constants -/

/-- Largest number of worker threads (hosts with several processor groups). -/
def TC_ENC_THREAD_POOL_MAX_THREAD_COUNT : Nat := 256

/-- Length of the `WorkItemQueue` array. -/
def TC_ENC_THREAD_POOL_QUEUE_SIZE : Nat := TC_ENC_THREAD_POOL_MAX_THREAD_COUNT * 2

/-- Largest number of worker threads on a host with one processor group. -/
def TC_ENC_THREAD_POOL_LEGACY_MAX_THREAD_COUNT : Nat := 64

/-- Part of the queue used on a host with one processor group. -/
def TC_ENC_THREAD_POOL_LEGACY_QUEUE_SIZE : Nat := TC_ENC_THREAD_POOL_LEGACY_MAX_THREAD_COUNT * 2

/-- Modelled from the spec: `ENCRYPTION_DATA_UNIT_SIZE` is declared in a header
that is not part of the sources at hand; the glossary gives the data unit as
512 bytes. -/
def ENCRYPTION_DATA_UNIT_SIZE : Nat := 512

/-- Number of values of a `uint64` (the type of `fragmentStartUnitNo`). -/
def UINT64_MOD : Nat := 2 ^ 64

/-! ## Fragmentation in `EncryptionThreadPoolDoWork` -/

/-- The `Encryption` member of a work item, as the fragment loop writes it:
`Data` (a byte address), `StartUnitNo.Value` and `UnitCount`. -/
structure Fragment where
  Data : Nat
  StartUnitNo : Nat
  UnitCount : Nat
  deriving DecidableEq, Repr

/-- Lines 645-663: `fragmentCount`, `unitsPerFragment` and `remainder` chosen
from `unitCount` and `ThreadCount`. -/
def fragmentPlan (unitCount ThreadCount : Nat) : Nat × Nat × Nat :=
  if unitCount ≤ ThreadCount then
    (unitCount, 1, 0)
  else
    let fragmentCount := ThreadCount
    let unitsPerFragment := unitCount / ThreadCount
    let remainder := unitCount % ThreadCount
    (fragmentCount, if remainder > 0 then unitsPerFragment + 1 else unitsPerFragment, remainder)

/-- Lines 678-705, the values handed to the work items: one iteration writes
`(fragmentData, fragmentStartUnitNo, unitsPerFragment)`, advances the data
pointer and the `uint64` start unit, and `if (remainder > 0 && --remainder == 0)
--unitsPerFragment`. The first argument is `fragmentCount`. -/
def fragmentLoop : Nat → Nat → Nat → Nat → Nat → List Fragment
  | 0, _, _, _, _ => []
  | fragmentCount + 1, unitsPerFragment, remainder, fragmentData, fragmentStartUnitNo =>
    { Data := fragmentData, StartUnitNo := fragmentStartUnitNo, UnitCount := unitsPerFragment } ::
      (let fragmentData' := fragmentData + unitsPerFragment * ENCRYPTION_DATA_UNIT_SIZE
       let fragmentStartUnitNo' := (fragmentStartUnitNo + unitsPerFragment) % UINT64_MOD
       if remainder > 0 then
         if remainder - 1 = 0 then
           fragmentLoop fragmentCount (unitsPerFragment - 1) (remainder - 1)
             fragmentData' fragmentStartUnitNo'
         else
           fragmentLoop fragmentCount unitsPerFragment (remainder - 1)
             fragmentData' fragmentStartUnitNo'
       else
         fragmentLoop fragmentCount unitsPerFragment remainder fragmentData' fragmentStartUnitNo')

/-- The fragments `EncryptionThreadPoolDoWork` enqueues on the queued path
(lines 645-705) for a call with `unitCount` units starting at unit
`startUnitNo` and address `data`, when the pool has `ThreadCount` workers. -/
def queuedFragments (unitCount ThreadCount data startUnitNo : Nat) : List Fragment :=
  let plan := fragmentPlan unitCount ThreadCount
  fragmentLoop plan.1 plan.2.1 plan.2.2 data startUnitNo

/-! ## Data model -/

/-- The enum `WorkItemState`. -/
inductive WorkItemState
  | WorkItemFree
  | WorkItemReady
  | WorkItemBusy
  deriving DecidableEq

/-- Modelled from the spec: the enum `EncryptionThreadPoolWorkType` is declared
in `EncryptionThreadPool.h`, which is not part of the sources at hand; the four
kinds are the ones `EncryptionThreadProc` switches on. -/
inductive EncryptionThreadPoolWorkType
  | EncryptDataUnitsWork
  | DecryptDataUnitsWork
  | DeriveKeyWork
  | ReadVolumeHeaderFinalizationWork
  deriving DecidableEq

/-- An event handle (`TC_EVENT` of the user-mode build): `null`, an event
object with its signalled state, or a handle that `CloseHandle` has closed. -/
inductive EventHandle
  | null
  | live (signalled : Bool)
  | closed
  deriving DecidableEq

/-- A mutex handle (`TC_MUTEX` of the user-mode build). -/
inductive MutexHandle
  | null
  | live
  | closed
  deriving DecidableEq

/-- The macro `TC_SET_EVENT`. -/
def TC_SET_EVENT : EventHandle → EventHandle
  | .live _ => .live true
  | h => h

/-- The macro `TC_CLEAR_EVENT`. -/
def TC_CLEAR_EVENT : EventHandle → EventHandle
  | .live _ => .live false
  | h => h

/-- The function `CloseHandle` on an event handle. -/
def CloseEvent : EventHandle → EventHandle
  | .live _ => .closed
  | h => h

/-- The anonymous union of a work item. Pointers are addresses, `LONG` and
`int` values are integers; `Zero` is the union after `memset`. -/
inductive Payload
  | Zero
  | Encryption (CryptoInfo Data StartUnitNo UnitCount : Nat)
  | KeyDerivation (CompletionEvent CompletionFlag DerivedKey : Nat) (IterationCount Memorycost : Int)
      (NoOutstandingWorkItemEvent OutstandingWorkItemCount Password : Nat) (PasswordLength Pkcs5Prf : Int)
      (Salt pAbortKeyDerivation : Nat)
  | ReadVolumeHeaderFinalization (KeyDerivationCompletedEvent NoOutstandingWorkItemEvent
      outstandingWorkItemCount keyInfoBuffer : Nat) (keyInfoBufferSize : Int)
      (keyDerivationWorkItems : Nat) (keyDerivationWorkItemsSize : Int)
  deriving DecidableEq

/-- The struct `EncryptionThreadPoolWorkItem`; `FirstFragment` is a queue index
(`none` for a null pointer), and the member `Type` is written `WorkType`. -/
structure WorkItem where
  State : WorkItemState
  WorkType : EncryptionThreadPoolWorkType
  ItemCompletedEvent : EventHandle
  FirstFragment : Option Nat
  OutstandingFragmentCount : Int
  payload : Payload
  deriving DecidableEq

/-- A work item after `memset (WorkItemQueue, 0, sizeof (WorkItemQueue))`. -/
def WorkItem.zero : WorkItem :=
  { State := .WorkItemFree, WorkType := .EncryptDataUnitsWork, ItemCompletedEvent := .null,
    FirstFragment := none, OutstandingFragmentCount := 0, payload := .Zero }

/-- A thread running `EncryptionThreadProc`: its handle and the processor
group its `threadArg` points to (`none` for a null `threadArg`). -/
structure WorkerThread where
  handle : Nat
  group : Option Nat
  deriving DecidableEq

/-- The static variables of the file, and two things the C code has no
variable for: the worker threads that have been started and have not
terminated (`Workers`), and the number of threads started so far
(`ThreadsStarted`, the value of the next thread handle). -/
structure Pool where
  ThreadPoolCount : Nat
  ThreadQueueSize : Nat
  ThreadPoolRunning : Bool
  StopPending : Bool
  ThreadCount : Nat
  ThreadHandles : Nat → Option Nat
  ThreadProcessorGroups : Nat → Nat
  WorkItemQueue : Nat → WorkItem
  EnqueuePosition : Nat
  DequeuePosition : Nat
  EnqueueMutex : MutexHandle
  DequeueMutex : MutexHandle
  WorkItemReadyEvent : EventHandle
  WorkItemCompletedEvent : EventHandle
  Workers : List WorkerThread
  ThreadsStarted : Nat

/-- The static variables as the program is loaded. -/
def Pool.initial : Pool :=
  { ThreadPoolCount := TC_ENC_THREAD_POOL_LEGACY_MAX_THREAD_COUNT
    ThreadQueueSize := TC_ENC_THREAD_POOL_LEGACY_QUEUE_SIZE
    ThreadPoolRunning := false
    StopPending := false
    ThreadCount := 0
    ThreadHandles := fun _ => none
    ThreadProcessorGroups := fun _ => 0
    WorkItemQueue := fun _ => WorkItem.zero
    EnqueuePosition := 0
    DequeuePosition := 0
    EnqueueMutex := .null
    DequeueMutex := .null
    WorkItemReadyEvent := .null
    WorkItemCompletedEvent := .null
    Workers := []
    ThreadsStarted := 0 }

/-- Assignment to `WorkItemQueue[i]`. -/
def Pool.setItem (p : Pool) (i : Nat) (item : WorkItem) : Pool :=
  { p with WorkItemQueue := Function.update p.WorkItemQueue i item }

/-- The function `GetWorkItemState`. -/
def GetWorkItemState (p : Pool) (workItem : Nat) : WorkItemState :=
  (p.WorkItemQueue workItem).State

/-- The function `SetWorkItemState`. -/
def SetWorkItemState (p : Pool) (workItem : Nat) (newState : WorkItemState) : Pool :=
  p.setItem workItem { p.WorkItemQueue workItem with State := newState }

/-- A byte of caller memory. -/
abbrev Byte := Fin 256

/-- Something the code does to its collaborators, in the order it does it. -/
inductive Effect
  | cipher (type : EncryptionThreadPoolWorkType) (buf unitNo nbrUnits ci : Nat)
  | derive_key (prf : Int) (derivedKey : Nat)
  | setEvent (event : Nat)
  | clearEvent (event : Nat)
  | burn (buffer : Nat) (size : Int)
  | free (buffer : Nat)
  | closeHandle (event : Nat)
  deriving DecidableEq

/-- The pool together with the caller memory the work items point into: data
buffers (`mem`), `LONG` variables (`longs`) and caller-owned events
(`events`, their signalled state), and the effects so far. -/
structure World where
  pool : Pool
  mem : Nat → Byte
  longs : Nat → Int
  events : Nat → Bool
  trace : List Effect

/-- How a call ends: it returns (`done`), it raises
`TC_THROW_FATAL_EXCEPTION` (`fatal`), or it waits for an event that only
another thread can set (`blocked`); each with the state at that point. -/
inductive Outcome (α : Type)
  | done (a : α)
  | fatal (a : α)
  | blocked (a : α)

/-- Sequencing of outcomes. -/
def Outcome.bind {α : Type} (o : Outcome α) (f : α → Outcome α) : Outcome α :=
  match o with
  | .done a => f a
  | .fatal a => .fatal a
  | .blocked a => .blocked a

/-- The state an outcome carries. -/
def Outcome.state {α : Type} : Outcome α → α
  | .done a => a
  | .fatal a => a
  | .blocked a => a

/-! ## The cipher primitive and its wrappers -/

/-- Modelled from the spec: the collaborators of the engine that are not part
of the sources at hand. `encryptUnit ci unitNo bytes` and `decryptUnit` are the
cipher on one data unit (a function of the key material, the unit number and
the bytes of the unit); `VcUnprotectKeys`, `VcGetEncryptionID` and
`IsRamEncryptionEnabled` are the RAM-encryption helpers, acting on the contents
of a `CRYPTO_INFO`; `derive_key` is the effect on memory of the key derivation
selected by a known `Pkcs5Prf` tag (`knownPrf`). -/
structure Crypto where
  IsRamEncryptionEnabled : Bool
  VcGetEncryptionID : Nat → Nat
  VcUnprotectKeys : Nat → Nat → Nat
  encryptUnit : Nat → Nat → List Byte → List Byte
  decryptUnit : Nat → Nat → List Byte → List Byte
  knownPrf : Int → Bool
  derive_key : Int → (Nat → Byte) → Payload → (Nat → Byte)

/-- The bytes of the data unit at address `p`. -/
def readUnit (m : Nat → Byte) (p : Nat) : List Byte :=
  (List.range ENCRYPTION_DATA_UNIT_SIZE).map (fun j => m (p + j))

/-- Modelled from the spec: the cipher primitives `EncryptDataUnitsCurrentThread`
and `DecryptDataUnitsCurrentThread` are not part of the sources at hand. Each
of the `nbrUnits` data units at `buf` is replaced by the cipher `f` of its unit
number (a `uint64` counted from `unitNo`) and its own bytes; no other byte
changes. -/
def cryptDataUnits (f : Nat → List Byte → List Byte) (m : Nat → Byte)
    (buf unitNo nbrUnits : Nat) : Nat → Byte :=
  fun a =>
    if buf ≤ a ∧ a < buf + nbrUnits * ENCRYPTION_DATA_UNIT_SIZE then
      let k := (a - buf) / ENCRYPTION_DATA_UNIT_SIZE
      (f ((unitNo + k) % UINT64_MOD) (readUnit m (buf + k * ENCRYPTION_DATA_UNIT_SIZE))).getD
        ((a - buf) % ENCRYPTION_DATA_UNIT_SIZE) (m a)
    else m a

/-- Modelled from the spec: the cipher primitive `EncryptDataUnitsCurrentThread`,
which is not part of the sources at hand, as one call on the caller thread. -/
def EncryptDataUnitsCurrentThread (c : Crypto) (w : World) (buf unitNo nbrUnits ci : Nat) : World :=
  { w with mem := cryptDataUnits (c.encryptUnit ci) w.mem buf unitNo nbrUnits
           trace := w.trace ++ [Effect.cipher .EncryptDataUnitsWork buf unitNo nbrUnits ci] }

/-- Modelled from the spec: the cipher primitive `DecryptDataUnitsCurrentThread`,
which is not part of the sources at hand, as one call on the caller thread. -/
def DecryptDataUnitsCurrentThread (c : Crypto) (w : World) (buf unitNo nbrUnits ci : Nat) : World :=
  { w with mem := cryptDataUnits (c.decryptUnit ci) w.mem buf unitNo nbrUnits
           trace := w.trace ++ [Effect.cipher .DecryptDataUnitsWork buf unitNo nbrUnits ci] }

/-- The function `EncryptDataUnitsCurrentThreadEx`: with RAM encryption the
primitive runs on an unprotected copy `tmpCI` of the crypto info. -/
def EncryptDataUnitsCurrentThreadEx (c : Crypto) (w : World) (buf unitNo nbrUnits ci : Nat) : World :=
  if c.IsRamEncryptionEnabled then
    let tmpCI := c.VcUnprotectKeys ci (c.VcGetEncryptionID ci)
    EncryptDataUnitsCurrentThread c w buf unitNo nbrUnits tmpCI
  else
    EncryptDataUnitsCurrentThread c w buf unitNo nbrUnits ci

/-- The function `DecryptDataUnitsCurrentThreadEx`: with RAM encryption the
primitive runs on an unprotected copy `tmpCI` of the crypto info. -/
def DecryptDataUnitsCurrentThreadEx (c : Crypto) (w : World) (buf unitNo nbrUnits ci : Nat) : World :=
  if c.IsRamEncryptionEnabled then
    let tmpCI := c.VcUnprotectKeys ci (c.VcGetEncryptionID ci)
    DecryptDataUnitsCurrentThread c w buf unitNo nbrUnits tmpCI
  else
    DecryptDataUnitsCurrentThread c w buf unitNo nbrUnits ci

/-! ## Pool lifecycle -/

/-- What the host answers when the pool starts (user-mode build): the processor
group functions of `kernel32.dll` (which may be absent), `GetSystemInfo`, and
whether each `CreateEvent`, `CreateMutex` and `_beginthreadex` call succeeds. -/
structure Host where
  hasGetActiveProcessorGroupCount : Bool
  hasGetActiveProcessorCount : Bool
  GetActiveProcessorGroupCount : Nat
  GetActiveProcessorCount : Nat → Nat
  dwNumberOfProcessors : Nat
  readyEventCreated : Bool
  completedEventCreated : Bool
  dequeueMutexCreated : Bool
  enqueueMutexCreated : Bool
  itemEventCreated : Nat → Bool
  threadStarted : Nat → Bool

/-- The function `GetCpuCount`: the CPU count and the value stored through
`pGroupCount`. -/
def GetCpuCount (h : Host) : Nat × Nat :=
  if h.hasGetActiveProcessorGroupCount && h.hasGetActiveProcessorCount then
    let groupCount := h.GetActiveProcessorGroupCount
    let totalProcessors := ((List.range groupCount).map h.GetActiveProcessorCount).sum
    (totalProcessors, groupCount)
  else
    (h.dwNumberOfProcessors, 1)

/-- Lines 462-472 of `EncryptionThreadPoolStart`: the scan over the processor
groups for the worker of index `ThreadCount`, from group `j` with
`totalProcessors` (a `uint32`) accumulated so far; the first argument is the
number of groups left. The result is the group stored in
`ThreadProcessorGroups[ThreadCount]`, or `none` when the loop ends without
storing one. -/
def groupScan (h : Host) (ThreadCount : Nat) : Nat → Nat → Nat → Option Nat
  | 0, _, _ => none
  | groupsLeft + 1, j, totalProcessors =>
    let totalProcessors' := (totalProcessors + h.GetActiveProcessorCount j % 2 ^ 32) % 2 ^ 32
    if totalProcessors' ≥ ThreadCount then some j
    else groupScan h ThreadCount groupsLeft (j + 1) totalProcessors'

/-- The function `EncryptionThreadPoolStop`. Waiting for the handles
`ThreadHandles[i]`, `i < ThreadCount`, returns when these threads have
terminated. -/
def EncryptionThreadPoolStop (p : Pool) : Pool :=
  if !p.ThreadPoolRunning then p
  else
    let p := { p with StopPending := true, WorkItemReadyEvent := TC_SET_EVENT p.WorkItemReadyEvent }
    let p := { p with Workers := p.Workers.filter fun t =>
                 (List.range p.ThreadCount).all fun i => decide (p.ThreadHandles i ≠ some t.handle) }
    let p := { p with ThreadCount := 0 }
    let p := { p with DequeueMutex := .closed, EnqueueMutex := .closed,
                      WorkItemReadyEvent := .closed, WorkItemCompletedEvent := .closed }
    let p := { p with WorkItemQueue := fun i =>
                 if i < TC_ENC_THREAD_POOL_QUEUE_SIZE then
                   { p.WorkItemQueue i with
                     ItemCompletedEvent := CloseEvent (p.WorkItemQueue i).ItemCompletedEvent }
                 else p.WorkItemQueue i }
    { p with ThreadPoolRunning := false }

/-- Lines 434-448 of `EncryptionThreadPoolStart`: the loop that sets every work
item free and creates its event, from index `i` with `itemsLeft` items to go.
The result is `false` with the state at that point when a `CreateEvent` fails. -/
def initWorkItems (h : Host) : Nat → Nat → Pool → Bool × Pool
  | 0, _, p => (true, p)
  | itemsLeft + 1, i, p =>
    let p := SetWorkItemState p i .WorkItemFree
    if h.itemEventCreated i then
      initWorkItems h itemsLeft (i + 1)
        (p.setItem i { p.WorkItemQueue i with ItemCompletedEvent := .live false })
    else
      (false, p.setItem i { p.WorkItemQueue i with ItemCompletedEvent := .null })

/-- Lines 450-490 of `EncryptionThreadPoolStart`: the loop that starts the
worker threads, with `threadsLeft = cpuCount - ThreadCount` iterations to go.
The result is `false` with the state at that point when a thread cannot be
started. -/
def startThreads (h : Host) (groupCount : Nat) : Nat → Pool → Bool × Pool
  | 0, p => (true, p)
  | threadsLeft + 1, p =>
    let p1 : Pool :=
      if groupCount > 1 then
        if h.hasGetActiveProcessorCount then
          match groupScan h p.ThreadCount groupCount 0 0 with
          | some j =>
            { p with ThreadProcessorGroups := Function.update p.ThreadProcessorGroups p.ThreadCount j }
          | none => p
        else
          { p with ThreadProcessorGroups := Function.update p.ThreadProcessorGroups p.ThreadCount 0 }
      else p
    let pThreadArg : Option Nat :=
      if groupCount > 1 then some (p1.ThreadProcessorGroups p.ThreadCount) else none
    if h.threadStarted p.ThreadCount then
      startThreads h groupCount threadsLeft
        { p1 with ThreadHandles := Function.update p1.ThreadHandles p.ThreadCount (some p.ThreadsStarted)
                  Workers := p1.Workers ++ [{ handle := p.ThreadsStarted, group := pThreadArg }]
                  ThreadsStarted := p.ThreadsStarted + 1
                  ThreadCount := p.ThreadCount + 1 }
    else
      (false, { p1 with ThreadHandles := Function.update p1.ThreadHandles p.ThreadCount none })

/-- The function `EncryptionThreadPoolStart` (user-mode build): the value it
returns and the pool it leaves. -/
def EncryptionThreadPoolStart (h : Host) (encryptionFreeCpuCount : Nat) (p : Pool) : Bool × Pool :=
  let cpuCount := (GetCpuCount h).1
  let groupCount := (GetCpuCount h).2
  if p.ThreadPoolRunning then (true, p)
  else
    let p : Pool :=
      if groupCount > 1 then
        { p with ThreadPoolCount := TC_ENC_THREAD_POOL_MAX_THREAD_COUNT
                 ThreadQueueSize := TC_ENC_THREAD_POOL_QUEUE_SIZE }
      else p
    let cpuCount := if cpuCount > encryptionFreeCpuCount then cpuCount - encryptionFreeCpuCount else cpuCount
    if cpuCount < 2 then (true, p)
    else
      let cpuCount := if cpuCount > p.ThreadPoolCount then p.ThreadPoolCount else cpuCount
      let p := { p with StopPending := false, DequeuePosition := 0, EnqueuePosition := 0 }
      if !h.readyEventCreated then (false, { p with WorkItemReadyEvent := .null })
      else
        let p := { p with WorkItemReadyEvent := .live false }
        if !h.completedEventCreated then (false, { p with WorkItemCompletedEvent := .null })
        else
          let p := { p with WorkItemCompletedEvent := .live false }
          if !h.dequeueMutexCreated then (false, { p with DequeueMutex := .null })
          else
            let p := { p with DequeueMutex := .live }
            if !h.enqueueMutexCreated then (false, { p with EnqueueMutex := .null })
            else
              let p := { p with EnqueueMutex := .live }
              let p := { p with WorkItemQueue := fun i =>
                           if i < TC_ENC_THREAD_POOL_QUEUE_SIZE then WorkItem.zero else p.WorkItemQueue i }
              let items := initWorkItems h TC_ENC_THREAD_POOL_QUEUE_SIZE 0 p
              if !items.1 then (false, EncryptionThreadPoolStop items.2)
              else
                let threads := startThreads h groupCount cpuCount { items.2 with ThreadCount := 0 }
                if !threads.1 then (false, EncryptionThreadPoolStop threads.2)
                else (true, { threads.2 with ThreadPoolRunning := true })

/-- The function `GetEncryptionThreadCount`. -/
def GetEncryptionThreadCount (p : Pool) : Nat :=
  if p.ThreadPoolRunning then p.ThreadCount else 0

/-- The function `GetMaxEncryptionThreadCount`. -/
def GetMaxEncryptionThreadCount (p : Pool) : Nat :=
  p.ThreadPoolCount

/-- The function `IsEncryptionThreadPoolRunning`. -/
def IsEncryptionThreadPoolRunning (p : Pool) : Bool :=
  p.ThreadPoolRunning

/-! ## Producers -/

/-- The statements `workItem = &WorkItemQueue[EnqueuePosition++];
if (EnqueuePosition >= ThreadQueueSize) EnqueuePosition = 0;`: the index
claimed and the pool with the cursor advanced. -/
def claimEnqueueSlot (p : Pool) : Nat × Pool :=
  (p.EnqueuePosition,
    { p with EnqueuePosition :=
        if p.EnqueuePosition + 1 ≥ p.ThreadQueueSize then 0 else p.EnqueuePosition + 1 })

/-- The function `InterlockedIncrement` on the `LONG` at `addr`. The counters
of this file stay far below `2 ^ 31`, so the `LONG` is an integer. -/
def InterlockedIncrement (w : World) (addr : Nat) : World :=
  { w with longs := Function.update w.longs addr (w.longs addr + 1) }

/-- The function `InterlockedDecrement` on the `LONG` at `addr`; the value
returned is the new value `(InterlockedDecrement w addr).longs addr`. -/
def InterlockedDecrement (w : World) (addr : Nat) : World :=
  { w with longs := Function.update w.longs addr (w.longs addr - 1) }

/-- The macro `TC_SET_EVENT` on the caller-owned event at `event`. -/
def setCallerEvent (w : World) (event : Nat) : World :=
  { w with events := Function.update w.events event true, trace := w.trace ++ [Effect.setEvent event] }

/-- The macro `TC_CLEAR_EVENT` on the caller-owned event at `event`. -/
def clearCallerEvent (w : World) (event : Nat) : World :=
  { w with events := Function.update w.events event false, trace := w.trace ++ [Effect.clearEvent event] }

/-- The statements `SetWorkItemState (workItem, WorkItemReady);
TC_SET_EVENT (WorkItemReadyEvent);` that end every enqueue. -/
def publishWorkItem (p : Pool) (workItem : Nat) : Pool :=
  let p := SetWorkItemState p workItem .WorkItemReady
  { p with WorkItemReadyEvent := TC_SET_EVENT p.WorkItemReadyEvent }

/-- The function `EncryptionThreadPoolBeginKeyDerivation`. -/
def EncryptionThreadPoolBeginKeyDerivation (w : World)
    (completionEvent noOutstandingWorkItemEvent completionFlag outstandingWorkItemCount : Nat)
    (pkcs5Prf : Int) (password : Nat) (passwordLength : Int) (salt : Nat)
    (iterationCount memoryCost : Int) (derivedKey pAbortKeyDerivation : Nat) : Outcome World :=
  if !w.pool.ThreadPoolRunning then .fatal w
  else
    let workItem := (claimEnqueueSlot w.pool).1
    let w := { w with pool := (claimEnqueueSlot w.pool).2 }
    if GetWorkItemState w.pool workItem ≠ .WorkItemFree then .blocked w
    else
      let w := { w with pool := (w.pool.setItem workItem
                   { w.pool.WorkItemQueue workItem with
                     WorkType := .DeriveKeyWork
                     payload := .KeyDerivation completionEvent completionFlag derivedKey iterationCount
                       memoryCost noOutstandingWorkItemEvent outstandingWorkItemCount password
                       passwordLength pkcs5Prf salt pAbortKeyDerivation }) }
      let w := InterlockedIncrement w outstandingWorkItemCount
      let w := clearCallerEvent w noOutstandingWorkItemEvent
      .done { w with pool := publishWorkItem w.pool workItem }

/-- The function `EncryptionThreadPoolBeginReadVolumeHeaderFinalization`. -/
def EncryptionThreadPoolBeginReadVolumeHeaderFinalization (w : World)
    (keyDerivationCompletedEvent noOutstandingWorkItemEvent outstandingWorkItemCount
      keyInfoBuffer : Nat) (keyInfoBufferSize : Int)
    (keyDerivationWorkItems : Nat) (keyDerivationWorkItemsSize : Int) : Outcome World :=
  if !w.pool.ThreadPoolRunning then .fatal w
  else
    let workItem := (claimEnqueueSlot w.pool).1
    let w := { w with pool := (claimEnqueueSlot w.pool).2 }
    if GetWorkItemState w.pool workItem ≠ .WorkItemFree then .blocked w
    else
      let w := { w with pool := (w.pool.setItem workItem
                   { w.pool.WorkItemQueue workItem with
                     WorkType := .ReadVolumeHeaderFinalizationWork
                     payload := .ReadVolumeHeaderFinalization keyDerivationCompletedEvent
                       noOutstandingWorkItemEvent outstandingWorkItemCount keyInfoBuffer
                       keyInfoBufferSize keyDerivationWorkItems keyDerivationWorkItemsSize }) }
      .done { w with pool := publishWorkItem w.pool workItem }

/-- Lines 680-704 of `EncryptionThreadPoolDoWork`, the queue side of one
iteration of the fragment loop: claim the slot at the cursor, wait until it is
free, fill it with the fragment `f` and make it ready. -/
def enqueueFragment (type : EncryptionThreadPoolWorkType) (cryptoInfo firstFragmentWorkItem : Nat)
    (f : Fragment) (w : World) : Outcome World :=
  let workItem := (claimEnqueueSlot w.pool).1
  let w := { w with pool := (claimEnqueueSlot w.pool).2 }
  if GetWorkItemState w.pool workItem ≠ .WorkItemFree then .blocked w
  else
    let w := { w with pool := (w.pool.setItem workItem
                 { w.pool.WorkItemQueue workItem with
                   WorkType := type
                   FirstFragment := some firstFragmentWorkItem
                   payload := .Encryption cryptoInfo f.Data f.StartUnitNo f.UnitCount }) }
    .done { w with pool := publishWorkItem w.pool workItem }

/-- Lines 678-705 of `EncryptionThreadPoolDoWork`: the fragment loop, over the
fragments that `fragmentLoop` computes. -/
def enqueueFragments (type : EncryptionThreadPoolWorkType) (cryptoInfo firstFragmentWorkItem : Nat) :
    List Fragment → World → Outcome World
  | [], w => .done w
  | f :: fs, w =>
    (enqueueFragment type cryptoInfo firstFragmentWorkItem f w).bind
      (enqueueFragments type cryptoInfo firstFragmentWorkItem fs)

/-- Lines 645-707 of `EncryptionThreadPoolDoWork`: the queued path up to the
release of the enqueue mutex. -/
def DoWorkEnqueue (type : EncryptionThreadPoolWorkType) (data startUnitNo unitCount cryptoInfo : Nat)
    (w : World) : Outcome World :=
  let plan := fragmentPlan unitCount w.pool.ThreadCount
  let firstFragmentWorkItem := w.pool.EnqueuePosition
  if GetWorkItemState w.pool firstFragmentWorkItem ≠ .WorkItemFree then .blocked w
  else
    let w := { w with pool := (w.pool.setItem firstFragmentWorkItem
                 { w.pool.WorkItemQueue firstFragmentWorkItem with
                   OutstandingFragmentCount := (plan.1 : Int) }) }
    enqueueFragments type cryptoInfo firstFragmentWorkItem
      (fragmentLoop plan.1 plan.2.1 plan.2.2 data startUnitNo) w

/-- Lines 709-711 of `EncryptionThreadPoolDoWork`: wait for the event of the
first fragment (an auto-reset event, which the wait resets), free that work
item and signal `WorkItemCompletedEvent`. -/
def DoWorkWait (firstFragmentWorkItem : Nat) (w : World) : Outcome World :=
  if (w.pool.WorkItemQueue firstFragmentWorkItem).ItemCompletedEvent ≠ .live true then .blocked w
  else
    let p := w.pool.setItem firstFragmentWorkItem
      { w.pool.WorkItemQueue firstFragmentWorkItem with ItemCompletedEvent := .live false }
    let p := SetWorkItemState p firstFragmentWorkItem .WorkItemFree
    .done { w with pool := { p with WorkItemCompletedEvent := TC_SET_EVENT p.WorkItemCompletedEvent } }

/-- The function `EncryptionThreadPoolDoWork`. -/
def EncryptionThreadPoolDoWork (c : Crypto) (type : EncryptionThreadPoolWorkType)
    (data startUnitNo unitCount cryptoInfo : Nat) (w : World) : Outcome World :=
  if unitCount = 0 then .done w
  else if !w.pool.ThreadPoolRunning || unitCount = 1 then
    match type with
    | .DecryptDataUnitsWork =>
      .done (DecryptDataUnitsCurrentThreadEx c w data startUnitNo unitCount cryptoInfo)
    | .EncryptDataUnitsWork =>
      .done (EncryptDataUnitsCurrentThreadEx c w data startUnitNo unitCount cryptoInfo)
    | _ => .fatal w
  else
    (DoWorkEnqueue type data startUnitNo unitCount cryptoInfo w).bind
      (DoWorkWait w.pool.EnqueuePosition)

/-! ## Workers -/

/-- Lines 214-228 of `EncryptionThreadProc`: claim the slot at the dequeue
cursor, wait until it is ready or the pool is stopping, and set it busy. The
result carries the index of the claimed work item. -/
def workerDequeue (p : Pool) : Outcome (Nat × Pool) :=
  let workItem := p.DequeuePosition
  let p := { p with DequeuePosition :=
               if p.DequeuePosition + 1 ≥ p.ThreadQueueSize then 0 else p.DequeuePosition + 1 }
  if !p.StopPending && decide (GetWorkItemState p workItem ≠ .WorkItemReady) then .blocked (workItem, p)
  else .done (workItem, SetWorkItemState p workItem .WorkItemBusy)

/-- Lines 325-332 of `EncryptionThreadProc`: a fragment that is not the first
one frees its slot, and the worker whose decrement of the first fragment's
counter gives zero sets the first fragment's event. A null `FirstFragment` is
a null dereference. -/
def workerFinishFragment (workItem : Nat) (w : World) : Outcome World :=
  match (w.pool.WorkItemQueue workItem).FirstFragment with
  | none => .fatal w
  | some firstFragment =>
    let p := w.pool
    let p :=
      if workItem ≠ firstFragment then
        let p := SetWorkItemState p workItem .WorkItemFree
        { p with WorkItemCompletedEvent := TC_SET_EVENT p.WorkItemCompletedEvent }
      else p
    match (p.WorkItemQueue workItem).FirstFragment with
    | none => .fatal { w with pool := p }
    | some firstFragment =>
      let p := p.setItem firstFragment
        { p.WorkItemQueue firstFragment with
          OutstandingFragmentCount := (p.WorkItemQueue firstFragment).OutstandingFragmentCount - 1 }
      if (p.WorkItemQueue firstFragment).OutstandingFragmentCount = 0 then
        .done { w with pool := (p.setItem firstFragment
                  { p.WorkItemQueue firstFragment with
                    ItemCompletedEvent := TC_SET_EVENT (p.WorkItemQueue firstFragment).ItemCompletedEvent }) }
      else .done { w with pool := p }

/-- Lines 280-288 of `EncryptionThreadProc`: what a worker does once the key of
a `DeriveKeyWork` item is derived. -/
def workerCompleteKeyDerivation (workItem completionEvent completionFlag
    noOutstandingWorkItemEvent outstandingWorkItemCount : Nat) (w : World) : World :=
  let w := { w with longs := Function.update w.longs completionFlag 1 }
  let w := setCallerEvent w completionEvent
  let w := InterlockedDecrement w outstandingWorkItemCount
  let w := if w.longs outstandingWorkItemCount = 0 then setCallerEvent w noOutstandingWorkItemEvent else w
  let p := SetWorkItemState w.pool workItem .WorkItemFree
  { w with pool := { p with WorkItemCompletedEvent := TC_SET_EVENT p.WorkItemCompletedEvent } }

/-- Lines 290-320 of `EncryptionThreadProc`: the finalization item, once its
wait on the no-outstanding event has returned. -/
def workerFinalize (workItem keyDerivationCompletedEvent noOutstandingWorkItemEvent
    outstandingWorkItemCount keyInfoBuffer : Nat) (keyInfoBufferSize : Int)
    (keyDerivationWorkItems : Nat) (keyDerivationWorkItemsSize : Int) (w : World) : World :=
  let zeroed (m : Nat → Byte) (buffer : Nat) (size : Int) : Nat → Byte :=
    fun a => if buffer ≤ a ∧ (a : Int) < buffer + size then 0 else m a
  let w :=
    if keyDerivationWorkItems ≠ 0 then
      { w with mem := zeroed w.mem keyDerivationWorkItems keyDerivationWorkItemsSize
               trace := w.trace ++ [Effect.burn keyDerivationWorkItems keyDerivationWorkItemsSize,
                                    Effect.free keyDerivationWorkItems] }
    else w
  let w :=
    if keyInfoBuffer ≠ 0 then
      { w with mem := zeroed w.mem keyInfoBuffer keyInfoBufferSize
               trace := w.trace ++ [Effect.burn keyInfoBuffer keyInfoBufferSize,
                                    Effect.free keyInfoBuffer] }
    else w
  let w := { w with trace := w.trace ++
               [Effect.closeHandle keyDerivationCompletedEvent, Effect.closeHandle noOutstandingWorkItemEvent,
                Effect.free keyDerivationCompletedEvent, Effect.free noOutstandingWorkItemEvent,
                Effect.free outstandingWorkItemCount] }
  let p := SetWorkItemState w.pool workItem .WorkItemFree
  { w with pool := { p with WorkItemCompletedEvent := TC_SET_EVENT p.WorkItemCompletedEvent } }

/-- Lines 230-332 of `EncryptionThreadProc`: what a worker does with the work
item it has set busy. A work item whose union member is not the one of its
type is reported as fatal: no enqueue writes one. -/
def workerExecute (c : Crypto) (workItem : Nat) (w : World) : Outcome World :=
  if w.pool.StopPending then .done w
  else
    match (w.pool.WorkItemQueue workItem).WorkType, (w.pool.WorkItemQueue workItem).payload with
    | .DecryptDataUnitsWork, .Encryption ci data startUnitNo unitCount =>
      workerFinishFragment workItem
        (DecryptDataUnitsCurrentThreadEx c w data startUnitNo unitCount ci)
    | .EncryptDataUnitsWork, .Encryption ci data startUnitNo unitCount =>
      workerFinishFragment workItem
        (EncryptDataUnitsCurrentThreadEx c w data startUnitNo unitCount ci)
    | .DeriveKeyWork, .KeyDerivation completionEvent completionFlag derivedKey iterationCount memoryCost
        noOutstandingWorkItemEvent outstandingWorkItemCount password passwordLength pkcs5Prf salt
        pAbortKeyDerivation =>
      if c.knownPrf pkcs5Prf then
        let w := { w with
          mem := c.derive_key pkcs5Prf w.mem
            (.KeyDerivation completionEvent completionFlag derivedKey iterationCount memoryCost
              noOutstandingWorkItemEvent outstandingWorkItemCount password passwordLength pkcs5Prf salt
              pAbortKeyDerivation)
          trace := w.trace ++ [Effect.derive_key pkcs5Prf derivedKey] }
        .done (workerCompleteKeyDerivation workItem completionEvent completionFlag
          noOutstandingWorkItemEvent outstandingWorkItemCount w)
      else .fatal w
    | .ReadVolumeHeaderFinalizationWork, .ReadVolumeHeaderFinalization keyDerivationCompletedEvent
        noOutstandingWorkItemEvent outstandingWorkItemCount keyInfoBuffer keyInfoBufferSize
        keyDerivationWorkItems keyDerivationWorkItemsSize =>
      if !w.events noOutstandingWorkItemEvent then .blocked w
      else
        .done (workerFinalize workItem keyDerivationCompletedEvent noOutstandingWorkItemEvent
          outstandingWorkItemCount keyInfoBuffer keyInfoBufferSize keyDerivationWorkItems
          keyDerivationWorkItemsSize w)
    | _, _ => .fatal w

/-! ## Concrete hosts and states -/

/-- A host with `n` CPUs in one processor group, without the processor group
functions, on which every event, mutex and thread can be created. -/
def Host.plain (n : Nat) : Host :=
  { hasGetActiveProcessorGroupCount := false
    hasGetActiveProcessorCount := false
    GetActiveProcessorGroupCount := 1
    GetActiveProcessorCount := fun _ => n
    dwNumberOfProcessors := n
    readyEventCreated := true
    completedEventCreated := true
    dequeueMutexCreated := true
    enqueueMutexCreated := true
    itemEventCreated := fun _ => true
    threadStarted := fun _ => true }

/-- A host with 4 CPUs on which the third `_beginthreadex` fails. -/
def Host.thirdThreadFails : Host :=
  { Host.plain 4 with threadStarted := fun i => decide (i < 2) }

/-- A cipher that adds the low byte of the unit number to every byte (and
subtracts it again), without RAM encryption. -/
def Crypto.sample : Crypto :=
  { IsRamEncryptionEnabled := false
    VcGetEncryptionID := fun ci => ci
    VcUnprotectKeys := fun ci _ => ci
    encryptUnit := fun _ unitNo bytes => bytes.map fun b => b + Fin.ofNat unitNo
    decryptUnit := fun _ unitNo bytes => bytes.map fun b => b - Fin.ofNat unitNo
    knownPrf := fun prf => decide (1 ≤ prf ∧ prf ≤ 6)
    derive_key := fun _ m _ => m }

/-- The world of a program that has not started the pool: memory holds the
byte pattern `i mod 251`. -/
def World.initial : World :=
  { pool := Pool.initial
    mem := fun i => Fin.ofNat (i % 251)
    longs := fun _ => 0
    events := fun _ => false
    trace := [] }

/-! ## Batches of key derivation items -/

/-- The addresses a batch of key derivation items shares, and the addresses of
the completion event and completion flag of item `i`. -/
structure KdfBatch where
  outstandingWorkItemCount : Nat
  noOutstandingWorkItemEvent : Nat
  completionEvent : Nat → Nat
  completionFlag : Nat → Nat

/-- How far one key derivation item of a batch has come. -/
inductive KdfPc
  | notBegun
  | incremented
  | cleared
  | ready
  | flagged
  | completed
  | decremented (zero : Bool)
  | finished (zero : Bool)
  deriving DecidableEq

/-- The item has incremented the shared counter. -/
def KdfPc.hasIncremented : KdfPc → Bool
  | .notBegun => false
  | _ => true

/-- The item has decremented the shared counter. -/
def KdfPc.hasDecremented : KdfPc → Bool
  | .decremented _ => true
  | .finished _ => true
  | _ => false

/-- The item has not yet decremented the shared counter. -/
def KdfPc.notDecremented (q : KdfPc) : Bool := !q.hasDecremented

/-- The item is not yet ready for a worker. -/
def KdfPc.notReady : KdfPc → Bool
  | .notBegun => true
  | .incremented => true
  | .cleared => true
  | _ => false

/-- The decrement of the item gave zero and its set of the event is still to
come. -/
def KdfPc.setPending : KdfPc → Bool
  | .decremented true => true
  | _ => false

/-- The item has set the no-outstanding event. -/
def KdfPc.hasSet : KdfPc → Bool
  | .finished true => true
  | _ => false

/-- The item has set its completion event. -/
def KdfPc.hasCompleted : KdfPc → Bool
  | .completed => true
  | .decremented _ => true
  | .finished _ => true
  | _ => false

/-- The item has run to its end. -/
def KdfPc.isFinished : KdfPc → Bool
  | .finished _ => true
  | _ => false

/-- The next atomic action on item `i` of the batch. -/
def kdfStep (b : KdfBatch) (i : Nat) (w : World) : KdfPc → World × KdfPc
  | .notBegun => (InterlockedIncrement w b.outstandingWorkItemCount, .incremented)
  | .incremented => (clearCallerEvent w b.noOutstandingWorkItemEvent, .cleared)
  | .cleared => (w, .ready)
  | .ready => ({ w with longs := Function.update w.longs (b.completionFlag i) 1 }, .flagged)
  | .flagged => (setCallerEvent w (b.completionEvent i), .completed)
  | .completed =>
    (InterlockedDecrement w b.outstandingWorkItemCount,
      .decremented (decide ((InterlockedDecrement w b.outstandingWorkItemCount).longs
        b.outstandingWorkItemCount = 0)))
  | .decremented true => (setCallerEvent w b.noOutstandingWorkItemEvent, .finished true)
  | .decremented false => (w, .finished false)
  | .finished zero => (w, .finished zero)

/-- An interleaving of the atomic actions of the items of a batch: every
entry of the schedule names the item whose next action is taken (an entry that
names no item is skipped). -/
def kdfRun (b : KdfBatch) : List Nat → World × List KdfPc → World × List KdfPc
  | [], s => s
  | i :: schedule, s =>
    match s.2[i]? with
    | none => kdfRun b schedule s
    | some pc => kdfRun b schedule ((kdfStep b i s.1 pc).1, s.2.set i (kdfStep b i s.1 pc).2)

/-- A batch with the shared counter and event at address 0 and the completion
flag and event of item `i` at address `i + 1`. -/
def KdfBatch.sample : KdfBatch :=
  { outstandingWorkItemCount := 0
    noOutstandingWorkItemEvent := 0
    completionEvent := fun i => i + 1
    completionFlag := fun i => i + 1 }

/-- A world in which the two items of a batch have been enqueued: the shared
counter at address 0 is 2. -/
def World.batchReady : World :=
  { World.initial with longs := fun a => if a = 0 then 2 else 0 }

/-- The invariant of the runs of a batch: the counter is the number of items
that have incremented and not yet decremented it, the event has been set once
for every finished item whose decrement gave zero, and once every item has
decremented either a set of the event is still to come or it is the last
effect. The event was set `c0` times before the run. -/
def KdfInv (b : KdfBatch) (c0 : Nat) (s : World × List KdfPc) : Prop :=
  (s.1.longs b.outstandingWorkItemCount
      = (s.2.countP KdfPc.hasIncremented : Int) - s.2.countP KdfPc.hasDecremented) ∧
  s.1.trace.count (Effect.setEvent b.noOutstandingWorkItemEvent) = c0 + s.2.countP KdfPc.hasSet ∧
  (s.2.countP KdfPc.notDecremented = 0 →
    1 ≤ s.2.countP KdfPc.setPending ∨
    s.1.trace.getLast? = some (Effect.setEvent b.noOutstandingWorkItemEvent))

/-- The invariant of the runs of a batch whose items were all made ready before
any was completed: only the last decrement gives zero. -/
def KdfBatchInv (s : World × List KdfPc) : Prop :=
  s.2.countP KdfPc.notReady = 0 ∧
  s.2.countP KdfPc.setPending + s.2.countP KdfPc.hasSet
    = if s.2.countP KdfPc.notDecremented = 0 then 1 else 0

/-- Every item that has passed line 281 has its completion event set in the
trace. -/
def KdfCompletedInv (b : KdfBatch) (s : World × List KdfPc) : Prop :=
  ∀ i pc, s.2[i]? = some pc → pc.hasCompleted = true →
    Effect.setEvent (b.completionEvent i) ∈ s.1.trace

/-! ## The pool as a system of threads -/

/-- Where a worker thread is in `EncryptionThreadProc`.
`loopHead`: at line 212, holding nothing. `claimed`: lines 214-219 done (it
holds the dequeue mutex and has claimed `workItem`), at the test of line 221.
`taking`: that test has failed on a ready work item, before line 226. `taken`:
line 226 done. `working`: lines 228-231 done, before the work of the item.
`executed`: the cipher call of line 236 or 240 done. `freed`: lines 325-329
done. `decremented`: the `InterlockedDecrement` of line 331 done, with the
outcome of its comparison with zero. -/
inductive WorkerPc
  | loopHead
  | claimed (workItem : Nat)
  | taking (workItem : Nat)
  | taken (workItem : Nat)
  | working (workItem : Nat)
  | executed (workItem : Nat)
  | freed (workItem : Nat)
  | decremented (workItem : Nat) (zero : Bool)
  deriving DecidableEq

/-- How far a fragment of a bulk operation has come (an auxiliary variable; the
C code has none): not yet enqueued, ready in its slot, taken by a worker, run
through the cipher, past lines 325-329, past the decrement of line 331. -/
inductive FragPhase
  | pending
  | ready
  | taken
  | executed
  | released
  | decremented
  deriving DecidableEq

/-- A worker thread: its place in the code and, as an auxiliary variable, the
fragment `(producer, index)` it is working on. -/
structure Worker where
  pc : WorkerPc
  frag : Option (Nat × Nat)
  deriving DecidableEq

/-- Where a producer thread is.
`idle`: outside the functions of the pool. `simpleClaimed`: in
`EncryptionThreadPoolBeginKeyDerivation` or
`EncryptionThreadPoolBeginReadVolumeHeaderFinalization`, mutex acquired and slot
claimed (lines 543-547), at the test of line 549. `simpleFree`: that test has
failed on a free slot. `simpleFilled`: the fields are written, before line 571.
`bulkLocked`: in `EncryptionThreadPoolDoWork` on the queued path, lines 668-669
done, at the test of line 671. `bulkFirstFree`: that test has failed, before line
676. `bulkLoop`: at the test of line 678, with the fragments still to enqueue.
`bulkClaimed`: lines 680-682 done, at the test of line 684. `bulkFree`: that
test has failed, before line 689. `bulkFilled`: lines 689-701 done, before line
703. `bulkWaiting`: line 707 done, in the wait of line 709. `bulkWoken`: that
wait has returned, before line 710. -/
inductive ProducerPc
  | idle
  | simpleClaimed (type : EncryptionThreadPoolWorkType) (payload : Payload) (workItem : Nat)
  | simpleFree (type : EncryptionThreadPoolWorkType) (payload : Payload) (workItem : Nat)
  | simpleFilled (workItem : Nat)
  | bulkLocked (type : EncryptionThreadPoolWorkType) (cryptoInfo : Nat) (frags : List Fragment)
      (first : Nat)
  | bulkFirstFree (type : EncryptionThreadPoolWorkType) (cryptoInfo : Nat) (frags : List Fragment)
      (first : Nat)
  | bulkLoop (type : EncryptionThreadPoolWorkType) (cryptoInfo : Nat) (frags : List Fragment)
      (first : Nat)
  | bulkClaimed (type : EncryptionThreadPoolWorkType) (cryptoInfo : Nat) (f : Fragment)
      (frags : List Fragment) (first workItem : Nat)
  | bulkFree (type : EncryptionThreadPoolWorkType) (cryptoInfo : Nat) (f : Fragment)
      (frags : List Fragment) (first workItem : Nat)
  | bulkFilled (type : EncryptionThreadPoolWorkType) (cryptoInfo : Nat) (frags : List Fragment)
      (first workItem : Nat)
  | bulkWaiting (first : Nat)
  | bulkWoken (first : Nat)
  deriving DecidableEq

/-- A producer thread: its place in the code and, as auxiliary variables, the
phases of the fragments of its bulk operation, the number of slots that had
been claimed in the queue when the operation began (`leaderTicket`), and the
work type, `cryptoInfo` and fragments of that operation (`op`, `cryptoInfo`,
`plan`). -/
structure Producer where
  pc : ProducerPc
  phases : List FragPhase
  leaderTicket : Nat
  op : EncryptionThreadPoolWorkType
  cryptoInfo : Nat
  plan : List Fragment
  deriving DecidableEq

/-- The pool, the threads that use it, the owners of the two mutexes and, as
auxiliary variables, for every slot the fragment `(producer, index)` that was
last made ready in it (`tag`, `none` after a key derivation or finalization
item) and the number of slots claimed so far at the enqueue cursor
(`enqTicket`). -/
structure Sys where
  pool : Pool
  enqueueOwner : Option Nat
  dequeueOwner : Option Nat
  workers : Nat → Worker
  producers : Nat → Producer
  tag : Nat → Option (Nat × Nat)
  enqTicket : Nat

/-- What a thread does next. `worker x` and `producer c`: the thread takes the
next step of the function it is in. `beginSimple`: the idle producer `c` calls
`EncryptionThreadPoolBeginKeyDerivation` or
`EncryptionThreadPoolBeginReadVolumeHeaderFinalization` with the fields of
`payload`. `doWork`: the idle producer `c` calls `EncryptionThreadPoolDoWork`. -/
inductive Action
  | worker (x : Nat)
  | producer (c : Nat)
  | beginSimple (c : Nat) (type : EncryptionThreadPoolWorkType) (payload : Payload)
  | doWork (c : Nat) (type : EncryptionThreadPoolWorkType) (data startUnitNo unitCount cryptoInfo : Nat)
  deriving DecidableEq

/-- Assignment to `WorkItemQueue[i].OutstandingFragmentCount`. -/
def Pool.setCount (p : Pool) (i : Nat) (count : Int) : Pool :=
  p.setItem i { p.WorkItemQueue i with OutstandingFragmentCount := count }

/-- Change of the event `WorkItemQueue[i].ItemCompletedEvent`. -/
def Pool.setItemEvent (p : Pool) (i : Nat) (event : EventHandle) : Pool :=
  p.setItem i { p.WorkItemQueue i with ItemCompletedEvent := event }

/-- The writes of lines 554-566 or 596-603: the type and the union member of a
key derivation or finalization item. -/
def Pool.fillSimple (p : Pool) (i : Nat) (type : EncryptionThreadPoolWorkType) (payload : Payload) :
    Pool :=
  p.setItem i { p.WorkItemQueue i with WorkType := type, payload := payload }

/-- The writes of lines 689-695: type, first fragment and `Encryption` member
of a fragment. -/
def Pool.fillFragment (p : Pool) (i : Nat) (type : EncryptionThreadPoolWorkType)
    (first cryptoInfo : Nat) (f : Fragment) : Pool :=
  p.setItem i { p.WorkItemQueue i with
    WorkType := type
    FirstFragment := some first
    payload := .Encryption cryptoInfo f.Data f.StartUnitNo f.UnitCount }

/-- The statements `SetWorkItemState (workItem, WorkItemFree);
TC_SET_EVENT (WorkItemCompletedEvent);`. -/
def Pool.freeWorkItem (p : Pool) (i : Nat) : Pool :=
  { SetWorkItemState p i .WorkItemFree with
    WorkItemCompletedEvent := TC_SET_EVENT p.WorkItemCompletedEvent }

/-- The statements `workItem = &WorkItemQueue[DequeuePosition++];
if (DequeuePosition >= ThreadQueueSize) DequeuePosition = 0;`: the pool with
the cursor advanced. -/
def Pool.advanceDequeue (p : Pool) : Pool :=
  { p with DequeuePosition :=
      if p.DequeuePosition + 1 ≥ p.ThreadQueueSize then 0 else p.DequeuePosition + 1 }

/-- The auxiliary phase of the fragment `frag` is set to `phase`. -/
def Sys.setPhase (s : Sys) (frag : Option (Nat × Nat)) (phase : FragPhase) : Sys :=
  match frag with
  | none => s
  | some (c, j) =>
    { s with producers := Function.update s.producers c
               { pc := (s.producers c).pc
                 phases := (s.producers c).phases.set j phase
                 leaderTicket := (s.producers c).leaderTicket
                 op := (s.producers c).op
                 cryptoInfo := (s.producers c).cryptoInfo
                 plan := (s.producers c).plan } }

/-- The worker `x` is now at `pc`, working on `frag`. -/
def Sys.setWorker (s : Sys) (x : Nat) (pc : WorkerPc) (frag : Option (Nat × Nat)) : Sys :=
  { s with workers := Function.update s.workers x { pc := pc, frag := frag } }

/-- The producer `c` is now at `pc`. -/
def Sys.setProducer (s : Sys) (c : Nat) (pc : ProducerPc) : Sys :=
  { s with producers := Function.update s.producers c
             { pc := pc
               phases := (s.producers c).phases
               leaderTicket := (s.producers c).leaderTicket
               op := (s.producers c).op
               cryptoInfo := (s.producers c).cryptoInfo
               plan := (s.producers c).plan } }

/-- The pool of the system is now `p`. -/
def Sys.setPool (s : Sys) (p : Pool) : Sys :=
  { s with pool := p }

/-- The next step of worker `x` in `EncryptionThreadProc`, while `StopPending`
is clear; `none` when the worker has to wait (for the mutex or for its slot to
be ready) or dereferences a null `FirstFragment`. -/
def workerStep (s : Sys) (x : Nat) : Option Sys :=
  if s.pool.StopPending then none
  else
    match (s.workers x).pc with
    | .loopHead =>
      match s.dequeueOwner with
      | some _ => none
      | none =>
        some ({ s with dequeueOwner := some x, pool := s.pool.advanceDequeue }.setWorker x
          (.claimed s.pool.DequeuePosition) none)
    | .claimed workItem =>
      if GetWorkItemState s.pool workItem = .WorkItemReady then
        some (s.setWorker x (.taking workItem) none)
      else none
    | .taking workItem =>
      some (((s.setPool (SetWorkItemState s.pool workItem .WorkItemBusy)).setWorker x
        (.taken workItem) (s.tag workItem)).setPhase (s.tag workItem) .taken)
    | .taken workItem =>
      some ({ s with dequeueOwner := none }.setWorker x (.working workItem) (s.workers x).frag)
    | .working workItem =>
      match (s.pool.WorkItemQueue workItem).WorkType with
      | .DecryptDataUnitsWork =>
        some ((s.setWorker x (.executed workItem) (s.workers x).frag).setPhase (s.workers x).frag .executed)
      | .EncryptDataUnitsWork =>
        some ((s.setWorker x (.executed workItem) (s.workers x).frag).setPhase (s.workers x).frag .executed)
      | _ => some ((s.setPool (s.pool.freeWorkItem workItem)).setWorker x .loopHead none)
    | .executed workItem =>
      some (((s.setPool
        (if (s.pool.WorkItemQueue workItem).FirstFragment ≠ some workItem then
          s.pool.freeWorkItem workItem
        else s.pool)).setWorker x (.freed workItem) (s.workers x).frag).setPhase
          (s.workers x).frag .released)
    | .freed workItem =>
      match (s.pool.WorkItemQueue workItem).FirstFragment with
      | none => none
      | some firstFragment =>
        let count := (s.pool.WorkItemQueue firstFragment).OutstandingFragmentCount - 1
        some (((s.setPool (s.pool.setCount firstFragment count)).setWorker x
          (.decremented workItem (decide (count = 0)))
          (if count = 0 then (s.workers x).frag else none)).setPhase (s.workers x).frag .decremented)
    | .decremented workItem true =>
      match (s.pool.WorkItemQueue workItem).FirstFragment with
      | none => none
      | some firstFragment =>
        some ((s.setPool (s.pool.setItemEvent firstFragment
          (TC_SET_EVENT (s.pool.WorkItemQueue firstFragment).ItemCompletedEvent))).setWorker x
          .loopHead none)
    | .decremented _ false => some (s.setWorker x .loopHead none)

/-- The next step of producer `c` inside the function it has called; `none`
when the producer is idle or has to wait (for its slot to be free, or for the
event of its first fragment). -/
def producerStep (s : Sys) (c : Nat) : Option Sys :=
  match (s.producers c).pc with
  | .idle => none
  | .simpleClaimed type payload workItem =>
    if GetWorkItemState s.pool workItem = .WorkItemFree then
      some (s.setProducer c (.simpleFree type payload workItem))
    else none
  | .simpleFree type payload workItem =>
    some ((s.setPool (s.pool.fillSimple workItem type payload)).setProducer c (.simpleFilled workItem))
  | .simpleFilled workItem =>
    some ({ s with pool := publishWorkItem s.pool workItem
                   enqueueOwner := none
                   tag := Function.update s.tag workItem none }.setProducer c .idle)
  | .bulkLocked type cryptoInfo frags first =>
    if GetWorkItemState s.pool first = .WorkItemFree then
      some (s.setProducer c (.bulkFirstFree type cryptoInfo frags first))
    else none
  | .bulkFirstFree type cryptoInfo frags first =>
    some ((s.setPool (s.pool.setCount first (frags.length : Int))).setProducer c
      (.bulkLoop type cryptoInfo frags first))
  | .bulkLoop _ _ [] first =>
    some ({ s with enqueueOwner := none }.setProducer c (.bulkWaiting first))
  | .bulkLoop type cryptoInfo (f :: frags) first =>
    some ({ s with pool := (claimEnqueueSlot s.pool).2
                   enqTicket := s.enqTicket + 1 }.setProducer c
      (.bulkClaimed type cryptoInfo f frags first (claimEnqueueSlot s.pool).1))
  | .bulkClaimed type cryptoInfo f frags first workItem =>
    if GetWorkItemState s.pool workItem = .WorkItemFree then
      some (s.setProducer c (.bulkFree type cryptoInfo f frags first workItem))
    else none
  | .bulkFree type cryptoInfo f frags first workItem =>
    some ((s.setPool (s.pool.fillFragment workItem type first cryptoInfo f)).setProducer c
      (.bulkFilled type cryptoInfo frags first workItem))
  | .bulkFilled type cryptoInfo frags first workItem =>
    some (({ s with pool := publishWorkItem s.pool workItem
                    tag := Function.update s.tag workItem
                      (some (c, (s.producers c).phases.length - frags.length - 1)) }.setProducer c
      (.bulkLoop type cryptoInfo frags first)).setPhase
        (some (c, (s.producers c).phases.length - frags.length - 1)) .ready)
  | .bulkWaiting first =>
    if (s.pool.WorkItemQueue first).ItemCompletedEvent = .live true then
      some ((s.setPool (s.pool.setItemEvent first (.live false))).setProducer c (.bulkWoken first))
    else none
  | .bulkWoken first =>
    some ((s.setPool (s.pool.freeWorkItem first)).setProducer c .idle)

/-- One step of the system; `none` when the action cannot be taken in `s`. -/
def Sys.step (s : Sys) : Action → Option Sys
  | .worker x => workerStep s x
  | .producer c => producerStep s c
  | .beginSimple c type payload =>
    match (s.producers c).pc, s.enqueueOwner with
    | .idle, none =>
      if !s.pool.ThreadPoolRunning then none
      else if type = .DeriveKeyWork ∨ type = .ReadVolumeHeaderFinalizationWork then
        some ({ s with pool := (claimEnqueueSlot s.pool).2
                       enqueueOwner := some c
                       enqTicket := s.enqTicket + 1 }.setProducer c
          (.simpleClaimed type payload (claimEnqueueSlot s.pool).1))
      else none
    | _, _ => none
  | .doWork c type data startUnitNo unitCount cryptoInfo =>
    match (s.producers c).pc, s.enqueueOwner with
    | .idle, none =>
      if unitCount = 0 ∨ !s.pool.ThreadPoolRunning ∨ unitCount = 1 then none
      else if type = .EncryptDataUnitsWork ∨ type = .DecryptDataUnitsWork then
        some { s with
          enqueueOwner := some c
          producers := Function.update s.producers c
                         { pc := .bulkLocked type cryptoInfo
                             (queuedFragments unitCount s.pool.ThreadCount data startUnitNo)
                             s.pool.EnqueuePosition
                           phases := List.replicate
                             (queuedFragments unitCount s.pool.ThreadCount data startUnitNo).length
                             .pending
                           leaderTicket := s.enqTicket
                           op := type
                           cryptoInfo := cryptoInfo
                           plan := queuedFragments unitCount s.pool.ThreadCount data startUnitNo } }
      else none
    | _, _ => none

/-- The states the system can reach from `s` by steps of its threads. -/
inductive Sys.Reachable (s : Sys) : Sys → Prop
  | refl : Sys.Reachable s s
  | step (t u : Sys) (a : Action) : Sys.Reachable s t → t.step a = some u → Sys.Reachable s u

/-- A run of the system along a schedule; actions that cannot be taken are
skipped. -/
def Sys.run (s : Sys) : List Action → Sys
  | [] => s
  | a :: schedule =>
    match s.step a with
    | some t => t.run schedule
    | none => s.run schedule

/-- The system right after `EncryptionThreadPoolStart` has left the pool `p`:
no mutex is held, every worker is at the head of its loop and every producer is
outside the pool. -/
def Sys.start (p : Pool) : Sys :=
  { pool := p
    enqueueOwner := none
    dequeueOwner := none
    workers := fun _ => { pc := .loopHead, frag := none }
    producers := fun _ =>
      { pc := .idle, phases := [], leaderTicket := 0, op := .EncryptDataUnitsWork, cryptoInfo := 0,
        plan := [] }
    tag := fun _ => none
    enqTicket := p.EnqueuePosition }

/-! ## The invariant of the system -/

/-- The producer holds the enqueue mutex. -/
def ProducerPc.holds : ProducerPc → Bool
  | .idle => false
  | .bulkWaiting _ => false
  | .bulkWoken _ => false
  | _ => true

/-- The producer is in the fragment loop of `EncryptionThreadPoolDoWork`. -/
def ProducerPc.enqueuing : ProducerPc → Bool
  | .bulkLoop _ _ _ _ => true
  | .bulkClaimed _ _ _ _ _ _ => true
  | .bulkFree _ _ _ _ _ _ => true
  | .bulkFilled _ _ _ _ _ => true
  | _ => false

/-- The producer is waiting for the event of its first fragment. -/
def ProducerPc.waiting : ProducerPc → Bool
  | .bulkWaiting _ => true
  | _ => false

/-- The producer has fragments that workers may be working on. -/
def ProducerPc.active (pc : ProducerPc) : Bool := pc.enqueuing || pc.waiting

/-- The producer is in `EncryptionThreadPoolDoWork` past line 676. -/
def ProducerPc.counted : ProducerPc → Bool
  | .bulkWoken _ => true
  | pc => pc.active

/-- The slot the producer has claimed at the cursor and not yet made ready. -/
def ProducerPc.claimedItem : ProducerPc → Option Nat
  | .simpleClaimed _ _ workItem => some workItem
  | .simpleFree _ _ workItem => some workItem
  | .simpleFilled workItem => some workItem
  | .bulkClaimed _ _ _ _ _ workItem => some workItem
  | .bulkFree _ _ _ _ _ workItem => some workItem
  | .bulkFilled _ _ _ _ workItem => some workItem
  | _ => none

/-- The slot the producer has seen free and not yet made ready. -/
def ProducerPc.sawFree : ProducerPc → Option Nat
  | .simpleFree _ _ workItem => some workItem
  | .simpleFilled workItem => some workItem
  | .bulkFirstFree _ _ _ first => some first
  | .bulkFree _ _ _ _ _ workItem => some workItem
  | .bulkFilled _ _ _ _ workItem => some workItem
  | _ => none

/-- The slot the producer has written the fields of a fragment to and not yet
made ready. -/
def ProducerPc.filledItem : ProducerPc → Option (Nat × EncryptionThreadPoolWorkType)
  | .bulkFilled type _ _ _ workItem => some (workItem, type)
  | _ => none

/-- The slot the producer has written the fields of a key derivation or
finalization item to and not yet made ready. -/
def ProducerPc.filledSimple : ProducerPc → Option Nat
  | .simpleFilled workItem => some workItem
  | _ => none

/-- The type of the key derivation or finalization item the producer is about
to write. -/
def ProducerPc.simpleType : ProducerPc → Option EncryptionThreadPoolWorkType
  | .simpleClaimed type _ _ => some type
  | .simpleFree type _ _ => some type
  | _ => none

/-- The type of the fragments of the producer's bulk operation. -/
def ProducerPc.bulkType : ProducerPc → Option EncryptionThreadPoolWorkType
  | .bulkLocked type _ _ _ => some type
  | .bulkFirstFree type _ _ _ => some type
  | .bulkLoop type _ _ _ => some type
  | .bulkClaimed type _ _ _ _ _ => some type
  | .bulkFree type _ _ _ _ _ => some type
  | .bulkFilled type _ _ _ _ => some type
  | _ => none

/-- The first fragment of the producer's bulk operation. -/
def ProducerPc.first : ProducerPc → Option Nat
  | .bulkLocked _ _ _ first => some first
  | .bulkFirstFree _ _ _ first => some first
  | .bulkLoop _ _ _ first => some first
  | .bulkClaimed _ _ _ _ first _ => some first
  | .bulkFree _ _ _ _ first _ => some first
  | .bulkFilled _ _ _ first _ => some first
  | .bulkWaiting first => some first
  | .bulkWoken first => some first
  | _ => none

/-- The number of fragments of the producer's bulk operation that are not yet
ready. -/
def ProducerPc.pendingCount : ProducerPc → Option Nat
  | .bulkLocked _ _ frags _ => some frags.length
  | .bulkFirstFree _ _ frags _ => some frags.length
  | .bulkLoop _ _ frags _ => some frags.length
  | .bulkClaimed _ _ _ frags _ _ => some (frags.length + 1)
  | .bulkFree _ _ _ frags _ _ => some (frags.length + 1)
  | .bulkFilled _ _ frags _ _ => some (frags.length + 1)
  | .bulkWaiting _ => some 0
  | .bulkWoken _ => some 0
  | _ => none

/-- The work type, `cryptoInfo` and fragments the producer has still to write
into slots. -/
def ProducerPc.rest : ProducerPc → Option (EncryptionThreadPoolWorkType × Nat × List Fragment)
  | .bulkLocked type cryptoInfo frags _ => some (type, cryptoInfo, frags)
  | .bulkFirstFree type cryptoInfo frags _ => some (type, cryptoInfo, frags)
  | .bulkLoop type cryptoInfo frags _ => some (type, cryptoInfo, frags)
  | .bulkClaimed type cryptoInfo f frags _ _ => some (type, cryptoInfo, f :: frags)
  | .bulkFree type cryptoInfo f frags _ _ => some (type, cryptoInfo, f :: frags)
  | .bulkFilled type cryptoInfo frags _ _ => some (type, cryptoInfo, frags)
  | _ => none

/-- The worker holds the dequeue mutex. -/
def WorkerPc.holds : WorkerPc → Bool
  | .claimed _ => true
  | .taking _ => true
  | .taken _ => true
  | _ => false

/-- The slot the worker has set busy and not yet released. -/
def WorkerPc.owned : WorkerPc → Option Nat
  | .taken workItem => some workItem
  | .working workItem => some workItem
  | .executed workItem => some workItem
  | _ => none

/-- The slot of the fragment the worker is working on and the phase of that
fragment. -/
def WorkerPc.phase : WorkerPc → Option (Nat × FragPhase)
  | .taken workItem => some (workItem, .taken)
  | .working workItem => some (workItem, .taken)
  | .executed workItem => some (workItem, .executed)
  | .freed workItem => some (workItem, .released)
  | .decremented workItem true => some (workItem, .decremented)
  | _ => none

/-- The worker is past the cipher call of its fragment. -/
def WorkerPc.pastWork : WorkerPc → Bool
  | .executed _ => true
  | .freed _ => true
  | .decremented _ true => true
  | _ => false

/-- The fragment is past the decrement of line 331. -/
def FragPhase.isDecremented : FragPhase → Bool
  | .decremented => true
  | _ => false

/-- The fragment has been run through the cipher. -/
def FragPhase.isExecuted : FragPhase → Bool
  | .executed => true
  | .released => true
  | .decremented => true
  | _ => false

/-- The work type is one of the two crypto types. -/
def EncryptionThreadPoolWorkType.isCrypto : EncryptionThreadPoolWorkType → Bool
  | .EncryptDataUnitsWork => true
  | .DecryptDataUnitsWork => true
  | _ => false

/-- The slot `i` holds the fragment `j` of the bulk operation of producer `c`. -/
def Sys.FragOK (s : Sys) (c j i : Nat) : Prop :=
  (s.producers c).pc.active = true ∧
  j < (s.producers c).phases.length ∧
  i = ((s.producers c).leaderTicket + j) % s.pool.ThreadQueueSize ∧
  (s.pool.WorkItemQueue i).FirstFragment
    = some ((s.producers c).leaderTicket % s.pool.ThreadQueueSize) ∧
  (s.pool.WorkItemQueue i).WorkType.isCrypto = true

/-- The slot `i` carries the work type and the `Encryption` member of fragment
`j` of the bulk operation of producer `c`. -/
def Sys.SlotData (s : Sys) (c j i : Nat) : Prop :=
  (s.pool.WorkItemQueue i).WorkType = (s.producers c).op ∧
  ∃ f, (s.producers c).plan[j]? = some f ∧
    (s.pool.WorkItemQueue i).payload
      = .Encryption (s.producers c).cryptoInfo f.Data f.StartUnitNo f.UnitCount

/-- The invariant of the system. -/
structure Sys.Inv (s : Sys) : Prop where
  queueSize : 0 < s.pool.ThreadQueueSize
  threadCount : 1 ≤ s.pool.ThreadCount ∧ s.pool.ThreadCount < s.pool.ThreadQueueSize
  cursor : s.pool.EnqueuePosition = s.enqTicket % s.pool.ThreadQueueSize
  enqMutex : ∀ c, (s.producers c).pc.holds = true ↔ s.enqueueOwner = some c
  deqMutex : ∀ x, (s.workers x).pc.holds = true ↔ s.dequeueOwner = some x
  claimed : ∀ c m, (s.producers c).pc.claimedItem = some m →
    0 < s.enqTicket ∧ m = (s.enqTicket - 1) % s.pool.ThreadQueueSize
  sawFree : ∀ c m, (s.producers c).pc.sawFree = some m →
    (s.pool.WorkItemQueue m).State = .WorkItemFree
  filled : ∀ c m type, (s.producers c).pc.filledItem = some (m, type) →
    (s.pool.WorkItemQueue m).FirstFragment
      = some ((s.producers c).leaderTicket % s.pool.ThreadQueueSize) ∧
    (s.pool.WorkItemQueue m).WorkType = type
  filledSimple : ∀ c m, (s.producers c).pc.filledSimple = some m →
    (s.pool.WorkItemQueue m).WorkType.isCrypto = false
  simpleType : ∀ c type, (s.producers c).pc.simpleType = some type → type.isCrypto = false
  bulkType : ∀ c type, (s.producers c).pc.bulkType = some type → type.isCrypto = true
  taking : ∀ x i, (s.workers x).pc = .taking i → (s.pool.WorkItemQueue i).State = .WorkItemReady
  owned : ∀ x i, (s.workers x).pc.owned = some i →
    (s.pool.WorkItemQueue i).State = .WorkItemBusy ∧ s.tag i = (s.workers x).frag
  exclusive : ∀ x y i, x ≠ y → (s.workers x).pc.owned = some i → (s.workers y).pc.owned ≠ some i
  noFrag : ∀ x, (s.workers x).pc.phase = none → (s.workers x).frag = none
  pastWork : ∀ x, (s.workers x).pc.pastWork = true → (s.workers x).frag ≠ none
  ownedSimple : ∀ x i, (s.workers x).pc.owned = some i → (s.workers x).frag = none →
    (s.pool.WorkItemQueue i).WorkType.isCrypto = false
  ready : ∀ i, (s.pool.WorkItemQueue i).State = .WorkItemReady →
    (∀ c j, s.tag i = some (c, j) → s.FragOK c j i ∧ (s.producers c).phases[j]? = some .ready) ∧
    (s.tag i = none → (s.pool.WorkItemQueue i).WorkType.isCrypto = false)
  frag : ∀ x c j i ph, (s.workers x).frag = some (c, j) → (s.workers x).pc.phase = some (i, ph) →
    s.FragOK c j i ∧ (s.producers c).phases[j]? = some ph
  zero : ∀ x c j i, (s.workers x).frag = some (c, j) → (s.workers x).pc = .decremented i true →
    (∀ ph ∈ (s.producers c).phases, ph = .decremented) ∧
    (s.pool.WorkItemQueue ((s.producers c).leaderTicket % s.pool.ThreadQueueSize)).ItemCompletedEvent
      ≠ .live true ∧
    ∀ y k, y ≠ x → (s.workers y).frag ≠ some (c, k)
  fragInj : ∀ x y g, x ≠ y → (s.workers x).frag = some g → (s.workers y).frag ≠ some g
  readyPhase : ∀ c j, (s.producers c).pc.active = true → (s.producers c).phases[j]? = some .ready →
    (s.pool.WorkItemQueue (((s.producers c).leaderTicket + j) % s.pool.ThreadQueueSize)).State
      = .WorkItemReady ∧
    s.tag (((s.producers c).leaderTicket + j) % s.pool.ThreadQueueSize) = some (c, j)
  leader : ∀ c ph, (s.producers c).pc.counted = true → (s.producers c).phases[0]? = some ph →
    ph ≠ .pending → ph ≠ .ready →
    (s.pool.WorkItemQueue ((s.producers c).leaderTicket % s.pool.ThreadQueueSize)).State
      = .WorkItemBusy ∧
    s.tag ((s.producers c).leaderTicket % s.pool.ThreadQueueSize) = some (c, 0)
  leaderPending : ∀ c, (s.producers c).pc.enqueuing = true →
    (s.producers c).phases[0]? = some .pending →
    (s.pool.WorkItemQueue ((s.producers c).leaderTicket % s.pool.ThreadQueueSize)).State
      = .WorkItemFree
  count : ∀ c, (s.producers c).pc.counted = true →
    (s.pool.WorkItemQueue ((s.producers c).leaderTicket % s.pool.ThreadQueueSize)).OutstandingFragmentCount
      = ((s.producers c).phases.length : Int) - (s.producers c).phases.countP FragPhase.isDecremented
  event : ∀ c, (s.producers c).pc.counted = true →
    (s.pool.WorkItemQueue ((s.producers c).leaderTicket % s.pool.ThreadQueueSize)).ItemCompletedEvent
      = .live true →
    ∀ ph ∈ (s.producers c).phases, ph = .decremented
  eventLeader : ∀ i, (s.pool.WorkItemQueue i).ItemCompletedEvent = .live true →
    ∃ c, (s.producers c).pc.active = true ∧
      i = (s.producers c).leaderTicket % s.pool.ThreadQueueSize
  woken : ∀ c first, (s.producers c).pc = .bulkWoken first →
    ∀ ph ∈ (s.producers c).phases, ph = .decremented
  first : ∀ c first, (s.producers c).pc.first = some first →
    first = (s.producers c).leaderTicket % s.pool.ThreadQueueSize
  shape : ∀ c n, (s.producers c).pc.pendingCount = some n →
    n ≤ (s.producers c).phases.length ∧ 1 ≤ (s.producers c).phases.length ∧
    (s.producers c).phases.length < s.pool.ThreadQueueSize ∧
    ∀ j ph, (s.producers c).phases[j]? = some ph →
      (ph = .pending ↔ (s.producers c).phases.length - n ≤ j)
  fresh : ∀ c n, (s.producers c).pc.counted = false → (s.producers c).pc.pendingCount = some n →
    n = (s.producers c).phases.length
  ticket : ∀ c n, (s.producers c).pc.holds = true → (s.producers c).pc.pendingCount = some n →
    s.enqTicket = (s.producers c).leaderTicket + ((s.producers c).phases.length - n)
      + (if (s.producers c).pc.claimedItem = none then 0 else 1)
  planLength : ∀ c n, (s.producers c).pc.pendingCount = some n →
    (s.producers c).plan.length = (s.producers c).phases.length
  planRest : ∀ c type cryptoInfo rest, (s.producers c).pc.rest = some (type, cryptoInfo, rest) →
    type = (s.producers c).op ∧ cryptoInfo = (s.producers c).cryptoInfo ∧
    rest = (s.producers c).plan.drop ((s.producers c).plan.length - rest.length)
  filledData : ∀ c m type n, (s.producers c).pc.filledItem = some (m, type) →
    (s.producers c).pc.pendingCount = some n →
    s.SlotData c ((s.producers c).phases.length - n) m
  slotReady : ∀ i c j, (s.pool.WorkItemQueue i).State = .WorkItemReady → s.tag i = some (c, j) →
    s.SlotData c j i
  slotOwned : ∀ x i c j, (s.workers x).pc.owned = some i → (s.workers x).frag = some (c, j) →
    s.SlotData c j i
  ring : ∀ c, (s.producers c).pc.waiting = true →
    (s.producers c).leaderTicket + (s.producers c).phases.length ≤ s.enqTicket ∧
    s.enqTicket ≤ (s.producers c).leaderTicket + s.pool.ThreadQueueSize + 1 ∧
    (∀ p m, (s.producers p).pc.claimedItem = some m →
      (s.producers c).leaderTicket + (s.producers c).phases.length + 1 ≤ s.enqTicket) ∧
    (∀ p m, (s.producers p).pc.sawFree = some m → (s.producers p).pc.claimedItem = some m →
      s.enqTicket ≤ (s.producers c).leaderTicket + s.pool.ThreadQueueSize) ∧
    (s.enqTicket = (s.producers c).leaderTicket + s.pool.ThreadQueueSize + 1 →
      ∃ p m, (s.producers p).pc.claimedItem = some m)

/-- The system after producer `c`, holding the enqueue mutex, has executed
`workItem = &WorkItemQueue[EnqueuePosition++]` and the wrap-around test. -/
def Sys.claim (s : Sys) (c : Nat) : Sys :=
  { s with pool := (claimEnqueueSlot s.pool).2, enqueueOwner := some c,
           enqTicket := s.enqTicket + 1 }

/-- The system after producer `c` has made the key derivation or finalization
item in slot `m` ready and released the enqueue mutex. -/
def Sys.publishSimple (s : Sys) (m : Nat) : Sys :=
  { s with pool := publishWorkItem s.pool m, enqueueOwner := none,
           tag := Function.update s.tag m none }

/-- The system after a producer has made the fragment `g` in slot `m` ready. -/
def Sys.publishFragment (s : Sys) (m : Nat) (g : Nat × Nat) : Sys :=
  { s with pool := publishWorkItem s.pool m, tag := Function.update s.tag m (some g) }

/-- The system after producer `c` has entered the queued path of
`EncryptionThreadPoolDoWork` with the fragments `frags` and acquired the
enqueue mutex (lines 668-669). -/
def Sys.beginBulk (s : Sys) (c : Nat) (type : EncryptionThreadPoolWorkType) (cryptoInfo : Nat)
    (frags : List Fragment) : Sys :=
  { s with
    enqueueOwner := some c
    producers := Function.update s.producers c
                   { pc := .bulkLocked type cryptoInfo frags s.pool.EnqueuePosition
                     phases := List.replicate frags.length .pending
                     leaderTicket := s.enqTicket
                     op := type
                     cryptoInfo := cryptoInfo
                     plan := frags } }

/-- The change of a slot state from `a` to `b` is none, or one of
`Free -> Ready`, `Ready -> Busy`, `Busy -> Free`. -/
def SlotTransition (a b : WorkItemState) : Prop :=
  a = b ∨ (a = .WorkItemFree ∧ b = .WorkItemReady) ∨ (a = .WorkItemReady ∧ b = .WorkItemBusy) ∨
    (a = .WorkItemBusy ∧ b = .WorkItemFree)

/-- Every fragment of the bulk operation of producer `c` has been run through
the cipher by a worker. -/
def Sys.AllExecuted (s : Sys) (c : Nat) : Prop :=
  ∀ ph ∈ (s.producers c).phases, ph.isExecuted = true

/-- A schedule on which producer 0 encrypts two data units with two workers:
the call, the eleven steps of the enqueue loop, worker 0 on the first fragment,
worker 1 on the second one, and the caller's wake-up and return. -/
def Schedule.sample : List Action :=
  [Action.doWork 0 .EncryptDataUnitsWork 4096 7 2 1] ++ List.replicate 11 (Action.producer 0)
    ++ List.replicate 8 (Action.worker 0) ++ List.replicate 8 (Action.worker 1)
    ++ [Action.producer 0, Action.producer 0]

/-! ## Processor groups -/

/-- A host with 4 CPUs in two processor groups, 1 CPU in group 0 and 3 CPUs in
group 1, with the processor group functions, on which every event, mutex and
thread can be created. -/
def Host.twoGroups : Host :=
  { Host.plain 4 with
    hasGetActiveProcessorGroupCount := true
    hasGetActiveProcessorCount := true
    GetActiveProcessorGroupCount := 2
    GetActiveProcessorCount := fun j => if j = 0 then 1 else if j = 1 then 3 else 0 }

/-- The running CPU total of group `j`: the sum of the CPU counts of the groups
`0..j`. -/
def cumulativeCpuCount (h : Host) (j : Nat) : Nat :=
  ((List.range (j + 1)).map h.GetActiveProcessorCount).sum

/-- The first of the groups `0 .. groupCount - 1` whose running CPU total
reaches or exceeds `n`. -/
def firstGroupReaching (h : Host) (groupCount n : Nat) : Option Nat :=
  (List.range groupCount).find? fun j => decide (n ≤ cumulativeCpuCount h j)

/-- The group of worker `i` as the specification words it: the first group
whose running CPU total reaches or exceeds `i + 1`. -/
def specWorkerGroup (h : Host) (groupCount i : Nat) : Option Nat :=
  firstGroupReaching h groupCount (i + 1)

/-! ## Lifecycle calls and the capacity of the queue -/

/-- A call of one of the two lifecycle functions: `EncryptionThreadPoolStart`
with what the host answers during the call and its argument, or
`EncryptionThreadPoolStop`. -/
inductive LifecycleCall
  | start (h : Host) (encryptionFreeCpuCount : Nat)
  | stop

/-- The pool after the call. -/
def LifecycleCall.apply : LifecycleCall → Pool → Pool
  | .start h encryptionFreeCpuCount, p => (EncryptionThreadPoolStart h encryptionFreeCpuCount p).2
  | .stop, p => EncryptionThreadPoolStop p

/-- The pool after the calls `calls`, in this order, from the static variables
as the program is loaded. -/
def Pool.lifecycle (calls : List LifecycleCall) : Pool :=
  calls.foldl (fun p c => c.apply p) Pool.initial

/-- The slots claimed by `n` successive executions of
`workItem = &WorkItemQueue[EnqueuePosition++]; if (EnqueuePosition >=
ThreadQueueSize) EnqueuePosition = 0;`, the first statements of every
iteration of the fragment loop (lines 680-682). -/
def claimedSlots : Nat → Pool → List Nat
  | 0, _ => []
  | n + 1, p => (claimEnqueueSlot p).1 :: claimedSlots n (claimEnqueueSlot p).2

/-- The capacity of the pool: the queue has twice as many slots as the pool
may have threads, and the pool has no more threads than it may have. -/
def Pool.Capacity (p : Pool) : Prop :=
  p.ThreadQueueSize = 2 * p.ThreadPoolCount ∧ p.ThreadCount ≤ p.ThreadPoolCount ∧
    0 < p.ThreadPoolCount ∧ p.ThreadPoolCount ≤ TC_ENC_THREAD_POOL_MAX_THREAD_COUNT

/-! # Theorems -/

/-! ### Lemmas on the fragment loop -/

theorem fragmentLoop_length (n upf rem d s : Nat) :
    (fragmentLoop n upf rem d s).length = n := by
  induction n generalizing upf rem d s with
  | zero => rfl
  | succ n ih =>
    simp only [fragmentLoop, List.length_cons]
    split_ifs <;> simp [ih]

/-- With no remainder left every fragment carries `upf` units. -/
theorem fragmentLoop_count_zero (n upf d s : Nat) :
    ∀ f ∈ fragmentLoop n upf 0 d s, f.UnitCount = upf := by
  induction n generalizing d s with
  | zero => intro f hf; simp [fragmentLoop] at hf
  | succ n ih =>
    intro f hf
    simp only [fragmentLoop, List.mem_cons, lt_self_iff_false, if_false] at hf
    rcases hf with rfl | hf
    · rfl
    · exact ih _ _ f hf

/-- Every fragment carries `upf` or `upf - 1` units. -/
theorem fragmentLoop_count (n upf rem d s : Nat) :
    ∀ f ∈ fragmentLoop n upf rem d s, f.UnitCount = upf ∨ (0 < rem ∧ f.UnitCount = upf - 1) := by
  induction n generalizing upf rem d s with
  | zero => intro f hf; simp [fragmentLoop] at hf
  | succ n ih =>
    intro f hf
    simp only [fragmentLoop, List.mem_cons] at hf
    rcases hf with rfl | hf
    · exact Or.inl rfl
    · split_ifs at hf with h1 h2
      · have := fragmentLoop_count_zero n (upf - 1) _ _ f (by rw [h2] at hf; exact hf)
        exact Or.inr ⟨h1, this⟩
      · rcases ih _ _ _ _ f hf with h | ⟨_, h⟩
        · exact Or.inl h
        · exact Or.inr ⟨h1, h⟩
      · rcases ih _ _ _ _ f hf with h | ⟨h0, _⟩
        · exact Or.inl h
        · exact absurd h0 h1

/-- Sum of the unit counts when the remainder is exhausted. -/
theorem fragmentLoop_sum_zero (n upf d s : Nat) :
    ((fragmentLoop n upf 0 d s).map Fragment.UnitCount).sum = n * upf := by
  induction n generalizing d s with
  | zero => simp [fragmentLoop]
  | succ n ih =>
    simp only [fragmentLoop, lt_self_iff_false, if_false, List.map_cons, List.sum_cons, ih]
    ring

/-- Sum of the unit counts: `rem` fragments of `upf` units, the others of
`upf - 1`. -/
theorem fragmentLoop_sum (n upf rem d s : Nat) (hrem : 0 < rem) (hle : rem ≤ n) :
    ((fragmentLoop n upf rem d s).map Fragment.UnitCount).sum
      = rem * upf + (n - rem) * (upf - 1) := by
  induction n generalizing rem d s with
  | zero => omega
  | succ n ih =>
    simp only [fragmentLoop, List.map_cons, List.sum_cons, if_pos hrem]
    by_cases h2 : rem - 1 = 0
    · rw [if_pos h2, h2, fragmentLoop_sum_zero]
      have h1 : rem = 1 := by omega
      subst h1
      simp
    · rw [if_neg h2, ih (rem - 1) _ _ (by omega) (by omega)]
      have e1 : n + 1 - rem = n - (rem - 1) := by omega
      rw [e1]
      obtain ⟨r, rfl⟩ : ∃ r, rem = r + 1 := ⟨rem - 1, by omega⟩
      simp only [Nat.add_sub_cancel]
      ring

/-- One iteration of the fragment loop, without the nested conditionals. -/
theorem fragmentLoop_succ (n upf rem d s : Nat) :
    fragmentLoop (n + 1) upf rem d s
      = { Data := d, StartUnitNo := s, UnitCount := upf } ::
          fragmentLoop n (if rem = 1 then upf - 1 else upf) (rem - 1)
            (d + upf * ENCRYPTION_DATA_UNIT_SIZE) ((s + upf) % UINT64_MOD) := by
  simp only [fragmentLoop]
  by_cases h0 : rem > 0
  · by_cases h1 : rem - 1 = 0
    · have : rem = 1 := by omega
      simp [this]
    · have : rem ≠ 1 := by omega
      simp [h0, h1, this]
  · have h : rem = 0 := by omega
    subst h
    simp

/-- Each fragment starts, in `uint64` arithmetic, where the one before it
ends. -/
theorem fragmentLoop_chain (n upf rem d s : Nat) :
    List.Chain' (fun f g : Fragment => g.StartUnitNo = (f.StartUnitNo + f.UnitCount) % UINT64_MOD)
      (fragmentLoop n upf rem d s) := by
  induction n generalizing upf rem d s with
  | zero => simp [fragmentLoop]
  | succ n ih =>
    rw [fragmentLoop_succ, List.chain'_cons']
    refine ⟨?_, ih _ _ _ _⟩
    intro g hg
    cases n with
    | zero => simp [fragmentLoop] at hg
    | succ n =>
      rw [fragmentLoop_succ] at hg
      simp only [List.head?_cons, Option.mem_def, Option.some.injEq] at hg
      subst hg
      rfl

/-- Each fragment starts exactly where the one before it ends, as long as the
unit numbers do not pass `2 ^ 64`. -/
theorem fragmentLoop_chain_exact (n upf rem d s : Nat)
    (hpos : ∀ f ∈ fragmentLoop n upf rem d s, 1 ≤ f.UnitCount)
    (hfit : s + ((fragmentLoop n upf rem d s).map Fragment.UnitCount).sum ≤ UINT64_MOD) :
    List.Chain' (fun f g : Fragment => g.StartUnitNo = f.StartUnitNo + f.UnitCount)
      (fragmentLoop n upf rem d s) := by
  induction n generalizing upf rem d s with
  | zero => simp [fragmentLoop]
  | succ n ih =>
    rw [fragmentLoop_succ] at hpos hfit
    rw [fragmentLoop_succ, List.chain'_cons']
    simp only [List.map_cons, List.sum_cons] at hfit
    cases n with
    | zero => simp [fragmentLoop]
    | succ n =>
      obtain ⟨f0, l0, hl⟩ : ∃ f0 l0, fragmentLoop (n + 1) (if rem = 1 then upf - 1 else upf) (rem - 1)
          (d + upf * ENCRYPTION_DATA_UNIT_SIZE) ((s + upf) % UINT64_MOD) = f0 :: l0 := by
        rw [fragmentLoop_succ]
        exact ⟨_, _, rfl⟩
      have hsum1 : 1 ≤ ((fragmentLoop (n + 1) (if rem = 1 then upf - 1 else upf) (rem - 1)
          (d + upf * ENCRYPTION_DATA_UNIT_SIZE) ((s + upf) % UINT64_MOD)).map Fragment.UnitCount).sum := by
        have h0 := hpos f0 (by rw [hl]; simp)
        rw [hl]
        simp only [List.map_cons, List.sum_cons]
        omega
      have hlt : s + upf < UINT64_MOD := by omega
      have hmod : (s + upf) % UINT64_MOD = s + upf := Nat.mod_eq_of_lt hlt
      constructor
      · intro g hg
        rw [fragmentLoop_succ] at hg
        simp only [List.head?_cons, Option.mem_def, Option.some.injEq] at hg
        subst hg
        exact hmod
      · apply ih
        · intro f hf
          exact hpos f (List.mem_cons_of_mem _ hf)
        · omega

/-- The first fragment is the one the loop is entered with. -/
theorem fragmentLoop_head (n upf rem d s : Nat) (hn : 0 < n) :
    (fragmentLoop n upf rem d s).head? = some { Data := d, StartUnitNo := s, UnitCount := upf } := by
  obtain ⟨m, rfl⟩ : ∃ m, n = m + 1 := ⟨n - 1, by omega⟩
  rw [fragmentLoop_succ]
  rfl

/-- Sum of the unit counts of the fragments of the queued path. -/
theorem queuedFragments_sum (unitCount ThreadCount data startUnitNo : Nat) (ht : 1 ≤ ThreadCount) :
    ((queuedFragments unitCount ThreadCount data startUnitNo).map Fragment.UnitCount).sum
      = unitCount := by
  unfold queuedFragments fragmentPlan
  by_cases hle : unitCount ≤ ThreadCount
  · simp only [if_pos hle]
    rw [fragmentLoop_sum_zero]
    simp
  · simp only [if_neg hle]
    have hdm := Nat.div_add_mod unitCount ThreadCount
    have hlt := Nat.mod_lt unitCount (show ThreadCount > 0 by omega)
    by_cases hr : unitCount % ThreadCount > 0
    · simp only [if_pos hr]
      rw [fragmentLoop_sum _ _ _ _ _ hr (le_of_lt hlt)]
      simp only [Nat.add_sub_cancel]
      obtain ⟨k, hk⟩ : ∃ k, ThreadCount = unitCount % ThreadCount + k := ⟨ThreadCount - unitCount % ThreadCount, by omega⟩
      have e : ThreadCount - unitCount % ThreadCount = k := by omega
      rw [e]
      nth_rewrite 1 [hk] at hdm
      nlinarith [hdm]
    · have h0 : unitCount % ThreadCount = 0 := by omega
      simp only [if_neg hr]
      rw [h0, fragmentLoop_sum_zero]
      rw [h0] at hdm
      omega

/-- The fragments of the queued path carry `q` or `q + 1` units for one `q`,
and at least one unit each. -/
theorem queuedFragments_count (unitCount ThreadCount data startUnitNo : Nat)
    (ht : 1 ≤ ThreadCount) :
    ∃ q, 1 ≤ q ∧ ∀ f ∈ queuedFragments unitCount ThreadCount data startUnitNo,
      f.UnitCount = q ∨ f.UnitCount = q + 1 := by
  unfold queuedFragments fragmentPlan
  by_cases hle : unitCount ≤ ThreadCount
  · refine ⟨1, le_refl 1, ?_⟩
    intro f hf
    simp only [if_pos hle] at hf
    exact Or.inl (fragmentLoop_count_zero _ _ _ _ f hf)
  · have hq : 1 ≤ unitCount / ThreadCount := by
      rw [Nat.le_div_iff_mul_le (by omega)]
      omega
    refine ⟨unitCount / ThreadCount, hq, ?_⟩
    intro f hf
    simp only [if_neg hle] at hf
    by_cases hr : unitCount % ThreadCount > 0
    · simp only [if_pos hr] at hf
      rcases fragmentLoop_count _ _ _ _ _ f hf with h | ⟨_, h⟩
      · exact Or.inr h
      · exact Or.inl (by simpa using h)
    · simp only [if_neg hr] at hf
      rcases fragmentLoop_count _ _ _ _ _ f hf with h | ⟨h0, _⟩
      · exact Or.inl h
      · exact absurd h0 hr

/-- Number of fragments of the queued path. -/
theorem queuedFragments_length (unitCount ThreadCount data startUnitNo : Nat) :
    (queuedFragments unitCount ThreadCount data startUnitNo).length = min unitCount ThreadCount := by
  unfold queuedFragments fragmentPlan
  rw [fragmentLoop_length]
  split_ifs with h
  · simp [h]
  · simp only [not_le] at h
    simp [le_of_lt h]

/-! ## C1 : fragmentation coverage -/

/-- C1. Fragmentation coverage on the queued path of `EncryptionThreadPoolDoWork`:
for `unitCount ≥ 1` and `ThreadCount ≥ 2`, the unit counts of the fragments
written to the work items sum to `unitCount`, any two of them differ by at most
one, the first fragment starts at `startUnitNo`, and every later fragment starts
at the start unit of the one before it plus that fragment's unit count. The
start unit is a `uint64`, so that sum is taken modulo `2 ^ 64`; it is the exact
sum whenever `startUnitNo + unitCount ≤ 2 ^ 64`. -/
theorem fragmentation_coverage (unitCount ThreadCount data startUnitNo : Nat)
    (hu : 1 ≤ unitCount) (ht : 2 ≤ ThreadCount) :
    ((queuedFragments unitCount ThreadCount data startUnitNo).map Fragment.UnitCount).sum = unitCount ∧
    (∀ f ∈ queuedFragments unitCount ThreadCount data startUnitNo,
      ∀ g ∈ queuedFragments unitCount ThreadCount data startUnitNo, f.UnitCount ≤ g.UnitCount + 1) ∧
    ((queuedFragments unitCount ThreadCount data startUnitNo).head?.map Fragment.StartUnitNo
      = some startUnitNo) ∧
    List.Chain' (fun f g : Fragment => g.StartUnitNo = (f.StartUnitNo + f.UnitCount) % UINT64_MOD)
      (queuedFragments unitCount ThreadCount data startUnitNo) ∧
    (startUnitNo + unitCount ≤ UINT64_MOD →
      List.Chain' (fun f g : Fragment => g.StartUnitNo = f.StartUnitNo + f.UnitCount)
        (queuedFragments unitCount ThreadCount data startUnitNo)) := by
  have ht1 : 1 ≤ ThreadCount := by omega
  have hsum := queuedFragments_sum unitCount ThreadCount data startUnitNo ht1
  obtain ⟨q, hq, hcount⟩ := queuedFragments_count unitCount ThreadCount data startUnitNo ht1
  refine ⟨hsum, ?_, ?_, ?_, ?_⟩
  · intro f hf g hg
    rcases hcount f hf with h1 | h1 <;> rcases hcount g hg with h2 | h2 <;> omega
  · have hlen := queuedFragments_length unitCount ThreadCount data startUnitNo
    have hpos : 0 < (fragmentPlan unitCount ThreadCount).1 := by
      have := fragmentLoop_length (fragmentPlan unitCount ThreadCount).1
        (fragmentPlan unitCount ThreadCount).2.1 (fragmentPlan unitCount ThreadCount).2.2 data startUnitNo
      unfold queuedFragments at hlen
      rw [this] at hlen
      rw [hlen]
      exact lt_min (by omega) (by omega)
    unfold queuedFragments
    rw [fragmentLoop_head _ _ _ _ _ hpos]
    rfl
  · exact fragmentLoop_chain _ _ _ _ _
  · intro hfit
    apply fragmentLoop_chain_exact
    · intro f hf
      rcases hcount f hf with h | h <;> omega
    · have := hsum
      unfold queuedFragments at this
      rw [this]
      exact hfit

/-- C1 at 1000 units on 4 workers from unit 7. -/
theorem fragmentation_coverage_witness :
    (1 ≤ 1000 ∧ 2 ≤ 4) ∧
    ((queuedFragments 1000 4 0 7).map Fragment.UnitCount).sum = 1000 ∧
    (∀ f ∈ queuedFragments 1000 4 0 7, ∀ g ∈ queuedFragments 1000 4 0 7,
      f.UnitCount ≤ g.UnitCount + 1) ∧
    ((queuedFragments 1000 4 0 7).head?.map Fragment.StartUnitNo = some 7) ∧
    List.Chain' (fun f g : Fragment => g.StartUnitNo = (f.StartUnitNo + f.UnitCount) % UINT64_MOD)
      (queuedFragments 1000 4 0 7) ∧
    (7 + 1000 ≤ UINT64_MOD →
      List.Chain' (fun f g : Fragment => g.StartUnitNo = f.StartUnitNo + f.UnitCount)
        (queuedFragments 1000 4 0 7)) :=
  ⟨⟨by decide, by decide⟩, fragmentation_coverage 1000 4 0 7 (by decide) (by decide)⟩

/-! ### Lemmas on the cipher primitive -/

/-- The bytes read for a unit depend on the memory of that unit only. -/
theorem readUnit_congr (m1 m2 : Nat → Byte) (p : Nat)
    (h : ∀ a, p ≤ a → a < p + ENCRYPTION_DATA_UNIT_SIZE → m1 a = m2 a) :
    readUnit m1 p = readUnit m2 p := by
  unfold readUnit
  apply List.map_congr_left
  intro j hj
  rw [List.mem_range] at hj
  exact h _ (by omega) (by omega)

/-- The primitive leaves the bytes outside its buffer alone. -/
theorem cryptDataUnits_outside (f : Nat → List Byte → List Byte) (m : Nat → Byte)
    (buf u n a : Nat) (h : ¬ (buf ≤ a ∧ a < buf + n * ENCRYPTION_DATA_UNIT_SIZE)) :
    cryptDataUnits f m buf u n a = m a := by
  unfold cryptDataUnits
  rw [if_neg h]

/-- Inside its buffer the primitive reads the bytes of the buffer only. -/
theorem cryptDataUnits_congr (f : Nat → List Byte → List Byte) (m1 m2 : Nat → Byte)
    (buf u n a : Nat) (hin : buf ≤ a ∧ a < buf + n * ENCRYPTION_DATA_UNIT_SIZE)
    (h : ∀ x, buf ≤ x → x < buf + n * ENCRYPTION_DATA_UNIT_SIZE → m1 x = m2 x) :
    cryptDataUnits f m1 buf u n a = cryptDataUnits f m2 buf u n a := by
  unfold cryptDataUnits
  rw [if_pos hin, if_pos hin]
  have hS : ENCRYPTION_DATA_UNIT_SIZE = 512 := rfl
  rw [hS] at hin h
  have e : readUnit m1 (buf + (a - buf) / ENCRYPTION_DATA_UNIT_SIZE * ENCRYPTION_DATA_UNIT_SIZE)
      = readUnit m2 (buf + (a - buf) / ENCRYPTION_DATA_UNIT_SIZE * ENCRYPTION_DATA_UNIT_SIZE) := by
    apply readUnit_congr
    rw [hS]
    intro x hx1 hx2
    exact h x (by omega) (by omega)
  simp only [e]
  rw [h a hin.1 hin.2]

/-- Inside its buffer the primitive replaces a byte by the byte of the cipher
of its unit. -/
theorem cryptDataUnits_inside (f : Nat → List Byte → List Byte) (m : Nat → Byte)
    (buf u n a : Nat) (hin : buf ≤ a ∧ a < buf + n * ENCRYPTION_DATA_UNIT_SIZE) :
    cryptDataUnits f m buf u n a
      = (f ((u + (a - buf) / ENCRYPTION_DATA_UNIT_SIZE) % UINT64_MOD)
          (readUnit m (buf + (a - buf) / ENCRYPTION_DATA_UNIT_SIZE * ENCRYPTION_DATA_UNIT_SIZE))).getD
          ((a - buf) % ENCRYPTION_DATA_UNIT_SIZE) (m a) := by
  unfold cryptDataUnits
  rw [if_pos hin]

/-- One call on `a + b` units is a call on the first `a` units followed by a
call on the `b` units after them. -/
theorem cryptDataUnits_split (f : Nat → List Byte → List Byte) (m : Nat → Byte)
    (buf u a b : Nat) :
    cryptDataUnits f m buf u (a + b)
      = cryptDataUnits f (cryptDataUnits f m buf u a)
          (buf + a * ENCRYPTION_DATA_UNIT_SIZE) ((u + a) % UINT64_MOD) b := by
  have hS : ENCRYPTION_DATA_UNIT_SIZE = 512 := rfl
  have hM : UINT64_MOD = 18446744073709551616 := by norm_num [UINT64_MOD]
  funext x
  by_cases h1 : buf ≤ x ∧ x < buf + a * ENCRYPTION_DATA_UNIT_SIZE
  · have h1' := h1
    rw [hS] at h1'
    rw [cryptDataUnits_outside f _ (buf + a * ENCRYPTION_DATA_UNIT_SIZE) _ b x (by rw [hS]; omega),
      cryptDataUnits_inside f m buf u a x h1,
      cryptDataUnits_inside f m buf u (a + b) x (by rw [hS]; omega)]
  · by_cases h2 : buf + a * ENCRYPTION_DATA_UNIT_SIZE ≤ x ∧
        x < buf + a * ENCRYPTION_DATA_UNIT_SIZE + b * ENCRYPTION_DATA_UNIT_SIZE
    · have h1' := h1
      have h2' := h2
      rw [hS] at h1' h2'
      have e1 : ((u + a) % UINT64_MOD + (x - (buf + a * ENCRYPTION_DATA_UNIT_SIZE)) / ENCRYPTION_DATA_UNIT_SIZE)
              % UINT64_MOD = (u + (x - buf) / ENCRYPTION_DATA_UNIT_SIZE) % UINT64_MOD := by
        rw [hS, hM]
        omega
      have e2 : buf + a * ENCRYPTION_DATA_UNIT_SIZE
              + (x - (buf + a * ENCRYPTION_DATA_UNIT_SIZE)) / ENCRYPTION_DATA_UNIT_SIZE
                * ENCRYPTION_DATA_UNIT_SIZE
          = buf + (x - buf) / ENCRYPTION_DATA_UNIT_SIZE * ENCRYPTION_DATA_UNIT_SIZE := by
        rw [hS]
        omega
      have e3 : (x - (buf + a * ENCRYPTION_DATA_UNIT_SIZE)) % ENCRYPTION_DATA_UNIT_SIZE
          = (x - buf) % ENCRYPTION_DATA_UNIT_SIZE := by
        rw [hS]
        omega
      have e4 : readUnit (cryptDataUnits f m buf u a)
            (buf + (x - buf) / ENCRYPTION_DATA_UNIT_SIZE * ENCRYPTION_DATA_UNIT_SIZE)
          = readUnit m (buf + (x - buf) / ENCRYPTION_DATA_UNIT_SIZE * ENCRYPTION_DATA_UNIT_SIZE) := by
        apply readUnit_congr
        intro y hy1 hy2
        rw [hS] at hy1 hy2
        apply cryptDataUnits_outside f m buf u a y
        rw [hS]
        omega
      rw [cryptDataUnits_inside f _ (buf + a * ENCRYPTION_DATA_UNIT_SIZE) _ b x h2,
        cryptDataUnits_inside f m buf u (a + b) x (by rw [hS]; omega),
        cryptDataUnits_outside f m buf u a x h1, e1, e2, e3, e4]
    · have h1' := h1
      have h2' := h2
      rw [hS] at h1' h2'
      rw [cryptDataUnits_outside f _ (buf + a * ENCRYPTION_DATA_UNIT_SIZE) _ b x h2,
        cryptDataUnits_outside f m buf u a x h1,
        cryptDataUnits_outside f m buf u (a + b) x (by rw [hS]; omega)]

/-- Two calls on buffers that do not overlap commute. -/
theorem cryptDataUnits_comm (f : Nat → List Byte → List Byte) (m : Nat → Byte)
    (b1 u1 n1 b2 u2 n2 : Nat)
    (hdis : b1 + n1 * ENCRYPTION_DATA_UNIT_SIZE ≤ b2 ∨ b2 + n2 * ENCRYPTION_DATA_UNIT_SIZE ≤ b1) :
    cryptDataUnits f (cryptDataUnits f m b1 u1 n1) b2 u2 n2
      = cryptDataUnits f (cryptDataUnits f m b2 u2 n2) b1 u1 n1 := by
  funext x
  by_cases h1 : b1 ≤ x ∧ x < b1 + n1 * ENCRYPTION_DATA_UNIT_SIZE
  · have h2 : ¬ (b2 ≤ x ∧ x < b2 + n2 * ENCRYPTION_DATA_UNIT_SIZE) := by omega
    rw [cryptDataUnits_outside f _ b2 u2 n2 x h2]
    apply cryptDataUnits_congr f _ _ b1 u1 n1 x h1
    intro y hy1 hy2
    symm
    exact cryptDataUnits_outside f m b2 u2 n2 y (by omega)
  · rw [cryptDataUnits_outside f _ b1 u1 n1 x h1]
    by_cases h2 : b2 ≤ x ∧ x < b2 + n2 * ENCRYPTION_DATA_UNIT_SIZE
    · apply cryptDataUnits_congr f _ _ b2 u2 n2 x h2
      intro y hy1 hy2
      exact cryptDataUnits_outside f m b1 u1 n1 y (by omega)
    · rw [cryptDataUnits_outside f _ b2 u2 n2 x h2, cryptDataUnits_outside f _ b2 u2 n2 x h2,
        cryptDataUnits_outside f m b1 u1 n1 x h1]

/-- The crypto info the primitive is called with. -/
theorem EncryptDataUnitsCurrentThreadEx_mem (c : Crypto) (w : World) (buf u n ci : Nat) :
    (EncryptDataUnitsCurrentThreadEx c w buf u n ci).mem
      = cryptDataUnits
          (c.encryptUnit (if c.IsRamEncryptionEnabled then c.VcUnprotectKeys ci (c.VcGetEncryptionID ci) else ci))
          w.mem buf u n := by
  unfold EncryptDataUnitsCurrentThreadEx EncryptDataUnitsCurrentThread
  split_ifs <;> rfl

/-- The crypto info the primitive is called with. -/
theorem DecryptDataUnitsCurrentThreadEx_mem (c : Crypto) (w : World) (buf u n ci : Nat) :
    (DecryptDataUnitsCurrentThreadEx c w buf u n ci).mem
      = cryptDataUnits
          (c.decryptUnit (if c.IsRamEncryptionEnabled then c.VcUnprotectKeys ci (c.VcGetEncryptionID ci) else ci))
          w.mem buf u n := by
  unfold DecryptDataUnitsCurrentThreadEx DecryptDataUnitsCurrentThread
  split_ifs <;> rfl

/-- The memory after a sequence of calls is the sequence of their effects on
memory. -/
theorem foldl_mem (g : World → Fragment → World) (k : (Nat → Byte) → Fragment → (Nat → Byte))
    (hg : ∀ w f, (g w f).mem = k w.mem f) (l : List Fragment) (w : World) :
    (l.foldl g w).mem = l.foldl k w.mem := by
  induction l generalizing w with
  | nil => rfl
  | cons f l ih => simp only [List.foldl_cons, ih, hg]

/-- The fragments taken in the order of the loop amount to one call on all
their units. -/
theorem fragmentLoop_foldl (f : Nat → List Byte → List Byte) (n upf rem d s : Nat) (m : Nat → Byte) :
    (fragmentLoop n upf rem d s).foldl
        (fun m fr => cryptDataUnits f m fr.Data fr.StartUnitNo fr.UnitCount) m
      = cryptDataUnits f m d s (((fragmentLoop n upf rem d s).map Fragment.UnitCount).sum) := by
  induction n generalizing upf rem d s m with
  | zero =>
    funext x
    simp only [fragmentLoop, List.foldl_nil, List.map_nil, List.sum_nil]
    rw [cryptDataUnits_outside]
    omega
  | succ n ih =>
    rw [fragmentLoop_succ]
    simp only [List.foldl_cons, List.map_cons, List.sum_cons]
    rw [ih, ← cryptDataUnits_split]

/-- No fragment lies before the data pointer the loop is entered with. -/
theorem fragmentLoop_data_ge (n upf rem d s : Nat) :
    ∀ f ∈ fragmentLoop n upf rem d s, d ≤ f.Data := by
  induction n generalizing upf rem d s with
  | zero => intro f hf; simp [fragmentLoop] at hf
  | succ n ih =>
    intro f hf
    rw [fragmentLoop_succ, List.mem_cons] at hf
    rcases hf with rfl | hf
    · exact le_refl _
    · have := ih _ _ _ _ f hf
      omega

/-- Every fragment ends where the later ones begin, or before. -/
theorem fragmentLoop_pairwise (n upf rem d s : Nat) :
    List.Pairwise (fun x y : Fragment => x.Data + x.UnitCount * ENCRYPTION_DATA_UNIT_SIZE ≤ y.Data)
      (fragmentLoop n upf rem d s) := by
  induction n generalizing upf rem d s with
  | zero => simp [fragmentLoop]
  | succ n ih =>
    rw [fragmentLoop_succ, List.pairwise_cons]
    exact ⟨fun g hg => fragmentLoop_data_ge _ _ _ _ _ g hg, ih _ _ _ _⟩

/-- The fragments of the loop, taken in any order, amount to one call on all
their units. -/
theorem fragmentLoop_any_order (f : Nat → List Byte → List Byte) (n upf rem d s : Nat)
    (m : Nat → Byte) (order : List Fragment) (hperm : order.Perm (fragmentLoop n upf rem d s)) :
    order.foldl (fun m fr => cryptDataUnits f m fr.Data fr.StartUnitNo fr.UnitCount) m
      = cryptDataUnits f m d s (((fragmentLoop n upf rem d s).map Fragment.UnitCount).sum) := by
  rw [← fragmentLoop_foldl]
  symm
  apply List.Perm.foldl_eq' hperm.symm
  intro x hx y hy z
  by_cases hxy : x = y
  · rw [hxy]
  · have hsym : Symmetric (fun x y : Fragment =>
        x.Data + x.UnitCount * ENCRYPTION_DATA_UNIT_SIZE ≤ y.Data ∨
        y.Data + y.UnitCount * ENCRYPTION_DATA_UNIT_SIZE ≤ x.Data) := fun a b h => h.symm
    have hpw : List.Pairwise (fun x y : Fragment =>
        x.Data + x.UnitCount * ENCRYPTION_DATA_UNIT_SIZE ≤ y.Data ∨
        y.Data + y.UnitCount * ENCRYPTION_DATA_UNIT_SIZE ≤ x.Data) (fragmentLoop n upf rem d s) :=
      (fragmentLoop_pairwise n upf rem d s).imp (fun h => Or.inl h)
    have hdis := hpw.forall hsym hx hy hxy
    exact cryptDataUnits_comm f z x.Data x.StartUnitNo x.UnitCount y.Data y.StartUnitNo y.UnitCount hdis

/-! ## C2 : order independence -/

/-- C2. Order independence of the bulk dispatch: the cipher primitive
transforming every data unit by its unit number and its own bytes, the calls of
`EncryptDataUnitsCurrentThreadEx` (and of `DecryptDataUnitsCurrentThreadEx`) on
the fragments that `EncryptionThreadPoolDoWork` enqueues, taken in any order
`order`, leave the same memory as the one same-thread call on
`(data, startUnitNo, unitCount)`, whatever the number of workers. -/
theorem dispatch_bulk_order_independent (c : Crypto) (w : World)
    (data startUnitNo unitCount cryptoInfo ThreadCount : Nat) (ht : 1 ≤ ThreadCount)
    (order : List Fragment)
    (hperm : order.Perm (queuedFragments unitCount ThreadCount data startUnitNo)) :
    (order.foldl (fun w f => EncryptDataUnitsCurrentThreadEx c w f.Data f.StartUnitNo f.UnitCount cryptoInfo) w).mem
      = (EncryptDataUnitsCurrentThreadEx c w data startUnitNo unitCount cryptoInfo).mem ∧
    (order.foldl (fun w f => DecryptDataUnitsCurrentThreadEx c w f.Data f.StartUnitNo f.UnitCount cryptoInfo) w).mem
      = (DecryptDataUnitsCurrentThreadEx c w data startUnitNo unitCount cryptoInfo).mem := by
  have hsum := queuedFragments_sum unitCount ThreadCount data startUnitNo ht
  unfold queuedFragments at hperm hsum
  constructor
  · rw [foldl_mem _
        (fun m f => cryptDataUnits
          (c.encryptUnit (if c.IsRamEncryptionEnabled then
            c.VcUnprotectKeys cryptoInfo (c.VcGetEncryptionID cryptoInfo) else cryptoInfo))
          m f.Data f.StartUnitNo f.UnitCount)
        (fun w f => EncryptDataUnitsCurrentThreadEx_mem c w f.Data f.StartUnitNo f.UnitCount cryptoInfo),
      EncryptDataUnitsCurrentThreadEx_mem, fragmentLoop_any_order _ _ _ _ _ _ _ order hperm, hsum]
  · rw [foldl_mem _
        (fun m f => cryptDataUnits
          (c.decryptUnit (if c.IsRamEncryptionEnabled then
            c.VcUnprotectKeys cryptoInfo (c.VcGetEncryptionID cryptoInfo) else cryptoInfo))
          m f.Data f.StartUnitNo f.UnitCount)
        (fun w f => DecryptDataUnitsCurrentThreadEx_mem c w f.Data f.StartUnitNo f.UnitCount cryptoInfo),
      DecryptDataUnitsCurrentThreadEx_mem, fragmentLoop_any_order _ _ _ _ _ _ _ order hperm, hsum]

/-- C2 at 3 units on 2 workers, the second fragment run before the first. -/
theorem dispatch_bulk_order_independent_witness :
    (1 ≤ 2 ∧ [({ Data := 1024, StartUnitNo := 12, UnitCount := 1 } : Fragment),
        { Data := 0, StartUnitNo := 10, UnitCount := 2 }].Perm (queuedFragments 3 2 0 10)) ∧
    (([({ Data := 1024, StartUnitNo := 12, UnitCount := 1 } : Fragment),
        { Data := 0, StartUnitNo := 10, UnitCount := 2 }].foldl
        (fun w f => EncryptDataUnitsCurrentThreadEx Crypto.sample w f.Data f.StartUnitNo f.UnitCount 0)
        World.initial).mem
      = (EncryptDataUnitsCurrentThreadEx Crypto.sample World.initial 0 10 3 0).mem ∧
    ([({ Data := 1024, StartUnitNo := 12, UnitCount := 1 } : Fragment),
        { Data := 0, StartUnitNo := 10, UnitCount := 2 }].foldl
        (fun w f => DecryptDataUnitsCurrentThreadEx Crypto.sample w f.Data f.StartUnitNo f.UnitCount 0)
        World.initial).mem
      = (DecryptDataUnitsCurrentThreadEx Crypto.sample World.initial 0 10 3 0).mem) :=
  ⟨⟨by decide, by decide⟩,
    dispatch_bulk_order_independent Crypto.sample World.initial 0 10 3 0 2 (by decide) _ (by decide)⟩

/-! ## C4 : hosts on which no worker is started -/

/-- The CPU count `EncryptionThreadPoolStart` works with is not reduced when
`encryptionFreeCpuCount` is not below it. -/
theorem EncryptionThreadPoolStart_trivial (h : Host) (encryptionFreeCpuCount : Nat) (p : Pool)
    (hstop : p.ThreadPoolRunning = false)
    (hcpu : (GetCpuCount h).1 < 2 ∨ encryptionFreeCpuCount + 1 = (GetCpuCount h).1) :
    EncryptionThreadPoolStart h encryptionFreeCpuCount p
      = (true, if (GetCpuCount h).2 > 1 then
            { p with ThreadPoolCount := TC_ENC_THREAD_POOL_MAX_THREAD_COUNT
                     ThreadQueueSize := TC_ENC_THREAD_POOL_QUEUE_SIZE }
          else p) := by
  unfold EncryptionThreadPoolStart
  have heff : (if (GetCpuCount h).1 > encryptionFreeCpuCount
      then (GetCpuCount h).1 - encryptionFreeCpuCount else (GetCpuCount h).1) < 2 := by
    split_ifs <;> omega
  simp only [hstop, Bool.false_eq_true, if_false, heff, if_true]

/-- C4, amended. On a stopped pool, when the CPU count is below 2 or
`encryptionFreeCpuCount` is exactly the CPU count minus one (the cases in which
the count the code works with, which it reduces by `encryptionFreeCpuCount`
only when the CPU count is larger, is below 2), `EncryptionThreadPoolStart`
returns success without starting a worker; afterwards
`GetEncryptionThreadCount` is 0 and the pool is not running. -/
theorem start_on_trivial_host (h : Host) (encryptionFreeCpuCount : Nat) (p : Pool)
    (hstop : p.ThreadPoolRunning = false)
    (hcpu : (GetCpuCount h).1 < 2 ∨ encryptionFreeCpuCount + 1 = (GetCpuCount h).1) :
    (EncryptionThreadPoolStart h encryptionFreeCpuCount p).1 = true ∧
    (EncryptionThreadPoolStart h encryptionFreeCpuCount p).2.Workers = p.Workers ∧
    (EncryptionThreadPoolStart h encryptionFreeCpuCount p).2.ThreadsStarted = p.ThreadsStarted ∧
    GetEncryptionThreadCount (EncryptionThreadPoolStart h encryptionFreeCpuCount p).2 = 0 ∧
    IsEncryptionThreadPoolRunning (EncryptionThreadPoolStart h encryptionFreeCpuCount p).2 = false := by
  rw [EncryptionThreadPoolStart_trivial h encryptionFreeCpuCount p hstop hcpu]
  unfold GetEncryptionThreadCount IsEncryptionThreadPoolRunning
  split_ifs <;> simp_all

/-- C4, amended, on a host with 4 CPUs of which 3 are to be left free. -/
theorem start_on_trivial_host_witness :
    (Pool.initial.ThreadPoolRunning = false ∧
      ((GetCpuCount (Host.plain 4)).1 < 2 ∨ 3 + 1 = (GetCpuCount (Host.plain 4)).1)) ∧
    ((EncryptionThreadPoolStart (Host.plain 4) 3 Pool.initial).1 = true ∧
    (EncryptionThreadPoolStart (Host.plain 4) 3 Pool.initial).2.Workers = Pool.initial.Workers ∧
    (EncryptionThreadPoolStart (Host.plain 4) 3 Pool.initial).2.ThreadsStarted
      = Pool.initial.ThreadsStarted ∧
    GetEncryptionThreadCount (EncryptionThreadPoolStart (Host.plain 4) 3 Pool.initial).2 = 0 ∧
    IsEncryptionThreadPoolRunning (EncryptionThreadPoolStart (Host.plain 4) 3 Pool.initial).2 = false) :=
  ⟨⟨by decide, by decide⟩,
    start_on_trivial_host (Host.plain 4) 3 Pool.initial (by decide) (by decide)⟩

set_option maxRecDepth 100000 in
/-- C4 as stated fails: on a host with 4 CPUs, `encryptionFreeCpuCount = 4`
is at least the CPU count minus one, and `EncryptionThreadPoolStart` on the
stopped pool starts 4 workers; the thread count is 4 and the pool is running. -/
theorem start_on_trivial_host_counterexample :
    (GetCpuCount (Host.plain 4)).1 = 4 ∧ 4 ≥ (GetCpuCount (Host.plain 4)).1 - 1 ∧
    Pool.initial.ThreadPoolRunning = false ∧
    (EncryptionThreadPoolStart (Host.plain 4) 4 Pool.initial).1 = true ∧
    (EncryptionThreadPoolStart (Host.plain 4) 4 Pool.initial).2.Workers.length = 4 ∧
    GetEncryptionThreadCount (EncryptionThreadPoolStart (Host.plain 4) 4 Pool.initial).2 = 4 ∧
    IsEncryptionThreadPoolRunning (EncryptionThreadPoolStart (Host.plain 4) 4 Pool.initial).2 = true := by
  decide

/-! ## C5 : a start that fails -/

/-- The workers that `EncryptionThreadPoolStop` leaves on a running pool are
those it has no handle for among `ThreadHandles[0 .. ThreadCount - 1]`. -/
theorem EncryptionThreadPoolStop_workers (p : Pool) (hr : p.ThreadPoolRunning = true) :
    (EncryptionThreadPoolStop p).Workers = p.Workers.filter fun t =>
      (List.range p.ThreadCount).all fun i => decide (p.ThreadHandles i ≠ some t.handle) := by
  unfold EncryptionThreadPoolStop
  simp [hr]

set_option maxRecDepth 100000 in
/-- C5 fails on the code. On a host with 4 CPUs whose third `_beginthreadex`
fails, `EncryptionThreadPoolStart` on the stopped pool returns `FALSE` and marks
the pool not running, but the call of `EncryptionThreadPoolStop` it makes
returns at once (the pool is not marked running yet): the two workers already
started are still running, `StopPending` is not set and `ThreadCount` is 2.
Had the pool been marked running, the same `EncryptionThreadPoolStop` would
have joined them. -/
theorem start_failure_leaves_workers_running :
    (EncryptionThreadPoolStart Host.thirdThreadFails 0 Pool.initial).1 = false ∧
    (EncryptionThreadPoolStart Host.thirdThreadFails 0 Pool.initial).2.ThreadPoolRunning = false ∧
    (EncryptionThreadPoolStart Host.thirdThreadFails 0 Pool.initial).2.Workers
      = [{ handle := 0, group := none }, { handle := 1, group := none }] ∧
    (EncryptionThreadPoolStart Host.thirdThreadFails 0 Pool.initial).2.StopPending = false ∧
    (EncryptionThreadPoolStart Host.thirdThreadFails 0 Pool.initial).2.ThreadCount = 2 ∧
    (EncryptionThreadPoolStop
      { (EncryptionThreadPoolStart Host.thirdThreadFails 0 Pool.initial).2 with
        ThreadPoolRunning := true }).Workers = [] := by
  have hW : (EncryptionThreadPoolStart Host.thirdThreadFails 0 Pool.initial).2.Workers
      = [{ handle := 0, group := none }, { handle := 1, group := none }] := by decide
  have hT : (EncryptionThreadPoolStart Host.thirdThreadFails 0 Pool.initial).2.ThreadCount = 2 := by
    decide
  have h0 : (EncryptionThreadPoolStart Host.thirdThreadFails 0 Pool.initial).2.ThreadHandles 0
      = some 0 := by decide
  have h1 : (EncryptionThreadPoolStart Host.thirdThreadFails 0 Pool.initial).2.ThreadHandles 1
      = some 1 := by decide
  refine ⟨by decide, by decide, hW, by decide, hT, ?_⟩
  rw [EncryptionThreadPoolStop_workers _ rfl]
  simp only [hW, hT]
  simp [List.range_succ, h0, h1]

/-! ## C8 : asynchronous enqueue on a pool that is not running -/

/-- C8. When the pool is not running, `EncryptionThreadPoolBeginKeyDerivation`
and `EncryptionThreadPoolBeginReadVolumeHeaderFinalization` raise the fatal
condition in the state they were called in: the enqueue cursor, every slot and
the caller's outstanding count are unchanged. -/
theorem async_enqueue_on_stopped_pool_is_fatal (w : World)
    (hstop : w.pool.ThreadPoolRunning = false)
    (completionEvent noOutstandingWorkItemEvent completionFlag outstandingWorkItemCount : Nat)
    (pkcs5Prf : Int) (password : Nat) (passwordLength : Int) (salt : Nat)
    (iterationCount memoryCost : Int) (derivedKey pAbortKeyDerivation : Nat)
    (keyDerivationCompletedEvent keyInfoBuffer : Nat) (keyInfoBufferSize : Int)
    (keyDerivationWorkItems : Nat) (keyDerivationWorkItemsSize : Int) :
    EncryptionThreadPoolBeginKeyDerivation w completionEvent noOutstandingWorkItemEvent
        completionFlag outstandingWorkItemCount pkcs5Prf password passwordLength salt iterationCount
        memoryCost derivedKey pAbortKeyDerivation = .fatal w ∧
    EncryptionThreadPoolBeginReadVolumeHeaderFinalization w keyDerivationCompletedEvent
        noOutstandingWorkItemEvent outstandingWorkItemCount keyInfoBuffer keyInfoBufferSize
        keyDerivationWorkItems keyDerivationWorkItemsSize = .fatal w := by
  unfold EncryptionThreadPoolBeginKeyDerivation EncryptionThreadPoolBeginReadVolumeHeaderFinalization
  simp [hstop]

/-- C8 on the pool that was never started. -/
theorem async_enqueue_on_stopped_pool_is_fatal_witness :
    World.initial.pool.ThreadPoolRunning = false ∧
    (EncryptionThreadPoolBeginKeyDerivation World.initial 100 101 102 103 1 200 4 300 1000 0 400 500
        = .fatal World.initial ∧
    EncryptionThreadPoolBeginReadVolumeHeaderFinalization World.initial 600 101 103 700 64 800 96
        = .fatal World.initial) :=
  ⟨by decide, async_enqueue_on_stopped_pool_is_fatal World.initial (by decide)
    100 101 102 103 1 200 4 300 1000 0 400 500 600 700 64 800 96⟩

/-- The pool is not running when it was never started, after
`EncryptionThreadPoolStop`, and after a start that creates no worker. -/
theorem pool_not_running_cases (h : Host) (encryptionFreeCpuCount : Nat) (p : Pool) :
    Pool.initial.ThreadPoolRunning = false ∧
    (EncryptionThreadPoolStop p).ThreadPoolRunning = false ∧
    (p.ThreadPoolRunning = false →
      ((GetCpuCount h).1 < 2 ∨ encryptionFreeCpuCount + 1 = (GetCpuCount h).1) →
      (EncryptionThreadPoolStart h encryptionFreeCpuCount p).2.ThreadPoolRunning = false) := by
  refine ⟨rfl, ?_, ?_⟩
  · unfold EncryptionThreadPoolStop
    by_cases hr : p.ThreadPoolRunning = true
    · simp [hr]
    · simp only [Bool.not_eq_true] at hr
      simp [hr]
  · intro hstop hcpu
    rw [EncryptionThreadPoolStart_trivial h encryptionFreeCpuCount p hstop hcpu]
    split_ifs <;> simp_all

/-! ## C9 : the paths of `EncryptionThreadPoolDoWork` that do not use the queue -/

/-- C9. For the work types `EncryptDataUnitsWork` and `DecryptDataUnitsWork`:
with `unitCount = 0`, `EncryptionThreadPoolDoWork` returns in the state it was
called in (no cipher call, buffer, cursor and slots unchanged); with
`unitCount = 1`, or with the pool not running and `unitCount ≠ 0`, it returns
the state of one same-thread call of `EncryptDataUnitsCurrentThreadEx`
(`DecryptDataUnitsCurrentThreadEx`) on `(data, startUnitNo, unitCount,
cryptoInfo)`, which leaves the pool (cursor and slots) unchanged, calls the
cipher primitive once and changes the memory as that one call does. -/
theorem trivial_path_equivalence (c : Crypto) (w : World)
    (data startUnitNo unitCount cryptoInfo : Nat) :
    (unitCount = 0 →
      EncryptionThreadPoolDoWork c .EncryptDataUnitsWork data startUnitNo unitCount cryptoInfo w = .done w ∧
      EncryptionThreadPoolDoWork c .DecryptDataUnitsWork data startUnitNo unitCount cryptoInfo w = .done w) ∧
    (unitCount ≠ 0 → (unitCount = 1 ∨ w.pool.ThreadPoolRunning = false) →
      EncryptionThreadPoolDoWork c .EncryptDataUnitsWork data startUnitNo unitCount cryptoInfo w
        = .done (EncryptDataUnitsCurrentThreadEx c w data startUnitNo unitCount cryptoInfo) ∧
      EncryptionThreadPoolDoWork c .DecryptDataUnitsWork data startUnitNo unitCount cryptoInfo w
        = .done (DecryptDataUnitsCurrentThreadEx c w data startUnitNo unitCount cryptoInfo) ∧
      (∃ ci, (EncryptDataUnitsCurrentThreadEx c w data startUnitNo unitCount cryptoInfo)
          = { w with mem := cryptDataUnits (c.encryptUnit ci) w.mem data startUnitNo unitCount
                     trace := w.trace ++ [Effect.cipher .EncryptDataUnitsWork data startUnitNo unitCount ci] }) ∧
      (∃ ci, (DecryptDataUnitsCurrentThreadEx c w data startUnitNo unitCount cryptoInfo)
          = { w with mem := cryptDataUnits (c.decryptUnit ci) w.mem data startUnitNo unitCount
                     trace := w.trace ++ [Effect.cipher .DecryptDataUnitsWork data startUnitNo unitCount ci] })) := by
  constructor
  · intro h0
    unfold EncryptionThreadPoolDoWork
    simp [h0]
  · intro h0 h1
    have hcond : (!w.pool.ThreadPoolRunning || decide (unitCount = 1)) = true := by
      rcases h1 with h1 | h1
      · simp [h1]
      · simp [h1]
    refine ⟨?_, ?_, ?_, ?_⟩
    · unfold EncryptionThreadPoolDoWork
      rw [if_neg h0, if_pos hcond]
    · unfold EncryptionThreadPoolDoWork
      rw [if_neg h0, if_pos hcond]
    · unfold EncryptDataUnitsCurrentThreadEx EncryptDataUnitsCurrentThread
      split_ifs
      · exact ⟨_, rfl⟩
      · exact ⟨_, rfl⟩
    · unfold DecryptDataUnitsCurrentThreadEx DecryptDataUnitsCurrentThread
      split_ifs
      · exact ⟨_, rfl⟩
      · exact ⟨_, rfl⟩

/-- C9 on the pool that was never started: no unit, and 3 units at address 0
from unit 10. -/
theorem trivial_path_equivalence_witness :
    ((0 : Nat) = 0 ∧ (3 : Nat) ≠ 0 ∧ ((3 : Nat) = 1 ∨ World.initial.pool.ThreadPoolRunning = false)) ∧
    (EncryptionThreadPoolDoWork Crypto.sample .EncryptDataUnitsWork 0 10 0 0 World.initial
        = .done World.initial ∧
      EncryptionThreadPoolDoWork Crypto.sample .DecryptDataUnitsWork 0 10 0 0 World.initial
        = .done World.initial) ∧
    (EncryptionThreadPoolDoWork Crypto.sample .EncryptDataUnitsWork 0 10 3 0 World.initial
        = .done (EncryptDataUnitsCurrentThreadEx Crypto.sample World.initial 0 10 3 0) ∧
      EncryptionThreadPoolDoWork Crypto.sample .DecryptDataUnitsWork 0 10 3 0 World.initial
        = .done (DecryptDataUnitsCurrentThreadEx Crypto.sample World.initial 0 10 3 0)) :=
  ⟨⟨rfl, by decide, Or.inr rfl⟩,
    (trivial_path_equivalence Crypto.sample World.initial 0 10 0 0).1 rfl,
    ((trivial_path_equivalence Crypto.sample World.initial 0 10 3 0).2 (by decide) (Or.inr rfl)).1,
    ((trivial_path_equivalence Crypto.sample World.initial 0 10 3 0).2 (by decide) (Or.inr rfl)).2.1⟩

/-! ## C10 : start on a running pool, stop on a stopped pool -/

/-- C10. On a running pool `p`, `EncryptionThreadPoolStart` with any
`encryptionFreeCpuCount` returns `TRUE` and leaves the whole pool state as it
was; on a pool `q` that is not running, `EncryptionThreadPoolStop` leaves the
whole pool state as it was. -/
theorem start_stop_idempotent (h : Host) (encryptionFreeCpuCount : Nat) (p q : Pool)
    (hp : p.ThreadPoolRunning = true) (hq : q.ThreadPoolRunning = false) :
    EncryptionThreadPoolStart h encryptionFreeCpuCount p = (true, p) ∧
    EncryptionThreadPoolStop q = q := by
  constructor
  · unfold EncryptionThreadPoolStart
    simp [hp]
  · unfold EncryptionThreadPoolStop
    simp [hq]

set_option maxRecDepth 100000 in
/-- C10 on the pool started on a host with 2 CPUs, and on the pool that was
never started. -/
theorem start_stop_idempotent_witness :
    ((EncryptionThreadPoolStart (Host.plain 2) 0 Pool.initial).2.ThreadPoolRunning = true ∧
      Pool.initial.ThreadPoolRunning = false) ∧
    (EncryptionThreadPoolStart (Host.plain 8) 1 (EncryptionThreadPoolStart (Host.plain 2) 0 Pool.initial).2
      = (true, (EncryptionThreadPoolStart (Host.plain 2) 0 Pool.initial).2) ∧
    EncryptionThreadPoolStop Pool.initial = Pool.initial) :=
  ⟨⟨by decide, by decide⟩,
    start_stop_idempotent (Host.plain 8) 1 _ Pool.initial (by decide) (by decide)⟩

theorem countP_set_add {α : Type} (p : α → Bool) (l : List α) (i : Nat) (a : α) (hi : i < l.length) :
    (l.set i a).countP p + (if p (l.get ⟨i, hi⟩) then 1 else 0)
      = l.countP p + (if p a then 1 else 0) := by
  induction l generalizing i with
  | nil => simp at hi
  | cons x l ih =>
    cases i with
    | zero =>
      simp only [List.set_cons_zero, List.countP_cons, List.get_eq_getElem, List.getElem_cons_zero]
      omega
    | succ i =>
      simp only [List.set_cons_succ, List.countP_cons, List.get_eq_getElem, List.getElem_cons_succ]
      have := ih i (by simpa using hi)
      simp only [List.get_eq_getElem] at this
      omega

theorem countP_set_pos {α : Type} (p : α → Bool) (l : List α) (i : Nat) (a : α) (hi : i < l.length)
    (ha : p a = true) : 1 ≤ (l.set i a).countP p := by
  rw [Nat.succ_le_iff, List.countP_pos_iff]
  exact ⟨a, List.mem_set l i hi a, ha⟩

/-- Counting the items of a batch by how far they have come. -/
theorem kdf_counts (l : List KdfPc) :
    l.countP KdfPc.hasDecremented + l.countP KdfPc.notDecremented = l.length ∧
    l.countP KdfPc.hasDecremented ≤ l.countP KdfPc.hasIncremented ∧
    l.countP KdfPc.hasIncremented ≤ l.length ∧
    l.countP KdfPc.hasSet ≤ l.length ∧
    l.length ≤ l.countP KdfPc.hasIncremented + l.countP KdfPc.notReady ∧
    l.countP KdfPc.setPending + l.countP KdfPc.notDecremented + l.countP KdfPc.isFinished ≤ l.length := by
  induction l with
  | nil => simp
  | cons q l ih =>
    simp only [List.countP_cons, List.length_cons]
    cases q <;>
      simp only [KdfPc.hasIncremented, KdfPc.hasDecremented, KdfPc.notDecremented, KdfPc.hasSet,
        KdfPc.notReady, KdfPc.setPending, KdfPc.isFinished,
        Bool.not_false, Bool.not_true, if_true, if_false, Bool.false_eq_true] <;>
      (try split) <;> omega

theorem kdfStep_inv (b : KdfBatch)
    (hflag : ∀ i, b.completionFlag i ≠ b.outstandingWorkItemCount)
    (hev : ∀ i, b.completionEvent i ≠ b.noOutstandingWorkItemEvent)
    (c0 : Nat) (w : World) (pcs : List KdfPc) (i : Nat) (hi : i < pcs.length)
    (hinv : KdfInv b c0 (w, pcs)) :
    KdfInv b c0 ((kdfStep b i w (pcs.get ⟨i, hi⟩)).1, pcs.set i (kdfStep b i w (pcs.get ⟨i, hi⟩)).2) := by
  obtain ⟨hA, hB, hC⟩ := hinv
  have c1 := countP_set_add KdfPc.hasIncremented pcs i (kdfStep b i w (pcs.get ⟨i, hi⟩)).2 hi
  have c6 := countP_set_add KdfPc.hasDecremented pcs i (kdfStep b i w (pcs.get ⟨i, hi⟩)).2 hi
  have c5 := countP_set_add KdfPc.notDecremented pcs i (kdfStep b i w (pcs.get ⟨i, hi⟩)).2 hi
  have cz6 := countP_set_add KdfPc.setPending pcs i (kdfStep b i w (pcs.get ⟨i, hi⟩)).2 hi
  have cz7 := countP_set_add KdfPc.hasSet pcs i (kdfStep b i w (pcs.get ⟨i, hi⟩)).2 hi
  have p5 := countP_set_pos KdfPc.notDecremented pcs i (kdfStep b i w (pcs.get ⟨i, hi⟩)).2 hi
  have pz6 := countP_set_pos KdfPc.setPending pcs i (kdfStep b i w (pcs.get ⟨i, hi⟩)).2 hi
  have hk := kdf_counts (pcs.set i (kdfStep b i w (pcs.get ⟨i, hi⟩)).2)
  simp only [KdfInv] at hA hB hC ⊢
  generalize pcs.get ⟨i, hi⟩ = pc at *
  cases pc with
  | notBegun =>
    simp only [kdfStep, KdfPc.hasIncremented, KdfPc.hasDecremented, KdfPc.notDecremented,
      KdfPc.setPending, KdfPc.hasSet, Bool.not_false, Bool.not_true, if_true, if_false,
      Bool.false_eq_true, forall_true_left] at c1 c6 c5 cz6 cz7 p5 pz6 hk ⊢
    refine ⟨?_, ?_, ?_⟩
    · simp only [InterlockedIncrement, Function.update_same]
      omega
    · simp only [InterlockedIncrement]
      omega
    · intro h
      omega
  | incremented =>
    simp only [kdfStep, KdfPc.hasIncremented, KdfPc.hasDecremented, KdfPc.notDecremented,
      KdfPc.setPending, KdfPc.hasSet, Bool.not_false, Bool.not_true, if_true, if_false,
      Bool.false_eq_true, forall_true_left] at c1 c6 c5 cz6 cz7 p5 pz6 hk ⊢
    refine ⟨?_, ?_, ?_⟩
    · simp only [clearCallerEvent]
      omega
    · simp only [clearCallerEvent, List.count_append, List.count_singleton]
      simp only [beq_iff_eq, reduceCtorEq, if_false]
      omega
    · intro h
      omega
  | cleared =>
    simp only [kdfStep, KdfPc.hasIncremented, KdfPc.hasDecremented, KdfPc.notDecremented,
      KdfPc.setPending, KdfPc.hasSet, Bool.not_false, Bool.not_true, if_true, if_false,
      Bool.false_eq_true, forall_true_left] at c1 c6 c5 cz6 cz7 p5 pz6 hk ⊢
    refine ⟨by omega, by omega, ?_⟩
    intro h
    omega
  | ready =>
    simp only [kdfStep, KdfPc.hasIncremented, KdfPc.hasDecremented, KdfPc.notDecremented,
      KdfPc.setPending, KdfPc.hasSet, Bool.not_false, Bool.not_true, if_true, if_false,
      Bool.false_eq_true, forall_true_left] at c1 c6 c5 cz6 cz7 p5 pz6 hk ⊢
    refine ⟨?_, by omega, ?_⟩
    · rw [Function.update_noteq (hflag i).symm]
      omega
    · intro h
      omega
  | flagged =>
    simp only [kdfStep, KdfPc.hasIncremented, KdfPc.hasDecremented, KdfPc.notDecremented,
      KdfPc.setPending, KdfPc.hasSet, Bool.not_false, Bool.not_true, if_true, if_false,
      Bool.false_eq_true, forall_true_left] at c1 c6 c5 cz6 cz7 p5 pz6 hk ⊢
    refine ⟨?_, ?_, ?_⟩
    · simp only [setCallerEvent]
      omega
    · simp only [setCallerEvent, List.count_append, List.count_singleton]
      have hne : ¬ (Effect.setEvent (b.completionEvent i) = Effect.setEvent b.noOutstandingWorkItemEvent) := by
        intro h
        exact hev i (Effect.setEvent.inj h)
      simp only [beq_iff_eq, hne, if_false]
      omega
    · intro h
      omega
  | completed =>
    by_cases hz : (InterlockedDecrement w b.outstandingWorkItemCount).longs b.outstandingWorkItemCount = 0
    · simp only [kdfStep, hz, decide_True, KdfPc.hasIncremented, KdfPc.hasDecremented, KdfPc.notDecremented,
        KdfPc.setPending, KdfPc.hasSet, Bool.not_false, Bool.not_true, if_true, if_false,
        Bool.false_eq_true, forall_true_left] at c1 c6 c5 cz6 cz7 p5 pz6 hk ⊢
      simp only [InterlockedDecrement, Function.update_same] at hz
      refine ⟨?_, ?_, ?_⟩
      · omega
      · simp only [InterlockedDecrement]
        omega
      · intro h
        exact Or.inl pz6
    · simp only [kdfStep, hz, decide_False, KdfPc.hasIncremented, KdfPc.hasDecremented, KdfPc.notDecremented,
        KdfPc.setPending, KdfPc.hasSet, Bool.not_false, Bool.not_true, if_true, if_false,
        Bool.false_eq_true, forall_true_left] at c1 c6 c5 cz6 cz7 p5 pz6 hk ⊢
      simp only [InterlockedDecrement, Function.update_same] at hz
      refine ⟨?_, ?_, ?_⟩
      · simp only [InterlockedDecrement, Function.update_same]
        omega
      · simp only [InterlockedDecrement]
        omega
      · intro h
        exfalso
        omega
  | decremented zero =>
    cases zero with
    | true =>
      simp only [kdfStep, KdfPc.hasIncremented, KdfPc.hasDecremented, KdfPc.notDecremented,
        KdfPc.setPending, KdfPc.hasSet, Bool.not_false, Bool.not_true, if_true, if_false,
        Bool.false_eq_true, forall_true_left] at c1 c6 c5 cz6 cz7 p5 pz6 hk ⊢
      refine ⟨?_, ?_, ?_⟩
      · simp only [setCallerEvent]
        omega
      · simp only [setCallerEvent, List.count_append, List.count_singleton, beq_self_eq_true, if_true]
        omega
      · intro h
        right
        simp only [setCallerEvent]
        exact List.getLast?_concat _
    | false =>
      simp only [kdfStep, KdfPc.hasIncremented, KdfPc.hasDecremented, KdfPc.notDecremented,
        KdfPc.setPending, KdfPc.hasSet, Bool.not_false, Bool.not_true, if_true, if_false,
        Bool.false_eq_true, forall_true_left] at c1 c6 c5 cz6 cz7 p5 pz6 hk ⊢
      refine ⟨by omega, by omega, ?_⟩
      intro h
      rcases hC (by omega) with h1 | h1
      · left; omega
      · right; exact h1
  | finished zero =>
    cases zero with
    | true =>
      simp only [kdfStep, KdfPc.hasIncremented, KdfPc.hasDecremented, KdfPc.notDecremented,
        KdfPc.setPending, KdfPc.hasSet, Bool.not_false, Bool.not_true, if_true, if_false,
        Bool.false_eq_true, forall_true_left] at c1 c6 c5 cz6 cz7 p5 pz6 hk ⊢
      refine ⟨by omega, by omega, ?_⟩
      intro h
      rcases hC (by omega) with h1 | h1
      · left; omega
      · right; exact h1
    | false =>
      simp only [kdfStep, KdfPc.hasIncremented, KdfPc.hasDecremented, KdfPc.notDecremented,
        KdfPc.setPending, KdfPc.hasSet, Bool.not_false, Bool.not_true, if_true, if_false,
        Bool.false_eq_true, forall_true_left] at c1 c6 c5 cz6 cz7 p5 pz6 hk ⊢
      refine ⟨by omega, by omega, ?_⟩
      intro h
      rcases hC (by omega) with h1 | h1
      · left; omega
      · right; exact h1

/-- The invariant holds along every interleaving. -/
theorem kdfRun_inv (b : KdfBatch)
    (hflag : ∀ i, b.completionFlag i ≠ b.outstandingWorkItemCount)
    (hev : ∀ i, b.completionEvent i ≠ b.noOutstandingWorkItemEvent)
    (c0 : Nat) (schedule : List Nat) (s : World × List KdfPc) (hinv : KdfInv b c0 s) :
    KdfInv b c0 (kdfRun b schedule s) := by
  induction schedule generalizing s with
  | nil => exact hinv
  | cons i schedule ih =>
    unfold kdfRun
    cases hget : s.2[i]? with
    | none => exact ih s hinv
    | some pc =>
      obtain ⟨hi, hpc⟩ := List.getElem?_eq_some_iff.mp hget
      have := kdfStep_inv b hflag hev c0 s.1 s.2 i hi hinv
      rw [List.get_eq_getElem, hpc] at this
      exact ih _ this

/-- The number of items does not change along an interleaving. -/
theorem kdfRun_length (b : KdfBatch) (schedule : List Nat) (s : World × List KdfPc) :
    (kdfRun b schedule s).2.length = s.2.length := by
  induction schedule generalizing s with
  | nil => rfl
  | cons i schedule ih =>
    unfold kdfRun
    cases hget : s.2[i]? with
    | none => exact ih s
    | some pc =>
      simp only []
      rw [ih]
      simp

/-- In a batch whose items have all run to their end no item has a decrement
or a set of the event to come. -/
theorem kdf_counts_finished (l : List KdfPc) (hfin : ∀ q ∈ l, q.isFinished = true) :
    l.countP KdfPc.notDecremented = 0 ∧ l.countP KdfPc.setPending = 0 := by
  induction l with
  | nil => simp
  | cons q l ih =>
    have hq := hfin q (List.mem_cons_self _ _)
    have := ih (fun q hq => hfin q (List.mem_cons_of_mem _ hq))
    simp only [List.countP_cons]
    cases q <;> simp_all [KdfPc.isFinished, KdfPc.notDecremented, KdfPc.hasDecremented, KdfPc.setPending]

theorem countP_get_pos {α : Type} (p : α → Bool) (l : List α) (i : Nat) (hi : i < l.length)
    (h : p (l.get ⟨i, hi⟩) = true) : 1 ≤ l.countP p := by
  rw [Nat.succ_le_iff, List.countP_pos_iff]
  exact ⟨_, List.get_mem l i hi, h⟩

theorem kdfStep_batch_inv (b : KdfBatch) (c0 : Nat) (w : World) (pcs : List KdfPc) (i : Nat)
    (hi : i < pcs.length) (hinv : KdfInv b c0 (w, pcs)) (hbatch : KdfBatchInv (w, pcs)) :
    KdfBatchInv ((kdfStep b i w (pcs.get ⟨i, hi⟩)).1, pcs.set i (kdfStep b i w (pcs.get ⟨i, hi⟩)).2) := by
  obtain ⟨hA, -, -⟩ := hinv
  obtain ⟨hR, hD⟩ := hbatch
  have c1 := countP_set_add KdfPc.hasIncremented pcs i (kdfStep b i w (pcs.get ⟨i, hi⟩)).2 hi
  have c3 := countP_set_add KdfPc.notReady pcs i (kdfStep b i w (pcs.get ⟨i, hi⟩)).2 hi
  have c6 := countP_set_add KdfPc.hasDecremented pcs i (kdfStep b i w (pcs.get ⟨i, hi⟩)).2 hi
  have c5 := countP_set_add KdfPc.notDecremented pcs i (kdfStep b i w (pcs.get ⟨i, hi⟩)).2 hi
  have cz6 := countP_set_add KdfPc.setPending pcs i (kdfStep b i w (pcs.get ⟨i, hi⟩)).2 hi
  have cz7 := countP_set_add KdfPc.hasSet pcs i (kdfStep b i w (pcs.get ⟨i, hi⟩)).2 hi
  have p3 := countP_get_pos KdfPc.notReady pcs i hi
  have hk := kdf_counts (pcs.set i (kdfStep b i w (pcs.get ⟨i, hi⟩)).2)
  have hk0 := kdf_counts pcs
  have hlen : (pcs.set i (kdfStep b i w (pcs.get ⟨i, hi⟩)).2).length = pcs.length := List.length_set ..
  simp only [KdfInv, KdfBatchInv] at hA hR hD ⊢
  generalize pcs.get ⟨i, hi⟩ = pc at *
  cases pc with
  | notBegun => exact absurd (p3 rfl) (by omega)
  | incremented => exact absurd (p3 rfl) (by omega)
  | cleared => exact absurd (p3 rfl) (by omega)
  | completed =>
    by_cases hz : (InterlockedDecrement w b.outstandingWorkItemCount).longs b.outstandingWorkItemCount = 0
    · simp only [kdfStep, hz, decide_True, KdfPc.hasIncremented, KdfPc.hasDecremented, KdfPc.notDecremented,
        KdfPc.setPending, KdfPc.hasSet, KdfPc.notReady, Bool.not_false, Bool.not_true, if_true, if_false,
        Bool.false_eq_true, forall_true_left] at c1 c3 c6 c5 cz6 cz7 hk ⊢
      simp only [InterlockedDecrement, Function.update_same] at hz
      refine ⟨by omega, ?_⟩
      split_ifs at hD ⊢ <;> omega
    · simp only [kdfStep, hz, decide_False, KdfPc.hasIncremented, KdfPc.hasDecremented, KdfPc.notDecremented,
        KdfPc.setPending, KdfPc.hasSet, KdfPc.notReady, Bool.not_false, Bool.not_true, if_true, if_false,
        Bool.false_eq_true, forall_true_left] at c1 c3 c6 c5 cz6 cz7 hk ⊢
      simp only [InterlockedDecrement, Function.update_same] at hz
      refine ⟨by omega, ?_⟩
      split_ifs at hD ⊢ <;> omega
  | ready =>
    simp only [kdfStep, KdfPc.hasIncremented, KdfPc.hasDecremented, KdfPc.notDecremented,
      KdfPc.setPending, KdfPc.hasSet, KdfPc.notReady, Bool.not_false, Bool.not_true, if_true, if_false,
      Bool.false_eq_true, forall_true_left] at c1 c3 c6 c5 cz6 cz7 hk ⊢
    refine ⟨by omega, ?_⟩
    split_ifs at hD ⊢ <;> omega
  | flagged =>
    simp only [kdfStep, KdfPc.hasIncremented, KdfPc.hasDecremented, KdfPc.notDecremented,
      KdfPc.setPending, KdfPc.hasSet, KdfPc.notReady, Bool.not_false, Bool.not_true, if_true, if_false,
      Bool.false_eq_true, forall_true_left] at c1 c3 c6 c5 cz6 cz7 hk ⊢
    refine ⟨by omega, ?_⟩
    split_ifs at hD ⊢ <;> omega
  | decremented zero =>
    cases zero <;>
    · simp only [kdfStep, KdfPc.hasIncremented, KdfPc.hasDecremented, KdfPc.notDecremented,
        KdfPc.setPending, KdfPc.hasSet, KdfPc.notReady, Bool.not_false, Bool.not_true, if_true, if_false,
        Bool.false_eq_true, forall_true_left] at c1 c3 c6 c5 cz6 cz7 hk ⊢
      refine ⟨by omega, ?_⟩
      split_ifs at hD ⊢ <;> omega
  | finished zero =>
    cases zero <;>
    · simp only [kdfStep, KdfPc.hasIncremented, KdfPc.hasDecremented, KdfPc.notDecremented,
        KdfPc.setPending, KdfPc.hasSet, KdfPc.notReady, Bool.not_false, Bool.not_true, if_true, if_false,
        Bool.false_eq_true, forall_true_left] at c1 c3 c6 c5 cz6 cz7 hk ⊢
      refine ⟨by omega, ?_⟩
      split_ifs at hD ⊢ <;> omega

/-- Both invariants hold along every interleaving of the completions of a
batch that was made ready as a whole. -/
theorem kdfRun_batch_inv (b : KdfBatch)
    (hflag : ∀ i, b.completionFlag i ≠ b.outstandingWorkItemCount)
    (hev : ∀ i, b.completionEvent i ≠ b.noOutstandingWorkItemEvent)
    (c0 : Nat) (schedule : List Nat) (s : World × List KdfPc)
    (hinv : KdfInv b c0 s) (hbatch : KdfBatchInv s) :
    KdfBatchInv (kdfRun b schedule s) := by
  induction schedule generalizing s with
  | nil => exact hbatch
  | cons i schedule ih =>
    unfold kdfRun
    cases hget : s.2[i]? with
    | none => exact ih s hinv hbatch
    | some pc =>
      obtain ⟨hi, hpc⟩ := List.getElem?_eq_some_iff.mp hget
      have h1 := kdfStep_inv b hflag hev c0 s.1 s.2 i hi hinv
      have h2 := kdfStep_batch_inv b c0 s.1 s.2 i hi hinv hbatch
      rw [List.get_eq_getElem, hpc] at h1 h2
      exact ih _ h1 h2

/-- The effects of a step are appended to the trace. -/
theorem kdfStep_trace (b : KdfBatch) (i : Nat) (w : World) (pc : KdfPc) :
    ∃ t, (kdfStep b i w pc).1.trace = w.trace ++ t ∧
      (pc = .flagged → t = [Effect.setEvent (b.completionEvent i)]) := by
  cases pc with
  | decremented zero => cases zero <;> simp [kdfStep, setCallerEvent]
  | _ => simp [kdfStep, setCallerEvent, clearCallerEvent, InterlockedIncrement, InterlockedDecrement]

theorem kdfRun_completed_inv (b : KdfBatch) (schedule : List Nat) (s : World × List KdfPc)
    (hinv : KdfCompletedInv b s) : KdfCompletedInv b (kdfRun b schedule s) := by
  induction schedule generalizing s with
  | nil => exact hinv
  | cons j schedule ih =>
    unfold kdfRun
    cases hget : s.2[j]? with
    | none => exact ih s hinv
    | some pc =>
      apply ih
      obtain ⟨hj, hpc⟩ := List.getElem?_eq_some_iff.mp hget
      obtain ⟨t, ht, hflagged⟩ := kdfStep_trace b j s.1 pc
      intro i q hq hcomp
      simp only [] at hq ⊢
      rw [ht]
      by_cases hij : j = i
      · subst hij
        rw [List.getElem?_set_self hj] at hq
        simp only [Option.some.injEq] at hq
        subst hq
        by_cases hold : pc.hasCompleted = true
        · exact List.mem_append_left _ (hinv j pc hget hold)
        · have hfl : pc = .flagged := by
            cases pc with
            | flagged => rfl
            | decremented zero => simp [KdfPc.hasCompleted] at hold
            | finished zero => simp [KdfPc.hasCompleted] at hold
            | completed => simp [KdfPc.hasCompleted] at hold
            | notBegun => simp [kdfStep, KdfPc.hasCompleted] at hcomp
            | incremented => simp [kdfStep, KdfPc.hasCompleted] at hcomp
            | cleared => simp [kdfStep, KdfPc.hasCompleted] at hcomp
            | ready => simp [kdfStep, KdfPc.hasCompleted] at hcomp
          rw [hflagged hfl]
          simp
      · rw [List.getElem?_set_ne hij] at hq
        exact List.mem_append_left _ (hinv i q hq hcomp)

/-- The three actions of `EncryptionThreadPoolBeginKeyDerivation` on the shared
counter and event, taken in a row, are what the function does to the caller
memory. -/
theorem kdfStep_begin_agrees (b : KdfBatch) (i : Nat) (w w1 : World) (pkcs5Prf : Int)
    (password : Nat) (passwordLength : Int) (salt : Nat) (iterationCount memoryCost : Int)
    (derivedKey pAbortKeyDerivation : Nat)
    (h : EncryptionThreadPoolBeginKeyDerivation w (b.completionEvent i) b.noOutstandingWorkItemEvent
      (b.completionFlag i) b.outstandingWorkItemCount pkcs5Prf password passwordLength salt
      iterationCount memoryCost derivedKey pAbortKeyDerivation = .done w1) :
    w1.longs = (kdfStep b i (kdfStep b i w .notBegun).1 .incremented).1.longs ∧
    w1.events = (kdfStep b i (kdfStep b i w .notBegun).1 .incremented).1.events ∧
    w1.trace = (kdfStep b i (kdfStep b i w .notBegun).1 .incremented).1.trace := by
  unfold EncryptionThreadPoolBeginKeyDerivation at h
  by_cases hr : w.pool.ThreadPoolRunning = true
  · simp only [hr, Bool.not_true, Bool.false_eq_true, if_false] at h
    by_cases hf : GetWorkItemState (claimEnqueueSlot w.pool).2 (claimEnqueueSlot w.pool).1
        = .WorkItemFree
    · simp only [hf, ne_eq, not_true_eq_false, if_false, Outcome.done.injEq] at h
      rw [← h]
      exact ⟨rfl, rfl, rfl⟩
    · simp only [ne_eq, hf, not_false_eq_true, if_true, reduceCtorEq] at h
  · simp only [Bool.not_eq_true] at hr
    simp only [hr, Bool.not_false, if_true, reduceCtorEq] at h

/-- The four actions of a worker on a derived key (lines 280-284), taken in a
row, are what `workerCompleteKeyDerivation` does to the caller memory. -/
theorem kdfStep_complete_agrees (b : KdfBatch) (i workItem : Nat) (w : World) :
    (workerCompleteKeyDerivation workItem (b.completionEvent i) (b.completionFlag i)
        b.noOutstandingWorkItemEvent b.outstandingWorkItemCount w).longs
      = (kdfStep b i (kdfStep b i (kdfStep b i (kdfStep b i w .ready).1 .flagged).1 .completed).1
          (kdfStep b i (kdfStep b i (kdfStep b i w .ready).1 .flagged).1 .completed).2).1.longs ∧
    (workerCompleteKeyDerivation workItem (b.completionEvent i) (b.completionFlag i)
        b.noOutstandingWorkItemEvent b.outstandingWorkItemCount w).trace
      = (kdfStep b i (kdfStep b i (kdfStep b i (kdfStep b i w .ready).1 .flagged).1 .completed).1
          (kdfStep b i (kdfStep b i (kdfStep b i w .ready).1 .flagged).1 .completed).2).1.trace := by
  simp only [workerCompleteKeyDerivation, kdfStep]
  split_ifs with h1 <;> simp [kdfStep, h1]

/-! ## C6 : completion of a batch of key derivations -/

/-- C6, amended. `K ≥ 1` key derivation items share one outstanding counter and
one no-outstanding event. In every interleaving of the atomic actions of the `K`
calls of `EncryptionThreadPoolBeginKeyDerivation` (increment, clear) and of the
workers' completions (flag, completion event, decrement, set on zero) that
starts with the counter at 0 and runs every item to its end, the no-outstanding
event is set at least once and at most `K` times, and the last effect of all is
a set of it, after the `K` completion events. When the `K` items are all ready
before the first is completed (the counter is `K`), it is set exactly once, and
that set is the last effect, after the `K` completion events. -/
theorem kdf_batch_completion (b : KdfBatch)
    (hflag : ∀ i, b.completionFlag i ≠ b.outstandingWorkItemCount)
    (hev : ∀ i, b.completionEvent i ≠ b.noOutstandingWorkItemEvent)
    (K : Nat) (hK : 1 ≤ K) (w0 : World) (htrace : w0.trace = []) (schedule : List Nat) :
    (w0.longs b.outstandingWorkItemCount = 0 →
      (∀ q ∈ (kdfRun b schedule (w0, List.replicate K .notBegun)).2, q.isFinished = true) →
      (kdfRun b schedule (w0, List.replicate K .notBegun)).1.trace.getLast?
        = some (Effect.setEvent b.noOutstandingWorkItemEvent) ∧
      (∀ i < K, Effect.setEvent (b.completionEvent i)
        ∈ (kdfRun b schedule (w0, List.replicate K .notBegun)).1.trace) ∧
      1 ≤ (kdfRun b schedule (w0, List.replicate K .notBegun)).1.trace.count
        (Effect.setEvent b.noOutstandingWorkItemEvent) ∧
      (kdfRun b schedule (w0, List.replicate K .notBegun)).1.trace.count
        (Effect.setEvent b.noOutstandingWorkItemEvent) ≤ K) ∧
    (w0.longs b.outstandingWorkItemCount = K →
      (∀ q ∈ (kdfRun b schedule (w0, List.replicate K .ready)).2, q.isFinished = true) →
      (kdfRun b schedule (w0, List.replicate K .ready)).1.trace.getLast?
        = some (Effect.setEvent b.noOutstandingWorkItemEvent) ∧
      (∀ i < K, Effect.setEvent (b.completionEvent i)
        ∈ (kdfRun b schedule (w0, List.replicate K .ready)).1.trace) ∧
      (kdfRun b schedule (w0, List.replicate K .ready)).1.trace.count
        (Effect.setEvent b.noOutstandingWorkItemEvent) = 1) := by
  have hcompleted : ∀ (s : World × List KdfPc), s.2.length = K →
      (∀ q ∈ s.2, q.isFinished = true) → KdfCompletedInv b s →
      ∀ i < K, Effect.setEvent (b.completionEvent i) ∈ s.1.trace := by
    intro s hlen hfin hinv i hi
    have hi' : i < s.2.length := by omega
    have hq := hfin _ (List.getElem_mem hi')
    apply hinv i s.2[i] (List.getElem?_eq_getElem hi')
    generalize s.2[i] = q at hq
    cases q <;> simp_all [KdfPc.isFinished, KdfPc.hasCompleted]
  constructor
  · intro hcount hfin
    have hinit : KdfInv b 0 (w0, List.replicate K .notBegun) := by
      refine ⟨?_, ?_, ?_⟩
      · simp [hcount, List.countP_replicate, KdfPc.hasIncremented, KdfPc.hasDecremented]
      · simp [htrace, List.countP_replicate, KdfPc.hasSet]
      · intro h
        simp [List.countP_replicate, KdfPc.notDecremented, KdfPc.hasDecremented] at h
        omega
    have hinitE : KdfCompletedInv b (w0, List.replicate K .notBegun) := by
      intro i pc hpc hc
      simp only [List.getElem?_replicate] at hpc
      split_ifs at hpc
      simp only [Option.some.injEq] at hpc
      subst hpc
      simp [KdfPc.hasCompleted] at hc
    obtain ⟨-, hB, hC⟩ := kdfRun_inv b hflag hev 0 schedule _ hinit
    have hE := kdfRun_completed_inv b schedule _ hinitE
    have hlen := kdfRun_length b schedule (w0, List.replicate K .notBegun)
    simp only [List.length_replicate] at hlen
    obtain ⟨h5, h6⟩ := kdf_counts_finished _ hfin
    have hk := kdf_counts (kdfRun b schedule (w0, List.replicate K .notBegun)).2
    have hlast : (kdfRun b schedule (w0, List.replicate K .notBegun)).1.trace.getLast?
        = some (Effect.setEvent b.noOutstandingWorkItemEvent) := by
      rcases hC h5 with h | h
      · omega
      · exact h
    have hpos := List.count_pos_iff.mpr (List.mem_of_getLast?_eq_some hlast)
    exact ⟨hlast, hcompleted _ hlen hfin hE, by omega, by omega⟩
  · intro hcount hfin
    have hinit : KdfInv b 0 (w0, List.replicate K .ready) := by
      refine ⟨?_, ?_, ?_⟩
      · simp [hcount, List.countP_replicate, KdfPc.hasIncremented, KdfPc.hasDecremented]
      · simp [htrace, List.countP_replicate, KdfPc.hasSet]
      · intro h
        simp [List.countP_replicate, KdfPc.notDecremented, KdfPc.hasDecremented] at h
        omega
    have hinitD : KdfBatchInv (w0, List.replicate K .ready) := by
      refine ⟨?_, ?_⟩
      · simp [List.countP_replicate, KdfPc.notReady]
      · simp only [List.countP_replicate, KdfPc.notDecremented, KdfPc.hasDecremented, KdfPc.setPending,
          KdfPc.hasSet, Bool.not_false, if_true, if_false, Bool.false_eq_true]
        rw [if_neg (by omega)]
    have hinitE : KdfCompletedInv b (w0, List.replicate K .ready) := by
      intro i pc hpc hc
      simp only [List.getElem?_replicate] at hpc
      split_ifs at hpc
      simp only [Option.some.injEq] at hpc
      subst hpc
      simp [KdfPc.hasCompleted] at hc
    obtain ⟨-, hB, hC⟩ := kdfRun_inv b hflag hev 0 schedule _ hinit
    obtain ⟨-, hD⟩ := kdfRun_batch_inv b hflag hev 0 schedule _ hinit hinitD
    have hE := kdfRun_completed_inv b schedule _ hinitE
    have hlen := kdfRun_length b schedule (w0, List.replicate K .ready)
    simp only [List.length_replicate] at hlen
    obtain ⟨h5, h6⟩ := kdf_counts_finished _ hfin
    have hlast : (kdfRun b schedule (w0, List.replicate K .ready)).1.trace.getLast?
        = some (Effect.setEvent b.noOutstandingWorkItemEvent) := by
      rcases hC h5 with h | h
      · omega
      · exact h
    rw [if_pos h5] at hD
    exact ⟨hlast, hcompleted _ hlen hfin hE, by omega⟩

set_option maxRecDepth 100000 in
/-- C6 as stated fails. Two items; the first is enqueued and completed before
the second is enqueued: the no-outstanding event is set twice, the first time
before the completion event of the second item. -/
theorem kdf_batch_completion_counterexample :
    (kdfRun KdfBatch.sample [0, 0, 0, 0, 0, 0, 0, 1, 1, 1, 1, 1, 1, 1]
        (World.initial, [.notBegun, .notBegun])).2 = [.finished true, .finished true] ∧
    (kdfRun KdfBatch.sample [0, 0, 0, 0, 0, 0, 0, 1, 1, 1, 1, 1, 1, 1]
        (World.initial, [.notBegun, .notBegun])).1.trace
      = [Effect.clearEvent 0, Effect.setEvent 1, Effect.setEvent 0,
         Effect.clearEvent 0, Effect.setEvent 2, Effect.setEvent 0] ∧
    (kdfRun KdfBatch.sample [0, 0, 0, 0, 0, 0, 0, 1, 1, 1, 1, 1, 1, 1]
        (World.initial, [.notBegun, .notBegun])).1.trace.count (Effect.setEvent 0) = 2 := by
  decide

set_option maxRecDepth 100000 in
/-- C6, amended, on two items: calls and completions interleaved from the
counter at 0, and completions interleaved from the counter at 2. -/
theorem kdf_batch_completion_witness :
    ((∀ i, KdfBatch.sample.completionFlag i ≠ KdfBatch.sample.outstandingWorkItemCount) ∧
      (∀ i, KdfBatch.sample.completionEvent i ≠ KdfBatch.sample.noOutstandingWorkItemEvent) ∧
      1 ≤ 2 ∧ World.initial.trace = [] ∧ World.batchReady.trace = [] ∧
      World.initial.longs KdfBatch.sample.outstandingWorkItemCount = 0 ∧
      World.batchReady.longs KdfBatch.sample.outstandingWorkItemCount = (2 : Nat) ∧
      (∀ q ∈ (kdfRun KdfBatch.sample [0, 1, 0, 1, 0, 1, 0, 0, 0, 0, 1, 1, 1, 1]
        (World.initial, List.replicate 2 .notBegun)).2, q.isFinished = true) ∧
      (∀ q ∈ (kdfRun KdfBatch.sample [0, 1, 1, 0, 0, 1, 1, 0]
        (World.batchReady, List.replicate 2 .ready)).2, q.isFinished = true)) ∧
    ((kdfRun KdfBatch.sample [0, 1, 0, 1, 0, 1, 0, 0, 0, 0, 1, 1, 1, 1]
        (World.initial, List.replicate 2 .notBegun)).1.trace.getLast?
        = some (Effect.setEvent KdfBatch.sample.noOutstandingWorkItemEvent) ∧
      (∀ i < 2, Effect.setEvent (KdfBatch.sample.completionEvent i)
        ∈ (kdfRun KdfBatch.sample [0, 1, 0, 1, 0, 1, 0, 0, 0, 0, 1, 1, 1, 1]
          (World.initial, List.replicate 2 .notBegun)).1.trace) ∧
      1 ≤ (kdfRun KdfBatch.sample [0, 1, 0, 1, 0, 1, 0, 0, 0, 0, 1, 1, 1, 1]
        (World.initial, List.replicate 2 .notBegun)).1.trace.count
        (Effect.setEvent KdfBatch.sample.noOutstandingWorkItemEvent) ∧
      (kdfRun KdfBatch.sample [0, 1, 0, 1, 0, 1, 0, 0, 0, 0, 1, 1, 1, 1]
        (World.initial, List.replicate 2 .notBegun)).1.trace.count
        (Effect.setEvent KdfBatch.sample.noOutstandingWorkItemEvent) ≤ 2) ∧
    ((kdfRun KdfBatch.sample [0, 1, 1, 0, 0, 1, 1, 0]
        (World.batchReady, List.replicate 2 .ready)).1.trace.getLast?
        = some (Effect.setEvent KdfBatch.sample.noOutstandingWorkItemEvent) ∧
      (∀ i < 2, Effect.setEvent (KdfBatch.sample.completionEvent i)
        ∈ (kdfRun KdfBatch.sample [0, 1, 1, 0, 0, 1, 1, 0]
          (World.batchReady, List.replicate 2 .ready)).1.trace) ∧
      (kdfRun KdfBatch.sample [0, 1, 1, 0, 0, 1, 1, 0]
        (World.batchReady, List.replicate 2 .ready)).1.trace.count
        (Effect.setEvent KdfBatch.sample.noOutstandingWorkItemEvent) = 1) :=
  ⟨⟨fun i => Nat.succ_ne_zero i, fun i => Nat.succ_ne_zero i, by decide, rfl, rfl, rfl, rfl,
      by decide, by decide⟩,
    (kdf_batch_completion KdfBatch.sample (fun i => Nat.succ_ne_zero i) (fun i => Nat.succ_ne_zero i)
      2 (by decide) World.initial rfl [0, 1, 0, 1, 0, 1, 0, 0, 0, 0, 1, 1, 1, 1]).1 rfl (by decide),
    (kdf_batch_completion KdfBatch.sample (fun i => Nat.succ_ne_zero i) (fun i => Nat.succ_ne_zero i)
      2 (by decide) World.batchReady rfl [0, 1, 1, 0, 0, 1, 1, 0]).2 rfl (by decide)⟩

/-! ## Frame lemmas for the system of threads -/

theorem Pool.setItem_queue (p : Pool) (i : Nat) (w : WorkItem) (k : Nat) :
    (p.setItem i w).WorkItemQueue k = if k = i then w else p.WorkItemQueue k := by
  simp [Pool.setItem, Function.update_apply]

@[simp]
theorem Pool.setItem_size (p : Pool) (i : Nat) (w : WorkItem) :
    (p.setItem i w).ThreadQueueSize = p.ThreadQueueSize := rfl

@[simp]
theorem Pool.setItem_threadCount (p : Pool) (i : Nat) (w : WorkItem) :
    (p.setItem i w).ThreadCount = p.ThreadCount := rfl

@[simp]
theorem Pool.setItem_enqueuePosition (p : Pool) (i : Nat) (w : WorkItem) :
    (p.setItem i w).EnqueuePosition = p.EnqueuePosition := rfl

theorem SetWorkItemState_queue (p : Pool) (i : Nat) (st : WorkItemState) (k : Nat) :
    (SetWorkItemState p i st).WorkItemQueue k
      = if k = i then { p.WorkItemQueue i with State := st } else p.WorkItemQueue k := by
  simp [SetWorkItemState, Pool.setItem_queue]

@[simp]
theorem SetWorkItemState_size (p : Pool) (i : Nat) (st : WorkItemState) :
    (SetWorkItemState p i st).ThreadQueueSize = p.ThreadQueueSize := rfl

@[simp]
theorem SetWorkItemState_threadCount (p : Pool) (i : Nat) (st : WorkItemState) :
    (SetWorkItemState p i st).ThreadCount = p.ThreadCount := rfl

@[simp]
theorem SetWorkItemState_enqueuePosition (p : Pool) (i : Nat) (st : WorkItemState) :
    (SetWorkItemState p i st).EnqueuePosition = p.EnqueuePosition := rfl

theorem Pool.setCount_queue (p : Pool) (i : Nat) (n : Int) (k : Nat) :
    (p.setCount i n).WorkItemQueue k
      = if k = i then { p.WorkItemQueue i with OutstandingFragmentCount := n }
        else p.WorkItemQueue k := by
  simp [Pool.setCount, Pool.setItem_queue]

@[simp]
theorem Pool.setCount_size (p : Pool) (i : Nat) (n : Int) :
    (p.setCount i n).ThreadQueueSize = p.ThreadQueueSize := rfl

@[simp]
theorem Pool.setCount_threadCount (p : Pool) (i : Nat) (n : Int) :
    (p.setCount i n).ThreadCount = p.ThreadCount := rfl

@[simp]
theorem Pool.setCount_enqueuePosition (p : Pool) (i : Nat) (n : Int) :
    (p.setCount i n).EnqueuePosition = p.EnqueuePosition := rfl

theorem Pool.setItemEvent_queue (p : Pool) (i : Nat) (e : EventHandle) (k : Nat) :
    (p.setItemEvent i e).WorkItemQueue k
      = if k = i then { p.WorkItemQueue i with ItemCompletedEvent := e }
        else p.WorkItemQueue k := by
  simp [Pool.setItemEvent, Pool.setItem_queue]

@[simp]
theorem Pool.setItemEvent_size (p : Pool) (i : Nat) (e : EventHandle) :
    (p.setItemEvent i e).ThreadQueueSize = p.ThreadQueueSize := rfl

@[simp]
theorem Pool.setItemEvent_threadCount (p : Pool) (i : Nat) (e : EventHandle) :
    (p.setItemEvent i e).ThreadCount = p.ThreadCount := rfl

@[simp]
theorem Pool.setItemEvent_enqueuePosition (p : Pool) (i : Nat) (e : EventHandle) :
    (p.setItemEvent i e).EnqueuePosition = p.EnqueuePosition := rfl

theorem Pool.fillSimple_queue (p : Pool) (i : Nat) (type : EncryptionThreadPoolWorkType)
    (payload : Payload) (k : Nat) :
    (p.fillSimple i type payload).WorkItemQueue k
      = if k = i then { p.WorkItemQueue i with WorkType := type, payload := payload }
        else p.WorkItemQueue k := by
  simp [Pool.fillSimple, Pool.setItem_queue]

@[simp]
theorem Pool.fillSimple_size (p : Pool) (i : Nat) (type : EncryptionThreadPoolWorkType)
    (payload : Payload) : (p.fillSimple i type payload).ThreadQueueSize = p.ThreadQueueSize := rfl

@[simp]
theorem Pool.fillSimple_threadCount (p : Pool) (i : Nat) (type : EncryptionThreadPoolWorkType)
    (payload : Payload) : (p.fillSimple i type payload).ThreadCount = p.ThreadCount := rfl

@[simp]
theorem Pool.fillSimple_enqueuePosition (p : Pool) (i : Nat)
    (type : EncryptionThreadPoolWorkType) (payload : Payload) :
    (p.fillSimple i type payload).EnqueuePosition = p.EnqueuePosition := rfl

theorem Pool.fillFragment_queue (p : Pool) (i : Nat) (type : EncryptionThreadPoolWorkType)
    (first cryptoInfo : Nat) (f : Fragment) (k : Nat) :
    (p.fillFragment i type first cryptoInfo f).WorkItemQueue k
      = if k = i then { p.WorkItemQueue i with
                          WorkType := type
                          FirstFragment := some first
                          payload := .Encryption cryptoInfo f.Data f.StartUnitNo f.UnitCount }
        else p.WorkItemQueue k := by
  simp [Pool.fillFragment, Pool.setItem_queue]

@[simp]
theorem Pool.fillFragment_size (p : Pool) (i : Nat) (type : EncryptionThreadPoolWorkType)
    (first cryptoInfo : Nat) (f : Fragment) :
    (p.fillFragment i type first cryptoInfo f).ThreadQueueSize = p.ThreadQueueSize := rfl

@[simp]
theorem Pool.fillFragment_threadCount (p : Pool) (i : Nat)
    (type : EncryptionThreadPoolWorkType) (first cryptoInfo : Nat) (f : Fragment) :
    (p.fillFragment i type first cryptoInfo f).ThreadCount = p.ThreadCount := rfl

@[simp]
theorem Pool.fillFragment_enqueuePosition (p : Pool) (i : Nat)
    (type : EncryptionThreadPoolWorkType) (first cryptoInfo : Nat) (f : Fragment) :
    (p.fillFragment i type first cryptoInfo f).EnqueuePosition = p.EnqueuePosition := rfl

theorem Pool.freeWorkItem_queue (p : Pool) (i k : Nat) :
    (p.freeWorkItem i).WorkItemQueue k
      = if k = i then { p.WorkItemQueue i with State := .WorkItemFree } else p.WorkItemQueue k := by
  simp [Pool.freeWorkItem, SetWorkItemState_queue]

@[simp]
theorem Pool.freeWorkItem_size (p : Pool) (i : Nat) :
    (p.freeWorkItem i).ThreadQueueSize = p.ThreadQueueSize := rfl

@[simp]
theorem Pool.freeWorkItem_threadCount (p : Pool) (i : Nat) :
    (p.freeWorkItem i).ThreadCount = p.ThreadCount := rfl

@[simp]
theorem Pool.freeWorkItem_enqueuePosition (p : Pool) (i : Nat) :
    (p.freeWorkItem i).EnqueuePosition = p.EnqueuePosition := rfl

theorem publishWorkItem_queue (p : Pool) (i k : Nat) :
    (publishWorkItem p i).WorkItemQueue k
      = if k = i then { p.WorkItemQueue i with State := .WorkItemReady }
        else p.WorkItemQueue k := by
  simp [publishWorkItem, SetWorkItemState_queue]

@[simp]
theorem publishWorkItem_size (p : Pool) (i : Nat) :
    (publishWorkItem p i).ThreadQueueSize = p.ThreadQueueSize := rfl

@[simp]
theorem publishWorkItem_threadCount (p : Pool) (i : Nat) :
    (publishWorkItem p i).ThreadCount = p.ThreadCount := rfl

@[simp]
theorem publishWorkItem_enqueuePosition (p : Pool) (i : Nat) :
    (publishWorkItem p i).EnqueuePosition = p.EnqueuePosition := rfl

@[simp]
theorem SetWorkItemState_State (p : Pool) (i : Nat) (st : WorkItemState) (k : Nat) :
    ((SetWorkItemState p i st).WorkItemQueue k).State = if k = i then st else (p.WorkItemQueue k).State := by
  rw [SetWorkItemState_queue]; split_ifs <;> rfl

@[simp]
theorem SetWorkItemState_WorkType (p : Pool) (i : Nat) (st : WorkItemState) (k : Nat) :
    ((SetWorkItemState p i st).WorkItemQueue k).WorkType = (p.WorkItemQueue k).WorkType := by
  rw [SetWorkItemState_queue]; split_ifs with hk
  · subst hk; rfl
  · rfl

@[simp]
theorem SetWorkItemState_FirstFragment (p : Pool) (i : Nat) (st : WorkItemState) (k : Nat) :
    ((SetWorkItemState p i st).WorkItemQueue k).FirstFragment = (p.WorkItemQueue k).FirstFragment := by
  rw [SetWorkItemState_queue]; split_ifs with hk
  · subst hk; rfl
  · rfl

@[simp]
theorem SetWorkItemState_OutstandingFragmentCount (p : Pool) (i : Nat) (st : WorkItemState) (k : Nat) :
    ((SetWorkItemState p i st).WorkItemQueue k).OutstandingFragmentCount = (p.WorkItemQueue k).OutstandingFragmentCount := by
  rw [SetWorkItemState_queue]; split_ifs with hk
  · subst hk; rfl
  · rfl

@[simp]
theorem SetWorkItemState_ItemCompletedEvent (p : Pool) (i : Nat) (st : WorkItemState) (k : Nat) :
    ((SetWorkItemState p i st).WorkItemQueue k).ItemCompletedEvent = (p.WorkItemQueue k).ItemCompletedEvent := by
  rw [SetWorkItemState_queue]; split_ifs with hk
  · subst hk; rfl
  · rfl

@[simp]
theorem Pool.setCount_State (p : Pool) (i : Nat) (n : Int) (k : Nat) :
    ((p.setCount i n).WorkItemQueue k).State = (p.WorkItemQueue k).State := by
  rw [Pool.setCount_queue]; split_ifs with hk
  · subst hk; rfl
  · rfl

@[simp]
theorem Pool.setCount_WorkType (p : Pool) (i : Nat) (n : Int) (k : Nat) :
    ((p.setCount i n).WorkItemQueue k).WorkType = (p.WorkItemQueue k).WorkType := by
  rw [Pool.setCount_queue]; split_ifs with hk
  · subst hk; rfl
  · rfl

@[simp]
theorem Pool.setCount_FirstFragment (p : Pool) (i : Nat) (n : Int) (k : Nat) :
    ((p.setCount i n).WorkItemQueue k).FirstFragment = (p.WorkItemQueue k).FirstFragment := by
  rw [Pool.setCount_queue]; split_ifs with hk
  · subst hk; rfl
  · rfl

@[simp]
theorem Pool.setCount_OutstandingFragmentCount (p : Pool) (i : Nat) (n : Int) (k : Nat) :
    ((p.setCount i n).WorkItemQueue k).OutstandingFragmentCount = if k = i then n else (p.WorkItemQueue k).OutstandingFragmentCount := by
  rw [Pool.setCount_queue]; split_ifs <;> rfl

@[simp]
theorem Pool.setCount_ItemCompletedEvent (p : Pool) (i : Nat) (n : Int) (k : Nat) :
    ((p.setCount i n).WorkItemQueue k).ItemCompletedEvent = (p.WorkItemQueue k).ItemCompletedEvent := by
  rw [Pool.setCount_queue]; split_ifs with hk
  · subst hk; rfl
  · rfl

@[simp]
theorem Pool.setItemEvent_State (p : Pool) (i : Nat) (e : EventHandle) (k : Nat) :
    ((p.setItemEvent i e).WorkItemQueue k).State = (p.WorkItemQueue k).State := by
  rw [Pool.setItemEvent_queue]; split_ifs with hk
  · subst hk; rfl
  · rfl

@[simp]
theorem Pool.setItemEvent_WorkType (p : Pool) (i : Nat) (e : EventHandle) (k : Nat) :
    ((p.setItemEvent i e).WorkItemQueue k).WorkType = (p.WorkItemQueue k).WorkType := by
  rw [Pool.setItemEvent_queue]; split_ifs with hk
  · subst hk; rfl
  · rfl

@[simp]
theorem Pool.setItemEvent_FirstFragment (p : Pool) (i : Nat) (e : EventHandle) (k : Nat) :
    ((p.setItemEvent i e).WorkItemQueue k).FirstFragment = (p.WorkItemQueue k).FirstFragment := by
  rw [Pool.setItemEvent_queue]; split_ifs with hk
  · subst hk; rfl
  · rfl

@[simp]
theorem Pool.setItemEvent_OutstandingFragmentCount (p : Pool) (i : Nat) (e : EventHandle) (k : Nat) :
    ((p.setItemEvent i e).WorkItemQueue k).OutstandingFragmentCount = (p.WorkItemQueue k).OutstandingFragmentCount := by
  rw [Pool.setItemEvent_queue]; split_ifs with hk
  · subst hk; rfl
  · rfl

@[simp]
theorem Pool.setItemEvent_ItemCompletedEvent (p : Pool) (i : Nat) (e : EventHandle) (k : Nat) :
    ((p.setItemEvent i e).WorkItemQueue k).ItemCompletedEvent = if k = i then e else (p.WorkItemQueue k).ItemCompletedEvent := by
  rw [Pool.setItemEvent_queue]; split_ifs <;> rfl

@[simp]
theorem Pool.fillSimple_State (p : Pool) (i : Nat) (type : EncryptionThreadPoolWorkType) (payload : Payload) (k : Nat) :
    ((p.fillSimple i type payload).WorkItemQueue k).State = (p.WorkItemQueue k).State := by
  rw [Pool.fillSimple_queue]; split_ifs with hk
  · subst hk; rfl
  · rfl

@[simp]
theorem Pool.fillSimple_WorkType (p : Pool) (i : Nat) (type : EncryptionThreadPoolWorkType) (payload : Payload) (k : Nat) :
    ((p.fillSimple i type payload).WorkItemQueue k).WorkType = if k = i then type else (p.WorkItemQueue k).WorkType := by
  rw [Pool.fillSimple_queue]; split_ifs <;> rfl

@[simp]
theorem Pool.fillSimple_FirstFragment (p : Pool) (i : Nat) (type : EncryptionThreadPoolWorkType) (payload : Payload) (k : Nat) :
    ((p.fillSimple i type payload).WorkItemQueue k).FirstFragment = (p.WorkItemQueue k).FirstFragment := by
  rw [Pool.fillSimple_queue]; split_ifs with hk
  · subst hk; rfl
  · rfl

@[simp]
theorem Pool.fillSimple_OutstandingFragmentCount (p : Pool) (i : Nat) (type : EncryptionThreadPoolWorkType) (payload : Payload) (k : Nat) :
    ((p.fillSimple i type payload).WorkItemQueue k).OutstandingFragmentCount = (p.WorkItemQueue k).OutstandingFragmentCount := by
  rw [Pool.fillSimple_queue]; split_ifs with hk
  · subst hk; rfl
  · rfl

@[simp]
theorem Pool.fillSimple_ItemCompletedEvent (p : Pool) (i : Nat) (type : EncryptionThreadPoolWorkType) (payload : Payload) (k : Nat) :
    ((p.fillSimple i type payload).WorkItemQueue k).ItemCompletedEvent = (p.WorkItemQueue k).ItemCompletedEvent := by
  rw [Pool.fillSimple_queue]; split_ifs with hk
  · subst hk; rfl
  · rfl

@[simp]
theorem Pool.fillFragment_State (p : Pool) (i : Nat) (type : EncryptionThreadPoolWorkType) (first cryptoInfo : Nat) (f : Fragment) (k : Nat) :
    ((p.fillFragment i type first cryptoInfo f).WorkItemQueue k).State = (p.WorkItemQueue k).State := by
  rw [Pool.fillFragment_queue]; split_ifs with hk
  · subst hk; rfl
  · rfl

@[simp]
theorem Pool.fillFragment_WorkType (p : Pool) (i : Nat) (type : EncryptionThreadPoolWorkType) (first cryptoInfo : Nat) (f : Fragment) (k : Nat) :
    ((p.fillFragment i type first cryptoInfo f).WorkItemQueue k).WorkType = if k = i then type else (p.WorkItemQueue k).WorkType := by
  rw [Pool.fillFragment_queue]; split_ifs <;> rfl

@[simp]
theorem Pool.fillFragment_FirstFragment (p : Pool) (i : Nat) (type : EncryptionThreadPoolWorkType) (first cryptoInfo : Nat) (f : Fragment) (k : Nat) :
    ((p.fillFragment i type first cryptoInfo f).WorkItemQueue k).FirstFragment = if k = i then some first else (p.WorkItemQueue k).FirstFragment := by
  rw [Pool.fillFragment_queue]; split_ifs <;> rfl

@[simp]
theorem Pool.fillFragment_OutstandingFragmentCount (p : Pool) (i : Nat) (type : EncryptionThreadPoolWorkType) (first cryptoInfo : Nat) (f : Fragment) (k : Nat) :
    ((p.fillFragment i type first cryptoInfo f).WorkItemQueue k).OutstandingFragmentCount = (p.WorkItemQueue k).OutstandingFragmentCount := by
  rw [Pool.fillFragment_queue]; split_ifs with hk
  · subst hk; rfl
  · rfl

@[simp]
theorem Pool.fillFragment_ItemCompletedEvent (p : Pool) (i : Nat) (type : EncryptionThreadPoolWorkType) (first cryptoInfo : Nat) (f : Fragment) (k : Nat) :
    ((p.fillFragment i type first cryptoInfo f).WorkItemQueue k).ItemCompletedEvent = (p.WorkItemQueue k).ItemCompletedEvent := by
  rw [Pool.fillFragment_queue]; split_ifs with hk
  · subst hk; rfl
  · rfl

@[simp]
theorem Pool.freeWorkItem_State (p : Pool) (i : Nat)  (k : Nat) :
    ((p.freeWorkItem i).WorkItemQueue k).State = if k = i then .WorkItemFree else (p.WorkItemQueue k).State := by
  rw [Pool.freeWorkItem_queue]; split_ifs <;> rfl

@[simp]
theorem Pool.freeWorkItem_WorkType (p : Pool) (i : Nat)  (k : Nat) :
    ((p.freeWorkItem i).WorkItemQueue k).WorkType = (p.WorkItemQueue k).WorkType := by
  rw [Pool.freeWorkItem_queue]; split_ifs with hk
  · subst hk; rfl
  · rfl

@[simp]
theorem Pool.freeWorkItem_FirstFragment (p : Pool) (i : Nat)  (k : Nat) :
    ((p.freeWorkItem i).WorkItemQueue k).FirstFragment = (p.WorkItemQueue k).FirstFragment := by
  rw [Pool.freeWorkItem_queue]; split_ifs with hk
  · subst hk; rfl
  · rfl

@[simp]
theorem Pool.freeWorkItem_OutstandingFragmentCount (p : Pool) (i : Nat)  (k : Nat) :
    ((p.freeWorkItem i).WorkItemQueue k).OutstandingFragmentCount = (p.WorkItemQueue k).OutstandingFragmentCount := by
  rw [Pool.freeWorkItem_queue]; split_ifs with hk
  · subst hk; rfl
  · rfl

@[simp]
theorem Pool.freeWorkItem_ItemCompletedEvent (p : Pool) (i : Nat)  (k : Nat) :
    ((p.freeWorkItem i).WorkItemQueue k).ItemCompletedEvent = (p.WorkItemQueue k).ItemCompletedEvent := by
  rw [Pool.freeWorkItem_queue]; split_ifs with hk
  · subst hk; rfl
  · rfl

@[simp]
theorem publishWorkItem_State (p : Pool) (i : Nat)  (k : Nat) :
    ((publishWorkItem p i).WorkItemQueue k).State = if k = i then .WorkItemReady else (p.WorkItemQueue k).State := by
  rw [publishWorkItem_queue]; split_ifs <;> rfl

@[simp]
theorem publishWorkItem_WorkType (p : Pool) (i : Nat)  (k : Nat) :
    ((publishWorkItem p i).WorkItemQueue k).WorkType = (p.WorkItemQueue k).WorkType := by
  rw [publishWorkItem_queue]; split_ifs with hk
  · subst hk; rfl
  · rfl

@[simp]
theorem publishWorkItem_FirstFragment (p : Pool) (i : Nat)  (k : Nat) :
    ((publishWorkItem p i).WorkItemQueue k).FirstFragment = (p.WorkItemQueue k).FirstFragment := by
  rw [publishWorkItem_queue]; split_ifs with hk
  · subst hk; rfl
  · rfl

@[simp]
theorem publishWorkItem_OutstandingFragmentCount (p : Pool) (i : Nat)  (k : Nat) :
    ((publishWorkItem p i).WorkItemQueue k).OutstandingFragmentCount = (p.WorkItemQueue k).OutstandingFragmentCount := by
  rw [publishWorkItem_queue]; split_ifs with hk
  · subst hk; rfl
  · rfl

@[simp]
theorem publishWorkItem_ItemCompletedEvent (p : Pool) (i : Nat)  (k : Nat) :
    ((publishWorkItem p i).WorkItemQueue k).ItemCompletedEvent = (p.WorkItemQueue k).ItemCompletedEvent := by
  rw [publishWorkItem_queue]; split_ifs with hk
  · subst hk; rfl
  · rfl

@[simp]
theorem SetWorkItemState_payload (p : Pool) (i : Nat) (st : WorkItemState) (k : Nat) :
    ((SetWorkItemState p i st).WorkItemQueue k).payload = (p.WorkItemQueue k).payload := by
  rw [SetWorkItemState_queue]; split_ifs with hk
  · subst hk; rfl
  · rfl

@[simp]
theorem Pool.setCount_payload (p : Pool) (i : Nat) (n : Int) (k : Nat) :
    ((p.setCount i n).WorkItemQueue k).payload = (p.WorkItemQueue k).payload := by
  rw [Pool.setCount_queue]; split_ifs with hk
  · subst hk; rfl
  · rfl

@[simp]
theorem Pool.setItemEvent_payload (p : Pool) (i : Nat) (e : EventHandle) (k : Nat) :
    ((p.setItemEvent i e).WorkItemQueue k).payload = (p.WorkItemQueue k).payload := by
  rw [Pool.setItemEvent_queue]; split_ifs with hk
  · subst hk; rfl
  · rfl

@[simp]
theorem Pool.fillSimple_payload (p : Pool) (i : Nat) (type : EncryptionThreadPoolWorkType) (payload : Payload) (k : Nat) :
    ((p.fillSimple i type payload).WorkItemQueue k).payload = if k = i then payload else (p.WorkItemQueue k).payload := by
  rw [Pool.fillSimple_queue]; split_ifs <;> rfl

@[simp]
theorem Pool.fillFragment_payload (p : Pool) (i : Nat) (type : EncryptionThreadPoolWorkType) (first cryptoInfo : Nat) (f : Fragment) (k : Nat) :
    ((p.fillFragment i type first cryptoInfo f).WorkItemQueue k).payload = if k = i then .Encryption cryptoInfo f.Data f.StartUnitNo f.UnitCount else (p.WorkItemQueue k).payload := by
  rw [Pool.fillFragment_queue]; split_ifs <;> rfl

@[simp]
theorem Pool.freeWorkItem_payload (p : Pool) (i : Nat)  (k : Nat) :
    ((p.freeWorkItem i).WorkItemQueue k).payload = (p.WorkItemQueue k).payload := by
  rw [Pool.freeWorkItem_queue]; split_ifs with hk
  · subst hk; rfl
  · rfl

@[simp]
theorem publishWorkItem_payload (p : Pool) (i : Nat)  (k : Nat) :
    ((publishWorkItem p i).WorkItemQueue k).payload = (p.WorkItemQueue k).payload := by
  rw [publishWorkItem_queue]; split_ifs with hk
  · subst hk; rfl
  · rfl

@[simp]
theorem Pool.advanceDequeue_queue (p : Pool) :
    p.advanceDequeue.WorkItemQueue = p.WorkItemQueue := rfl

@[simp]
theorem Pool.advanceDequeue_size (p : Pool) :
    p.advanceDequeue.ThreadQueueSize = p.ThreadQueueSize := rfl

@[simp]
theorem Pool.advanceDequeue_threadCount (p : Pool) :
    p.advanceDequeue.ThreadCount = p.ThreadCount := rfl

@[simp]
theorem Pool.advanceDequeue_enqueuePosition (p : Pool) :
    p.advanceDequeue.EnqueuePosition = p.EnqueuePosition := rfl

@[simp]
theorem claimEnqueueSlot_fst (p : Pool) : (claimEnqueueSlot p).1 = p.EnqueuePosition := rfl

theorem claimEnqueueSlot_queue (p : Pool) :
    (claimEnqueueSlot p).2.WorkItemQueue = p.WorkItemQueue := rfl

@[simp]
theorem claimEnqueueSlot_size (p : Pool) :
    (claimEnqueueSlot p).2.ThreadQueueSize = p.ThreadQueueSize := rfl

@[simp]
theorem claimEnqueueSlot_threadCount (p : Pool) :
    (claimEnqueueSlot p).2.ThreadCount = p.ThreadCount := rfl

theorem claimEnqueueSlot_enqueuePosition (p : Pool) :
    (claimEnqueueSlot p).2.EnqueuePosition
      = if p.EnqueuePosition + 1 ≥ p.ThreadQueueSize then 0 else p.EnqueuePosition + 1 := rfl

/-- The cursor after a claim is the next ticket modulo the queue size. -/
theorem claimEnqueueSlot_cursor (p : Pool) (t : Nat) (hq : 0 < p.ThreadQueueSize)
    (h : p.EnqueuePosition = t % p.ThreadQueueSize) :
    (claimEnqueueSlot p).2.EnqueuePosition = (t + 1) % p.ThreadQueueSize := by
  rw [claimEnqueueSlot_enqueuePosition, h]
  have hlt := Nat.mod_lt t hq
  have e0 : (t + 1) % p.ThreadQueueSize = (t % p.ThreadQueueSize + 1) % p.ThreadQueueSize :=
    (Nat.mod_add_mod t p.ThreadQueueSize 1).symm
  rw [e0]
  split_ifs with hc
  · have e : t % p.ThreadQueueSize + 1 = p.ThreadQueueSize := by omega
    rw [e, Nat.mod_self]
  · exact (Nat.mod_eq_of_lt (by omega)).symm

/-- Two tickets less than a queue size apart name different slots. -/
theorem slot_ne (a b q : Nat) (hab : a < b) (hb : b < a + q) : a % q ≠ b % q := by
  intro h
  have h1 := Nat.mod_add_div a q
  have h2 := Nat.mod_add_div b q
  have hq : 0 < q := by omega
  have : b / q = a / q ∨ b / q ≥ a / q + 1 ∨ b / q + 1 ≤ a / q := by omega
  rcases this with e | e | e
  · rw [e, ← h] at h2; omega
  · have : q * (a / q + 1) ≤ q * (b / q) := Nat.mul_le_mul_left _ e
    have hlt := Nat.mod_lt a hq
    have hlt2 := Nat.mod_lt b hq
    rw [Nat.mul_add] at this
    omega
  · have : q * (b / q + 1) ≤ q * (a / q) := Nat.mul_le_mul_left _ e
    rw [Nat.mul_add] at this
    have hlt2 := Nat.mod_lt b hq
    omega

/-- Slots of tickets in one window of the queue size that coincide come from the same ticket. -/
theorem slot_inj (a b q : Nat) (hb : b < a + q) (ha : a < b + q) (h : a % q = b % q) : a = b := by
  by_contra hne
  rcases Nat.lt_or_gt_of_ne hne with hlt | hlt
  · exact slot_ne a b q hlt hb h
  · exact slot_ne b a q hlt ha h.symm

@[simp]
theorem Sys.setWorker_pool (s : Sys) (x : Nat) (pc : WorkerPc) (g : Option (Nat × Nat)) :
    (s.setWorker x pc g).pool = s.pool := rfl

@[simp]
theorem Sys.setWorker_producers (s : Sys) (x : Nat) (pc : WorkerPc) (g : Option (Nat × Nat)) :
    (s.setWorker x pc g).producers = s.producers := rfl

@[simp]
theorem Sys.setWorker_tag (s : Sys) (x : Nat) (pc : WorkerPc) (g : Option (Nat × Nat)) :
    (s.setWorker x pc g).tag = s.tag := rfl

@[simp]
theorem Sys.setWorker_enqTicket (s : Sys) (x : Nat) (pc : WorkerPc) (g : Option (Nat × Nat)) :
    (s.setWorker x pc g).enqTicket = s.enqTicket := rfl

@[simp]
theorem Sys.setWorker_enqueueOwner (s : Sys) (x : Nat) (pc : WorkerPc)
    (g : Option (Nat × Nat)) : (s.setWorker x pc g).enqueueOwner = s.enqueueOwner := rfl

@[simp]
theorem Sys.setWorker_dequeueOwner (s : Sys) (x : Nat) (pc : WorkerPc)
    (g : Option (Nat × Nat)) : (s.setWorker x pc g).dequeueOwner = s.dequeueOwner := rfl

theorem Sys.setWorker_workers (s : Sys) (x : Nat) (pc : WorkerPc) (g : Option (Nat × Nat)) (y : Nat) :
    (s.setWorker x pc g).workers y = if y = x then { pc := pc, frag := g } else s.workers y := by
  simp [Sys.setWorker, Function.update_apply]

@[simp]
theorem Sys.setWorker_workers_self (s : Sys) (x : Nat) (pc : WorkerPc)
    (g : Option (Nat × Nat)) : (s.setWorker x pc g).workers x = { pc := pc, frag := g } := by
  simp [Sys.setWorker]

@[simp]
theorem Sys.setWorker_workers_ne (s : Sys) (x : Nat) (pc : WorkerPc)
    (g : Option (Nat × Nat)) (y : Nat) (h : y ≠ x) : (s.setWorker x pc g).workers y = s.workers y := by
  simp [Sys.setWorker, Function.update_apply, h]

@[simp]
theorem Sys.setProducer_pool (s : Sys) (c : Nat) (pc : ProducerPc) :
    (s.setProducer c pc).pool = s.pool := rfl

@[simp]
theorem Sys.setProducer_workers (s : Sys) (c : Nat) (pc : ProducerPc) :
    (s.setProducer c pc).workers = s.workers := rfl

@[simp]
theorem Sys.setProducer_tag (s : Sys) (c : Nat) (pc : ProducerPc) :
    (s.setProducer c pc).tag = s.tag := rfl

@[simp]
theorem Sys.setProducer_enqTicket (s : Sys) (c : Nat) (pc : ProducerPc) :
    (s.setProducer c pc).enqTicket = s.enqTicket := rfl

@[simp]
theorem Sys.setProducer_enqueueOwner (s : Sys) (c : Nat) (pc : ProducerPc) :
    (s.setProducer c pc).enqueueOwner = s.enqueueOwner := rfl

@[simp]
theorem Sys.setProducer_dequeueOwner (s : Sys) (c : Nat) (pc : ProducerPc) :
    (s.setProducer c pc).dequeueOwner = s.dequeueOwner := rfl

@[simp]
theorem Sys.setProducer_self_pc (s : Sys) (c : Nat) (pc : ProducerPc) :
    ((s.setProducer c pc).producers c).pc = pc := by simp [Sys.setProducer]

@[simp]
theorem Sys.setProducer_phases (s : Sys) (c : Nat) (pc : ProducerPc) (p : Nat) :
    ((s.setProducer c pc).producers p).phases = (s.producers p).phases := by
  by_cases h : p = c <;> simp [Sys.setProducer, Function.update_apply, h]

@[simp]
theorem Sys.setProducer_leaderTicket (s : Sys) (c : Nat) (pc : ProducerPc) (p : Nat) :
    ((s.setProducer c pc).producers p).leaderTicket = (s.producers p).leaderTicket := by
  by_cases h : p = c <;> simp [Sys.setProducer, Function.update_apply, h]

@[simp]
theorem Sys.setProducer_op (s : Sys) (c : Nat) (pc : ProducerPc) (p : Nat) :
    ((s.setProducer c pc).producers p).op = (s.producers p).op := by
  by_cases h : p = c <;> simp [Sys.setProducer, Function.update_apply, h]

@[simp]
theorem Sys.setProducer_cryptoInfo (s : Sys) (c : Nat) (pc : ProducerPc) (p : Nat) :
    ((s.setProducer c pc).producers p).cryptoInfo = (s.producers p).cryptoInfo := by
  by_cases h : p = c <;> simp [Sys.setProducer, Function.update_apply, h]

@[simp]
theorem Sys.setProducer_plan (s : Sys) (c : Nat) (pc : ProducerPc) (p : Nat) :
    ((s.setProducer c pc).producers p).plan = (s.producers p).plan := by
  by_cases h : p = c <;> simp [Sys.setProducer, Function.update_apply, h]

@[simp]
theorem Sys.setProducer_ne (s : Sys) (c : Nat) (pc : ProducerPc) (p : Nat) (h : p ≠ c) :
    (s.setProducer c pc).producers p = s.producers p := by
  simp [Sys.setProducer, Function.update_apply, h]

@[simp]
theorem Sys.setPool_pool (s : Sys) (p : Pool) : (s.setPool p).pool = p := rfl

@[simp]
theorem Sys.setPool_workers (s : Sys) (p : Pool) : (s.setPool p).workers = s.workers := rfl

@[simp]
theorem Sys.setPool_producers (s : Sys) (p : Pool) :
    (s.setPool p).producers = s.producers := rfl

@[simp]
theorem Sys.setPool_tag (s : Sys) (p : Pool) : (s.setPool p).tag = s.tag := rfl

@[simp]
theorem Sys.setPool_enqTicket (s : Sys) (p : Pool) :
    (s.setPool p).enqTicket = s.enqTicket := rfl

@[simp]
theorem Sys.setPool_enqueueOwner (s : Sys) (p : Pool) :
    (s.setPool p).enqueueOwner = s.enqueueOwner := rfl

@[simp]
theorem Sys.setPool_dequeueOwner (s : Sys) (p : Pool) :
    (s.setPool p).dequeueOwner = s.dequeueOwner := rfl

@[simp]
theorem Sys.setPhase_pool (s : Sys) (g : Option (Nat × Nat)) (ph : FragPhase) :
    (s.setPhase g ph).pool = s.pool := by
  cases g <;> rfl

@[simp]
theorem Sys.setPhase_workers (s : Sys) (g : Option (Nat × Nat)) (ph : FragPhase) :
    (s.setPhase g ph).workers = s.workers := by
  cases g <;> rfl

@[simp]
theorem Sys.setPhase_tag (s : Sys) (g : Option (Nat × Nat)) (ph : FragPhase) :
    (s.setPhase g ph).tag = s.tag := by
  cases g <;> rfl

@[simp]
theorem Sys.setPhase_enqTicket (s : Sys) (g : Option (Nat × Nat)) (ph : FragPhase) :
    (s.setPhase g ph).enqTicket = s.enqTicket := by
  cases g <;> rfl

@[simp]
theorem Sys.setPhase_enqueueOwner (s : Sys) (g : Option (Nat × Nat)) (ph : FragPhase) :
    (s.setPhase g ph).enqueueOwner = s.enqueueOwner := by
  cases g <;> rfl

@[simp]
theorem Sys.setPhase_dequeueOwner (s : Sys) (g : Option (Nat × Nat)) (ph : FragPhase) :
    (s.setPhase g ph).dequeueOwner = s.dequeueOwner := by
  cases g <;> rfl

@[simp]
theorem Sys.setPhase_pc (s : Sys) (g : Option (Nat × Nat)) (ph : FragPhase) (p : Nat) :
    ((s.setPhase g ph).producers p).pc = (s.producers p).pc := by
  rcases g with _ | ⟨c, j⟩
  · rfl
  · by_cases h : p = c <;> simp [Sys.setPhase, Function.update_apply, h]

@[simp]
theorem Sys.setPhase_leaderTicket (s : Sys) (g : Option (Nat × Nat)) (ph : FragPhase)
    (p : Nat) : ((s.setPhase g ph).producers p).leaderTicket = (s.producers p).leaderTicket := by
  rcases g with _ | ⟨c, j⟩
  · rfl
  · by_cases h : p = c <;> simp [Sys.setPhase, Function.update_apply, h]

@[simp]
theorem Sys.setPhase_op (s : Sys) (g : Option (Nat × Nat)) (ph : FragPhase) (p : Nat) :
    ((s.setPhase g ph).producers p).op = (s.producers p).op := by
  rcases g with _ | ⟨c, j⟩
  · rfl
  · by_cases h : p = c <;> simp [Sys.setPhase, Function.update_apply, h]

@[simp]
theorem Sys.setPhase_cryptoInfo (s : Sys) (g : Option (Nat × Nat)) (ph : FragPhase)
    (p : Nat) : ((s.setPhase g ph).producers p).cryptoInfo = (s.producers p).cryptoInfo := by
  rcases g with _ | ⟨c, j⟩
  · rfl
  · by_cases h : p = c <;> simp [Sys.setPhase, Function.update_apply, h]

@[simp]
theorem Sys.setPhase_plan (s : Sys) (g : Option (Nat × Nat)) (ph : FragPhase) (p : Nat) :
    ((s.setPhase g ph).producers p).plan = (s.producers p).plan := by
  rcases g with _ | ⟨c, j⟩
  · rfl
  · by_cases h : p = c <;> simp [Sys.setPhase, Function.update_apply, h]

theorem Sys.setPhase_phases (s : Sys) (c j : Nat) (ph : FragPhase) (p : Nat) :
    ((s.setPhase (some (c, j)) ph).producers p).phases
      = if p = c then (s.producers c).phases.set j ph else (s.producers p).phases := by
  by_cases h : p = c <;> simp [Sys.setPhase, Function.update_apply, h]

@[simp]
theorem Sys.setPhase_none (s : Sys) (ph : FragPhase) : s.setPhase none ph = s := rfl

@[simp]
theorem Sys.setPhase_length (s : Sys) (g : Option (Nat × Nat)) (ph : FragPhase) (p : Nat) :
    ((s.setPhase g ph).producers p).phases.length = (s.producers p).phases.length := by
  rcases g with _ | ⟨c, j⟩
  · rfl
  · by_cases h : p = c <;> simp [Sys.setPhase, Function.update_apply, h]

/-! ## Consequences of the invariant -/

theorem ProducerPc.counted_pendingCount (pc : ProducerPc) (h : pc.counted = true) :
    ∃ n, pc.pendingCount = some n := by
  cases pc <;> simp [ProducerPc.counted, ProducerPc.active, ProducerPc.enqueuing,
    ProducerPc.waiting, ProducerPc.pendingCount] at h ⊢

theorem ProducerPc.active_counted (pc : ProducerPc) (h : pc.active = true) : pc.counted = true := by
  cases pc <;> simp [ProducerPc.counted, ProducerPc.active, ProducerPc.enqueuing,
    ProducerPc.waiting] at h ⊢

theorem ProducerPc.enqueuing_holds (pc : ProducerPc) (h : pc.enqueuing = true) : pc.holds = true := by
  cases pc <;> simp [ProducerPc.enqueuing, ProducerPc.holds] at h ⊢

theorem ProducerPc.sawFree_holds (pc : ProducerPc) (m : Nat) (h : pc.sawFree = some m) :
    pc.holds = true := by
  cases pc <;> simp [ProducerPc.sawFree, ProducerPc.holds] at h ⊢

theorem ProducerPc.claimedItem_holds (pc : ProducerPc) (m : Nat) (h : pc.claimedItem = some m) :
    pc.holds = true := by
  cases pc <;> simp [ProducerPc.claimedItem, ProducerPc.holds] at h ⊢

theorem ProducerPc.filledItem_holds (pc : ProducerPc) (m : Nat × EncryptionThreadPoolWorkType)
    (h : pc.filledItem = some m) : pc.holds = true := by
  cases pc <;> simp [ProducerPc.filledItem, ProducerPc.holds] at h ⊢

theorem ProducerPc.filledSimple_holds (pc : ProducerPc) (m : Nat)
    (h : pc.filledSimple = some m) : pc.holds = true := by
  cases pc <;> simp [ProducerPc.filledSimple, ProducerPc.holds] at h ⊢

theorem ProducerPc.waiting_not_holds (pc : ProducerPc) (h : pc.waiting = true) : pc.holds = false := by
  cases pc <;> simp [ProducerPc.waiting, ProducerPc.holds] at h ⊢

theorem ProducerPc.waiting_pendingCount (pc : ProducerPc) (h : pc.waiting = true) :
    pc.pendingCount = some 0 := by
  cases pc <;> simp [ProducerPc.waiting, ProducerPc.pendingCount] at h ⊢

theorem Sys.Inv.holder_unique {s : Sys} (h : s.Inv) (c p : Nat)
    (hc : (s.producers c).pc.holds = true) (hp : (s.producers p).pc.holds = true) : c = p := by
  have h1 := (h.enqMutex c).1 hc
  have h2 := (h.enqMutex p).1 hp
  rw [h1] at h2
  exact Option.some.inj h2

/-- A counted producer has a first fragment. -/
theorem Sys.Inv.phase0 {s : Sys} (h : s.Inv) (c : Nat) (hc : (s.producers c).pc.counted = true) :
    ∃ ph, (s.producers c).phases[0]? = some ph := by
  obtain ⟨n, hn⟩ := ProducerPc.counted_pendingCount _ hc
  obtain ⟨-, h1, -, -⟩ := h.shape c n hn
  exact ⟨(s.producers c).phases[0], by simp [List.getElem?_eq_getElem, h1]⟩

/-- The state of the slot of the first fragment of a counted producer. -/
theorem Sys.Inv.leader_cases {s : Sys} (h : s.Inv) (c : Nat)
    (hc : (s.producers c).pc.counted = true) :
    ((s.producers c).phases[0]? = some .pending ∧
      (s.pool.WorkItemQueue ((s.producers c).leaderTicket % s.pool.ThreadQueueSize)).State
        = .WorkItemFree) ∨
    ((s.producers c).phases[0]? = some .ready ∧
      (s.pool.WorkItemQueue ((s.producers c).leaderTicket % s.pool.ThreadQueueSize)).State
        = .WorkItemReady ∧
      s.tag ((s.producers c).leaderTicket % s.pool.ThreadQueueSize) = some (c, 0)) ∨
    ((∃ ph, (s.producers c).phases[0]? = some ph ∧ ph ≠ .pending ∧ ph ≠ .ready) ∧
      (s.pool.WorkItemQueue ((s.producers c).leaderTicket % s.pool.ThreadQueueSize)).State
        = .WorkItemBusy ∧
      s.tag ((s.producers c).leaderTicket % s.pool.ThreadQueueSize) = some (c, 0)) := by
  obtain ⟨ph, hph⟩ := h.phase0 c hc
  obtain ⟨n, hn⟩ := ProducerPc.counted_pendingCount _ hc
  obtain ⟨hle, h1, -, hsh⟩ := h.shape c n hn
  by_cases hp : ph = .pending
  · subst hp
    left
    refine ⟨hph, ?_⟩
    have hn0 := (hsh 0 _ hph).1 rfl
    have henq : (s.producers c).pc.enqueuing = true := by
      revert hc hn
      cases (s.producers c).pc <;>
        simp [ProducerPc.counted, ProducerPc.active, ProducerPc.enqueuing,
          ProducerPc.waiting, ProducerPc.pendingCount] <;> omega
    exact h.leaderPending c henq hph
  · by_cases hr : ph = .ready
    · subst hr
      right; left
      have hact : (s.producers c).pc.active = true := by
        by_contra hna
        have : ∃ first, (s.producers c).pc = .bulkWoken first := by
          revert hc hna
          cases (s.producers c).pc <;>
            simp [ProducerPc.counted, ProducerPc.active, ProducerPc.enqueuing, ProducerPc.waiting]
        obtain ⟨first, hw⟩ := this
        have := h.woken c first hw _ (List.getElem?_mem hph)
        cases this
      have := h.readyPhase c 0 hact hph
      simp only [Nat.add_zero] at this
      exact ⟨hph, this.1, this.2⟩
    · right; right
      have := h.leader c ph hc hph hp hr
      exact ⟨⟨ph, hph, hp, hr⟩, this.1, this.2⟩

/-- A counted producer whose first fragment is not yet enqueued is enqueuing. -/
theorem Sys.Inv.pending_enqueuing {s : Sys} (h : s.Inv) (c : Nat)
    (hc : (s.producers c).pc.counted = true)
    (h0 : (s.producers c).phases[0]? = some .pending) :
    (s.producers c).pc.enqueuing = true := by
  obtain ⟨n, hn⟩ := ProducerPc.counted_pendingCount _ hc
  obtain ⟨hle, h1, -, hsh⟩ := h.shape c n hn
  have hn0 := (hsh 0 _ h0).1 rfl
  revert hc hn
  cases (s.producers c).pc <;>
    simp [ProducerPc.counted, ProducerPc.active, ProducerPc.enqueuing,
      ProducerPc.waiting, ProducerPc.pendingCount] <;> omega

/-- The slots of the first fragments of two counted producers differ once one of
them has made its first fragment ready. -/
theorem Sys.Inv.leader_ne {s : Sys} (h : s.Inv) (c p : Nat)
    (hc : (s.producers c).pc.counted = true) (hp : (s.producers p).pc.counted = true)
    (hne : c ≠ p) (hnp : (s.producers c).phases[0]? ≠ some .pending) :
    (s.producers c).leaderTicket % s.pool.ThreadQueueSize
      ≠ (s.producers p).leaderTicket % s.pool.ThreadQueueSize := by
  intro e
  have hcT : s.tag ((s.producers c).leaderTicket % s.pool.ThreadQueueSize) = some (c, 0) ∧
      (s.pool.WorkItemQueue ((s.producers c).leaderTicket % s.pool.ThreadQueueSize)).State
        ≠ .WorkItemFree := by
    rcases h.leader_cases c hc with ⟨h1, -⟩ | ⟨-, h2, h3⟩ | ⟨-, h2, h3⟩
    · exact absurd h1 hnp
    · exact ⟨h3, by rw [h2]; decide⟩
    · exact ⟨h3, by rw [h2]; decide⟩
  rcases h.leader_cases p hp with ⟨-, h1⟩ | ⟨-, -, h3⟩ | ⟨-, -, h3⟩
  · rw [← e] at h1; exact hcT.2 h1
  · rw [← e, hcT.1] at h3
    exact hne (by injection h3 with h3; injection h3)
  · rw [← e, hcT.1] at h3
    exact hne (by injection h3 with h3; injection h3)

/-- The slot a producer is about to write differs from the slots of the
fragments of an active bulk operation that are already enqueued. -/
theorem Sys.Inv.fill_ne {s : Sys} (h : s.Inv) (p m c j : Nat) (ph : FragPhase)
    (hs : (s.producers p).pc.sawFree = some m) (hcl : (s.producers p).pc.claimedItem = some m)
    (hact : (s.producers c).pc.active = true)
    (hj : (s.producers c).phases[j]? = some ph) (hph : ph ≠ .pending) :
    ((s.producers c).leaderTicket + j) % s.pool.ThreadQueueSize ≠ m := by
  obtain ⟨hpos, hm⟩ := h.claimed p m hcl
  have hholds := ProducerPc.sawFree_holds _ _ hs
  obtain ⟨n, hn⟩ := ProducerPc.counted_pendingCount _ (ProducerPc.active_counted _ hact)
  obtain ⟨hle, h1, hlt, hsh⟩ := h.shape c n hn
  have hjn := (hsh j ph hj)
  have hjlt : j < (s.producers c).phases.length := by
    rcases List.getElem?_eq_some_iff.1 hj with ⟨hj', -⟩
    exact hj'
  have hjn2 : j < (s.producers c).phases.length - n := by
    by_contra hcon
    exact hph (hjn.2 (by omega))
  rw [hm]
  by_cases henq : (s.producers c).pc.enqueuing = true
  · have hcp := h.holder_unique c p (ProducerPc.enqueuing_holds _ henq) hholds
    subst hcp
    have ht := h.ticket c n hholds hn
    rw [hcl] at ht
    simp only [reduceCtorEq, if_false] at ht
    apply slot_ne <;> omega
  · have hw : (s.producers c).pc.waiting = true := by
      simpa [ProducerPc.active, henq] using hact
    have hn0 := ProducerPc.waiting_pendingCount _ hw
    rw [hn] at hn0
    injection hn0 with hn0
    subst hn0
    obtain ⟨r1, r2, r3, r4, r5⟩ := h.ring c hw
    have r3' := r3 p m hcl
    have r4' := r4 p m hs hcl
    apply slot_ne <;> omega

theorem WorkerPc.phase_ne (pc : WorkerPc) (k : Nat) (ph : FragPhase) (h : pc.phase = some (k, ph)) :
    ph ≠ .pending ∧ ph ≠ .ready := by
  cases pc <;> simp [WorkerPc.phase] at h
  all_goals first | (obtain ⟨-, rfl⟩ := h; simp) | skip
  rename_i w z
  cases z <;> simp at h
  obtain ⟨-, rfl⟩ := h; simp

theorem WorkerPc.phase_decremented (pc : WorkerPc) (k : Nat)
    (h : pc.phase = some (k, .decremented)) : pc = .decremented k true := by
  cases pc <;> simp [WorkerPc.phase] at h
  rename_i a b
  cases b <;> simp at h
  simp [h]

/-- The fragment a worker is working on. -/
theorem Sys.Inv.frag_phase {s : Sys} (h : s.Inv) (y c j : Nat)
    (hf : (s.workers y).frag = some (c, j)) :
    ∃ k ph, (s.workers y).pc.phase = some (k, ph) ∧ s.FragOK c j k ∧
      (s.producers c).phases[j]? = some ph ∧ ph ≠ .pending ∧ ph ≠ .ready := by
  rcases hp : (s.workers y).pc.phase with _ | ⟨k, ph⟩
  · rw [h.noFrag y hp] at hf; cases hf
  · obtain ⟨h1, h2⟩ := h.frag y c j k ph hf hp
    exact ⟨k, ph, rfl, h1, h2, WorkerPc.phase_ne _ _ _ hp⟩

theorem Sys.setPhase_getElem (s : Sys) (c j : Nat) (ph : FragPhase) (p k : Nat) :
    ((s.setPhase (some (c, j)) ph).producers p).phases[k]?
      = if p = c ∧ k = j ∧ j < (s.producers c).phases.length then some ph
        else (s.producers p).phases[k]? := by
  rw [Sys.setPhase_phases]
  by_cases hp : p = c
  · subst hp
    simp only [if_true, true_and, List.getElem?_set]
    by_cases hk : j = k
    · subst hk
      by_cases hl : j < (s.producers p).phases.length
      · simp [hl]
      · simp [hl, List.getElem?_eq_none (Nat.le_of_not_lt hl)]
    · simp [hk, Ne.symm hk]
  · simp [hp]

/-- The phases of a producer after a change of one phase, when they are all
decremented afterwards. -/
theorem Sys.setPhase_all (s : Sys) (c j : Nat) (ph : FragPhase) (p : Nat)
    (hj : j < (s.producers c).phases.length) (hne : ph ≠ .decremented)
    (hall : ∀ q ∈ ((s.setPhase (some (c, j)) ph).producers p).phases, q = .decremented) :
    p ≠ c ∧ ∀ q ∈ (s.producers p).phases, q = .decremented := by
  have hpc : p ≠ c := by
    intro e
    subst e
    apply hne
    apply hall
    rw [Sys.setPhase_phases, if_pos rfl]
    exact List.mem_set _ _ hj _
  refine ⟨hpc, ?_⟩
  rw [Sys.setPhase_phases, if_neg hpc] at hall
  exact hall

theorem drop_cons_suffix {α : Type} (plan : List α) (f : α) (frags : List α)
    (h : f :: frags = plan.drop (plan.length - (frags.length + 1))) :
    frags = plan.drop (plan.length - frags.length) ∧
      plan[plan.length - (frags.length + 1)]? = some f := by
  have hlen := congrArg List.length h
  simp only [List.length_cons, List.length_drop] at hlen
  have hk : plan.length - (frags.length + 1) < plan.length := by omega
  have e : plan.length - frags.length = plan.length - (frags.length + 1) + 1 := by omega
  rw [List.drop_eq_getElem_cons hk] at h
  injection h with h1 h2
  refine ⟨?_, ?_⟩
  · rw [e]; exact h2
  · rw [List.getElem?_eq_getElem hk, h1]

theorem countP_set_same (l : List FragPhase) (j : Nat) (a b : FragPhase) (hj : l[j]? = some b)
    (hab : a.isDecremented = b.isDecremented) :
    (l.set j a).countP FragPhase.isDecremented = l.countP FragPhase.isDecremented := by
  obtain ⟨hlt, hget⟩ := List.getElem?_eq_some_iff.1 hj
  have := countP_set_add FragPhase.isDecremented l j a hlt
  rw [List.get_eq_getElem, hget, hab] at this
  omega

theorem countP_set_decremented (l : List FragPhase) (j : Nat) (b : FragPhase) (hj : l[j]? = some b)
    (hb : b.isDecremented = false) :
    (l.set j .decremented).countP FragPhase.isDecremented
      = l.countP FragPhase.isDecremented + 1 := by
  obtain ⟨hlt, hget⟩ := List.getElem?_eq_some_iff.1 hj
  have := countP_set_add FragPhase.isDecremented l j .decremented hlt
  rw [List.get_eq_getElem, hget, hb] at this
  simp only [FragPhase.isDecremented, if_true] at this
  simpa using this

theorem Sys.Inv.follower_ne {s : Sys} (h : s.Inv) (c j : Nat)
    (hact : (s.producers c).pc.active = true) (hj : j < (s.producers c).phases.length)
    (hj0 : j ≠ 0) :
    ((s.producers c).leaderTicket + j) % s.pool.ThreadQueueSize
      ≠ (s.producers c).leaderTicket % s.pool.ThreadQueueSize := by
  obtain ⟨n, hn⟩ := ProducerPc.counted_pendingCount _ (ProducerPc.active_counted _ hact)
  obtain ⟨-, -, hlt, -⟩ := h.shape c n hn
  apply Ne.symm
  apply slot_ne <;> omega

/-- Once a later fragment is enqueued, the first fragment is. -/
theorem Sys.Inv.phase0_enqueued {s : Sys} (h : s.Inv) (c j : Nat) (ph : FragPhase)
    (hc : (s.producers c).pc.counted = true)
    (hj : (s.producers c).phases[j]? = some ph) (hph : ph ≠ .pending) :
    (s.producers c).phases[0]? ≠ some .pending := by
  obtain ⟨n, hn⟩ := ProducerPc.counted_pendingCount _ hc
  obtain ⟨-, -, -, hsh⟩ := h.shape c n hn
  intro h0
  have h1 := (hsh 0 _ h0).1 rfl
  have h2 := (hsh j ph hj).2 (by omega)
  exact hph h2

theorem all_decremented_of_countP (l : List FragPhase)
    (h : l.countP FragPhase.isDecremented = l.length) : ∀ ph ∈ l, ph = .decremented := by
  intro ph hph
  have := (List.countP_eq_length.1 h) ph hph
  cases ph <;> simp [FragPhase.isDecremented] at this ⊢

/-! ## Every step keeps the invariant -/

theorem inv_worker_loopHead (s : Sys) (h : s.Inv) (x : Nat)
    (hpc : (s.workers x).pc = .loopHead) (hown : s.dequeueOwner = none) :
    ({ s with dequeueOwner := some x, pool := s.pool.advanceDequeue }.setWorker x
          (.claimed s.pool.DequeuePosition) none).Inv := by
  have hx := h.noFrag x (by rw [hpc]; rfl)
  refine {
    queueSize := ?queueSize,
    threadCount := ?threadCount,
    cursor := ?cursor,
    enqMutex := ?enqMutex,
    deqMutex := ?deqMutex,
    claimed := ?claimed,
    sawFree := ?sawFree,
    filled := ?filled,
    filledSimple := ?filledSimple,
    simpleType := ?simpleType,
    bulkType := ?bulkType,
    taking := ?taking,
    owned := ?owned,
    exclusive := ?exclusive,
    noFrag := ?noFrag,
    pastWork := ?pastWork,
    ownedSimple := ?ownedSimple,
    ready := ?ready,
    frag := ?frag,
    zero := ?zero,
    fragInj := ?fragInj,
    readyPhase := ?readyPhase,
    leader := ?leader,
    leaderPending := ?leaderPending,
    count := ?count,
    event := ?event,
    eventLeader := ?eventLeader,
    woken := ?woken,
    first := ?first,
    shape := ?shape,
    fresh := ?fresh,
    ticket := ?ticket,
    planLength := ?planLength,
    planRest := ?planRest,
    filledData := ?filledData,
    slotReady := ?slotReady,
    slotOwned := ?slotOwned,
    ring := ?ring }
  case deqMutex =>
    intro y
    by_cases hy : y = x
    · subst hy
      simp [WorkerPc.holds]
    · rw [Sys.setWorker_workers_ne _ _ _ _ _ hy]
      have := h.deqMutex y
      rw [hown] at this
      simp only [Sys.setWorker_dequeueOwner]
      constructor
      · intro e; simp [this] at e
      · intro e; exact absurd (Option.some.inj e).symm hy
  case taking =>
    intro y k
    by_cases hy : y = x
    · subst hy; simp
    · rw [Sys.setWorker_workers_ne _ _ _ _ _ hy]; exact h.taking y k
  case owned =>
    intro y k
    by_cases hy : y = x
    · subst hy; simp [WorkerPc.owned]
    · rw [Sys.setWorker_workers_ne _ _ _ _ _ hy]; exact h.owned y k
  case exclusive =>
    intro y z k hne
    by_cases hy : y = x
    · subst hy; simp [WorkerPc.owned]
    · by_cases hz : z = x
      · subst hz; simp [WorkerPc.owned]
      · rw [Sys.setWorker_workers_ne _ _ _ _ _ hy, Sys.setWorker_workers_ne _ _ _ _ _ hz]
        exact h.exclusive y z k hne
  case noFrag =>
    intro y
    by_cases hy : y = x
    · subst hy; simp
    · rw [Sys.setWorker_workers_ne _ _ _ _ _ hy]; exact h.noFrag y
  case pastWork =>
    intro y
    by_cases hy : y = x
    · subst hy; simp [WorkerPc.pastWork]
    · rw [Sys.setWorker_workers_ne _ _ _ _ _ hy]; exact h.pastWork y
  case ownedSimple =>
    intro y k
    by_cases hy : y = x
    · subst hy; simp [WorkerPc.owned]
    · rw [Sys.setWorker_workers_ne _ _ _ _ _ hy]; exact h.ownedSimple y k
  case frag =>
    intro y c j k ph
    by_cases hy : y = x
    · subst hy; simp
    · rw [Sys.setWorker_workers_ne _ _ _ _ _ hy]; exact h.frag y c j k ph
  case zero =>
    intro y c j k
    by_cases hy : y = x
    · subst hy; simp
    · rw [Sys.setWorker_workers_ne _ _ _ _ _ hy]
      intro hf hp
      obtain ⟨h1, h2, h3⟩ := h.zero y c j k hf hp
      refine ⟨h1, h2, ?_⟩
      intro z k2 hz
      by_cases hzx : z = x
      · subst hzx; simp
      · rw [Sys.setWorker_workers_ne _ _ _ _ _ hzx]; exact h3 z k2 hz
  case fragInj =>
    intro y z g hne
    by_cases hy : y = x
    · subst hy; simp
    · by_cases hz : z = x
      · subst hz; simp
      · rw [Sys.setWorker_workers_ne _ _ _ _ _ hy, Sys.setWorker_workers_ne _ _ _ _ _ hz]
        exact h.fragInj y z g hne
  case slotOwned =>
    intro y k c2 j2
    by_cases hy : y = x
    · subst hy; simp [WorkerPc.owned]
    · rw [Sys.setWorker_workers_ne _ _ _ _ _ hy]; exact h.slotOwned y k c2 j2
  case queueSize => exact h.queueSize
  case threadCount => exact h.threadCount
  case cursor => exact h.cursor
  case enqMutex => exact h.enqMutex
  case claimed => exact h.claimed
  case sawFree => exact h.sawFree
  case filled => exact h.filled
  case filledSimple => exact h.filledSimple
  case simpleType => exact h.simpleType
  case bulkType => exact h.bulkType
  case ready => exact h.ready
  case readyPhase => exact h.readyPhase
  case leader => exact h.leader
  case leaderPending => exact h.leaderPending
  case count => exact h.count
  case event => exact h.event
  case eventLeader => exact h.eventLeader
  case woken => exact h.woken
  case first => exact h.first
  case shape => exact h.shape
  case fresh => exact h.fresh
  case ticket => exact h.ticket
  case planLength => exact h.planLength
  case planRest => exact h.planRest
  case filledData => exact h.filledData
  case slotReady => exact h.slotReady
  case ring => exact h.ring

theorem inv_worker_claimed (s : Sys) (h : s.Inv) (x i : Nat)
    (hpc : (s.workers x).pc = .claimed i)
    (hready : (s.pool.WorkItemQueue i).State = .WorkItemReady) :
    (s.setWorker x (.taking i) none).Inv := by
  have hx := h.noFrag x (by rw [hpc]; rfl)
  refine {
    queueSize := ?queueSize,
    threadCount := ?threadCount,
    cursor := ?cursor,
    enqMutex := ?enqMutex,
    deqMutex := ?deqMutex,
    claimed := ?claimed,
    sawFree := ?sawFree,
    filled := ?filled,
    filledSimple := ?filledSimple,
    simpleType := ?simpleType,
    bulkType := ?bulkType,
    taking := ?taking,
    owned := ?owned,
    exclusive := ?exclusive,
    noFrag := ?noFrag,
    pastWork := ?pastWork,
    ownedSimple := ?ownedSimple,
    ready := ?ready,
    frag := ?frag,
    zero := ?zero,
    fragInj := ?fragInj,
    readyPhase := ?readyPhase,
    leader := ?leader,
    leaderPending := ?leaderPending,
    count := ?count,
    event := ?event,
    eventLeader := ?eventLeader,
    woken := ?woken,
    first := ?first,
    shape := ?shape,
    fresh := ?fresh,
    ticket := ?ticket,
    planLength := ?planLength,
    planRest := ?planRest,
    filledData := ?filledData,
    slotReady := ?slotReady,
    slotOwned := ?slotOwned,
    ring := ?ring }
  case deqMutex =>
    intro y
    by_cases hy : y = x
    · subst hy
      have := h.deqMutex y
      rw [hpc] at this
      simpa [WorkerPc.holds] using this
    · rw [Sys.setWorker_workers_ne _ _ _ _ _ hy]; exact h.deqMutex y
  case taking =>
    intro y k
    by_cases hy : y = x
    · subst hy
      simp only [Sys.setWorker_workers_self, Sys.setWorker_pool]
      intro e; cases e; exact hready
    · rw [Sys.setWorker_workers_ne _ _ _ _ _ hy]; exact h.taking y k
  case owned =>
    intro y k
    by_cases hy : y = x
    · subst hy; simp [WorkerPc.owned]
    · rw [Sys.setWorker_workers_ne _ _ _ _ _ hy]; exact h.owned y k
  case exclusive =>
    intro y z k hne
    by_cases hy : y = x
    · subst hy; simp [WorkerPc.owned]
    · by_cases hz : z = x
      · subst hz; simp [WorkerPc.owned]
      · rw [Sys.setWorker_workers_ne _ _ _ _ _ hy, Sys.setWorker_workers_ne _ _ _ _ _ hz]
        exact h.exclusive y z k hne
  case noFrag =>
    intro y
    by_cases hy : y = x
    · subst hy; simp
    · rw [Sys.setWorker_workers_ne _ _ _ _ _ hy]; exact h.noFrag y
  case pastWork =>
    intro y
    by_cases hy : y = x
    · subst hy; simp [WorkerPc.pastWork]
    · rw [Sys.setWorker_workers_ne _ _ _ _ _ hy]; exact h.pastWork y
  case ownedSimple =>
    intro y k
    by_cases hy : y = x
    · subst hy; simp [WorkerPc.owned]
    · rw [Sys.setWorker_workers_ne _ _ _ _ _ hy]; exact h.ownedSimple y k
  case frag =>
    intro y c j k ph
    by_cases hy : y = x
    · subst hy; simp
    · rw [Sys.setWorker_workers_ne _ _ _ _ _ hy]; exact h.frag y c j k ph
  case zero =>
    intro y c j k
    by_cases hy : y = x
    · subst hy; simp
    · rw [Sys.setWorker_workers_ne _ _ _ _ _ hy]
      intro hf hp
      obtain ⟨h1, h2, h3⟩ := h.zero y c j k hf hp
      refine ⟨h1, h2, ?_⟩
      intro z k2 hz
      by_cases hzx : z = x
      · subst hzx; simp
      · rw [Sys.setWorker_workers_ne _ _ _ _ _ hzx]; exact h3 z k2 hz
  case fragInj =>
    intro y z g hne
    by_cases hy : y = x
    · subst hy; simp
    · by_cases hz : z = x
      · subst hz; simp
      · rw [Sys.setWorker_workers_ne _ _ _ _ _ hy, Sys.setWorker_workers_ne _ _ _ _ _ hz]
        exact h.fragInj y z g hne
  case slotOwned =>
    intro y k c2 j2
    by_cases hy : y = x
    · subst hy; simp [WorkerPc.owned]
    · rw [Sys.setWorker_workers_ne _ _ _ _ _ hy]; exact h.slotOwned y k c2 j2
  case queueSize => exact h.queueSize
  case threadCount => exact h.threadCount
  case cursor => exact h.cursor
  case enqMutex => exact h.enqMutex
  case claimed => exact h.claimed
  case sawFree => exact h.sawFree
  case filled => exact h.filled
  case filledSimple => exact h.filledSimple
  case simpleType => exact h.simpleType
  case bulkType => exact h.bulkType
  case ready => exact h.ready
  case readyPhase => exact h.readyPhase
  case leader => exact h.leader
  case leaderPending => exact h.leaderPending
  case count => exact h.count
  case event => exact h.event
  case eventLeader => exact h.eventLeader
  case woken => exact h.woken
  case first => exact h.first
  case shape => exact h.shape
  case fresh => exact h.fresh
  case ticket => exact h.ticket
  case planLength => exact h.planLength
  case planRest => exact h.planRest
  case filledData => exact h.filledData
  case slotReady => exact h.slotReady
  case ring => exact h.ring

theorem inv_worker_taking_simple (s : Sys) (h : s.Inv) (x i : Nat)
    (hpc : (s.workers x).pc = .taking i) (htag : s.tag i = none) :
    ((s.setPool (SetWorkItemState s.pool i .WorkItemBusy)).setWorker x (.taken i) none).Inv := by
  have hst := h.taking x i hpc
  have hty := (h.ready i hst).2 htag
  have hdq := (h.deqMutex x).1 (by rw [hpc]; rfl)
  have hfree : ∀ k, (s.pool.WorkItemQueue k).State = .WorkItemFree → k ≠ i := by
    intro k hk e; subst e; rw [hst] at hk; cases hk
  have hbusy : ∀ k, (s.pool.WorkItemQueue k).State = .WorkItemBusy → k ≠ i := by
    intro k hk e; subst e; rw [hst] at hk; cases hk
  have hw : ∀ y, y ≠ x →
      ((s.setPool (SetWorkItemState s.pool i .WorkItemBusy)).setWorker x (.taken i) none).workers y
        = s.workers y := fun y hy => by simp [hy]
  have hwx : ((s.setPool (SetWorkItemState s.pool i .WorkItemBusy)).setWorker x (.taken i)
      none).workers x = { pc := .taken i, frag := none } := by simp
  refine {
    queueSize := ?queueSize,
    threadCount := ?threadCount,
    cursor := ?cursor,
    enqMutex := ?enqMutex,
    deqMutex := ?deqMutex,
    claimed := ?claimed,
    sawFree := ?sawFree,
    filled := ?filled,
    filledSimple := ?filledSimple,
    simpleType := ?simpleType,
    bulkType := ?bulkType,
    taking := ?taking,
    owned := ?owned,
    exclusive := ?exclusive,
    noFrag := ?noFrag,
    pastWork := ?pastWork,
    ownedSimple := ?ownedSimple,
    ready := ?ready,
    frag := ?frag,
    zero := ?zero,
    fragInj := ?fragInj,
    readyPhase := ?readyPhase,
    leader := ?leader,
    leaderPending := ?leaderPending,
    count := ?count,
    event := ?event,
    eventLeader := ?eventLeader,
    woken := ?woken,
    first := ?first,
    shape := ?shape,
    fresh := ?fresh,
    ticket := ?ticket,
    planLength := ?planLength,
    planRest := ?planRest,
    filledData := ?filledData,
    slotReady := ?slotReady,
    slotOwned := ?slotOwned,
    ring := ?ring }
  case deqMutex =>
    intro y
    by_cases hy : y = x
    · subst hy; simpa [WorkerPc.holds] using hdq
    · rw [hw y hy]; exact h.deqMutex y
  case sawFree =>
    intro p m hs
    have := h.sawFree p m hs
    simpa [hfree m this] using this
  case taking =>
    intro y k
    by_cases hy : y = x
    · subst hy; simp
    · rw [hw y hy]
      intro hk
      have := (h.deqMutex y).1 (by rw [hk]; rfl)
      rw [hdq] at this
      exact absurd (Option.some.inj this).symm hy
  case owned =>
    intro y k
    by_cases hy : y = x
    · subst hy
      simp only [Sys.setWorker_workers_self, WorkerPc.owned]
      intro e; cases e
      simp [htag]
    · rw [hw y hy]
      intro hk
      have := h.owned y k hk
      simpa [hbusy k this.1] using this
  case exclusive =>
    intro y z k hne
    by_cases hy : y = x
    · subst hy
      rw [hw z (Ne.symm hne)]
      simp only [Sys.setWorker_workers_self, WorkerPc.owned]
      intro e hz; cases e
      exact hbusy i (h.owned z i hz).1 rfl
    · rw [hw y hy]
      by_cases hz : z = x
      · subst hz
        simp only [Sys.setWorker_workers_self, WorkerPc.owned]
        intro hk e; cases e
        exact hbusy i (h.owned y i hk).1 rfl
      · rw [hw z hz]
        exact h.exclusive y z k hne
  case noFrag =>
    intro y
    by_cases hy : y = x
    · subst hy; simp
    · rw [hw y hy]; exact h.noFrag y
  case pastWork =>
    intro y
    by_cases hy : y = x
    · subst hy; simp [WorkerPc.pastWork]
    · rw [hw y hy]; exact h.pastWork y
  case ownedSimple =>
    intro y k
    by_cases hy : y = x
    · subst hy
      simp only [Sys.setWorker_workers_self, WorkerPc.owned]
      intro e _; cases e
      simpa using hty
    · rw [hw y hy]
      simpa using h.ownedSimple y k
  case ready =>
    intro k hk
    have hki : k ≠ i := by
      intro e; subst e; simp at hk
    have hk' : (s.pool.WorkItemQueue k).State = .WorkItemReady := by simpa [hki] using hk
    simpa [Sys.FragOK] using h.ready k hk'
  case frag =>
    intro y c j k ph
    by_cases hy : y = x
    · subst hy; simp
    · rw [hw y hy]
      simpa [Sys.FragOK] using h.frag y c j k ph
  case zero =>
    intro y c j k
    by_cases hy : y = x
    · subst hy; simp
    · rw [hw y hy]
      intro hf hp
      obtain ⟨h1, h2, h3⟩ := h.zero y c j k hf hp
      refine ⟨h1, by simpa using h2, ?_⟩
      intro z k2 hz
      by_cases hzx : z = x
      · subst hzx; simp
      · rw [hw z hzx]; exact h3 z k2 hz
  case fragInj =>
    intro y z g hne
    by_cases hy : y = x
    · subst hy; simp
    · by_cases hz : z = x
      · subst hz; simp
      · rw [hw y hy, hw z hz]
        exact h.fragInj y z g hne
  case readyPhase =>
    intro c j hact hj
    have := h.readyPhase c j hact hj
    have hne : ((s.producers c).leaderTicket + j) % s.pool.ThreadQueueSize ≠ i := by
      intro e; rw [e, htag] at this; cases this.2
    simpa [hne] using this
  case leader =>
    intro c ph hc h0 h1 h2
    have := h.leader c ph hc h0 h1 h2
    refine ⟨?_, this.2⟩
    simp only [Sys.setWorker_pool, Sys.setPool_pool, SetWorkItemState_State,
      SetWorkItemState_size, Sys.setWorker_producers, Sys.setPool_producers]
    split_ifs
    · rfl
    · exact this.1
  case leaderPending =>
    intro c hc h0
    have := h.leaderPending c hc h0
    simpa [hfree _ this] using this
  case slotReady =>
    intro k c2 j2 hk ht
    have hki : k ≠ i := by
      intro e; subst e; simp at hk
    have hk2 : (s.pool.WorkItemQueue k).State = .WorkItemReady := by simpa [hki] using hk
    simpa [Sys.SlotData] using h.slotReady k c2 j2 hk2 ht
  case slotOwned =>
    intro y k c2 j2
    by_cases hy : y = x
    · subst hy; rw [hwx]; simp
    · rw [hw y hy]
      intro a b
      simpa [Sys.SlotData] using h.slotOwned y k c2 j2 a b
  case queueSize => exact h.queueSize
  case threadCount => exact h.threadCount
  case cursor => exact h.cursor
  case enqMutex => exact h.enqMutex
  case claimed => exact h.claimed
  case filled => simpa [Sys.SlotData] using h.filled
  case filledSimple => simpa [Sys.SlotData] using h.filledSimple
  case simpleType => exact h.simpleType
  case bulkType => exact h.bulkType
  case count => simpa [Sys.SlotData] using h.count
  case event => simpa [Sys.SlotData] using h.event
  case eventLeader => simpa [Sys.SlotData] using h.eventLeader
  case woken => exact h.woken
  case first => exact h.first
  case shape => exact h.shape
  case fresh => exact h.fresh
  case ticket => exact h.ticket
  case planLength => exact h.planLength
  case planRest => exact h.planRest
  case filledData => simpa [Sys.SlotData] using h.filledData
  case ring => exact h.ring

theorem inv_worker_taking_fragment (s : Sys) (h : s.Inv) (x i c j : Nat)
    (hpc : (s.workers x).pc = .taking i) (htag : s.tag i = some (c, j)) :
    (((s.setPool (SetWorkItemState s.pool i .WorkItemBusy)).setWorker x (.taken i)
      (some (c, j))).setPhase (some (c, j)) .taken).Inv := by
  have hst := h.taking x i hpc
  obtain ⟨⟨hact, hjlt, hi, hff, hcr⟩, hphj⟩ := (h.ready i hst).1 c j htag
  have hdq := (h.deqMutex x).1 (by rw [hpc]; rfl)
  have hfree : ∀ k, (s.pool.WorkItemQueue k).State = .WorkItemFree → k ≠ i := by
    intro k hk e; subst e; rw [hst] at hk; cases hk
  have hbusy : ∀ k, (s.pool.WorkItemQueue k).State = .WorkItemBusy → k ≠ i := by
    intro k hk e; subst e; rw [hst] at hk; cases hk
  have hnofrag : ∀ y, (s.workers y).frag ≠ some (c, j) := by
    intro y hf
    obtain ⟨k, ph, -, -, h3, h4, h5⟩ := h.frag_phase y c j hf
    rw [hphj] at h3; injection h3 with h3; exact h5 h3.symm
  have hw : ∀ y, y ≠ x →
      (((s.setPool (SetWorkItemState s.pool i .WorkItemBusy)).setWorker x (.taken i)
        (some (c, j))).setPhase (some (c, j)) .taken).workers y = s.workers y :=
    fun y hy => by simp [hy]
  have hwx : (((s.setPool (SetWorkItemState s.pool i .WorkItemBusy)).setWorker x (.taken i)
        (some (c, j))).setPhase (some (c, j)) .taken).workers x
        = { pc := .taken i, frag := some (c, j) } := by simp
  have hph : ∀ p k, ((((s.setPool (SetWorkItemState s.pool i .WorkItemBusy)).setWorker x (.taken i)
        (some (c, j))).setPhase (some (c, j)) .taken).producers p).phases[k]?
        = if p = c ∧ k = j then some .taken else (s.producers p).phases[k]? := by
    intro p k
    rw [Sys.setPhase_getElem]
    simp [hjlt]
  have hphne : ∀ p, p ≠ c → ((((s.setPool (SetWorkItemState s.pool i .WorkItemBusy)).setWorker x
        (.taken i) (some (c, j))).setPhase (some (c, j)) .taken).producers p).phases
        = (s.producers p).phases := by
    intro p hp
    rw [Sys.setPhase_phases, if_neg hp]; rfl
  have hfok : ∀ c2 j2 k, (((s.setPool (SetWorkItemState s.pool i .WorkItemBusy)).setWorker x
        (.taken i) (some (c, j))).setPhase (some (c, j)) .taken).FragOK c2 j2 k ↔ s.FragOK c2 j2 k := by
    intro c2 j2 k
    simp [Sys.FragOK]
  refine {
    queueSize := ?queueSize,
    threadCount := ?threadCount,
    cursor := ?cursor,
    enqMutex := ?enqMutex,
    deqMutex := ?deqMutex,
    claimed := ?claimed,
    sawFree := ?sawFree,
    filled := ?filled,
    filledSimple := ?filledSimple,
    simpleType := ?simpleType,
    bulkType := ?bulkType,
    taking := ?taking,
    owned := ?owned,
    exclusive := ?exclusive,
    noFrag := ?noFrag,
    pastWork := ?pastWork,
    ownedSimple := ?ownedSimple,
    ready := ?ready,
    frag := ?frag,
    zero := ?zero,
    fragInj := ?fragInj,
    readyPhase := ?readyPhase,
    leader := ?leader,
    leaderPending := ?leaderPending,
    count := ?count,
    event := ?event,
    eventLeader := ?eventLeader,
    woken := ?woken,
    first := ?first,
    shape := ?shape,
    fresh := ?fresh,
    ticket := ?ticket,
    planLength := ?planLength,
    planRest := ?planRest,
    filledData := ?filledData,
    slotReady := ?slotReady,
    slotOwned := ?slotOwned,
    ring := ?ring }
  case deqMutex =>
    intro y
    by_cases hy : y = x
    · subst hy; rw [hwx]; simpa [WorkerPc.holds] using hdq
    · rw [hw y hy]; simpa using h.deqMutex y
  case sawFree =>
    intro p m hs
    have := h.sawFree p m (by simpa using hs)
    simpa [hfree m this] using this
  case taking =>
    intro y k
    by_cases hy : y = x
    · subst hy; rw [hwx]; simp
    · rw [hw y hy]
      intro hk
      have := (h.deqMutex y).1 (by rw [hk]; rfl)
      rw [hdq] at this
      exact absurd (Option.some.inj this).symm hy
  case owned =>
    intro y k
    by_cases hy : y = x
    · subst hy
      rw [hwx]
      simp only [WorkerPc.owned]
      intro e; cases e
      simp [htag]
    · rw [hw y hy]
      intro hk
      have := h.owned y k hk
      simpa [hbusy k this.1] using this
  case exclusive =>
    intro y z k hne
    by_cases hy : y = x
    · subst hy
      rw [hw z (Ne.symm hne), hwx]
      simp only [WorkerPc.owned]
      intro e hz; cases e
      exact hbusy i (h.owned z i hz).1 rfl
    · rw [hw y hy]
      by_cases hz : z = x
      · subst hz
        rw [hwx]
        simp only [WorkerPc.owned]
        intro hk e; cases e
        exact hbusy i (h.owned y i hk).1 rfl
      · rw [hw z hz]
        exact h.exclusive y z k hne
  case noFrag =>
    intro y
    by_cases hy : y = x
    · subst hy; rw [hwx]; simp [WorkerPc.phase]
    · rw [hw y hy]; exact h.noFrag y
  case pastWork =>
    intro y
    by_cases hy : y = x
    · subst hy; rw [hwx]; simp [WorkerPc.pastWork]
    · rw [hw y hy]; exact h.pastWork y
  case ownedSimple =>
    intro y k
    by_cases hy : y = x
    · subst hy; rw [hwx]; simp
    · rw [hw y hy]
      simpa using h.ownedSimple y k
  case ready =>
    intro k hk
    have hki : k ≠ i := by
      intro e; subst e; simp at hk
    have hk' : (s.pool.WorkItemQueue k).State = .WorkItemReady := by simpa [hki] using hk
    obtain ⟨r1, r2⟩ := h.ready k hk'
    refine ⟨?_, by simpa using r2⟩
    intro c2 j2 ht
    obtain ⟨f1, f2⟩ := r1 c2 j2 (by simpa using ht)
    refine ⟨(hfok c2 j2 k).2 f1, ?_⟩
    rw [hph]
    have : ¬ (c2 = c ∧ j2 = j) := by
      rintro ⟨rfl, rfl⟩
      exact hki (f1.2.2.1.trans hi.symm)
    rw [if_neg this]; exact f2
  case frag =>
    intro y c2 j2 k ph
    by_cases hy : y = x
    · subst hy
      rw [hwx]
      simp only [WorkerPc.phase]
      intro e1 e2
      cases e1; cases e2
      refine ⟨(hfok _ _ _).2 ⟨hact, hjlt, hi, hff, hcr⟩, ?_⟩
      rw [hph]; simp
    · rw [hw y hy]
      intro hf hp
      obtain ⟨f1, f2⟩ := h.frag y c2 j2 k ph hf hp
      refine ⟨(hfok c2 j2 k).2 f1, ?_⟩
      rw [hph]
      have : ¬ (c2 = c ∧ j2 = j) := by
        rintro ⟨rfl, rfl⟩
        exact hnofrag y hf
      rw [if_neg this]; exact f2
  case zero =>
    intro y c2 j2 k
    by_cases hy : y = x
    · subst hy; rw [hwx]; simp
    · rw [hw y hy]
      intro hf hp
      obtain ⟨h1, h2, h3⟩ := h.zero y c2 j2 k hf hp
      have hc2 : c2 ≠ c := by
        rintro rfl
        have := h1 _ (List.getElem?_mem hphj)
        cases this
      refine ⟨?_, by simpa using h2, ?_⟩
      · rw [hphne c2 hc2]; exact h1
      · intro z k2 hz
        by_cases hzx : z = x
        · subst hzx; rw [hwx]
          simp only [ne_eq, Option.some.injEq, Prod.mk.injEq, not_and]
          intro e; exact absurd e.symm hc2
        · rw [hw z hzx]; exact h3 z k2 hz
  case fragInj =>
    intro y z g hne
    by_cases hy : y = x
    · subst hy
      rw [hw z (Ne.symm hne), hwx]
      intro e; cases e
      exact hnofrag z
    · by_cases hz : z = x
      · subst hz
        rw [hw y hy, hwx]
        intro e1 e2; cases e2
        exact hnofrag y e1
      · rw [hw y hy, hw z hz]
        exact h.fragInj y z g hne
  case readyPhase =>
    intro c2 j2 hact2 hj2
    rw [hph] at hj2
    have hne2 : ¬ (c2 = c ∧ j2 = j) := by
      intro e; rw [if_pos e] at hj2; cases hj2
    rw [if_neg hne2] at hj2
    have := h.readyPhase c2 j2 (by simpa using hact2) hj2
    have hne : ((s.producers c2).leaderTicket + j2) % s.pool.ThreadQueueSize ≠ i := by
      intro e; rw [e, htag] at this
      have := this.2
      injection this with this; injection this with e1 e2
      exact hne2 ⟨e1.symm, e2.symm⟩
    simpa [hne] using this
  case leader =>
    intro c2 ph hc h0 h1 h2
    rw [hph] at h0
    by_cases e : c2 = c ∧ 0 = j
    · obtain ⟨rfl, rfl⟩ := e
      simp only [Nat.add_zero] at hi
      simp [← hi, htag]
    · rw [if_neg e] at h0
      have := h.leader c2 ph (by simpa using hc) h0 h1 h2
      refine ⟨?_, by simpa using this.2⟩
      simp only [Sys.setPhase_pool, Sys.setWorker_pool, Sys.setPool_pool, SetWorkItemState_State,
        SetWorkItemState_size, Sys.setPhase_leaderTicket, Sys.setWorker_producers,
        Sys.setPool_producers]
      split_ifs
      · rfl
      · exact this.1
  case leaderPending =>
    intro c2 hc h0
    rw [hph] at h0
    have hne2 : ¬ (c2 = c ∧ 0 = j) := by
      intro e; rw [if_pos e] at h0; cases h0
    rw [if_neg hne2] at h0
    have := h.leaderPending c2 (by simpa using hc) h0
    simpa [hfree _ this] using this
  case count =>
    intro c2 hc
    have := h.count c2 (by simpa using hc)
    by_cases e : c2 = c
    · subst e
      simp only [Sys.setPhase_pool, Sys.setWorker_pool, Sys.setPool_pool,
        SetWorkItemState_OutstandingFragmentCount, SetWorkItemState_size,
        Sys.setPhase_leaderTicket, Sys.setWorker_producers, Sys.setPool_producers,
        Sys.setPhase_length]
      rw [Sys.setPhase_phases, if_pos rfl]
      simp only [Sys.setWorker_producers, Sys.setPool_producers]
      rw [countP_set_same _ _ _ _ hphj (by rfl)]
      exact this
    · rw [hphne c2 e]
      simpa using this
  case event =>
    intro c2 hc he
    have := h.event c2 (by simpa using hc) (by simpa using he)
    have hc2 : c2 ≠ c := by
      rintro rfl
      have := this _ (List.getElem?_mem hphj)
      cases this
    rw [hphne c2 hc2]; exact this
  case woken =>
    intro c2 first hc
    have := h.woken c2 first (by simpa using hc)
    have hc2 : c2 ≠ c := by
      rintro rfl
      have := this _ (List.getElem?_mem hphj)
      cases this
    rw [hphne c2 hc2]; exact this
  case shape =>
    intro c2 n hn
    obtain ⟨s1, s2, s3, s4⟩ := h.shape c2 n (by simpa using hn)
    refine ⟨by simpa using s1, by simpa using s2, by simpa using s3, ?_⟩
    intro j2 ph hj2
    rw [hph] at hj2
    simp only [Sys.setPhase_length, Sys.setWorker_producers, Sys.setPool_producers]
    by_cases e : c2 = c ∧ j2 = j
    · obtain ⟨rfl, rfl⟩ := e
      rw [if_pos ⟨rfl, rfl⟩] at hj2
      injection hj2 with hj2
      subst hj2
      have := s4 j2 _ hphj
      simpa using this
    · rw [if_neg e] at hj2
      exact s4 j2 ph hj2
  case slotReady =>
    intro k c2 j2 hk ht
    have hki : k ≠ i := by
      intro e; subst e; simp at hk
    have hk2 : (s.pool.WorkItemQueue k).State = .WorkItemReady := by simpa [hki] using hk
    simpa [Sys.SlotData] using h.slotReady k c2 j2 hk2 (by simpa using ht)
  case slotOwned =>
    intro y k c2 j2
    by_cases hy : y = x
    · subst hy; rw [hwx]
      simp only [WorkerPc.owned]
      intro e1 e2
      cases e1; cases e2
      simpa [Sys.SlotData] using h.slotReady i c j hst htag
    · rw [hw y hy]
      intro a b
      simpa [Sys.SlotData] using h.slotOwned y k c2 j2 a b
  case queueSize => exact h.queueSize
  case threadCount => exact h.threadCount
  case cursor => exact h.cursor
  case enqMutex => simpa [Sys.SlotData] using h.enqMutex
  case claimed => simpa [Sys.SlotData] using h.claimed
  case filled => simpa [Sys.SlotData] using h.filled
  case filledSimple => simpa [Sys.SlotData] using h.filledSimple
  case simpleType => simpa [Sys.SlotData] using h.simpleType
  case bulkType => simpa [Sys.SlotData] using h.bulkType
  case eventLeader => simpa [Sys.SlotData] using h.eventLeader
  case first => simpa [Sys.SlotData] using h.first
  case fresh => simpa [Sys.SlotData] using h.fresh
  case ticket => simpa [Sys.SlotData] using h.ticket
  case planLength => simpa [Sys.SlotData] using h.planLength
  case planRest => simpa [Sys.SlotData] using h.planRest
  case filledData => simpa [Sys.SlotData] using h.filledData
  case ring => simpa [Sys.SlotData] using h.ring

theorem inv_worker_taken (s : Sys) (h : s.Inv) (x i : Nat)
    (hpc : (s.workers x).pc = .taken i) :
    ({ s with dequeueOwner := none }.setWorker x (.working i) (s.workers x).frag).Inv := by
  have hdq := (h.deqMutex x).1 (by rw [hpc]; rfl)
  have hw : ∀ y, y ≠ x →
      ({ s with dequeueOwner := none }.setWorker x (.working i) (s.workers x).frag).workers y
        = s.workers y := fun y hy => by simp [hy]
  have hwx : ({ s with dequeueOwner := none }.setWorker x (.working i) (s.workers x).frag).workers x
        = { pc := .working i, frag := (s.workers x).frag } := by simp
  have hfr : ∀ y, (({ s with dequeueOwner := none }.setWorker x (.working i)
      (s.workers x).frag).workers y).frag = (s.workers y).frag := by
    intro y
    by_cases hy : y = x
    · subst hy; rw [hwx]
    · rw [hw y hy]
  refine {
    queueSize := ?queueSize,
    threadCount := ?threadCount,
    cursor := ?cursor,
    enqMutex := ?enqMutex,
    deqMutex := ?deqMutex,
    claimed := ?claimed,
    sawFree := ?sawFree,
    filled := ?filled,
    filledSimple := ?filledSimple,
    simpleType := ?simpleType,
    bulkType := ?bulkType,
    taking := ?taking,
    owned := ?owned,
    exclusive := ?exclusive,
    noFrag := ?noFrag,
    pastWork := ?pastWork,
    ownedSimple := ?ownedSimple,
    ready := ?ready,
    frag := ?frag,
    zero := ?zero,
    fragInj := ?fragInj,
    readyPhase := ?readyPhase,
    leader := ?leader,
    leaderPending := ?leaderPending,
    count := ?count,
    event := ?event,
    eventLeader := ?eventLeader,
    woken := ?woken,
    first := ?first,
    shape := ?shape,
    fresh := ?fresh,
    ticket := ?ticket,
    planLength := ?planLength,
    planRest := ?planRest,
    filledData := ?filledData,
    slotReady := ?slotReady,
    slotOwned := ?slotOwned,
    ring := ?ring }
  case deqMutex =>
    intro y
    by_cases hy : y = x
    · subst hy; rw [hwx]; simp [WorkerPc.holds]
    · rw [hw y hy]
      have := h.deqMutex y
      rw [hdq] at this
      simp only [Sys.setWorker_dequeueOwner]
      constructor
      · intro e; exact absurd (Option.some.inj (this.1 e)).symm hy
      · intro e; cases e
  case taking =>
    intro y k
    by_cases hy : y = x
    · subst hy; rw [hwx]; simp
    · rw [hw y hy]; exact h.taking y k
  case owned =>
    intro y k
    by_cases hy : y = x
    · subst hy
      rw [hwx]
      have := h.owned y k
      rw [hpc] at this
      exact this
    · rw [hw y hy]; exact h.owned y k
  case exclusive =>
    intro y z k hne
    have := h.exclusive y z k hne
    by_cases hy : y = x
    · subst hy
      rw [hw z (Ne.symm hne), hwx]
      rw [hpc] at this
      exact this
    · rw [hw y hy]
      by_cases hz : z = x
      · subst hz
        rw [hwx]
        rw [hpc] at this
        exact this
      · rw [hw z hz]
        exact this
  case noFrag =>
    intro y
    by_cases hy : y = x
    · subst hy; rw [hwx]; simp [WorkerPc.phase]
    · rw [hw y hy]; exact h.noFrag y
  case pastWork =>
    intro y
    by_cases hy : y = x
    · subst hy; rw [hwx]; simp [WorkerPc.pastWork]
    · rw [hw y hy]; exact h.pastWork y
  case ownedSimple =>
    intro y k
    by_cases hy : y = x
    · subst hy; rw [hwx]
      have := h.ownedSimple y k
      rw [hpc] at this
      exact this
    · rw [hw y hy]
      exact h.ownedSimple y k
  case frag =>
    intro y c2 j2 k ph
    by_cases hy : y = x
    · subst hy
      rw [hwx]
      have := h.frag y c2 j2 k ph
      rw [hpc] at this
      exact this
    · rw [hw y hy]
      exact h.frag y c2 j2 k ph
  case zero =>
    intro y c2 j2 k
    by_cases hy : y = x
    · subst hy; rw [hwx]; simp
    · rw [hw y hy]
      intro hf hp
      obtain ⟨h1, h2, h3⟩ := h.zero y c2 j2 k hf hp
      refine ⟨h1, h2, ?_⟩
      intro z k2 hz
      rw [hfr]
      exact h3 z k2 hz
  case fragInj =>
    intro y z g hne
    rw [hfr, hfr]
    exact h.fragInj y z g hne
  case slotOwned =>
    intro y k c2 j2
    by_cases hy : y = x
    · subst hy; rw [hwx]
      have := h.slotOwned y k c2 j2
      rw [hpc] at this
      exact this
    · rw [hw y hy]
      exact h.slotOwned y k c2 j2
  case queueSize => exact h.queueSize
  case threadCount => exact h.threadCount
  case cursor => exact h.cursor
  case enqMutex => exact h.enqMutex
  case claimed => exact h.claimed
  case sawFree => exact h.sawFree
  case filled => exact h.filled
  case filledSimple => exact h.filledSimple
  case simpleType => exact h.simpleType
  case bulkType => exact h.bulkType
  case ready => exact h.ready
  case readyPhase => exact h.readyPhase
  case leader => exact h.leader
  case leaderPending => exact h.leaderPending
  case count => exact h.count
  case event => exact h.event
  case eventLeader => exact h.eventLeader
  case woken => exact h.woken
  case first => exact h.first
  case shape => exact h.shape
  case fresh => exact h.fresh
  case ticket => exact h.ticket
  case planLength => exact h.planLength
  case planRest => exact h.planRest
  case filledData => exact h.filledData
  case slotReady => exact h.slotReady
  case ring => exact h.ring

theorem inv_worker_decremented_false (s : Sys) (h : s.Inv) (x i : Nat)
    (hpc : (s.workers x).pc = .decremented i false) :
    (s.setWorker x .loopHead none).Inv := by
  have hw : ∀ y, y ≠ x → (s.setWorker x .loopHead none).workers y = s.workers y :=
    fun y hy => by simp [hy]
  have hwx : (s.setWorker x .loopHead none).workers x = { pc := .loopHead, frag := none } := by simp
  have hfx : (s.workers x).frag = none := h.noFrag x (by rw [hpc]; rfl)
  have hfr : ∀ y, ((s.setWorker x .loopHead none).workers y).frag = (s.workers y).frag := by
    intro y
    by_cases hy : y = x
    · subst hy; rw [hwx, hfx]
    · rw [hw y hy]
  refine {
    queueSize := ?queueSize,
    threadCount := ?threadCount,
    cursor := ?cursor,
    enqMutex := ?enqMutex,
    deqMutex := ?deqMutex,
    claimed := ?claimed,
    sawFree := ?sawFree,
    filled := ?filled,
    filledSimple := ?filledSimple,
    simpleType := ?simpleType,
    bulkType := ?bulkType,
    taking := ?taking,
    owned := ?owned,
    exclusive := ?exclusive,
    noFrag := ?noFrag,
    pastWork := ?pastWork,
    ownedSimple := ?ownedSimple,
    ready := ?ready,
    frag := ?frag,
    zero := ?zero,
    fragInj := ?fragInj,
    readyPhase := ?readyPhase,
    leader := ?leader,
    leaderPending := ?leaderPending,
    count := ?count,
    event := ?event,
    eventLeader := ?eventLeader,
    woken := ?woken,
    first := ?first,
    shape := ?shape,
    fresh := ?fresh,
    ticket := ?ticket,
    planLength := ?planLength,
    planRest := ?planRest,
    filledData := ?filledData,
    slotReady := ?slotReady,
    slotOwned := ?slotOwned,
    ring := ?ring }
  case deqMutex =>
    intro y
    by_cases hy : y = x
    · subst hy; rw [hwx]
      have := h.deqMutex y
      rw [hpc] at this
      simpa [WorkerPc.holds] using this
    · rw [hw y hy]; exact h.deqMutex y
  case taking =>
    intro y k
    by_cases hy : y = x
    · subst hy; rw [hwx]; simp
    · rw [hw y hy]; exact h.taking y k
  case owned =>
    intro y k
    by_cases hy : y = x
    · subst hy; rw [hwx]; simp [WorkerPc.owned]
    · rw [hw y hy]; exact h.owned y k
  case exclusive =>
    intro y z k hne
    by_cases hy : y = x
    · subst hy; rw [hwx]; simp [WorkerPc.owned]
    · rw [hw y hy]
      by_cases hz : z = x
      · subst hz; rw [hwx]; simp [WorkerPc.owned]
      · rw [hw z hz]
        exact h.exclusive y z k hne
  case noFrag =>
    intro y
    by_cases hy : y = x
    · subst hy; rw [hwx]; simp
    · rw [hw y hy]; exact h.noFrag y
  case pastWork =>
    intro y
    by_cases hy : y = x
    · subst hy; rw [hwx]; simp [WorkerPc.pastWork]
    · rw [hw y hy]; exact h.pastWork y
  case ownedSimple =>
    intro y k
    by_cases hy : y = x
    · subst hy; rw [hwx]; simp [WorkerPc.owned]
    · rw [hw y hy]
      exact h.ownedSimple y k
  case frag =>
    intro y c2 j2 k ph
    by_cases hy : y = x
    · subst hy; rw [hwx]; simp
    · rw [hw y hy]
      exact h.frag y c2 j2 k ph
  case zero =>
    intro y c2 j2 k
    by_cases hy : y = x
    · subst hy; rw [hwx]; simp
    · rw [hw y hy]
      intro hf hp
      obtain ⟨h1, h2, h3⟩ := h.zero y c2 j2 k hf hp
      refine ⟨h1, h2, ?_⟩
      intro z k2 hz
      rw [hfr]
      exact h3 z k2 hz
  case fragInj =>
    intro y z g hne
    rw [hfr, hfr]
    exact h.fragInj y z g hne
  case slotOwned =>
    intro y k c2 j2
    by_cases hy : y = x
    · subst hy; rw [hwx]; simp [WorkerPc.owned]
    · rw [hw y hy]
      exact h.slotOwned y k c2 j2
  case queueSize => exact h.queueSize
  case threadCount => exact h.threadCount
  case cursor => exact h.cursor
  case enqMutex => exact h.enqMutex
  case claimed => exact h.claimed
  case sawFree => exact h.sawFree
  case filled => exact h.filled
  case filledSimple => exact h.filledSimple
  case simpleType => exact h.simpleType
  case bulkType => exact h.bulkType
  case ready => exact h.ready
  case readyPhase => exact h.readyPhase
  case leader => exact h.leader
  case leaderPending => exact h.leaderPending
  case count => exact h.count
  case event => exact h.event
  case eventLeader => exact h.eventLeader
  case woken => exact h.woken
  case first => exact h.first
  case shape => exact h.shape
  case fresh => exact h.fresh
  case ticket => exact h.ticket
  case planLength => exact h.planLength
  case planRest => exact h.planRest
  case filledData => exact h.filledData
  case slotReady => exact h.slotReady
  case ring => exact h.ring

theorem inv_worker_working_fragment (s : Sys) (h : s.Inv) (x i : Nat)
    (hpc : (s.workers x).pc = .working i)
    (hty : (s.pool.WorkItemQueue i).WorkType.isCrypto = true) :
    ((s.setWorker x (.executed i) (s.workers x).frag).setPhase (s.workers x).frag .executed).Inv := by
  have hfx : ∃ c j, (s.workers x).frag = some (c, j) := by
    rcases hf : (s.workers x).frag with _ | ⟨c, j⟩
    · have := h.ownedSimple x i (by rw [hpc]; rfl) hf
      rw [hty] at this; cases this
    · exact ⟨c, j, rfl⟩
  obtain ⟨c, j, hfx⟩ := hfx
  rw [hfx]
  obtain ⟨⟨hact, hjlt, hi, hff, hcr⟩, hphj⟩ := h.frag x c j i .taken hfx (by rw [hpc]; rfl)
  have hw : ∀ y, y ≠ x →
      ((s.setWorker x (.executed i) (some (c, j))).setPhase (some (c, j)) .executed).workers y
        = s.workers y := fun y hy => by simp [hy]
  have hwx : ((s.setWorker x (.executed i) (some (c, j))).setPhase (some (c, j)) .executed).workers x
        = { pc := .executed i, frag := some (c, j) } := by simp
  have hfr : ∀ y, (((s.setWorker x (.executed i) (some (c, j))).setPhase (some (c, j))
      .executed).workers y).frag = (s.workers y).frag := by
    intro y
    by_cases hy : y = x
    · subst hy; rw [hwx, hfx]
    · rw [hw y hy]
  have hph : ∀ p k, (((s.setWorker x (.executed i) (some (c, j))).setPhase (some (c, j))
        .executed).producers p).phases[k]?
        = if p = c ∧ k = j then some .executed else (s.producers p).phases[k]? := by
    intro p k
    rw [Sys.setPhase_getElem]
    simp [hjlt]
  have hphne : ∀ p, p ≠ c → (((s.setWorker x (.executed i) (some (c, j))).setPhase (some (c, j))
        .executed).producers p).phases = (s.producers p).phases := by
    intro p hp
    rw [Sys.setPhase_phases, if_neg hp]; rfl
  have hfok : ∀ c2 j2 k, ((s.setWorker x (.executed i) (some (c, j))).setPhase (some (c, j))
        .executed).FragOK c2 j2 k ↔ s.FragOK c2 j2 k := by
    intro c2 j2 k
    simp [Sys.FragOK]
  have hall : ∀ c2, (∀ ph ∈ (s.producers c2).phases, ph = .decremented) → c2 ≠ c := by
    rintro c2 hd rfl
    have := hd _ (List.getElem?_mem hphj)
    cases this
  refine {
    queueSize := ?queueSize,
    threadCount := ?threadCount,
    cursor := ?cursor,
    enqMutex := ?enqMutex,
    deqMutex := ?deqMutex,
    claimed := ?claimed,
    sawFree := ?sawFree,
    filled := ?filled,
    filledSimple := ?filledSimple,
    simpleType := ?simpleType,
    bulkType := ?bulkType,
    taking := ?taking,
    owned := ?owned,
    exclusive := ?exclusive,
    noFrag := ?noFrag,
    pastWork := ?pastWork,
    ownedSimple := ?ownedSimple,
    ready := ?ready,
    frag := ?frag,
    zero := ?zero,
    fragInj := ?fragInj,
    readyPhase := ?readyPhase,
    leader := ?leader,
    leaderPending := ?leaderPending,
    count := ?count,
    event := ?event,
    eventLeader := ?eventLeader,
    woken := ?woken,
    first := ?first,
    shape := ?shape,
    fresh := ?fresh,
    ticket := ?ticket,
    planLength := ?planLength,
    planRest := ?planRest,
    filledData := ?filledData,
    slotReady := ?slotReady,
    slotOwned := ?slotOwned,
    ring := ?ring }
  case deqMutex =>
    intro y
    by_cases hy : y = x
    · subst hy; rw [hwx]
      have := h.deqMutex y
      rw [hpc] at this
      simpa [WorkerPc.holds] using this
    · rw [hw y hy]; simpa using h.deqMutex y
  case taking =>
    intro y k
    by_cases hy : y = x
    · subst hy; rw [hwx]; simp
    · rw [hw y hy]; simpa using h.taking y k
  case owned =>
    intro y k
    by_cases hy : y = x
    · subst hy
      rw [hwx]
      have := h.owned y k
      rw [hpc, hfx] at this
      simpa [WorkerPc.owned] using this
    · rw [hw y hy]; simpa using h.owned y k
  case exclusive =>
    intro y z k hne
    have := h.exclusive y z k hne
    by_cases hy : y = x
    · subst hy
      rw [hw z (Ne.symm hne), hwx]
      rw [hpc] at this
      exact this
    · rw [hw y hy]
      by_cases hz : z = x
      · subst hz
        rw [hwx]
        rw [hpc] at this
        exact this
      · rw [hw z hz]
        exact this
  case noFrag =>
    intro y
    by_cases hy : y = x
    · subst hy; rw [hwx]; simp [WorkerPc.phase]
    · rw [hw y hy]; exact h.noFrag y
  case pastWork =>
    intro y
    by_cases hy : y = x
    · subst hy; rw [hwx]; simp
    · rw [hw y hy]; exact h.pastWork y
  case ownedSimple =>
    intro y k
    by_cases hy : y = x
    · subst hy; rw [hwx]; simp
    · rw [hw y hy]
      simpa using h.ownedSimple y k
  case ready =>
    intro k hk
    obtain ⟨r1, r2⟩ := h.ready k (by simpa using hk)
    refine ⟨?_, by simpa using r2⟩
    intro c2 j2 ht
    obtain ⟨f1, f2⟩ := r1 c2 j2 (by simpa using ht)
    refine ⟨(hfok c2 j2 k).2 f1, ?_⟩
    rw [hph]
    have : ¬ (c2 = c ∧ j2 = j) := by
      rintro ⟨rfl, rfl⟩
      rw [hphj] at f2; cases f2
    rw [if_neg this]; exact f2
  case frag =>
    intro y c2 j2 k ph
    by_cases hy : y = x
    · subst hy
      rw [hwx]
      simp only [WorkerPc.phase]
      intro e1 e2
      cases e1; cases e2
      refine ⟨(hfok _ _ _).2 ⟨hact, hjlt, hi, hff, hcr⟩, ?_⟩
      rw [hph]; simp
    · rw [hw y hy]
      intro hf hp
      obtain ⟨f1, f2⟩ := h.frag y c2 j2 k ph hf hp
      refine ⟨(hfok c2 j2 k).2 f1, ?_⟩
      rw [hph]
      have : ¬ (c2 = c ∧ j2 = j) := by
        rintro ⟨rfl, rfl⟩
        exact h.fragInj y x _ hy hf hfx
      rw [if_neg this]; exact f2
  case zero =>
    intro y c2 j2 k
    by_cases hy : y = x
    · subst hy; rw [hwx]; simp
    · rw [hw y hy]
      intro hf hp
      obtain ⟨h1, h2, h3⟩ := h.zero y c2 j2 k hf hp
      refine ⟨?_, by simpa using h2, ?_⟩
      · rw [hphne c2 (hall c2 h1)]; exact h1
      · intro z k2 hz
        rw [hfr]
        exact h3 z k2 hz
  case fragInj =>
    intro y z g hne
    rw [hfr, hfr]
    exact h.fragInj y z g hne
  case readyPhase =>
    intro c2 j2 hact2 hj2
    rw [hph] at hj2
    have hne2 : ¬ (c2 = c ∧ j2 = j) := by
      intro e; rw [if_pos e] at hj2; cases hj2
    rw [if_neg hne2] at hj2
    simpa using h.readyPhase c2 j2 (by simpa using hact2) hj2
  case leader =>
    intro c2 ph hc h0 h1 h2
    rw [hph] at h0
    by_cases e : c2 = c ∧ 0 = j
    · obtain ⟨rfl, rfl⟩ := e
      simpa using h.leader c2 .taken (by simpa using hc) hphj (by simp) (by simp)
    · rw [if_neg e] at h0
      simpa using h.leader c2 ph (by simpa using hc) h0 h1 h2
  case leaderPending =>
    intro c2 hc h0
    rw [hph] at h0
    have hne2 : ¬ (c2 = c ∧ 0 = j) := by
      intro e; rw [if_pos e] at h0; cases h0
    rw [if_neg hne2] at h0
    simpa using h.leaderPending c2 (by simpa using hc) h0
  case count =>
    intro c2 hc
    have := h.count c2 (by simpa using hc)
    by_cases e : c2 = c
    · subst e
      simp only [Sys.setPhase_pool, Sys.setWorker_pool,
        Sys.setPhase_leaderTicket, Sys.setWorker_producers,
        Sys.setPhase_length]
      rw [Sys.setPhase_phases, if_pos rfl]
      simp only [Sys.setWorker_producers]
      rw [countP_set_same _ _ _ _ hphj (by rfl)]
      exact this
    · rw [hphne c2 e]
      simpa using this
  case event =>
    intro c2 hc he
    have := h.event c2 (by simpa using hc) (by simpa using he)
    rw [hphne c2 (hall c2 this)]; exact this
  case woken =>
    intro c2 first hc
    have := h.woken c2 first (by simpa using hc)
    rw [hphne c2 (hall c2 this)]; exact this
  case shape =>
    intro c2 n hn
    obtain ⟨s1, s2, s3, s4⟩ := h.shape c2 n (by simpa using hn)
    refine ⟨by simpa using s1, by simpa using s2, by simpa using s3, ?_⟩
    intro j2 ph hj2
    rw [hph] at hj2
    simp only [Sys.setPhase_length, Sys.setWorker_producers]
    by_cases e : c2 = c ∧ j2 = j
    · obtain ⟨rfl, rfl⟩ := e
      rw [if_pos ⟨rfl, rfl⟩] at hj2
      injection hj2 with hj2
      subst hj2
      have := s4 j2 _ hphj
      simpa using this
    · rw [if_neg e] at hj2
      exact s4 j2 ph hj2
  case slotOwned =>
    intro y k c2 j2
    by_cases hy : y = x
    · subst hy; rw [hwx]
      have := h.slotOwned y k c2 j2
      rw [hpc, hfx] at this
      simpa [Sys.SlotData, WorkerPc.owned] using this
    · rw [hw y hy]
      intro a b
      simpa [Sys.SlotData] using h.slotOwned y k c2 j2 a b
  case queueSize => exact h.queueSize
  case threadCount => exact h.threadCount
  case cursor => exact h.cursor
  case enqMutex => simpa [Sys.SlotData] using h.enqMutex
  case claimed => simpa [Sys.SlotData] using h.claimed
  case sawFree => simpa [Sys.SlotData] using h.sawFree
  case filled => simpa [Sys.SlotData] using h.filled
  case filledSimple => simpa [Sys.SlotData] using h.filledSimple
  case simpleType => simpa [Sys.SlotData] using h.simpleType
  case bulkType => simpa [Sys.SlotData] using h.bulkType
  case eventLeader => simpa [Sys.SlotData] using h.eventLeader
  case first => simpa [Sys.SlotData] using h.first
  case fresh => simpa [Sys.SlotData] using h.fresh
  case ticket => simpa [Sys.SlotData] using h.ticket
  case planLength => simpa [Sys.SlotData] using h.planLength
  case planRest => simpa [Sys.SlotData] using h.planRest
  case filledData => simpa [Sys.SlotData] using h.filledData
  case slotReady => simpa [Sys.SlotData] using h.slotReady
  case ring => simpa [Sys.SlotData] using h.ring

theorem inv_worker_working_simple (s : Sys) (h : s.Inv) (x i : Nat)
    (hpc : (s.workers x).pc = .working i)
    (hty : (s.pool.WorkItemQueue i).WorkType.isCrypto = false) :
    ((s.setPool (s.pool.freeWorkItem i)).setWorker x .loopHead none).Inv := by
  have hfx : (s.workers x).frag = none := by
    rcases hf : (s.workers x).frag with _ | ⟨c, j⟩
    · rfl
    · have := (h.frag x c j i .taken hf (by rw [hpc]; rfl)).1.2.2.2.2
      rw [hty] at this; cases this
  obtain ⟨hst, htag⟩ := h.owned x i (by rw [hpc]; rfl)
  rw [hfx] at htag
  have hw : ∀ y, y ≠ x →
      ((s.setPool (s.pool.freeWorkItem i)).setWorker x .loopHead none).workers y
        = s.workers y := fun y hy => by simp [hy]
  have hwx : ((s.setPool (s.pool.freeWorkItem i)).setWorker x .loopHead none).workers x
        = { pc := .loopHead, frag := none } := by simp
  have hfr : ∀ y, (((s.setPool (s.pool.freeWorkItem i)).setWorker x .loopHead none).workers y).frag
      = (s.workers y).frag := by
    intro y
    by_cases hy : y = x
    · subst hy; rw [hwx, hfx]
    · rw [hw y hy]
  have hfok : ∀ c2 j2 k, ((s.setPool (s.pool.freeWorkItem i)).setWorker x .loopHead none).FragOK
      c2 j2 k ↔ s.FragOK c2 j2 k := by
    intro c2 j2 k
    simp [Sys.FragOK]
  have hready : ∀ k, (s.pool.WorkItemQueue k).State = .WorkItemReady → k ≠ i := by
    intro k hk e; subst e; rw [hst] at hk; cases hk
  refine {
    queueSize := ?queueSize,
    threadCount := ?threadCount,
    cursor := ?cursor,
    enqMutex := ?enqMutex,
    deqMutex := ?deqMutex,
    claimed := ?claimed,
    sawFree := ?sawFree,
    filled := ?filled,
    filledSimple := ?filledSimple,
    simpleType := ?simpleType,
    bulkType := ?bulkType,
    taking := ?taking,
    owned := ?owned,
    exclusive := ?exclusive,
    noFrag := ?noFrag,
    pastWork := ?pastWork,
    ownedSimple := ?ownedSimple,
    ready := ?ready,
    frag := ?frag,
    zero := ?zero,
    fragInj := ?fragInj,
    readyPhase := ?readyPhase,
    leader := ?leader,
    leaderPending := ?leaderPending,
    count := ?count,
    event := ?event,
    eventLeader := ?eventLeader,
    woken := ?woken,
    first := ?first,
    shape := ?shape,
    fresh := ?fresh,
    ticket := ?ticket,
    planLength := ?planLength,
    planRest := ?planRest,
    filledData := ?filledData,
    slotReady := ?slotReady,
    slotOwned := ?slotOwned,
    ring := ?ring }
  case deqMutex =>
    intro y
    by_cases hy : y = x
    · subst hy; rw [hwx]
      have := h.deqMutex y
      rw [hpc] at this
      simpa [WorkerPc.holds] using this
    · rw [hw y hy]; simpa using h.deqMutex y
  case sawFree =>
    intro p m hs
    have := h.sawFree p m hs
    simp only [Sys.setWorker_pool, Sys.setPool_pool, Pool.freeWorkItem_State]
    split_ifs
    · rfl
    · exact this
  case taking =>
    intro y k
    by_cases hy : y = x
    · subst hy; rw [hwx]; simp
    · rw [hw y hy]
      intro hk
      have := h.taking y k hk
      simpa [hready k this] using this
  case owned =>
    intro y k
    by_cases hy : y = x
    · subst hy; rw [hwx]; simp [WorkerPc.owned]
    · rw [hw y hy]
      intro hk
      have hki : k ≠ i := by
        rintro rfl
        exact h.exclusive y x k hy hk (by rw [hpc]; rfl)
      simpa [hki] using h.owned y k hk
  case exclusive =>
    intro y z k hne
    by_cases hy : y = x
    · subst hy; rw [hwx]; simp [WorkerPc.owned]
    · rw [hw y hy]
      by_cases hz : z = x
      · subst hz; rw [hwx]; simp [WorkerPc.owned]
      · rw [hw z hz]
        exact h.exclusive y z k hne
  case noFrag =>
    intro y
    by_cases hy : y = x
    · subst hy; rw [hwx]; simp
    · rw [hw y hy]; exact h.noFrag y
  case pastWork =>
    intro y
    by_cases hy : y = x
    · subst hy; rw [hwx]; simp [WorkerPc.pastWork]
    · rw [hw y hy]; exact h.pastWork y
  case ownedSimple =>
    intro y k
    by_cases hy : y = x
    · subst hy; rw [hwx]; simp [WorkerPc.owned]
    · rw [hw y hy]
      simpa using h.ownedSimple y k
  case ready =>
    intro k hk
    have hki : k ≠ i := by
      intro e; subst e; simp at hk
    have hk' : (s.pool.WorkItemQueue k).State = .WorkItemReady := by simpa [hki] using hk
    simpa [Sys.FragOK] using h.ready k hk'
  case frag =>
    intro y c2 j2 k ph
    by_cases hy : y = x
    · subst hy; rw [hwx]; simp
    · rw [hw y hy, hfok]
      exact h.frag y c2 j2 k ph
  case zero =>
    intro y c2 j2 k
    by_cases hy : y = x
    · subst hy; rw [hwx]; simp
    · rw [hw y hy]
      intro hf hp
      obtain ⟨h1, h2, h3⟩ := h.zero y c2 j2 k hf hp
      refine ⟨h1, by simpa using h2, ?_⟩
      intro z k2 hz
      rw [hfr]
      exact h3 z k2 hz
  case fragInj =>
    intro y z g hne
    rw [hfr, hfr]
    exact h.fragInj y z g hne
  case readyPhase =>
    intro c2 j2 hact2 hj2
    have := h.readyPhase c2 j2 hact2 hj2
    simpa [hready _ this.1] using this
  case leader =>
    intro c2 ph hc h0 h1 h2
    have := h.leader c2 ph hc h0 h1 h2
    have hne : (s.producers c2).leaderTicket % s.pool.ThreadQueueSize ≠ i := by
      intro e; rw [e, htag] at this; cases this.2
    simpa [hne] using this
  case leaderPending =>
    intro c2 hc h0
    have := h.leaderPending c2 hc h0
    simp only [Sys.setWorker_pool, Sys.setPool_pool, Pool.freeWorkItem_State]
    split_ifs
    · rfl
    · simpa using this
  case slotReady =>
    intro k c2 j2 hk ht
    have hki : k ≠ i := by
      intro e; subst e; simp at hk
    have hk2 : (s.pool.WorkItemQueue k).State = .WorkItemReady := by simpa [hki] using hk
    simpa [Sys.SlotData] using h.slotReady k c2 j2 hk2 ht
  case slotOwned =>
    intro y k c2 j2
    by_cases hy : y = x
    · subst hy; rw [hwx]; simp [WorkerPc.owned]
    · rw [hw y hy]
      intro a b
      simpa [Sys.SlotData] using h.slotOwned y k c2 j2 a b
  case queueSize => exact h.queueSize
  case threadCount => exact h.threadCount
  case cursor => exact h.cursor
  case enqMutex => exact h.enqMutex
  case claimed => exact h.claimed
  case filled => simpa [Sys.SlotData] using h.filled
  case filledSimple => simpa [Sys.SlotData] using h.filledSimple
  case simpleType => exact h.simpleType
  case bulkType => exact h.bulkType
  case count => simpa [Sys.SlotData] using h.count
  case event => simpa [Sys.SlotData] using h.event
  case eventLeader => simpa [Sys.SlotData] using h.eventLeader
  case woken => exact h.woken
  case first => exact h.first
  case shape => exact h.shape
  case fresh => exact h.fresh
  case ticket => exact h.ticket
  case planLength => exact h.planLength
  case planRest => exact h.planRest
  case filledData => simpa [Sys.SlotData] using h.filledData
  case ring => exact h.ring

theorem inv_worker_executed_aux (s : Sys) (h : s.Inv) (x i c j : Nat)
    (hpc : (s.workers x).pc = .executed i) (hfx : (s.workers x).frag = some (c, j)) (P : Pool)
    (hsize : P.ThreadQueueSize = s.pool.ThreadQueueSize)
    (hTC : P.ThreadCount = s.pool.ThreadCount)
    (hEP : P.EnqueuePosition = s.pool.EnqueuePosition)
    (hSt : ∀ k, (P.WorkItemQueue k).State
      = if k = i ∧ j ≠ 0 then .WorkItemFree else (s.pool.WorkItemQueue k).State)
    (hWT : ∀ k, (P.WorkItemQueue k).WorkType = (s.pool.WorkItemQueue k).WorkType)
    (hFF : ∀ k, (P.WorkItemQueue k).FirstFragment = (s.pool.WorkItemQueue k).FirstFragment)
    (hCnt : ∀ k, (P.WorkItemQueue k).OutstandingFragmentCount
      = (s.pool.WorkItemQueue k).OutstandingFragmentCount)
    (hEv : ∀ k, (P.WorkItemQueue k).ItemCompletedEvent
      = (s.pool.WorkItemQueue k).ItemCompletedEvent)
    (hPL : ∀ k, (P.WorkItemQueue k).payload = (s.pool.WorkItemQueue k).payload) :
    (((s.setPool P).setWorker x (.freed i) (some (c, j))).setPhase (some (c, j)) .released).Inv := by
  obtain ⟨⟨hact, hjlt, hi, hff, hcr⟩, hphj⟩ := h.frag x c j i .executed hfx (by rw [hpc]; rfl)
  obtain ⟨hst, htag⟩ := h.owned x i (by rw [hpc]; rfl)
  rw [hfx] at htag
  have hw : ∀ y, y ≠ x →
      (((s.setPool P).setWorker x (.freed i) (some (c, j))).setPhase (some (c, j)) .released).workers y
        = s.workers y := fun y hy => by simp [hy]
  have hwx : (((s.setPool P).setWorker x (.freed i) (some (c, j))).setPhase (some (c, j))
        .released).workers x = { pc := .freed i, frag := some (c, j) } := by simp
  have hfr : ∀ y, ((((s.setPool P).setWorker x (.freed i) (some (c, j))).setPhase (some (c, j))
      .released).workers y).frag = (s.workers y).frag := by
    intro y
    by_cases hy : y = x
    · subst hy; rw [hwx, hfx]
    · rw [hw y hy]
  have hph : ∀ p k, ((((s.setPool P).setWorker x (.freed i) (some (c, j))).setPhase (some (c, j))
        .released).producers p).phases[k]?
        = if p = c ∧ k = j then some .released else (s.producers p).phases[k]? := by
    intro p k
    rw [Sys.setPhase_getElem]
    simp [hjlt]
  have hphne : ∀ p, p ≠ c → ((((s.setPool P).setWorker x (.freed i) (some (c, j))).setPhase
        (some (c, j)) .released).producers p).phases = (s.producers p).phases := by
    intro p hp
    rw [Sys.setPhase_phases, if_neg hp]; rfl
  have hfok : ∀ c2 j2 k, (((s.setPool P).setWorker x (.freed i) (some (c, j))).setPhase
        (some (c, j)) .released).FragOK c2 j2 k ↔ s.FragOK c2 j2 k := by
    intro c2 j2 k
    simp [Sys.FragOK, hsize, hFF, hWT]
  have hall : ∀ c2, (∀ ph ∈ (s.producers c2).phases, ph = .decremented) → c2 ≠ c := by
    rintro c2 hd rfl
    have := hd _ (List.getElem?_mem hphj)
    cases this
  have hother : ∀ k, (s.pool.WorkItemQueue k).State ≠ .WorkItemBusy →
      (P.WorkItemQueue k).State = (s.pool.WorkItemQueue k).State := by
    intro k hk
    rw [hSt, if_neg]
    rintro ⟨rfl, -⟩
    exact hk hst
  refine {
    queueSize := ?queueSize,
    threadCount := ?threadCount,
    cursor := ?cursor,
    enqMutex := ?enqMutex,
    deqMutex := ?deqMutex,
    claimed := ?claimed,
    sawFree := ?sawFree,
    filled := ?filled,
    filledSimple := ?filledSimple,
    simpleType := ?simpleType,
    bulkType := ?bulkType,
    taking := ?taking,
    owned := ?owned,
    exclusive := ?exclusive,
    noFrag := ?noFrag,
    pastWork := ?pastWork,
    ownedSimple := ?ownedSimple,
    ready := ?ready,
    frag := ?frag,
    zero := ?zero,
    fragInj := ?fragInj,
    readyPhase := ?readyPhase,
    leader := ?leader,
    leaderPending := ?leaderPending,
    count := ?count,
    event := ?event,
    eventLeader := ?eventLeader,
    woken := ?woken,
    first := ?first,
    shape := ?shape,
    fresh := ?fresh,
    ticket := ?ticket,
    planLength := ?planLength,
    planRest := ?planRest,
    filledData := ?filledData,
    slotReady := ?slotReady,
    slotOwned := ?slotOwned,
    ring := ?ring }
  case deqMutex =>
    intro y
    by_cases hy : y = x
    · subst hy; rw [hwx]
      have := h.deqMutex y
      rw [hpc] at this
      simpa [WorkerPc.holds] using this
    · rw [hw y hy]; simpa using h.deqMutex y
  case sawFree =>
    intro p m hs
    have := h.sawFree p m (by simpa using hs)
    simp only [Sys.setPhase_pool, Sys.setWorker_pool, Sys.setPool_pool]
    rw [hother m (by rw [this]; decide)]
    exact this
  case taking =>
    intro y k
    by_cases hy : y = x
    · subst hy; rw [hwx]; simp
    · rw [hw y hy]
      intro hk
      have := h.taking y k hk
      simp only [Sys.setPhase_pool, Sys.setWorker_pool, Sys.setPool_pool]
      rw [hother k (by rw [this]; decide)]
      exact this
  case owned =>
    intro y k
    by_cases hy : y = x
    · subst hy; rw [hwx]; simp [WorkerPc.owned]
    · rw [hw y hy]
      intro hk
      have hki : k ≠ i := by
        rintro rfl
        exact h.exclusive y x k hy hk (by rw [hpc]; rfl)
      simpa [hSt, hki] using h.owned y k hk
  case exclusive =>
    intro y z k hne
    by_cases hy : y = x
    · subst hy; rw [hwx]; simp [WorkerPc.owned]
    · rw [hw y hy]
      by_cases hz : z = x
      · subst hz; rw [hwx]; simp [WorkerPc.owned]
      · rw [hw z hz]
        exact h.exclusive y z k hne
  case noFrag =>
    intro y
    by_cases hy : y = x
    · subst hy; rw [hwx]; simp [WorkerPc.phase]
    · rw [hw y hy]; exact h.noFrag y
  case pastWork =>
    intro y
    by_cases hy : y = x
    · subst hy; rw [hwx]; simp
    · rw [hw y hy]; exact h.pastWork y
  case ownedSimple =>
    intro y k
    by_cases hy : y = x
    · subst hy; rw [hwx]; simp [WorkerPc.owned]
    · rw [hw y hy]
      simpa [hWT] using h.ownedSimple y k
  case ready =>
    intro k hk
    simp only [Sys.setPhase_pool, Sys.setWorker_pool, Sys.setPool_pool] at hk
    have hk' : (s.pool.WorkItemQueue k).State = .WorkItemReady := by
      rw [hSt] at hk
      split_ifs at hk
      exact hk
    obtain ⟨r1, r2⟩ := h.ready k hk'
    refine ⟨?_, by simpa [hWT] using r2⟩
    intro c2 j2 ht
    obtain ⟨f1, f2⟩ := r1 c2 j2 (by simpa using ht)
    refine ⟨(hfok c2 j2 k).2 f1, ?_⟩
    rw [hph]
    have : ¬ (c2 = c ∧ j2 = j) := by
      rintro ⟨rfl, rfl⟩
      rw [hphj] at f2; cases f2
    rw [if_neg this]; exact f2
  case frag =>
    intro y c2 j2 k ph
    by_cases hy : y = x
    · subst hy
      rw [hwx]
      simp only [WorkerPc.phase]
      intro e1 e2
      cases e1; cases e2
      refine ⟨(hfok _ _ _).2 ⟨hact, hjlt, hi, hff, hcr⟩, ?_⟩
      rw [hph]; simp
    · rw [hw y hy]
      intro hf hp
      obtain ⟨f1, f2⟩ := h.frag y c2 j2 k ph hf hp
      refine ⟨(hfok c2 j2 k).2 f1, ?_⟩
      rw [hph]
      have : ¬ (c2 = c ∧ j2 = j) := by
        rintro ⟨rfl, rfl⟩
        exact h.fragInj y x _ hy hf hfx
      rw [if_neg this]; exact f2
  case zero =>
    intro y c2 j2 k
    by_cases hy : y = x
    · subst hy; rw [hwx]; simp
    · rw [hw y hy]
      intro hf hp
      obtain ⟨h1, h2, h3⟩ := h.zero y c2 j2 k hf hp
      refine ⟨?_, by simpa [hsize, hEv] using h2, ?_⟩
      · rw [hphne c2 (hall c2 h1)]; exact h1
      · intro z k2 hz
        rw [hfr]
        exact h3 z k2 hz
  case fragInj =>
    intro y z g hne
    rw [hfr, hfr]
    exact h.fragInj y z g hne
  case readyPhase =>
    intro c2 j2 hact2 hj2
    rw [hph] at hj2
    have hne2 : ¬ (c2 = c ∧ j2 = j) := by
      intro e; rw [if_pos e] at hj2; cases hj2
    rw [if_neg hne2] at hj2
    have := h.readyPhase c2 j2 (by simpa using hact2) hj2
    simp only [Sys.setPhase_pool, Sys.setWorker_pool, Sys.setPool_pool, Sys.setPhase_leaderTicket,
      Sys.setWorker_producers, Sys.setPool_producers, Sys.setPhase_tag, Sys.setWorker_tag,
      Sys.setPool_tag, hsize]
    rw [hother _ (by rw [this.1]; decide)]
    exact this
  case leader =>
    intro c2 ph hc h0 h1 h2
    rw [hph] at h0
    simp only [Sys.setPhase_pool, Sys.setWorker_pool, Sys.setPool_pool, Sys.setPhase_leaderTicket,
      Sys.setWorker_producers, Sys.setPool_producers, Sys.setPhase_tag, Sys.setWorker_tag,
      Sys.setPool_tag, hsize]
    have key : (s.pool.WorkItemQueue ((s.producers c2).leaderTicket % s.pool.ThreadQueueSize)).State
        = .WorkItemBusy ∧
        s.tag ((s.producers c2).leaderTicket % s.pool.ThreadQueueSize) = some (c2, 0) := by
      by_cases e : c2 = c ∧ 0 = j
      · obtain ⟨rfl, rfl⟩ := e
        exact h.leader c2 .executed (by simpa using hc) hphj (by simp) (by simp)
      · rw [if_neg e] at h0
        exact h.leader c2 ph (by simpa using hc) h0 h1 h2
    refine ⟨?_, key.2⟩
    rw [hSt, if_neg]
    · exact key.1
    · rintro ⟨e1, e2⟩
      rw [e1, htag] at key
      have := key.2
      injection this with this; injection this with e3 e4
      exact e2 e4
  case leaderPending =>
    intro c2 hc h0
    rw [hph] at h0
    have hne2 : ¬ (c2 = c ∧ 0 = j) := by
      intro e; rw [if_pos e] at h0; cases h0
    rw [if_neg hne2] at h0
    have := h.leaderPending c2 (by simpa using hc) h0
    simp only [Sys.setPhase_pool, Sys.setWorker_pool, Sys.setPool_pool, Sys.setPhase_leaderTicket,
      Sys.setWorker_producers, Sys.setPool_producers, hsize]
    rw [hother _ (by rw [this]; decide)]
    exact this
  case count =>
    intro c2 hc
    have := h.count c2 (by simpa using hc)
    by_cases e : c2 = c
    · subst e
      simp only [Sys.setPhase_pool, Sys.setWorker_pool, Sys.setPool_pool,
        Sys.setPhase_leaderTicket, Sys.setWorker_producers, Sys.setPool_producers,
        Sys.setPhase_length, hsize, hCnt]
      rw [Sys.setPhase_phases, if_pos rfl]
      simp only [Sys.setWorker_producers, Sys.setPool_producers]
      rw [countP_set_same _ _ _ _ hphj (by rfl)]
      exact this
    · rw [hphne c2 e]
      simpa [hsize, hCnt] using this
  case event =>
    intro c2 hc he
    have := h.event c2 (by simpa using hc) (by simpa [hsize, hEv] using he)
    rw [hphne c2 (hall c2 this)]; exact this
  case woken =>
    intro c2 first hc
    have := h.woken c2 first (by simpa using hc)
    rw [hphne c2 (hall c2 this)]; exact this
  case shape =>
    intro c2 n hn
    obtain ⟨s1, s2, s3, s4⟩ := h.shape c2 n (by simpa using hn)
    refine ⟨by simpa using s1, by simpa using s2, by simpa [hsize] using s3, ?_⟩
    intro j2 ph hj2
    rw [hph] at hj2
    simp only [Sys.setPhase_length, Sys.setWorker_producers, Sys.setPool_producers]
    by_cases e : c2 = c ∧ j2 = j
    · obtain ⟨rfl, rfl⟩ := e
      rw [if_pos ⟨rfl, rfl⟩] at hj2
      injection hj2 with hj2
      subst hj2
      have := s4 j2 _ hphj
      simpa using this
    · rw [if_neg e] at hj2
      exact s4 j2 ph hj2
  case filledData =>
    intro p m type n a b
    simpa [Sys.SlotData, hWT, hPL] using h.filledData p m type n (by simpa using a) (by simpa using b)
  case slotReady =>
    intro k c2 j2 hk ht
    simp only [Sys.setPhase_pool, Sys.setWorker_pool, Sys.setPool_pool] at hk
    have hk2 : (s.pool.WorkItemQueue k).State = .WorkItemReady := by
      rw [hSt] at hk
      split_ifs at hk
      exact hk
    simpa [Sys.SlotData, hWT, hPL] using h.slotReady k c2 j2 hk2 (by simpa using ht)
  case slotOwned =>
    intro y k c2 j2
    by_cases hy : y = x
    · subst hy; rw [hwx]; simp [WorkerPc.owned]
    · rw [hw y hy]
      intro a b
      simpa [Sys.SlotData, hWT, hPL] using h.slotOwned y k c2 j2 a b
  case queueSize => simpa [Sys.SlotData, hsize, hTC, hEP, hWT, hFF, hCnt, hEv] using h.queueSize
  case threadCount => simpa [Sys.SlotData, hsize, hTC, hEP, hWT, hFF, hCnt, hEv] using h.threadCount
  case cursor => simpa [Sys.SlotData, hsize, hTC, hEP, hWT, hFF, hCnt, hEv] using h.cursor
  case enqMutex => simpa [Sys.SlotData, hsize, hTC, hEP, hWT, hFF, hCnt, hEv] using h.enqMutex
  case claimed => simpa [Sys.SlotData, hsize, hTC, hEP, hWT, hFF, hCnt, hEv] using h.claimed
  case filled => simpa [Sys.SlotData, hsize, hTC, hEP, hWT, hFF, hCnt, hEv] using h.filled
  case filledSimple => simpa [Sys.SlotData, hsize, hTC, hEP, hWT, hFF, hCnt, hEv] using h.filledSimple
  case simpleType => simpa [Sys.SlotData, hsize, hTC, hEP, hWT, hFF, hCnt, hEv] using h.simpleType
  case bulkType => simpa [Sys.SlotData, hsize, hTC, hEP, hWT, hFF, hCnt, hEv] using h.bulkType
  case eventLeader => simpa [Sys.SlotData, hsize, hTC, hEP, hWT, hFF, hCnt, hEv] using h.eventLeader
  case first => simpa [Sys.SlotData, hsize, hTC, hEP, hWT, hFF, hCnt, hEv] using h.first
  case fresh => simpa [Sys.SlotData, hsize, hTC, hEP, hWT, hFF, hCnt, hEv] using h.fresh
  case ticket => simpa [Sys.SlotData, hsize, hTC, hEP, hWT, hFF, hCnt, hEv] using h.ticket
  case planLength => simpa [Sys.SlotData, hsize, hTC, hEP, hWT, hFF, hCnt, hEv] using h.planLength
  case planRest => simpa [Sys.SlotData, hsize, hTC, hEP, hWT, hFF, hCnt, hEv] using h.planRest
  case ring => simpa [Sys.SlotData, hsize, hTC, hEP, hWT, hFF, hCnt, hEv] using h.ring

theorem inv_worker_executed (s : Sys) (h : s.Inv) (x i : Nat)
    (hpc : (s.workers x).pc = .executed i) :
    (((s.setPool
        (if (s.pool.WorkItemQueue i).FirstFragment ≠ some i then
          s.pool.freeWorkItem i
        else s.pool)).setWorker x (.freed i) (s.workers x).frag).setPhase
          (s.workers x).frag .released).Inv := by
  rcases hfx : (s.workers x).frag with _ | ⟨c, j⟩
  · exact absurd hfx (h.pastWork x (by rw [hpc]; rfl))
  · obtain ⟨⟨hact, hjlt, hi, hff, hcr⟩, hphj⟩ := h.frag x c j i .executed hfx (by rw [hpc]; rfl)
    have hiff : (s.pool.WorkItemQueue i).FirstFragment ≠ some i ↔ j ≠ 0 := by
      rw [hff]
      constructor
      · rintro h1 rfl
        exact h1 (by rw [hi, Nat.add_zero])
      · intro h1 h2
        injection h2 with h2
        rw [hi] at h2
        exact h.follower_ne c j hact hjlt h1 h2.symm
    apply inv_worker_executed_aux s h x i c j hpc hfx
    · split_ifs <;> rfl
    · split_ifs <;> rfl
    · split_ifs <;> rfl
    · intro k
      by_cases h0 : j = 0
      · rw [if_neg (by rw [hiff]; simpa using h0), if_neg (by simp [h0])]
      · rw [if_pos (hiff.2 h0), Pool.freeWorkItem_State]
        by_cases hk : k = i <;> simp [hk, h0]
    · intro k; split_ifs <;> simp
    · intro k; split_ifs <;> simp
    · intro k; split_ifs <;> simp
    · intro k; split_ifs <;> simp
    · intro k; split_ifs <;> simp

theorem inv_worker_freed_aux (s : Sys) (h : s.Inv) (x i c j : Nat)
    (hpc : (s.workers x).pc = .freed i) (hfx : (s.workers x).frag = some (c, j))
    (pc : WorkerPc) (g : Option (Nat × Nat))
    (hcase : ((s.pool.WorkItemQueue ((s.producers c).leaderTicket
        % s.pool.ThreadQueueSize)).OutstandingFragmentCount - 1 = 0
        ∧ pc = .decremented i true ∧ g = some (c, j)) ∨
      ((s.pool.WorkItemQueue ((s.producers c).leaderTicket
        % s.pool.ThreadQueueSize)).OutstandingFragmentCount - 1 ≠ 0
        ∧ pc = .decremented i false ∧ g = none)) :
    (((s.setPool (s.pool.setCount ((s.producers c).leaderTicket % s.pool.ThreadQueueSize)
        ((s.pool.WorkItemQueue ((s.producers c).leaderTicket
          % s.pool.ThreadQueueSize)).OutstandingFragmentCount - 1))).setWorker x pc g).setPhase
      (some (c, j)) .decremented).Inv := by
  obtain ⟨⟨hact, hjlt, hi, hff, hcr⟩, hphj⟩ := h.frag x c j i .released hfx (by rw [hpc]; rfl)
  have hcc := ProducerPc.active_counted _ hact
  have hcount := h.count c hcc
  have hnp0 := h.phase0_enqueued c j _ hcc hphj (by simp)
  have hw : ∀ y, y ≠ x →
      (((s.setPool (s.pool.setCount ((s.producers c).leaderTicket % s.pool.ThreadQueueSize)
        ((s.pool.WorkItemQueue ((s.producers c).leaderTicket
          % s.pool.ThreadQueueSize)).OutstandingFragmentCount - 1))).setWorker x pc g).setPhase
      (some (c, j)) .decremented).workers y
        = s.workers y := fun y hy => by simp [hy]
  have hwx : (((s.setPool (s.pool.setCount ((s.producers c).leaderTicket % s.pool.ThreadQueueSize)
        ((s.pool.WorkItemQueue ((s.producers c).leaderTicket
          % s.pool.ThreadQueueSize)).OutstandingFragmentCount - 1))).setWorker x pc g).setPhase
      (some (c, j)) .decremented).workers x = { pc := pc, frag := g } := by simp
  have hph : ∀ p k, ((((s.setPool (s.pool.setCount ((s.producers c).leaderTicket
        % s.pool.ThreadQueueSize)
        ((s.pool.WorkItemQueue ((s.producers c).leaderTicket
          % s.pool.ThreadQueueSize)).OutstandingFragmentCount - 1))).setWorker x pc g).setPhase
      (some (c, j)) .decremented).producers p).phases[k]?
        = if p = c ∧ k = j then some .decremented else (s.producers p).phases[k]? := by
    intro p k
    rw [Sys.setPhase_getElem]
    simp [hjlt]
  have hphne : ∀ p, p ≠ c → ((((s.setPool (s.pool.setCount ((s.producers c).leaderTicket
        % s.pool.ThreadQueueSize)
        ((s.pool.WorkItemQueue ((s.producers c).leaderTicket
          % s.pool.ThreadQueueSize)).OutstandingFragmentCount - 1))).setWorker x pc g).setPhase
      (some (c, j)) .decremented).producers p).phases = (s.producers p).phases := by
    intro p hp
    rw [Sys.setPhase_phases, if_neg hp]; rfl
  have hphc : ((((s.setPool (s.pool.setCount ((s.producers c).leaderTicket
        % s.pool.ThreadQueueSize)
        ((s.pool.WorkItemQueue ((s.producers c).leaderTicket
          % s.pool.ThreadQueueSize)).OutstandingFragmentCount - 1))).setWorker x pc g).setPhase
      (some (c, j)) .decremented).producers c).phases
        = (s.producers c).phases.set j .decremented := by
    rw [Sys.setPhase_phases, if_pos rfl]; rfl
  have hfok : ∀ c2 j2 k, (((s.setPool (s.pool.setCount ((s.producers c).leaderTicket
        % s.pool.ThreadQueueSize)
        ((s.pool.WorkItemQueue ((s.producers c).leaderTicket
          % s.pool.ThreadQueueSize)).OutstandingFragmentCount - 1))).setWorker x pc g).setPhase
      (some (c, j)) .decremented).FragOK c2 j2 k ↔ s.FragOK c2 j2 k := by
    intro c2 j2 k
    simp [Sys.FragOK]
  have hall : ∀ c2, (∀ ph ∈ (s.producers c2).phases, ph = .decremented) → c2 ≠ c := by
    rintro c2 hd rfl
    have := hd _ (List.getElem?_mem hphj)
    cases this
  have hcnt := countP_set_decremented _ _ _ hphj (by rfl)
  have hgx : ∀ y, y ≠ x → (s.workers y).frag ≠ some (c, j) :=
    fun y hy => h.fragInj x y _ (Ne.symm hy) hfx
  refine {
    queueSize := ?queueSize,
    threadCount := ?threadCount,
    cursor := ?cursor,
    enqMutex := ?enqMutex,
    deqMutex := ?deqMutex,
    claimed := ?claimed,
    sawFree := ?sawFree,
    filled := ?filled,
    filledSimple := ?filledSimple,
    simpleType := ?simpleType,
    bulkType := ?bulkType,
    taking := ?taking,
    owned := ?owned,
    exclusive := ?exclusive,
    noFrag := ?noFrag,
    pastWork := ?pastWork,
    ownedSimple := ?ownedSimple,
    ready := ?ready,
    frag := ?frag,
    zero := ?zero,
    fragInj := ?fragInj,
    readyPhase := ?readyPhase,
    leader := ?leader,
    leaderPending := ?leaderPending,
    count := ?count,
    event := ?event,
    eventLeader := ?eventLeader,
    woken := ?woken,
    first := ?first,
    shape := ?shape,
    fresh := ?fresh,
    ticket := ?ticket,
    planLength := ?planLength,
    planRest := ?planRest,
    filledData := ?filledData,
    slotReady := ?slotReady,
    slotOwned := ?slotOwned,
    ring := ?ring }
  case deqMutex =>
    intro y
    by_cases hy : y = x
    · subst hy; rw [hwx]
      have := h.deqMutex y
      rw [hpc] at this
      rcases hcase with ⟨-, rfl, -⟩ | ⟨-, rfl, -⟩ <;> simpa [WorkerPc.holds] using this
    · rw [hw y hy]; simpa using h.deqMutex y
  case taking =>
    intro y k
    by_cases hy : y = x
    · subst hy; rw [hwx]
      rcases hcase with ⟨-, rfl, -⟩ | ⟨-, rfl, -⟩ <;> simp
    · rw [hw y hy]
      simpa using h.taking y k
  case owned =>
    intro y k
    by_cases hy : y = x
    · subst hy; rw [hwx]
      rcases hcase with ⟨-, rfl, -⟩ | ⟨-, rfl, -⟩ <;> simp [WorkerPc.owned]
    · rw [hw y hy]
      simpa using h.owned y k
  case exclusive =>
    intro y z k hne
    by_cases hy : y = x
    · subst hy; rw [hwx]
      rcases hcase with ⟨-, rfl, -⟩ | ⟨-, rfl, -⟩ <;> simp [WorkerPc.owned]
    · rw [hw y hy]
      by_cases hz : z = x
      · subst hz; rw [hwx]
        rcases hcase with ⟨-, rfl, -⟩ | ⟨-, rfl, -⟩ <;> simp [WorkerPc.owned]
      · rw [hw z hz]
        exact h.exclusive y z k hne
  case noFrag =>
    intro y
    by_cases hy : y = x
    · subst hy; rw [hwx]
      rcases hcase with ⟨-, rfl, rfl⟩ | ⟨-, rfl, rfl⟩ <;> simp [WorkerPc.phase]
    · rw [hw y hy]; exact h.noFrag y
  case pastWork =>
    intro y
    by_cases hy : y = x
    · subst hy; rw [hwx]
      rcases hcase with ⟨-, rfl, rfl⟩ | ⟨-, rfl, rfl⟩ <;> simp [WorkerPc.pastWork]
    · rw [hw y hy]; exact h.pastWork y
  case ownedSimple =>
    intro y k
    by_cases hy : y = x
    · subst hy; rw [hwx]
      rcases hcase with ⟨-, rfl, -⟩ | ⟨-, rfl, -⟩ <;> simp [WorkerPc.owned]
    · rw [hw y hy]
      simpa using h.ownedSimple y k
  case ready =>
    intro k hk
    obtain ⟨r1, r2⟩ := h.ready k (by simpa using hk)
    refine ⟨?_, by simpa using r2⟩
    intro c2 j2 ht
    obtain ⟨f1, f2⟩ := r1 c2 j2 (by simpa using ht)
    refine ⟨(hfok c2 j2 k).2 f1, ?_⟩
    rw [hph]
    have : ¬ (c2 = c ∧ j2 = j) := by
      rintro ⟨rfl, rfl⟩
      rw [hphj] at f2; cases f2
    rw [if_neg this]; exact f2
  case frag =>
    intro y c2 j2 k ph
    by_cases hy : y = x
    · subst hy
      rw [hwx]
      rcases hcase with ⟨-, rfl, rfl⟩ | ⟨-, rfl, rfl⟩
      · simp only [WorkerPc.phase]
        intro e1 e2
        cases e1; cases e2
        refine ⟨(hfok _ _ _).2 ⟨hact, hjlt, hi, hff, hcr⟩, ?_⟩
        rw [hph]; simp
      · simp
    · rw [hw y hy]
      intro hf hp
      obtain ⟨f1, f2⟩ := h.frag y c2 j2 k ph hf hp
      refine ⟨(hfok c2 j2 k).2 f1, ?_⟩
      rw [hph]
      have : ¬ (c2 = c ∧ j2 = j) := by
        rintro ⟨rfl, rfl⟩
        exact hgx y hy hf
      rw [if_neg this]; exact f2
  case zero =>
    intro y c2 j2 k
    by_cases hy : y = x
    · subst hy
      rw [hwx]
      rcases hcase with ⟨h0, rfl, rfl⟩ | ⟨-, rfl, rfl⟩
      · simp only
        intro e1 _
        cases e1
        have hallnew : ∀ ph ∈ (s.producers c).phases.set j .decremented, ph = .decremented := by
          apply all_decremented_of_countP
          rw [hcnt, List.length_set]
          omega
        refine ⟨by rw [hphc]; exact hallnew, ?_, ?_⟩
        · intro he
          have := h.event c hcc (by simpa using he) _ (List.getElem?_mem hphj)
          cases this
        · intro z k2 hz
          rw [hw z hz]
          intro hfz
          obtain ⟨k3, ph, p1, p2, p3, p4, p5⟩ := h.frag_phase z c k2 hfz
          have hk2 : k2 ≠ j := by
            rintro rfl
            exact hgx z hz hfz
          have hd : ph = .decremented := by
            apply hallnew
            rw [List.mem_iff_getElem?]
            exact ⟨k2, by rw [List.getElem?_set_ne (Ne.symm hk2)]; exact p3⟩
          subst hd
          have hzpc := WorkerPc.phase_decremented _ _ p1
          have := (h.zero z c k2 k3 hfz hzpc).1 _ (List.getElem?_mem hphj)
          cases this
      · simp
    · rw [hw y hy]
      intro hf hp
      obtain ⟨h1, h2, h3⟩ := h.zero y c2 j2 k hf hp
      have hc2 := hall c2 h1
      refine ⟨?_, ?_, ?_⟩
      · rw [hphne c2 hc2]; exact h1
      · simpa using h2
      · intro z k2 hz
        by_cases hzx : z = x
        · subst hzx
          rw [hwx]
          rcases hcase with ⟨-, -, rfl⟩ | ⟨-, -, rfl⟩
          · simp only [ne_eq, Option.some.injEq, Prod.mk.injEq, not_and]
            intro e; exact absurd e.symm hc2
          · simp
        · rw [hw z hzx]
          exact h3 z k2 hz
  case fragInj =>
    intro y z g2 hne
    by_cases hy : y = x
    · subst hy
      rw [hw z (Ne.symm hne), hwx]
      rcases hcase with ⟨-, -, rfl⟩ | ⟨-, -, rfl⟩
      · intro e; cases e
        exact hgx z (Ne.symm hne)
      · simp
    · rw [hw y hy]
      by_cases hz : z = x
      · subst hz
        rw [hwx]
        rcases hcase with ⟨-, -, rfl⟩ | ⟨-, -, rfl⟩
        · intro e1 e2; cases e2
          exact hgx y hy e1
        · simp
      · rw [hw z hz]
        exact h.fragInj y z g2 hne
  case readyPhase =>
    intro c2 j2 hact2 hj2
    rw [hph] at hj2
    have hne2 : ¬ (c2 = c ∧ j2 = j) := by
      intro e; rw [if_pos e] at hj2; cases hj2
    rw [if_neg hne2] at hj2
    simpa using h.readyPhase c2 j2 (by simpa using hact2) hj2
  case leader =>
    intro c2 ph hc h0 h1 h2
    rw [hph] at h0
    by_cases e : c2 = c ∧ 0 = j
    · obtain ⟨rfl, rfl⟩ := e
      simpa using h.leader c2 .released (by simpa using hc) hphj (by simp) (by simp)
    · rw [if_neg e] at h0
      simpa using h.leader c2 ph (by simpa using hc) h0 h1 h2
  case leaderPending =>
    intro c2 hc h0
    rw [hph] at h0
    have hne2 : ¬ (c2 = c ∧ 0 = j) := by
      intro e; rw [if_pos e] at h0; cases h0
    rw [if_neg hne2] at h0
    simpa using h.leaderPending c2 (by simpa using hc) h0
  case count =>
    intro c2 hc
    have hc' : (s.producers c2).pc.counted = true := by simpa using hc
    have := h.count c2 hc'
    by_cases e : c2 = c
    · subst e
      rw [hphc, hcnt]
      simp only [Sys.setPhase_pool, Sys.setWorker_pool, Sys.setPool_pool,
        Sys.setPhase_leaderTicket, Sys.setWorker_producers, Sys.setPool_producers,
        Pool.setCount_size, Pool.setCount_OutstandingFragmentCount, if_true, List.length_set]
      rw [this]
      push_cast
      ring
    · rw [hphne c2 e]
      have hne := h.leader_ne c c2 hcc hc' (Ne.symm e) hnp0
      simpa [Ne.symm hne] using this
  case event =>
    intro c2 hc he
    have := h.event c2 (by simpa using hc) (by simpa using he)
    rw [hphne c2 (hall c2 this)]; exact this
  case woken =>
    intro c2 first hc
    have := h.woken c2 first (by simpa using hc)
    rw [hphne c2 (hall c2 this)]; exact this
  case shape =>
    intro c2 n hn
    obtain ⟨s1, s2, s3, s4⟩ := h.shape c2 n (by simpa using hn)
    refine ⟨by simpa using s1, by simpa using s2, by simpa using s3, ?_⟩
    intro j2 ph hj2
    rw [hph] at hj2
    simp only [Sys.setPhase_length, Sys.setWorker_producers, Sys.setPool_producers]
    by_cases e : c2 = c ∧ j2 = j
    · obtain ⟨rfl, rfl⟩ := e
      rw [if_pos ⟨rfl, rfl⟩] at hj2
      injection hj2 with hj2
      subst hj2
      have := s4 j2 _ hphj
      simpa using this
    · rw [if_neg e] at hj2
      exact s4 j2 ph hj2
  case slotOwned =>
    intro y k c2 j2
    by_cases hy : y = x
    · subst hy; rw [hwx]
      rcases hcase with ⟨-, rfl, -⟩ | ⟨-, rfl, -⟩ <;> simp [WorkerPc.owned]
    · rw [hw y hy]
      intro a b
      simpa [Sys.SlotData] using h.slotOwned y k c2 j2 a b
  case queueSize => exact h.queueSize
  case threadCount => exact h.threadCount
  case cursor => exact h.cursor
  case enqMutex => simpa [Sys.SlotData] using h.enqMutex
  case claimed => simpa [Sys.SlotData] using h.claimed
  case sawFree => simpa [Sys.SlotData] using h.sawFree
  case filled => simpa [Sys.SlotData] using h.filled
  case filledSimple => simpa [Sys.SlotData] using h.filledSimple
  case simpleType => simpa [Sys.SlotData] using h.simpleType
  case bulkType => simpa [Sys.SlotData] using h.bulkType
  case eventLeader => simpa [Sys.SlotData] using h.eventLeader
  case first => simpa [Sys.SlotData] using h.first
  case fresh => simpa [Sys.SlotData] using h.fresh
  case ticket => simpa [Sys.SlotData] using h.ticket
  case planLength => simpa [Sys.SlotData] using h.planLength
  case planRest => simpa [Sys.SlotData] using h.planRest
  case filledData => simpa [Sys.SlotData] using h.filledData
  case slotReady => simpa [Sys.SlotData] using h.slotReady
  case ring => simpa [Sys.SlotData] using h.ring

theorem inv_worker_freed (s : Sys) (h : s.Inv) (x i f : Nat)
    (hpc : (s.workers x).pc = .freed i)
    (hf : (s.pool.WorkItemQueue i).FirstFragment = some f) :
    (((s.setPool (s.pool.setCount f ((s.pool.WorkItemQueue f).OutstandingFragmentCount - 1))).setWorker x
      (.decremented i (decide ((s.pool.WorkItemQueue f).OutstandingFragmentCount - 1 = 0)))
      (if (s.pool.WorkItemQueue f).OutstandingFragmentCount - 1 = 0 then (s.workers x).frag
        else none)).setPhase (s.workers x).frag .decremented).Inv := by
  rcases hfx : (s.workers x).frag with _ | ⟨c, j⟩
  · exact absurd hfx (h.pastWork x (by rw [hpc]; rfl))
  · obtain ⟨⟨hact, hjlt, hi, hff, hcr⟩, hphj⟩ := h.frag x c j i .released hfx (by rw [hpc]; rfl)
    rw [hf] at hff
    injection hff with hff
    subst hff
    apply inv_worker_freed_aux s h x i c j hpc hfx
    by_cases h0 : (s.pool.WorkItemQueue ((s.producers c).leaderTicket
        % s.pool.ThreadQueueSize)).OutstandingFragmentCount - 1 = 0
    · left; simp [h0]
    · right; simp [h0]

theorem inv_worker_decremented_true (s : Sys) (h : s.Inv) (x i f : Nat)
    (hpc : (s.workers x).pc = .decremented i true)
    (hf : (s.pool.WorkItemQueue i).FirstFragment = some f) :
    ((s.setPool (s.pool.setItemEvent f
          (TC_SET_EVENT (s.pool.WorkItemQueue f).ItemCompletedEvent))).setWorker x
          .loopHead none).Inv := by
  rcases hfx : (s.workers x).frag with _ | ⟨c, j⟩
  · exact absurd hfx (h.pastWork x (by rw [hpc]; rfl))
  obtain ⟨⟨hact, hjlt, hi, hff, hcr⟩, hphj⟩ := h.frag x c j i .decremented hfx (by rw [hpc]; rfl)
  rw [hf] at hff
  injection hff with hff
  obtain ⟨hall, hev, hothers⟩ := h.zero x c j i hfx hpc
  have hcc := ProducerPc.active_counted _ hact
  have hnp0 := h.phase0_enqueued c j _ hcc hphj (by simp)
  have hw : ∀ y, y ≠ x →
      ((s.setPool (s.pool.setItemEvent f
          (TC_SET_EVENT (s.pool.WorkItemQueue f).ItemCompletedEvent))).setWorker x
          .loopHead none).workers y = s.workers y := fun y hy => by simp [hy]
  have hwx : ((s.setPool (s.pool.setItemEvent f
          (TC_SET_EVENT (s.pool.WorkItemQueue f).ItemCompletedEvent))).setWorker x
          .loopHead none).workers x = { pc := .loopHead, frag := none } := by simp
  have hfok : ∀ c2 j2 k, ((s.setPool (s.pool.setItemEvent f
          (TC_SET_EVENT (s.pool.WorkItemQueue f).ItemCompletedEvent))).setWorker x
          .loopHead none).FragOK c2 j2 k ↔ s.FragOK c2 j2 k := by
    intro c2 j2 k
    simp [Sys.FragOK]
  refine {
    queueSize := ?queueSize,
    threadCount := ?threadCount,
    cursor := ?cursor,
    enqMutex := ?enqMutex,
    deqMutex := ?deqMutex,
    claimed := ?claimed,
    sawFree := ?sawFree,
    filled := ?filled,
    filledSimple := ?filledSimple,
    simpleType := ?simpleType,
    bulkType := ?bulkType,
    taking := ?taking,
    owned := ?owned,
    exclusive := ?exclusive,
    noFrag := ?noFrag,
    pastWork := ?pastWork,
    ownedSimple := ?ownedSimple,
    ready := ?ready,
    frag := ?frag,
    zero := ?zero,
    fragInj := ?fragInj,
    readyPhase := ?readyPhase,
    leader := ?leader,
    leaderPending := ?leaderPending,
    count := ?count,
    event := ?event,
    eventLeader := ?eventLeader,
    woken := ?woken,
    first := ?first,
    shape := ?shape,
    fresh := ?fresh,
    ticket := ?ticket,
    planLength := ?planLength,
    planRest := ?planRest,
    filledData := ?filledData,
    slotReady := ?slotReady,
    slotOwned := ?slotOwned,
    ring := ?ring }
  case deqMutex =>
    intro y
    by_cases hy : y = x
    · subst hy; rw [hwx]
      have := h.deqMutex y
      rw [hpc] at this
      simpa [WorkerPc.holds] using this
    · rw [hw y hy]; simpa using h.deqMutex y
  case taking =>
    intro y k
    by_cases hy : y = x
    · subst hy; rw [hwx]; simp
    · rw [hw y hy]
      simpa using h.taking y k
  case owned =>
    intro y k
    by_cases hy : y = x
    · subst hy; rw [hwx]; simp [WorkerPc.owned]
    · rw [hw y hy]
      simpa using h.owned y k
  case exclusive =>
    intro y z k hne
    by_cases hy : y = x
    · subst hy; rw [hwx]; simp [WorkerPc.owned]
    · rw [hw y hy]
      by_cases hz : z = x
      · subst hz; rw [hwx]; simp [WorkerPc.owned]
      · rw [hw z hz]
        exact h.exclusive y z k hne
  case noFrag =>
    intro y
    by_cases hy : y = x
    · subst hy; rw [hwx]; simp
    · rw [hw y hy]; exact h.noFrag y
  case pastWork =>
    intro y
    by_cases hy : y = x
    · subst hy; rw [hwx]; simp [WorkerPc.pastWork]
    · rw [hw y hy]; exact h.pastWork y
  case ownedSimple =>
    intro y k
    by_cases hy : y = x
    · subst hy; rw [hwx]; simp [WorkerPc.owned]
    · rw [hw y hy]
      simpa using h.ownedSimple y k
  case ready =>
    intro k hk
    simpa [Sys.FragOK] using h.ready k (by simpa using hk)
  case frag =>
    intro y c2 j2 k ph
    by_cases hy : y = x
    · subst hy; rw [hwx]; simp
    · rw [hw y hy, hfok]
      exact h.frag y c2 j2 k ph
  case zero =>
    intro y c2 j2 k
    by_cases hy : y = x
    · subst hy; rw [hwx]; simp
    · rw [hw y hy]
      intro hfy hp
      obtain ⟨h1, h2, h3⟩ := h.zero y c2 j2 k hfy hp
      have hc2 : c2 ≠ c := by
        rintro rfl
        exact hothers y j2 hy hfy
      have hact2 := (h.frag y c2 j2 k .decremented hfy (by rw [hp]; rfl)).1.1
      have hne := h.leader_ne c c2 hcc (ProducerPc.active_counted _ hact2) (Ne.symm hc2) hnp0
      refine ⟨h1, ?_, ?_⟩
      · rw [← hff] at hne
        simpa [Ne.symm hne] using h2
      · intro z k2 hz
        by_cases hzx : z = x
        · subst hzx; rw [hwx]; simp
        · rw [hw z hzx]
          exact h3 z k2 hz
  case fragInj =>
    intro y z g2 hne
    by_cases hy : y = x
    · subst hy; rw [hwx]; simp
    · rw [hw y hy]
      by_cases hz : z = x
      · subst hz; rw [hwx]; simp
      · rw [hw z hz]
        exact h.fragInj y z g2 hne
  case event =>
    intro c2 hc he
    have hc' : (s.producers c2).pc.counted = true := by simpa using hc
    by_cases e : c2 = c
    · subst e; exact hall
    · have hne := h.leader_ne c c2 hcc hc' (Ne.symm e) hnp0
      rw [← hff] at hne
      exact h.event c2 hc' (by simpa [Ne.symm hne] using he)
  case eventLeader =>
    intro k hk
    by_cases e : k = f
    · subst e
      exact ⟨c, by simpa using hact, by simpa using hff⟩
    · simpa using h.eventLeader k (by simpa [e] using hk)
  case slotOwned =>
    intro y k c2 j2
    by_cases hy : y = x
    · subst hy; rw [hwx]; simp [WorkerPc.owned]
    · rw [hw y hy]
      intro a b
      simpa [Sys.SlotData] using h.slotOwned y k c2 j2 a b
  case queueSize => exact h.queueSize
  case threadCount => exact h.threadCount
  case cursor => exact h.cursor
  case enqMutex => exact h.enqMutex
  case claimed => exact h.claimed
  case sawFree => simpa [Sys.SlotData] using h.sawFree
  case filled => simpa [Sys.SlotData] using h.filled
  case filledSimple => simpa [Sys.SlotData] using h.filledSimple
  case simpleType => exact h.simpleType
  case bulkType => exact h.bulkType
  case readyPhase => simpa [Sys.SlotData] using h.readyPhase
  case leader => simpa [Sys.SlotData] using h.leader
  case leaderPending => simpa [Sys.SlotData] using h.leaderPending
  case count => simpa [Sys.SlotData] using h.count
  case woken => exact h.woken
  case first => exact h.first
  case shape => exact h.shape
  case fresh => exact h.fresh
  case ticket => exact h.ticket
  case planLength => exact h.planLength
  case planRest => exact h.planRest
  case filledData => simpa [Sys.SlotData] using h.filledData
  case slotReady => simpa [Sys.SlotData] using h.slotReady
  case ring => exact h.ring

/-- A producer that holds the enqueue mutex has seen its slot free. -/
theorem inv_producer_sawFree (s : Sys) (h : s.Inv) (c m : Nat) (pc : ProducerPc)
    (hfree : (s.pool.WorkItemQueue m).State = .WorkItemFree)
    (e1 : pc.holds = (s.producers c).pc.holds)
    (e2 : pc.claimedItem = (s.producers c).pc.claimedItem)
    (e3 : pc.sawFree = some m)
    (e4 : pc.filledItem = none)
    (e5 : pc.filledSimple = none)
    (e6 : pc.simpleType = (s.producers c).pc.simpleType)
    (e7 : pc.bulkType = (s.producers c).pc.bulkType)
    (e8 : pc.first = (s.producers c).pc.first)
    (e9 : pc.pendingCount = (s.producers c).pc.pendingCount)
    (e10 : pc.enqueuing = (s.producers c).pc.enqueuing)
    (e11 : pc.waiting = (s.producers c).pc.waiting)
    (e12 : pc.counted = (s.producers c).pc.counted)
    (e13 : ∀ first, pc ≠ .bulkWoken first)
    (e16 : pc.rest = (s.producers c).pc.rest) :
    (s.setProducer c pc).Inv := by
  have e14 : pc.active = (s.producers c).pc.active := by
    simp only [ProducerPc.active, e10, e11]
  have Hholds : ∀ p, ((s.setProducer c pc).producers p).pc.holds = (s.producers p).pc.holds := by
    intro p; by_cases hp : p = c
    · subst hp; simp [e1]
    · simp [hp]
  have Hclaimed : ∀ p, ((s.setProducer c pc).producers p).pc.claimedItem
      = (s.producers p).pc.claimedItem := by
    intro p; by_cases hp : p = c
    · subst hp; simp [e2]
    · simp [hp]
  have HsimpleType : ∀ p, ((s.setProducer c pc).producers p).pc.simpleType
      = (s.producers p).pc.simpleType := by
    intro p; by_cases hp : p = c
    · subst hp; simp [e6]
    · simp [hp]
  have HbulkType : ∀ p, ((s.setProducer c pc).producers p).pc.bulkType
      = (s.producers p).pc.bulkType := by
    intro p; by_cases hp : p = c
    · subst hp; simp [e7]
    · simp [hp]
  have Hfirst : ∀ p, ((s.setProducer c pc).producers p).pc.first = (s.producers p).pc.first := by
    intro p; by_cases hp : p = c
    · subst hp; simp [e8]
    · simp [hp]
  have Hpending : ∀ p, ((s.setProducer c pc).producers p).pc.pendingCount
      = (s.producers p).pc.pendingCount := by
    intro p; by_cases hp : p = c
    · subst hp; simp [e9]
    · simp [hp]
  have Henq : ∀ p, ((s.setProducer c pc).producers p).pc.enqueuing
      = (s.producers p).pc.enqueuing := by
    intro p; by_cases hp : p = c
    · subst hp; simp [e10]
    · simp [hp]
  have Hwait : ∀ p, ((s.setProducer c pc).producers p).pc.waiting
      = (s.producers p).pc.waiting := by
    intro p; by_cases hp : p = c
    · subst hp; simp [e11]
    · simp [hp]
  have Hcounted : ∀ p, ((s.setProducer c pc).producers p).pc.counted
      = (s.producers p).pc.counted := by
    intro p; by_cases hp : p = c
    · subst hp; simp [e12]
    · simp [hp]
  have Hactive : ∀ p, ((s.setProducer c pc).producers p).pc.active
      = (s.producers p).pc.active := by
    intro p; by_cases hp : p = c
    · subst hp; simp [e14]
    · simp [hp]
  have Hrest : ∀ p, ((s.setProducer c pc).producers p).pc.rest = (s.producers p).pc.rest := by
    intro p; by_cases hp : p = c
    · subst hp; simp [e16]
    · simp [hp]
  refine {
    queueSize := ?queueSize,
    threadCount := ?threadCount,
    cursor := ?cursor,
    enqMutex := ?enqMutex,
    deqMutex := ?deqMutex,
    claimed := ?claimed,
    sawFree := ?sawFree,
    filled := ?filled,
    filledSimple := ?filledSimple,
    simpleType := ?simpleType,
    bulkType := ?bulkType,
    taking := ?taking,
    owned := ?owned,
    exclusive := ?exclusive,
    noFrag := ?noFrag,
    pastWork := ?pastWork,
    ownedSimple := ?ownedSimple,
    ready := ?ready,
    frag := ?frag,
    zero := ?zero,
    fragInj := ?fragInj,
    readyPhase := ?readyPhase,
    leader := ?leader,
    leaderPending := ?leaderPending,
    count := ?count,
    event := ?event,
    eventLeader := ?eventLeader,
    woken := ?woken,
    first := ?first,
    shape := ?shape,
    fresh := ?fresh,
    ticket := ?ticket,
    planLength := ?planLength,
    planRest := ?planRest,
    filledData := ?filledData,
    slotReady := ?slotReady,
    slotOwned := ?slotOwned,
    ring := ?ring }
  case sawFree =>
    intro p k
    by_cases hp : p = c
    · subst hp
      simp only [Sys.setProducer_self_pc, e3, Sys.setProducer_pool]
      intro e; cases e; exact hfree
    · rw [Sys.setProducer_ne _ _ _ _ hp]
      exact h.sawFree p k
  case filled =>
    intro p k type
    by_cases hp : p = c
    · subst hp
      simp [e4]
    · rw [Sys.setProducer_ne _ _ _ _ hp]
      exact h.filled p k type
  case filledSimple =>
    intro p k
    by_cases hp : p = c
    · subst hp
      simp [e5]
    · rw [Sys.setProducer_ne _ _ _ _ hp]
      exact h.filledSimple p k
  case woken =>
    intro p first
    by_cases hp : p = c
    · subst hp
      simp only [Sys.setProducer_self_pc]
      intro e; exact absurd e (e13 first)
    · rw [Sys.setProducer_ne _ _ _ _ hp]
      exact h.woken p first
  case ring =>
    intro w hw
    rw [Hwait] at hw
    obtain ⟨r1, r2, r3, r4, r5⟩ := h.ring w hw
    simp only [Sys.setProducer_leaderTicket, Sys.setProducer_phases, Sys.setProducer_enqTicket,
      Sys.setProducer_pool, Hclaimed]
    refine ⟨r1, r2, r3, ?_, r5⟩
    intro p k hs hc
    by_cases hp : p = c
    · subst hp
      simp only [Sys.setProducer_self_pc, e3] at hs
      injection hs with hs
      subst hs
      by_contra hcon
      have heq : s.enqTicket = (s.producers w).leaderTicket + s.pool.ThreadQueueSize + 1 := by
        omega
      obtain ⟨-, hm⟩ := h.claimed p m hc
      have hk : m = (s.producers w).leaderTicket % s.pool.ThreadQueueSize := by
        rw [hm, heq]; simp
      rcases h.leader_cases w (ProducerPc.active_counted _ (by simp [ProducerPc.active, hw]))
        with ⟨h1, -⟩ | ⟨-, h2, -⟩ | ⟨-, h2, -⟩
      · have hn := ProducerPc.waiting_pendingCount _ hw
        obtain ⟨-, s2, -, s4⟩ := h.shape w 0 hn
        have := (s4 0 _ h1).1 rfl
        omega
      · rw [← hk, hfree] at h2; cases h2
      · rw [← hk, hfree] at h2; cases h2
    · rw [Sys.setProducer_ne _ _ _ _ hp] at hs
      exact r4 p k hs hc
  case filledData =>
    intro p k type n
    by_cases hp : p = c
    · subst hp
      simp [e4]
    · rw [Sys.setProducer_ne _ _ _ _ hp]
      simpa [Sys.SlotData, hp] using h.filledData p k type n
  case queueSize => exact h.queueSize
  case threadCount => exact h.threadCount
  case cursor => exact h.cursor
  case enqMutex => simpa [Sys.SlotData, Sys.FragOK, Hrest, Hholds, Hclaimed, HsimpleType, HbulkType, Hfirst, Hpending, Henq, Hwait, Hcounted, Hactive] using h.enqMutex
  case deqMutex => exact h.deqMutex
  case claimed => simpa [Sys.SlotData, Sys.FragOK, Hrest, Hholds, Hclaimed, HsimpleType, HbulkType, Hfirst, Hpending, Henq, Hwait, Hcounted, Hactive] using h.claimed
  case simpleType => simpa [Sys.SlotData, Sys.FragOK, Hrest, Hholds, Hclaimed, HsimpleType, HbulkType, Hfirst, Hpending, Henq, Hwait, Hcounted, Hactive] using h.simpleType
  case bulkType => simpa [Sys.SlotData, Sys.FragOK, Hrest, Hholds, Hclaimed, HsimpleType, HbulkType, Hfirst, Hpending, Henq, Hwait, Hcounted, Hactive] using h.bulkType
  case taking => exact h.taking
  case owned => exact h.owned
  case exclusive => exact h.exclusive
  case noFrag => exact h.noFrag
  case pastWork => exact h.pastWork
  case ownedSimple => exact h.ownedSimple
  case ready => simpa [Sys.SlotData, Sys.FragOK, Hrest, Hholds, Hclaimed, HsimpleType, HbulkType, Hfirst, Hpending, Henq, Hwait, Hcounted, Hactive] using h.ready
  case frag => simpa [Sys.SlotData, Sys.FragOK, Hrest, Hholds, Hclaimed, HsimpleType, HbulkType, Hfirst, Hpending, Henq, Hwait, Hcounted, Hactive] using h.frag
  case zero => simpa [Sys.SlotData, Sys.FragOK, Hrest, Hholds, Hclaimed, HsimpleType, HbulkType, Hfirst, Hpending, Henq, Hwait, Hcounted, Hactive] using h.zero
  case fragInj => exact h.fragInj
  case readyPhase => simpa [Sys.SlotData, Sys.FragOK, Hrest, Hholds, Hclaimed, HsimpleType, HbulkType, Hfirst, Hpending, Henq, Hwait, Hcounted, Hactive] using h.readyPhase
  case leader => simpa [Sys.SlotData, Sys.FragOK, Hrest, Hholds, Hclaimed, HsimpleType, HbulkType, Hfirst, Hpending, Henq, Hwait, Hcounted, Hactive] using h.leader
  case leaderPending => simpa [Sys.SlotData, Sys.FragOK, Hrest, Hholds, Hclaimed, HsimpleType, HbulkType, Hfirst, Hpending, Henq, Hwait, Hcounted, Hactive] using h.leaderPending
  case count => simpa [Sys.SlotData, Sys.FragOK, Hrest, Hholds, Hclaimed, HsimpleType, HbulkType, Hfirst, Hpending, Henq, Hwait, Hcounted, Hactive] using h.count
  case event => simpa [Sys.SlotData, Sys.FragOK, Hrest, Hholds, Hclaimed, HsimpleType, HbulkType, Hfirst, Hpending, Henq, Hwait, Hcounted, Hactive] using h.event
  case eventLeader => simpa [Sys.SlotData, Sys.FragOK, Hrest, Hholds, Hclaimed, HsimpleType, HbulkType, Hfirst, Hpending, Henq, Hwait, Hcounted, Hactive] using h.eventLeader
  case first => simpa [Sys.SlotData, Sys.FragOK, Hrest, Hholds, Hclaimed, HsimpleType, HbulkType, Hfirst, Hpending, Henq, Hwait, Hcounted, Hactive] using h.first
  case shape => simpa [Sys.SlotData, Sys.FragOK, Hrest, Hholds, Hclaimed, HsimpleType, HbulkType, Hfirst, Hpending, Henq, Hwait, Hcounted, Hactive] using h.shape
  case fresh => simpa [Sys.SlotData, Sys.FragOK, Hrest, Hholds, Hclaimed, HsimpleType, HbulkType, Hfirst, Hpending, Henq, Hwait, Hcounted, Hactive] using h.fresh
  case ticket => simpa [Sys.SlotData, Sys.FragOK, Hrest, Hholds, Hclaimed, HsimpleType, HbulkType, Hfirst, Hpending, Henq, Hwait, Hcounted, Hactive] using h.ticket
  case planLength => simpa [Sys.SlotData, Sys.FragOK, Hrest, Hholds, Hclaimed, HsimpleType, HbulkType, Hfirst, Hpending, Henq, Hwait, Hcounted, Hactive] using h.planLength
  case planRest => simpa [Sys.SlotData, Sys.FragOK, Hrest, Hholds, Hclaimed, HsimpleType, HbulkType, Hfirst, Hpending, Henq, Hwait, Hcounted, Hactive] using h.planRest
  case slotReady => simpa [Sys.SlotData, Sys.FragOK, Hrest, Hholds, Hclaimed, HsimpleType, HbulkType, Hfirst, Hpending, Henq, Hwait, Hcounted, Hactive] using h.slotReady
  case slotOwned => simpa [Sys.SlotData, Sys.FragOK, Hrest, Hholds, Hclaimed, HsimpleType, HbulkType, Hfirst, Hpending, Henq, Hwait, Hcounted, Hactive] using h.slotOwned

theorem inv_producer_simpleClaimed (s : Sys) (h : s.Inv) (c m : Nat)
    (type : EncryptionThreadPoolWorkType) (payload : Payload)
    (hpc : (s.producers c).pc = .simpleClaimed type payload m)
    (hfree : (s.pool.WorkItemQueue m).State = .WorkItemFree) :
    (s.setProducer c (.simpleFree type payload m)).Inv := by
  apply inv_producer_sawFree s h c m _ hfree <;> first | (rw [hpc]; rfl) | rfl | (intro first e; cases e)

theorem inv_producer_bulkLocked (s : Sys) (h : s.Inv) (c first : Nat)
    (type : EncryptionThreadPoolWorkType) (cryptoInfo : Nat) (frags : List Fragment)
    (hpc : (s.producers c).pc = .bulkLocked type cryptoInfo frags first)
    (hfree : (s.pool.WorkItemQueue first).State = .WorkItemFree) :
    (s.setProducer c (.bulkFirstFree type cryptoInfo frags first)).Inv := by
  apply inv_producer_sawFree s h c first _ hfree <;> first | (rw [hpc]; rfl) | rfl | (intro first e; cases e)

theorem inv_producer_bulkClaimed (s : Sys) (h : s.Inv) (c first m : Nat)
    (type : EncryptionThreadPoolWorkType) (cryptoInfo : Nat) (f : Fragment) (frags : List Fragment)
    (hpc : (s.producers c).pc = .bulkClaimed type cryptoInfo f frags first m)
    (hfree : (s.pool.WorkItemQueue m).State = .WorkItemFree) :
    (s.setProducer c (.bulkFree type cryptoInfo f frags first m)).Inv := by
  apply inv_producer_sawFree s h c m _ hfree <;> first | (rw [hpc]; rfl) | rfl | (intro first e; cases e)

/-- A producer writes the fields of the slot it has claimed and seen free. -/
theorem inv_producer_fill (s : Sys) (h : s.Inv) (c m : Nat) (pc : ProducerPc) (P : Pool)
    (hs : (s.producers c).pc.sawFree = some m)
    (hcl : (s.producers c).pc.claimedItem = some m)
    (hsize : P.ThreadQueueSize = s.pool.ThreadQueueSize)
    (hTC : P.ThreadCount = s.pool.ThreadCount)
    (hEP : P.EnqueuePosition = s.pool.EnqueuePosition)
    (hSt : ∀ k, (P.WorkItemQueue k).State = (s.pool.WorkItemQueue k).State)
    (hWT : ∀ k, k ≠ m → (P.WorkItemQueue k).WorkType = (s.pool.WorkItemQueue k).WorkType)
    (hFF : ∀ k, k ≠ m → (P.WorkItemQueue k).FirstFragment = (s.pool.WorkItemQueue k).FirstFragment)
    (hCnt : ∀ k, (P.WorkItemQueue k).OutstandingFragmentCount
      = (s.pool.WorkItemQueue k).OutstandingFragmentCount)
    (hEv : ∀ k, (P.WorkItemQueue k).ItemCompletedEvent
      = (s.pool.WorkItemQueue k).ItemCompletedEvent)
    (e1 : pc.holds = (s.producers c).pc.holds)
    (e2 : pc.claimedItem = (s.producers c).pc.claimedItem)
    (e3 : pc.sawFree = (s.producers c).pc.sawFree)
    (e4 : ∀ k type, pc.filledItem = some (k, type) →
      (P.WorkItemQueue k).FirstFragment
        = some ((s.producers c).leaderTicket % s.pool.ThreadQueueSize) ∧
      (P.WorkItemQueue k).WorkType = type)
    (e5 : ∀ k, pc.filledSimple = some k → (P.WorkItemQueue k).WorkType.isCrypto = false)
    (e6 : pc.simpleType = none)
    (e7 : pc.bulkType = (s.producers c).pc.bulkType)
    (e8 : pc.first = (s.producers c).pc.first)
    (e9 : pc.pendingCount = (s.producers c).pc.pendingCount)
    (e10 : pc.enqueuing = (s.producers c).pc.enqueuing)
    (e11 : pc.waiting = (s.producers c).pc.waiting)
    (e12 : pc.counted = (s.producers c).pc.counted)
    (e13 : ∀ first, pc ≠ .bulkWoken first)
    (hPL : ∀ k, k ≠ m → (P.WorkItemQueue k).payload = (s.pool.WorkItemQueue k).payload)
    (e16 : ∀ type cryptoInfo rest, pc.rest = some (type, cryptoInfo, rest) →
      type = (s.producers c).op ∧ cryptoInfo = (s.producers c).cryptoInfo ∧
      rest = (s.producers c).plan.drop ((s.producers c).plan.length - rest.length))
    (e17 : ∀ k type n, pc.filledItem = some (k, type) → pc.pendingCount = some n →
      (P.WorkItemQueue k).WorkType = (s.producers c).op ∧
      ∃ f, (s.producers c).plan[(s.producers c).phases.length - n]? = some f ∧
        (P.WorkItemQueue k).payload
          = .Encryption (s.producers c).cryptoInfo f.Data f.StartUnitNo f.UnitCount) :
    ((s.setPool P).setProducer c pc).Inv := by
  have hfree := h.sawFree c m hs
  have hholdc := ProducerPc.sawFree_holds _ _ hs
  have e14 : pc.active = (s.producers c).pc.active := by
    simp only [ProducerPc.active, e10, e11]
  have Hholds : ∀ p, (((s.setPool P).setProducer c pc).producers p).pc.holds
      = (s.producers p).pc.holds := by
    intro p; by_cases hp : p = c
    · subst hp; simp [e1]
    · simp [hp]
  have Hclaimed : ∀ p, (((s.setPool P).setProducer c pc).producers p).pc.claimedItem
      = (s.producers p).pc.claimedItem := by
    intro p; by_cases hp : p = c
    · subst hp; simp [e2]
    · simp [hp]
  have HsawFree : ∀ p, (((s.setPool P).setProducer c pc).producers p).pc.sawFree
      = (s.producers p).pc.sawFree := by
    intro p; by_cases hp : p = c
    · subst hp; simp [e3]
    · simp [hp]
  have HbulkType : ∀ p, (((s.setPool P).setProducer c pc).producers p).pc.bulkType
      = (s.producers p).pc.bulkType := by
    intro p; by_cases hp : p = c
    · subst hp; simp [e7]
    · simp [hp]
  have Hfirst : ∀ p, (((s.setPool P).setProducer c pc).producers p).pc.first
      = (s.producers p).pc.first := by
    intro p; by_cases hp : p = c
    · subst hp; simp [e8]
    · simp [hp]
  have Hpending : ∀ p, (((s.setPool P).setProducer c pc).producers p).pc.pendingCount
      = (s.producers p).pc.pendingCount := by
    intro p; by_cases hp : p = c
    · subst hp; simp [e9]
    · simp [hp]
  have Henq : ∀ p, (((s.setPool P).setProducer c pc).producers p).pc.enqueuing
      = (s.producers p).pc.enqueuing := by
    intro p; by_cases hp : p = c
    · subst hp; simp [e10]
    · simp [hp]
  have Hwait : ∀ p, (((s.setPool P).setProducer c pc).producers p).pc.waiting
      = (s.producers p).pc.waiting := by
    intro p; by_cases hp : p = c
    · subst hp; simp [e11]
    · simp [hp]
  have Hcounted : ∀ p, (((s.setPool P).setProducer c pc).producers p).pc.counted
      = (s.producers p).pc.counted := by
    intro p; by_cases hp : p = c
    · subst hp; simp [e12]
    · simp [hp]
  have Hactive : ∀ p, (((s.setPool P).setProducer c pc).producers p).pc.active
      = (s.producers p).pc.active := by
    intro p; by_cases hp : p = c
    · subst hp; simp [e14]
    · simp [hp]
  have hfok : ∀ c2 j2 k, k ≠ m →
      (((s.setPool P).setProducer c pc).FragOK c2 j2 k ↔ s.FragOK c2 j2 k) := by
    intro c2 j2 k hk
    simp [Sys.FragOK, Hactive, hsize, hFF k hk, hWT k hk]
  have hnotfree : ∀ k, (s.pool.WorkItemQueue k).State ≠ .WorkItemFree → k ≠ m := by
    rintro k hk rfl
    exact hk hfree
  have hsd : ∀ c2 j2 k, k ≠ m →
      (((s.setPool P).setProducer c pc).SlotData c2 j2 k ↔ s.SlotData c2 j2 k) := by
    intro c2 j2 k hk
    simp [Sys.SlotData, hWT k hk, hPL k hk]
  refine {
    queueSize := ?queueSize,
    threadCount := ?threadCount,
    cursor := ?cursor,
    enqMutex := ?enqMutex,
    deqMutex := ?deqMutex,
    claimed := ?claimed,
    sawFree := ?sawFree,
    filled := ?filled,
    filledSimple := ?filledSimple,
    simpleType := ?simpleType,
    bulkType := ?bulkType,
    taking := ?taking,
    owned := ?owned,
    exclusive := ?exclusive,
    noFrag := ?noFrag,
    pastWork := ?pastWork,
    ownedSimple := ?ownedSimple,
    ready := ?ready,
    frag := ?frag,
    zero := ?zero,
    fragInj := ?fragInj,
    readyPhase := ?readyPhase,
    leader := ?leader,
    leaderPending := ?leaderPending,
    count := ?count,
    event := ?event,
    eventLeader := ?eventLeader,
    woken := ?woken,
    first := ?first,
    shape := ?shape,
    fresh := ?fresh,
    ticket := ?ticket,
    planLength := ?planLength,
    planRest := ?planRest,
    filledData := ?filledData,
    slotReady := ?slotReady,
    slotOwned := ?slotOwned,
    ring := ?ring }
  case filled =>
    intro p k type
    by_cases hp : p = c
    · subst hp
      simpa [hsize] using e4 k type
    · rw [Sys.setProducer_ne _ _ _ _ hp]
      intro hfi
      have hh := ProducerPc.filledItem_holds _ _ hfi
      exact absurd (h.holder_unique p c hh hholdc) hp
  case filledSimple =>
    intro p k
    by_cases hp : p = c
    · subst hp
      simpa using e5 k
    · rw [Sys.setProducer_ne _ _ _ _ hp]
      intro hfi
      have hh := ProducerPc.filledSimple_holds _ _ hfi
      exact absurd (h.holder_unique p c hh hholdc) hp
  case simpleType =>
    intro p type
    by_cases hp : p = c
    · subst hp
      simp [e6]
    · rw [Sys.setProducer_ne _ _ _ _ hp]
      exact h.simpleType p type
  case woken =>
    intro p first
    by_cases hp : p = c
    · subst hp
      simp only [Sys.setProducer_self_pc]
      intro e; exact absurd e (e13 first)
    · rw [Sys.setProducer_ne _ _ _ _ hp]
      simpa using h.woken p first
  case ownedSimple =>
    intro y k hk hf
    obtain ⟨o1, -⟩ := h.owned y k hk
    have hkm := hnotfree k (by rw [o1]; decide)
    simpa [hWT k hkm] using h.ownedSimple y k hk hf
  case ready =>
    intro k hk
    have hk' : (s.pool.WorkItemQueue k).State = .WorkItemReady := by simpa [hSt] using hk
    have hkm := hnotfree k (by rw [hk']; decide)
    obtain ⟨r1, r2⟩ := h.ready k hk'
    refine ⟨?_, by simpa [hWT k hkm] using r2⟩
    intro c2 j2 ht
    obtain ⟨f1, f2⟩ := r1 c2 j2 ht
    exact ⟨(hfok c2 j2 k hkm).2 f1, by simpa using f2⟩
  case frag =>
    intro y c2 j2 k ph hf hp
    obtain ⟨f1, f2⟩ := h.frag y c2 j2 k ph hf hp
    have hkm : k ≠ m := by
      rw [f1.2.2.1]
      exact h.fill_ne c m c2 j2 ph hs hcl f1.1 f2 (WorkerPc.phase_ne _ _ _ hp).1
    exact ⟨(hfok c2 j2 k hkm).2 f1, by simpa using f2⟩
  case planRest =>
    intro p type cryptoInfo rest
    by_cases hp : p = c
    · subst hp
      simpa using e16 type cryptoInfo rest
    · rw [Sys.setProducer_ne _ _ _ _ hp]
      exact h.planRest p type cryptoInfo rest
  case filledData =>
    intro p k type n
    by_cases hp : p = c
    · subst hp
      simpa [Sys.SlotData] using e17 k type n
    · rw [Sys.setProducer_ne _ _ _ _ hp]
      intro hfi
      have hh := ProducerPc.filledItem_holds _ _ hfi
      exact absurd (h.holder_unique p c hh hholdc) hp
  case slotReady =>
    intro k c2 j2 hk ht
    have hk2 : (s.pool.WorkItemQueue k).State = .WorkItemReady := by simpa [hSt] using hk
    have hkm := hnotfree k (by rw [hk2]; decide)
    exact (hsd c2 j2 k hkm).2 (h.slotReady k c2 j2 hk2 ht)
  case slotOwned =>
    intro y k c2 j2 hk hf
    obtain ⟨o1, -⟩ := h.owned y k hk
    have hkm := hnotfree k (by rw [o1]; decide)
    exact (hsd c2 j2 k hkm).2 (h.slotOwned y k c2 j2 hk hf)
  case queueSize => simpa [Sys.SlotData, hsize, hTC, hEP, hSt, hCnt, hEv, Hholds, Hclaimed, HsawFree, HbulkType, Hfirst, Hpending, Henq, Hwait, Hcounted, Hactive] using h.queueSize
  case threadCount => simpa [Sys.SlotData, hsize, hTC, hEP, hSt, hCnt, hEv, Hholds, Hclaimed, HsawFree, HbulkType, Hfirst, Hpending, Henq, Hwait, Hcounted, Hactive] using h.threadCount
  case cursor => simpa [Sys.SlotData, hsize, hTC, hEP, hSt, hCnt, hEv, Hholds, Hclaimed, HsawFree, HbulkType, Hfirst, Hpending, Henq, Hwait, Hcounted, Hactive] using h.cursor
  case enqMutex => simpa [Sys.SlotData, hsize, hTC, hEP, hSt, hCnt, hEv, Hholds, Hclaimed, HsawFree, HbulkType, Hfirst, Hpending, Henq, Hwait, Hcounted, Hactive] using h.enqMutex
  case deqMutex => exact h.deqMutex
  case claimed => simpa [Sys.SlotData, hsize, hTC, hEP, hSt, hCnt, hEv, Hholds, Hclaimed, HsawFree, HbulkType, Hfirst, Hpending, Henq, Hwait, Hcounted, Hactive] using h.claimed
  case sawFree => simpa [Sys.SlotData, hsize, hTC, hEP, hSt, hCnt, hEv, Hholds, Hclaimed, HsawFree, HbulkType, Hfirst, Hpending, Henq, Hwait, Hcounted, Hactive] using h.sawFree
  case bulkType => simpa [Sys.SlotData, hsize, hTC, hEP, hSt, hCnt, hEv, Hholds, Hclaimed, HsawFree, HbulkType, Hfirst, Hpending, Henq, Hwait, Hcounted, Hactive] using h.bulkType
  case taking => simpa [Sys.SlotData, hsize, hTC, hEP, hSt, hCnt, hEv, Hholds, Hclaimed, HsawFree, HbulkType, Hfirst, Hpending, Henq, Hwait, Hcounted, Hactive] using h.taking
  case owned => simpa [Sys.SlotData, hsize, hTC, hEP, hSt, hCnt, hEv, Hholds, Hclaimed, HsawFree, HbulkType, Hfirst, Hpending, Henq, Hwait, Hcounted, Hactive] using h.owned
  case exclusive => exact h.exclusive
  case noFrag => exact h.noFrag
  case pastWork => exact h.pastWork
  case zero => simpa [Sys.SlotData, hsize, hTC, hEP, hSt, hCnt, hEv, Hholds, Hclaimed, HsawFree, HbulkType, Hfirst, Hpending, Henq, Hwait, Hcounted, Hactive] using h.zero
  case fragInj => exact h.fragInj
  case readyPhase => simpa [Sys.SlotData, hsize, hTC, hEP, hSt, hCnt, hEv, Hholds, Hclaimed, HsawFree, HbulkType, Hfirst, Hpending, Henq, Hwait, Hcounted, Hactive] using h.readyPhase
  case leader => simpa [Sys.SlotData, hsize, hTC, hEP, hSt, hCnt, hEv, Hholds, Hclaimed, HsawFree, HbulkType, Hfirst, Hpending, Henq, Hwait, Hcounted, Hactive] using h.leader
  case leaderPending => simpa [Sys.SlotData, hsize, hTC, hEP, hSt, hCnt, hEv, Hholds, Hclaimed, HsawFree, HbulkType, Hfirst, Hpending, Henq, Hwait, Hcounted, Hactive] using h.leaderPending
  case count => simpa [Sys.SlotData, hsize, hTC, hEP, hSt, hCnt, hEv, Hholds, Hclaimed, HsawFree, HbulkType, Hfirst, Hpending, Henq, Hwait, Hcounted, Hactive] using h.count
  case event => simpa [Sys.SlotData, hsize, hTC, hEP, hSt, hCnt, hEv, Hholds, Hclaimed, HsawFree, HbulkType, Hfirst, Hpending, Henq, Hwait, Hcounted, Hactive] using h.event
  case eventLeader => simpa [Sys.SlotData, hsize, hTC, hEP, hSt, hCnt, hEv, Hholds, Hclaimed, HsawFree, HbulkType, Hfirst, Hpending, Henq, Hwait, Hcounted, Hactive] using h.eventLeader
  case first => simpa [Sys.SlotData, hsize, hTC, hEP, hSt, hCnt, hEv, Hholds, Hclaimed, HsawFree, HbulkType, Hfirst, Hpending, Henq, Hwait, Hcounted, Hactive] using h.first
  case shape => simpa [Sys.SlotData, hsize, hTC, hEP, hSt, hCnt, hEv, Hholds, Hclaimed, HsawFree, HbulkType, Hfirst, Hpending, Henq, Hwait, Hcounted, Hactive] using h.shape
  case fresh => simpa [Sys.SlotData, hsize, hTC, hEP, hSt, hCnt, hEv, Hholds, Hclaimed, HsawFree, HbulkType, Hfirst, Hpending, Henq, Hwait, Hcounted, Hactive] using h.fresh
  case ticket => simpa [Sys.SlotData, hsize, hTC, hEP, hSt, hCnt, hEv, Hholds, Hclaimed, HsawFree, HbulkType, Hfirst, Hpending, Henq, Hwait, Hcounted, Hactive] using h.ticket
  case planLength => simpa [Sys.SlotData, hsize, hTC, hEP, hSt, hCnt, hEv, Hholds, Hclaimed, HsawFree, HbulkType, Hfirst, Hpending, Henq, Hwait, Hcounted, Hactive] using h.planLength
  case ring => simpa [Sys.SlotData, hsize, hTC, hEP, hSt, hCnt, hEv, Hholds, Hclaimed, HsawFree, HbulkType, Hfirst, Hpending, Henq, Hwait, Hcounted, Hactive] using h.ring

theorem inv_producer_simpleFree (s : Sys) (h : s.Inv) (c m : Nat)
    (type : EncryptionThreadPoolWorkType) (payload : Payload)
    (hpc : (s.producers c).pc = .simpleFree type payload m) :
    ((s.setPool (s.pool.fillSimple m type payload)).setProducer c (.simpleFilled m)).Inv := by
  have hty := h.simpleType c type (by rw [hpc]; rfl)
  apply inv_producer_fill s h c m _ _ (by rw [hpc]; rfl) (by rw [hpc]; rfl)
  case e5 =>
    intro k hk
    simp only [ProducerPc.filledSimple, Option.some.injEq] at hk
    subst hk
    simpa using hty
  case e4 => intro k type2 hk; simp [ProducerPc.filledItem] at hk
  case e13 => intro first e; cases e
  case hWT => intro k hk; simp [hk]
  case hFF => intro k hk; simp
  case hPL => intro k hk; simp [hk]
  case e16 => intro type2 ci rest e; cases e
  case e17 => intro k type2 n e; cases e
  all_goals first | rfl | (rw [hpc]; rfl) | (intro k; simp)

theorem inv_producer_bulkFree (s : Sys) (h : s.Inv) (c first m : Nat)
    (type : EncryptionThreadPoolWorkType) (cryptoInfo : Nat) (f : Fragment) (frags : List Fragment)
    (hpc : (s.producers c).pc = .bulkFree type cryptoInfo f frags first m) :
    ((s.setPool (s.pool.fillFragment m type first cryptoInfo f)).setProducer c
      (.bulkFilled type cryptoInfo frags first m)).Inv := by
  have hfirst := h.first c first (by rw [hpc]; rfl)
  obtain ⟨hp1, hp2, hp3⟩ := h.planRest c type cryptoInfo (f :: frags) (by rw [hpc]; rfl)
  have hplen := h.planLength c (frags.length + 1) (by rw [hpc]; rfl)
  have hsuf := drop_cons_suffix _ _ _ hp3
  apply inv_producer_fill s h c m _ _ (by rw [hpc]; rfl) (by rw [hpc]; rfl)
  case e4 =>
    intro k type2 hk
    simp only [ProducerPc.filledItem, Option.some.injEq, Prod.mk.injEq] at hk
    obtain ⟨rfl, rfl⟩ := hk
    simp [hfirst]
  case e5 => intro k hk; simp [ProducerPc.filledSimple] at hk
  case e13 => intro first e; cases e
  case hWT => intro k hk; simp [hk]
  case hFF => intro k hk; simp [hk]
  case hPL => intro k hk; simp [hk]
  case e16 =>
    intro type2 ci rest e
    simp only [ProducerPc.rest, Option.some.injEq, Prod.mk.injEq] at e
    obtain ⟨rfl, rfl, rfl⟩ := e
    exact ⟨hp1, hp2, hsuf.1⟩
  case e17 =>
    intro k type2 n e1 e2
    simp only [ProducerPc.filledItem, Option.some.injEq, Prod.mk.injEq] at e1
    simp only [ProducerPc.pendingCount, Option.some.injEq] at e2
    obtain ⟨rfl, rfl⟩ := e1
    subst e2
    refine ⟨by simpa using hp1, f, ?_, by simp [hp2]⟩
    rw [← hplen]; exact hsuf.2
  all_goals first | rfl | (rw [hpc]; rfl) | (intro k; simp)

@[simp]
theorem Sys.claim_pool (s : Sys) (c : Nat) :
    (s.claim c).pool = (claimEnqueueSlot s.pool).2 := rfl

@[simp]
theorem Sys.claim_enqueueOwner (s : Sys) (c : Nat) :
    (s.claim c).enqueueOwner = some c := rfl

@[simp]
theorem Sys.claim_dequeueOwner (s : Sys) (c : Nat) :
    (s.claim c).dequeueOwner = s.dequeueOwner := rfl

@[simp]
theorem Sys.claim_workers (s : Sys) (c : Nat) : (s.claim c).workers = s.workers := rfl

@[simp]
theorem Sys.claim_producers (s : Sys) (c : Nat) : (s.claim c).producers = s.producers := rfl

@[simp]
theorem Sys.claim_tag (s : Sys) (c : Nat) : (s.claim c).tag = s.tag := rfl

@[simp]
theorem Sys.claim_enqTicket (s : Sys) (c : Nat) :
    (s.claim c).enqTicket = s.enqTicket + 1 := rfl

/-- A producer claims the slot at the enqueue cursor. -/
theorem inv_producer_claim (s : Sys) (h : s.Inv) (c : Nat) (pc : ProducerPc)
    (hown : ∀ p, (s.producers p).pc.holds = true → p = c)
    (hc0 : (s.producers c).pc.claimedItem = none)
    (e1 : pc.holds = true)
    (e2 : pc.claimedItem = some s.pool.EnqueuePosition)
    (e3 : pc.sawFree = none)
    (e4 : pc.filledItem = none)
    (e5 : pc.filledSimple = none)
    (e6 : ∀ type, pc.simpleType = some type → type.isCrypto = false)
    (e7 : pc.bulkType = (s.producers c).pc.bulkType)
    (e8 : pc.first = (s.producers c).pc.first)
    (e9 : pc.pendingCount = (s.producers c).pc.pendingCount)
    (e10 : pc.enqueuing = (s.producers c).pc.enqueuing)
    (e11 : pc.waiting = (s.producers c).pc.waiting)
    (e12 : pc.counted = (s.producers c).pc.counted)
    (e13 : ∀ first, pc ≠ .bulkWoken first)
    (e15 : ∀ n, pc.pendingCount = some n → (s.producers c).pc.holds = true)
    (e16 : pc.rest = (s.producers c).pc.rest) :
    ((s.claim c).setProducer c pc).Inv := by
  have e14 : pc.active = (s.producers c).pc.active := by
    simp only [ProducerPc.active, e10, e11]
  have hother : ∀ p, p ≠ c → (s.producers p).pc.holds = false := by
    intro p hp
    by_contra hcon
    exact hp (hown p (by simpa using hcon))
  have Hne : ∀ p, p ≠ c → ((s.claim c).setProducer c pc).producers p = s.producers p :=
    fun p hp => Sys.setProducer_ne _ _ _ _ hp
  have Hself : (((s.claim c).setProducer c pc).producers c).pc = pc :=
    Sys.setProducer_self_pc _ _ _
  have HbulkType : ∀ p, (((s.claim c).setProducer c pc).producers p).pc.bulkType
      = (s.producers p).pc.bulkType := by
    intro p; by_cases hp : p = c
    · subst hp; rw [Hself, e7]
    · rw [Hne p hp]
  have Hfirst : ∀ p, (((s.claim c).setProducer c pc).producers p).pc.first
      = (s.producers p).pc.first := by
    intro p; by_cases hp : p = c
    · subst hp; rw [Hself, e8]
    · rw [Hne p hp]
  have Hpending : ∀ p, (((s.claim c).setProducer c pc).producers p).pc.pendingCount
      = (s.producers p).pc.pendingCount := by
    intro p; by_cases hp : p = c
    · subst hp; rw [Hself, e9]
    · rw [Hne p hp]
  have Henq : ∀ p, (((s.claim c).setProducer c pc).producers p).pc.enqueuing
      = (s.producers p).pc.enqueuing := by
    intro p; by_cases hp : p = c
    · subst hp; rw [Hself, e10]
    · rw [Hne p hp]
  have Hwait : ∀ p, (((s.claim c).setProducer c pc).producers p).pc.waiting
      = (s.producers p).pc.waiting := by
    intro p; by_cases hp : p = c
    · subst hp; rw [Hself, e11]
    · rw [Hne p hp]
  have Hcounted : ∀ p, (((s.claim c).setProducer c pc).producers p).pc.counted
      = (s.producers p).pc.counted := by
    intro p; by_cases hp : p = c
    · subst hp; rw [Hself, e12]
    · rw [Hne p hp]
  have Hactive : ∀ p, (((s.claim c).setProducer c pc).producers p).pc.active
      = (s.producers p).pc.active := by
    intro p; by_cases hp : p = c
    · subst hp; rw [Hself, e14]
    · rw [Hne p hp]
  have hnoclaim : ∀ p k, (s.producers p).pc.claimedItem ≠ some k := by
    intro p k hk
    have := hown p (ProducerPc.claimedItem_holds _ _ hk)
    subst this
    rw [hc0] at hk; cases hk
  have hnosaw : ∀ p k, p ≠ c → (s.producers p).pc.sawFree ≠ some k := by
    intro p k hp hk
    exact hp (hown p (ProducerPc.sawFree_holds _ _ hk))
  have hQ := h.queueSize
  have Hrest : ∀ p, (((s.claim c).setProducer c pc).producers p).pc.rest
      = (s.producers p).pc.rest := by
    intro p; by_cases hp : p = c
    · subst hp; rw [Hself, e16]
    · rw [Hne p hp]
  refine {
    queueSize := ?queueSize,
    threadCount := ?threadCount,
    cursor := ?cursor,
    enqMutex := ?enqMutex,
    deqMutex := ?deqMutex,
    claimed := ?claimed,
    sawFree := ?sawFree,
    filled := ?filled,
    filledSimple := ?filledSimple,
    simpleType := ?simpleType,
    bulkType := ?bulkType,
    taking := ?taking,
    owned := ?owned,
    exclusive := ?exclusive,
    noFrag := ?noFrag,
    pastWork := ?pastWork,
    ownedSimple := ?ownedSimple,
    ready := ?ready,
    frag := ?frag,
    zero := ?zero,
    fragInj := ?fragInj,
    readyPhase := ?readyPhase,
    leader := ?leader,
    leaderPending := ?leaderPending,
    count := ?count,
    event := ?event,
    eventLeader := ?eventLeader,
    woken := ?woken,
    first := ?first,
    shape := ?shape,
    fresh := ?fresh,
    ticket := ?ticket,
    planLength := ?planLength,
    planRest := ?planRest,
    filledData := ?filledData,
    slotReady := ?slotReady,
    slotOwned := ?slotOwned,
    ring := ?ring }
  case cursor =>
    exact claimEnqueueSlot_cursor s.pool s.enqTicket hQ h.cursor
  case enqMutex =>
    intro p
    by_cases hp : p = c
    · subst hp; rw [Hself]; simp [e1]
    · rw [Hne p hp, hother p hp]
      simp only [Sys.setProducer_enqueueOwner]
      constructor
      · intro e; cases e
      · intro e; exact absurd (Option.some.inj e).symm hp
  case claimed =>
    intro p k
    by_cases hp : p = c
    · subst hp
      rw [Hself, e2]
      intro e
      injection e with e
      subst e
      refine ⟨by simp, ?_⟩
      simpa using h.cursor
    · rw [Hne p hp]
      intro hk
      exact absurd hk (hnoclaim p k)
  case sawFree =>
    intro p k
    by_cases hp : p = c
    · subst hp; rw [Hself, e3]; simp
    · rw [Hne p hp]
      exact h.sawFree p k
  case filled =>
    intro p k type
    by_cases hp : p = c
    · subst hp; rw [Hself, e4]; simp
    · rw [Hne p hp]
      exact h.filled p k type
  case filledSimple =>
    intro p k
    by_cases hp : p = c
    · subst hp; rw [Hself, e5]; simp
    · rw [Hne p hp]
      exact h.filledSimple p k
  case simpleType =>
    intro p type
    by_cases hp : p = c
    · subst hp; rw [Hself]; exact e6 type
    · rw [Hne p hp]
      exact h.simpleType p type
  case woken =>
    intro p first
    by_cases hp : p = c
    · subst hp
      rw [Hself]
      intro e; exact absurd e (e13 first)
    · rw [Hne p hp]
      exact h.woken p first
  case ticket =>
    intro p n
    by_cases hp : p = c
    · subst hp
      rw [Hself, e1, e2]
      intro _ hn
      have := h.ticket p n (e15 n hn) (by rw [← e9]; exact hn)
      rw [hc0] at this
      simp only [if_true] at this
      simp only [Sys.setProducer_enqTicket, Sys.setProducer_leaderTicket, Sys.setProducer_phases,
        reduceCtorEq, if_false, Sys.claim_enqTicket, Sys.claim_producers]
      omega
    · rw [Hne p hp, hother p hp]
      intro e; cases e
  case ring =>
    intro w hw
    rw [Hwait] at hw
    obtain ⟨r1, r2, r3, r4, r5⟩ := h.ring w hw
    have hlt : s.enqTicket ≤ (s.producers w).leaderTicket + s.pool.ThreadQueueSize := by
      by_contra hcon
      obtain ⟨p, k, hk⟩ := r5 (by omega)
      exact hnoclaim p k hk
    simp only [Sys.setProducer_leaderTicket, Sys.setProducer_phases, Sys.setProducer_enqTicket,
      Sys.setProducer_pool, claimEnqueueSlot_size, Sys.claim_pool, Sys.claim_producers,
      Sys.claim_enqTicket]
    refine ⟨by omega, by omega, fun _ _ _ => by omega, ?_, fun _ => ⟨c, s.pool.EnqueuePosition, by rw [Hself]; exact e2⟩⟩
    intro p k
    by_cases hp : p = c
    · subst hp; rw [Hself, e3]; simp
    · rw [Hne p hp]
      intro hk
      exact absurd hk (hnosaw p k hp)
  case filledData =>
    intro p k type n
    by_cases hp : p = c
    · subst hp; rw [Hself, e4]; simp
    · rw [Hne p hp]
      simpa [Sys.SlotData, hp] using h.filledData p k type n
  case queueSize => exact h.queueSize
  case threadCount => exact h.threadCount
  case deqMutex => exact h.deqMutex
  case bulkType => simpa [Sys.SlotData, Sys.FragOK, Hrest, HbulkType, Hfirst, Hpending, Henq, Hwait, Hcounted, Hactive] using h.bulkType
  case taking => exact h.taking
  case owned => exact h.owned
  case exclusive => exact h.exclusive
  case noFrag => exact h.noFrag
  case pastWork => exact h.pastWork
  case ownedSimple => exact h.ownedSimple
  case ready => simpa [Sys.SlotData, Sys.FragOK, Hrest, HbulkType, Hfirst, Hpending, Henq, Hwait, Hcounted, Hactive] using h.ready
  case frag => simpa [Sys.SlotData, Sys.FragOK, Hrest, HbulkType, Hfirst, Hpending, Henq, Hwait, Hcounted, Hactive] using h.frag
  case zero => simpa [Sys.SlotData, Sys.FragOK, Hrest, HbulkType, Hfirst, Hpending, Henq, Hwait, Hcounted, Hactive] using h.zero
  case fragInj => exact h.fragInj
  case readyPhase => simpa [Sys.SlotData, Sys.FragOK, Hrest, HbulkType, Hfirst, Hpending, Henq, Hwait, Hcounted, Hactive] using h.readyPhase
  case leader => simpa [Sys.SlotData, Sys.FragOK, Hrest, HbulkType, Hfirst, Hpending, Henq, Hwait, Hcounted, Hactive] using h.leader
  case leaderPending => simpa [Sys.SlotData, Sys.FragOK, Hrest, HbulkType, Hfirst, Hpending, Henq, Hwait, Hcounted, Hactive] using h.leaderPending
  case count => simpa [Sys.SlotData, Sys.FragOK, Hrest, HbulkType, Hfirst, Hpending, Henq, Hwait, Hcounted, Hactive] using h.count
  case event => simpa [Sys.SlotData, Sys.FragOK, Hrest, HbulkType, Hfirst, Hpending, Henq, Hwait, Hcounted, Hactive] using h.event
  case eventLeader => simpa [Sys.SlotData, Sys.FragOK, Hrest, HbulkType, Hfirst, Hpending, Henq, Hwait, Hcounted, Hactive] using h.eventLeader
  case first => simpa [Sys.SlotData, Sys.FragOK, Hrest, HbulkType, Hfirst, Hpending, Henq, Hwait, Hcounted, Hactive] using h.first
  case shape => simpa [Sys.SlotData, Sys.FragOK, Hrest, HbulkType, Hfirst, Hpending, Henq, Hwait, Hcounted, Hactive] using h.shape
  case fresh => simpa [Sys.SlotData, Sys.FragOK, Hrest, HbulkType, Hfirst, Hpending, Henq, Hwait, Hcounted, Hactive] using h.fresh
  case planLength => simpa [Sys.SlotData, Sys.FragOK, Hrest, HbulkType, Hfirst, Hpending, Henq, Hwait, Hcounted, Hactive] using h.planLength
  case planRest => simpa [Sys.SlotData, Sys.FragOK, Hrest, HbulkType, Hfirst, Hpending, Henq, Hwait, Hcounted, Hactive] using h.planRest
  case slotReady => simpa [Sys.SlotData, Sys.FragOK, Hrest, HbulkType, Hfirst, Hpending, Henq, Hwait, Hcounted, Hactive] using h.slotReady
  case slotOwned => simpa [Sys.SlotData, Sys.FragOK, Hrest, HbulkType, Hfirst, Hpending, Henq, Hwait, Hcounted, Hactive] using h.slotOwned

theorem inv_producer_bulkLoop_cons (s : Sys) (h : s.Inv) (c first : Nat)
    (type : EncryptionThreadPoolWorkType) (cryptoInfo : Nat) (f : Fragment) (frags : List Fragment)
    (hpc : (s.producers c).pc = .bulkLoop type cryptoInfo (f :: frags) first) :
    ({ s with pool := (claimEnqueueSlot s.pool).2, enqTicket := s.enqTicket + 1 }.setProducer c
      (.bulkClaimed type cryptoInfo f frags first (claimEnqueueSlot s.pool).1)).Inv := by
  have hholds : (s.producers c).pc.holds = true := by rw [hpc]; rfl
  have heo := (h.enqMutex c).1 hholds
  have e : ({ s with pool := (claimEnqueueSlot s.pool).2, enqTicket := s.enqTicket + 1 } : Sys)
      = s.claim c := by
    unfold Sys.claim; rw [← heo]
  rw [e]
  apply inv_producer_claim s h c _ (fun p hp => h.holder_unique p c hp hholds)
  case e6 => intro type e; cases e
  case e13 => intro first e; cases e
  case e15 => intro n _; exact hholds
  all_goals first | rfl | (rw [hpc]; rfl)

theorem inv_beginSimple (s : Sys) (h : s.Inv) (c : Nat)
    (type : EncryptionThreadPoolWorkType) (payload : Payload)
    (hpc : (s.producers c).pc = .idle) (hown : s.enqueueOwner = none)
    (hty : type = .DeriveKeyWork ∨ type = .ReadVolumeHeaderFinalizationWork) :
    ({ s with pool := (claimEnqueueSlot s.pool).2, enqueueOwner := some c,
              enqTicket := s.enqTicket + 1 }.setProducer c
      (.simpleClaimed type payload (claimEnqueueSlot s.pool).1)).Inv := by
  have hnone : ∀ p, (s.producers p).pc.holds = true → p = c := by
    intro p hp
    have := (h.enqMutex p).1 hp
    rw [hown] at this; cases this
  apply inv_producer_claim s h c _ hnone
  case e6 =>
    intro type2 e
    simp only [ProducerPc.simpleType, Option.some.injEq] at e
    subst e
    rcases hty with rfl | rfl <;> rfl
  case e13 => intro first e; cases e
  case e15 => intro n e; cases e
  all_goals first | rfl | (rw [hpc]; rfl)

@[simp]
theorem Sys.publishSimple_pool (s : Sys) (m : Nat) :
    (s.publishSimple m).pool = publishWorkItem s.pool m := rfl

@[simp]
theorem Sys.publishSimple_enqueueOwner (s : Sys) (m : Nat) :
    (s.publishSimple m).enqueueOwner = none := rfl

@[simp]
theorem Sys.publishSimple_dequeueOwner (s : Sys) (m : Nat) :
    (s.publishSimple m).dequeueOwner = s.dequeueOwner := rfl

@[simp]
theorem Sys.publishSimple_workers (s : Sys) (m : Nat) :
    (s.publishSimple m).workers = s.workers := rfl

@[simp]
theorem Sys.publishSimple_producers (s : Sys) (m : Nat) :
    (s.publishSimple m).producers = s.producers := rfl

@[simp]
theorem Sys.publishSimple_tag (s : Sys) (m k : Nat) :
    (s.publishSimple m).tag k = if k = m then none else s.tag k := by
  simp [Sys.publishSimple, Function.update_apply]

@[simp]
theorem Sys.publishSimple_enqTicket (s : Sys) (m : Nat) :
    (s.publishSimple m).enqTicket = s.enqTicket := rfl

theorem inv_producer_simpleFilled_aux (s : Sys) (h : s.Inv) (c m : Nat)
    (hpc : (s.producers c).pc = .simpleFilled m) :
    ((s.publishSimple m).setProducer c .idle).Inv := by
  have hholds : (s.producers c).pc.holds = true := by rw [hpc]; rfl
  have hfree := h.sawFree c m (by rw [hpc]; rfl)
  have hty := h.filledSimple c m (by rw [hpc]; rfl)
  have hother : ∀ p, p ≠ c → (s.producers p).pc.holds = false := by
    intro p hp
    by_contra hcon
    exact hp (h.holder_unique p c (by simpa using hcon) hholds)
  have Hne : ∀ p, p ≠ c → ((s.publishSimple m).setProducer c .idle).producers p = s.producers p :=
    fun p hp => Sys.setProducer_ne _ _ _ _ hp
  have Hself : (((s.publishSimple m).setProducer c .idle).producers c).pc = .idle :=
    Sys.setProducer_self_pc _ _ _
  have HbulkType : ∀ p, (((s.publishSimple m).setProducer c .idle).producers p).pc.bulkType
      = (s.producers p).pc.bulkType := by
    intro p; by_cases hp : p = c
    · subst hp; rw [Hself, hpc]; rfl
    · rw [Hne p hp]
  have HsimpleType : ∀ p, (((s.publishSimple m).setProducer c .idle).producers p).pc.simpleType
      = (s.producers p).pc.simpleType := by
    intro p; by_cases hp : p = c
    · subst hp; rw [Hself, hpc]; rfl
    · rw [Hne p hp]
  have Hfirst : ∀ p, (((s.publishSimple m).setProducer c .idle).producers p).pc.first
      = (s.producers p).pc.first := by
    intro p; by_cases hp : p = c
    · subst hp; rw [Hself, hpc]; rfl
    · rw [Hne p hp]
  have Hpending : ∀ p, (((s.publishSimple m).setProducer c .idle).producers p).pc.pendingCount
      = (s.producers p).pc.pendingCount := by
    intro p; by_cases hp : p = c
    · subst hp; rw [Hself, hpc]; rfl
    · rw [Hne p hp]
  have Henq : ∀ p, (((s.publishSimple m).setProducer c .idle).producers p).pc.enqueuing
      = (s.producers p).pc.enqueuing := by
    intro p; by_cases hp : p = c
    · subst hp; rw [Hself, hpc]; rfl
    · rw [Hne p hp]
  have Hwait : ∀ p, (((s.publishSimple m).setProducer c .idle).producers p).pc.waiting
      = (s.producers p).pc.waiting := by
    intro p; by_cases hp : p = c
    · subst hp; rw [Hself, hpc]; rfl
    · rw [Hne p hp]
  have Hcounted : ∀ p, (((s.publishSimple m).setProducer c .idle).producers p).pc.counted
      = (s.producers p).pc.counted := by
    intro p; by_cases hp : p = c
    · subst hp; rw [Hself, hpc]; rfl
    · rw [Hne p hp]
  have Hactive : ∀ p, (((s.publishSimple m).setProducer c .idle).producers p).pc.active
      = (s.producers p).pc.active := by
    intro p; by_cases hp : p = c
    · subst hp; rw [Hself, hpc]; rfl
    · rw [Hne p hp]
  have Hholds : ∀ p, (((s.publishSimple m).setProducer c .idle).producers p).pc.holds = false := by
    intro p; by_cases hp : p = c
    · subst hp; rw [Hself]; rfl
    · rw [Hne p hp]; exact hother p hp
  have Hclaimed : ∀ p, (((s.publishSimple m).setProducer c .idle).producers p).pc.claimedItem
      = none := by
    intro p
    rcases hk : (((s.publishSimple m).setProducer c .idle).producers p).pc.claimedItem with _ | k
    · rfl
    · have := ProducerPc.claimedItem_holds _ _ hk
      rw [Hholds] at this; cases this
  have HsawFree : ∀ p, (((s.publishSimple m).setProducer c .idle).producers p).pc.sawFree
      = none := by
    intro p
    rcases hk : (((s.publishSimple m).setProducer c .idle).producers p).pc.sawFree with _ | k
    · rfl
    · have := ProducerPc.sawFree_holds _ _ hk
      rw [Hholds] at this; cases this
  have hfok : ∀ c2 j2 k, ((s.publishSimple m).setProducer c .idle).FragOK c2 j2 k
      ↔ s.FragOK c2 j2 k := by
    intro c2 j2 k
    simp [Sys.FragOK, Hactive]
  have hnotfree : ∀ k, (s.pool.WorkItemQueue k).State ≠ .WorkItemFree → k ≠ m := by
    rintro k hk rfl
    exact hk hfree
  refine {
    queueSize := ?queueSize,
    threadCount := ?threadCount,
    cursor := ?cursor,
    enqMutex := ?enqMutex,
    deqMutex := ?deqMutex,
    claimed := ?claimed,
    sawFree := ?sawFree,
    filled := ?filled,
    filledSimple := ?filledSimple,
    simpleType := ?simpleType,
    bulkType := ?bulkType,
    taking := ?taking,
    owned := ?owned,
    exclusive := ?exclusive,
    noFrag := ?noFrag,
    pastWork := ?pastWork,
    ownedSimple := ?ownedSimple,
    ready := ?ready,
    frag := ?frag,
    zero := ?zero,
    fragInj := ?fragInj,
    readyPhase := ?readyPhase,
    leader := ?leader,
    leaderPending := ?leaderPending,
    count := ?count,
    event := ?event,
    eventLeader := ?eventLeader,
    woken := ?woken,
    first := ?first,
    shape := ?shape,
    fresh := ?fresh,
    ticket := ?ticket,
    planLength := ?planLength,
    planRest := ?planRest,
    filledData := ?filledData,
    slotReady := ?slotReady,
    slotOwned := ?slotOwned,
    ring := ?ring }
  case enqMutex =>
    intro p
    rw [Hholds]
    simp
  case claimed =>
    intro p k hk
    rw [Hclaimed] at hk; cases hk
  case sawFree =>
    intro p k hk
    rw [HsawFree] at hk; cases hk
  case filled =>
    intro p k type hk
    have := ProducerPc.filledItem_holds _ _ hk
    rw [Hholds] at this; cases this
  case filledSimple =>
    intro p k hk
    have := ProducerPc.filledSimple_holds _ _ hk
    rw [Hholds] at this; cases this
  case taking =>
    intro y k hk
    have := h.taking y k hk
    simp only [Sys.setProducer_pool, Sys.publishSimple_pool, publishWorkItem_State]
    split_ifs
    · rfl
    · exact this
  case owned =>
    intro y k hk
    obtain ⟨o1, o2⟩ := h.owned y k hk
    have hkm := hnotfree k (by rw [o1]; decide)
    simpa [hkm] using h.owned y k hk
  case ready =>
    intro k hk
    by_cases hkm : k = m
    · subst hkm
      simpa using hty
    · have hk' : (s.pool.WorkItemQueue k).State = .WorkItemReady := by simpa [hkm] using hk
      obtain ⟨r1, r2⟩ := h.ready k hk'
      refine ⟨?_, by simpa [hkm] using r2⟩
      intro c2 j2 ht
      obtain ⟨f1, f2⟩ := r1 c2 j2 (by simpa [hkm] using ht)
      exact ⟨(hfok c2 j2 k).2 f1, by simpa using f2⟩
  case frag =>
    intro y c2 j2 k ph hf hp
    obtain ⟨f1, f2⟩ := h.frag y c2 j2 k ph hf hp
    exact ⟨(hfok c2 j2 k).2 f1, by simpa using f2⟩
  case readyPhase =>
    intro c2 j2 hact hj
    obtain ⟨r1, r2⟩ := h.readyPhase c2 j2 (by rw [← Hactive]; exact hact) (by simpa using hj)
    have hkm := hnotfree _ (by rw [r1]; decide)
    simpa [hkm] using And.intro r1 r2
  case leader =>
    intro c2 ph hc h0 h1 h2
    obtain ⟨r1, r2⟩ := h.leader c2 ph (by rw [← Hcounted]; exact hc) (by simpa using h0) h1 h2
    have hkm := hnotfree _ (by rw [r1]; decide)
    simpa [hkm] using And.intro r1 r2
  case leaderPending =>
    intro c2 hc h0
    rw [Henq] at hc
    have := h.holder_unique c2 c (ProducerPc.enqueuing_holds _ hc) hholds
    subst this
    rw [hpc] at hc; cases hc
  case ticket =>
    intro p n hp
    rw [Hholds] at hp; cases hp
  case woken =>
    intro p first
    by_cases hp : p = c
    · subst hp
      rw [Hself]
      intro e; cases e
    · rw [Hne p hp]
      exact h.woken p first
  case ring =>
    intro w hw
    rw [Hwait] at hw
    obtain ⟨r1, r2, r3, r4, r5⟩ := h.ring w hw
    have := r4 c m (by rw [hpc]; rfl) (by rw [hpc]; rfl)
    simp only [Sys.setProducer_leaderTicket, Sys.setProducer_phases, Sys.setProducer_enqTicket,
      Sys.setProducer_pool, Sys.publishSimple_pool, Sys.publishSimple_producers,
      Sys.publishSimple_enqTicket, publishWorkItem_size, Hclaimed, HsawFree]
    refine ⟨r1, r2, ?_, ?_, ?_⟩
    · intro p k hk; cases hk
    · intro p k hk; cases hk
    · intro e; omega
  case planRest =>
    intro p type cryptoInfo rest
    by_cases hp : p = c
    · subst hp; rw [Hself]; intro e; cases e
    · rw [Hne p hp]; exact h.planRest p type cryptoInfo rest
  case filledData =>
    intro p k type n hk
    have := ProducerPc.filledItem_holds _ _ hk
    rw [Hholds] at this; cases this
  case slotReady =>
    intro k c2 j2 hk ht
    by_cases hkm : k = m
    · subst hkm
      simp at ht
    · have hk2 : (s.pool.WorkItemQueue k).State = .WorkItemReady := by simpa [hkm] using hk
      simpa [Sys.SlotData] using h.slotReady k c2 j2 hk2 (by simpa [hkm] using ht)
  case queueSize => exact h.queueSize
  case threadCount => exact h.threadCount
  case cursor => exact h.cursor
  case deqMutex => exact h.deqMutex
  case simpleType => simpa [Sys.SlotData, Sys.FragOK, HbulkType, HsimpleType, Hfirst, Hpending, Henq, Hwait, Hcounted, Hactive] using h.simpleType
  case bulkType => simpa [Sys.SlotData, Sys.FragOK, HbulkType, HsimpleType, Hfirst, Hpending, Henq, Hwait, Hcounted, Hactive] using h.bulkType
  case exclusive => exact h.exclusive
  case noFrag => exact h.noFrag
  case pastWork => exact h.pastWork
  case ownedSimple => simpa [Sys.SlotData, Sys.FragOK, HbulkType, HsimpleType, Hfirst, Hpending, Henq, Hwait, Hcounted, Hactive] using h.ownedSimple
  case zero => simpa [Sys.SlotData, Sys.FragOK, HbulkType, HsimpleType, Hfirst, Hpending, Henq, Hwait, Hcounted, Hactive] using h.zero
  case fragInj => exact h.fragInj
  case count => simpa [Sys.SlotData, Sys.FragOK, HbulkType, HsimpleType, Hfirst, Hpending, Henq, Hwait, Hcounted, Hactive] using h.count
  case event => simpa [Sys.SlotData, Sys.FragOK, HbulkType, HsimpleType, Hfirst, Hpending, Henq, Hwait, Hcounted, Hactive] using h.event
  case eventLeader => simpa [Sys.SlotData, Sys.FragOK, HbulkType, HsimpleType, Hfirst, Hpending, Henq, Hwait, Hcounted, Hactive] using h.eventLeader
  case first => simpa [Sys.SlotData, Sys.FragOK, HbulkType, HsimpleType, Hfirst, Hpending, Henq, Hwait, Hcounted, Hactive] using h.first
  case shape => simpa [Sys.SlotData, Sys.FragOK, HbulkType, HsimpleType, Hfirst, Hpending, Henq, Hwait, Hcounted, Hactive] using h.shape
  case fresh => simpa [Sys.SlotData, Sys.FragOK, HbulkType, HsimpleType, Hfirst, Hpending, Henq, Hwait, Hcounted, Hactive] using h.fresh
  case planLength => simpa [Sys.SlotData, Sys.FragOK, HbulkType, HsimpleType, Hfirst, Hpending, Henq, Hwait, Hcounted, Hactive] using h.planLength
  case slotOwned => simpa [Sys.SlotData, Sys.FragOK, HbulkType, HsimpleType, Hfirst, Hpending, Henq, Hwait, Hcounted, Hactive] using h.slotOwned

theorem inv_producer_simpleFilled (s : Sys) (h : s.Inv) (c m : Nat)
    (hpc : (s.producers c).pc = .simpleFilled m) :
    ({ s with pool := publishWorkItem s.pool m, enqueueOwner := none,
              tag := Function.update s.tag m none }.setProducer c .idle).Inv :=
  inv_producer_simpleFilled_aux s h c m hpc

@[simp]
theorem Sys.publishFragment_pool (s : Sys) (m : Nat) (g : Nat × Nat) :
    (s.publishFragment m g).pool = publishWorkItem s.pool m := rfl

@[simp]
theorem Sys.publishFragment_enqueueOwner (s : Sys) (m : Nat) (g : Nat × Nat) :
    (s.publishFragment m g).enqueueOwner = s.enqueueOwner := rfl

@[simp]
theorem Sys.publishFragment_dequeueOwner (s : Sys) (m : Nat) (g : Nat × Nat) :
    (s.publishFragment m g).dequeueOwner = s.dequeueOwner := rfl

@[simp]
theorem Sys.publishFragment_workers (s : Sys) (m : Nat) (g : Nat × Nat) :
    (s.publishFragment m g).workers = s.workers := rfl

@[simp]
theorem Sys.publishFragment_producers (s : Sys) (m : Nat) (g : Nat × Nat) :
    (s.publishFragment m g).producers = s.producers := rfl

@[simp]
theorem Sys.publishFragment_tag (s : Sys) (m : Nat) (g : Nat × Nat) (k : Nat) :
    (s.publishFragment m g).tag k = if k = m then some g else s.tag k := by
  simp [Sys.publishFragment, Function.update_apply]

@[simp]
theorem Sys.publishFragment_enqTicket (s : Sys) (m : Nat) (g : Nat × Nat) :
    (s.publishFragment m g).enqTicket = s.enqTicket := rfl

theorem inv_producer_bulkFilled_aux (s : Sys) (h : s.Inv) (c first m K : Nat)
    (type : EncryptionThreadPoolWorkType) (cryptoInfo : Nat) (frags : List Fragment)
    (hpc : (s.producers c).pc = .bulkFilled type cryptoInfo frags first m)
    (hK : K = (s.producers c).phases.length - frags.length - 1) :
    (((s.publishFragment m (c, K)).setProducer c (.bulkLoop type cryptoInfo frags first)).setPhase
      (some (c, K)) .ready).Inv := by
  have hholds : (s.producers c).pc.holds = true := by rw [hpc]; rfl
  have hsaw : (s.producers c).pc.sawFree = some m := by rw [hpc]; rfl
  have hclm : (s.producers c).pc.claimedItem = some m := by rw [hpc]; rfl
  have hfree := h.sawFree c m hsaw
  obtain ⟨hFF, hWT⟩ := h.filled c m type (by rw [hpc]; rfl)
  have hcrypto := h.bulkType c type (by rw [hpc]; rfl)
  have hpend : (s.producers c).pc.pendingCount = some (frags.length + 1) := by rw [hpc]; rfl
  obtain ⟨s1, s2, s3, s4⟩ := h.shape c _ hpend
  have hticket := h.ticket c _ hholds hpend
  rw [hclm] at hticket
  simp only [reduceCtorEq, if_false] at hticket
  obtain ⟨hpos, hm⟩ := h.claimed c m hclm
  have hKlt : K < (s.producers c).phases.length := by omega
  have hKeq : K = (s.producers c).phases.length - (frags.length + 1) := by omega
  have hmK : m = ((s.producers c).leaderTicket + K) % s.pool.ThreadQueueSize := by
    rw [hm]; congr 1; omega
  have hphK : (s.producers c).phases[K]? = some .pending := by
    have hget : (s.producers c).phases[K]? = some ((s.producers c).phases[K]) :=
      List.getElem?_eq_getElem hKlt
    have := (s4 K _ hget).2 (by omega)
    rw [hget, this]
  have hcenq : (s.producers c).pc.enqueuing = true := by rw [hpc]; rfl
  have hcact : (s.producers c).pc.active = true := by rw [hpc]; rfl
  have hother : ∀ p, p ≠ c → (s.producers p).pc.holds = false := by
    intro p hp
    by_contra hcon
    exact hp (h.holder_unique p c (by simpa using hcon) hholds)
  have Hpc : ∀ p, ((((s.publishFragment m (c, K)).setProducer c
      (.bulkLoop type cryptoInfo frags first)).setPhase (some (c, K)) .ready).producers p).pc
      = if p = c then .bulkLoop type cryptoInfo frags first else (s.producers p).pc := by
    intro p
    rw [Sys.setPhase_pc]
    by_cases hp : p = c
    · subst hp; simp
    · simp [hp]
  have Hself := Hpc c
  rw [if_pos rfl] at Hself
  have Hne : ∀ p, p ≠ c → ((((s.publishFragment m (c, K)).setProducer c
      (.bulkLoop type cryptoInfo frags first)).setPhase (some (c, K)) .ready).producers p).pc
      = (s.producers p).pc := by
    intro p hp; rw [Hpc, if_neg hp]
  have Hholds : ∀ p, ((((s.publishFragment m (c, K)).setProducer c
      (.bulkLoop type cryptoInfo frags first)).setPhase (some (c, K)) .ready).producers p).pc.holds
      = (s.producers p).pc.holds := by
    intro p; by_cases hp : p = c
    · subst hp; rw [Hself, hpc]; rfl
    · rw [Hne p hp]
  have HbulkType : ∀ p, ((((s.publishFragment m (c, K)).setProducer c
      (.bulkLoop type cryptoInfo frags first)).setPhase (some (c, K)) .ready).producers p).pc.bulkType
      = (s.producers p).pc.bulkType := by
    intro p; by_cases hp : p = c
    · subst hp; rw [Hself, hpc]; rfl
    · rw [Hne p hp]
  have HsimpleType : ∀ p, ((((s.publishFragment m (c, K)).setProducer c
      (.bulkLoop type cryptoInfo frags first)).setPhase (some (c, K)) .ready).producers p).pc.simpleType
      = (s.producers p).pc.simpleType := by
    intro p; by_cases hp : p = c
    · subst hp; rw [Hself, hpc]; rfl
    · rw [Hne p hp]
  have Hfirst : ∀ p, ((((s.publishFragment m (c, K)).setProducer c
      (.bulkLoop type cryptoInfo frags first)).setPhase (some (c, K)) .ready).producers p).pc.first
      = (s.producers p).pc.first := by
    intro p; by_cases hp : p = c
    · subst hp; rw [Hself, hpc]; rfl
    · rw [Hne p hp]
  have Henq : ∀ p, ((((s.publishFragment m (c, K)).setProducer c
      (.bulkLoop type cryptoInfo frags first)).setPhase (some (c, K)) .ready).producers p).pc.enqueuing
      = (s.producers p).pc.enqueuing := by
    intro p; by_cases hp : p = c
    · subst hp; rw [Hself, hpc]; rfl
    · rw [Hne p hp]
  have Hwait : ∀ p, ((((s.publishFragment m (c, K)).setProducer c
      (.bulkLoop type cryptoInfo frags first)).setPhase (some (c, K)) .ready).producers p).pc.waiting
      = (s.producers p).pc.waiting := by
    intro p; by_cases hp : p = c
    · subst hp; rw [Hself, hpc]; rfl
    · rw [Hne p hp]
  have Hcounted : ∀ p, ((((s.publishFragment m (c, K)).setProducer c
      (.bulkLoop type cryptoInfo frags first)).setPhase (some (c, K)) .ready).producers p).pc.counted
      = (s.producers p).pc.counted := by
    intro p; by_cases hp : p = c
    · subst hp; rw [Hself, hpc]; rfl
    · rw [Hne p hp]
  have Hactive : ∀ p, ((((s.publishFragment m (c, K)).setProducer c
      (.bulkLoop type cryptoInfo frags first)).setPhase (some (c, K)) .ready).producers p).pc.active
      = (s.producers p).pc.active := by
    intro p; by_cases hp : p = c
    · subst hp; rw [Hself, hpc]; rfl
    · rw [Hne p hp]
  have Hclaimed : ∀ p, ((((s.publishFragment m (c, K)).setProducer c
      (.bulkLoop type cryptoInfo frags first)).setPhase (some (c, K)) .ready).producers p).pc.claimedItem
      = none := by
    intro p; by_cases hp : p = c
    · subst hp; rw [Hself]; rfl
    · rw [Hne p hp]
      rcases hk : (s.producers p).pc.claimedItem with _ | k
      · rfl
      · have := ProducerPc.claimedItem_holds _ _ hk
        rw [hother p hp] at this; cases this
  have HsawFree : ∀ p, ((((s.publishFragment m (c, K)).setProducer c
      (.bulkLoop type cryptoInfo frags first)).setPhase (some (c, K)) .ready).producers p).pc.sawFree
      = none := by
    intro p; by_cases hp : p = c
    · subst hp; rw [Hself]; rfl
    · rw [Hne p hp]
      rcases hk : (s.producers p).pc.sawFree with _ | k
      · rfl
      · have := ProducerPc.sawFree_holds _ _ hk
        rw [hother p hp] at this; cases this
  have hph : ∀ p k, ((((s.publishFragment m (c, K)).setProducer c
      (.bulkLoop type cryptoInfo frags first)).setPhase (some (c, K)) .ready).producers p).phases[k]?
        = if p = c ∧ k = K then some .ready else (s.producers p).phases[k]? := by
    intro p k
    rw [Sys.setPhase_getElem]
    simp [hKlt]
  have hphne : ∀ p, p ≠ c → ((((s.publishFragment m (c, K)).setProducer c
      (.bulkLoop type cryptoInfo frags first)).setPhase (some (c, K)) .ready).producers p).phases
        = (s.producers p).phases := by
    intro p hp
    rw [Sys.setPhase_phases, if_neg hp]; simp
  have hphc : ((((s.publishFragment m (c, K)).setProducer c
      (.bulkLoop type cryptoInfo frags first)).setPhase (some (c, K)) .ready).producers c).phases
        = (s.producers c).phases.set K .ready := by
    rw [Sys.setPhase_phases, if_pos rfl]; simp
  have hfok : ∀ c2 j2 k, (((s.publishFragment m (c, K)).setProducer c
      (.bulkLoop type cryptoInfo frags first)).setPhase (some (c, K)) .ready).FragOK c2 j2 k
      ↔ s.FragOK c2 j2 k := by
    intro c2 j2 k
    simp only [Sys.FragOK, Hactive]
    simp
  have hnotfree : ∀ k, (s.pool.WorkItemQueue k).State ≠ .WorkItemFree → k ≠ m := by
    rintro k hk rfl
    exact hk hfree
  have hall : ∀ c2, (∀ ph ∈ (s.producers c2).phases, ph = .decremented) → c2 ≠ c := by
    rintro c2 hd rfl
    have := hd _ (List.getElem?_mem hphK)
    cases this
  have hnotK : ∀ c2 j2 ph, (s.producers c2).phases[j2]? = some ph → ph ≠ .pending →
      ¬ (c2 = c ∧ j2 = K) := by
    rintro c2 j2 ph h1 h2 ⟨rfl, rfl⟩
    rw [hphK] at h1
    injection h1 with h1
    exact h2 h1.symm
  have HholdsIn : ∀ p, (((s.publishFragment m (c, K)).setProducer c
      (.bulkLoop type cryptoInfo frags first)).producers p).pc.holds = (s.producers p).pc.holds :=
    fun p => by rw [← Hholds p, Sys.setPhase_pc]
  have HbulkTypeIn : ∀ p, (((s.publishFragment m (c, K)).setProducer c
      (.bulkLoop type cryptoInfo frags first)).producers p).pc.bulkType = (s.producers p).pc.bulkType :=
    fun p => by rw [← HbulkType p, Sys.setPhase_pc]
  have HsimpleTypeIn : ∀ p, (((s.publishFragment m (c, K)).setProducer c
      (.bulkLoop type cryptoInfo frags first)).producers p).pc.simpleType = (s.producers p).pc.simpleType :=
    fun p => by rw [← HsimpleType p, Sys.setPhase_pc]
  have HfirstIn : ∀ p, (((s.publishFragment m (c, K)).setProducer c
      (.bulkLoop type cryptoInfo frags first)).producers p).pc.first = (s.producers p).pc.first :=
    fun p => by rw [← Hfirst p, Sys.setPhase_pc]
  have HenqIn : ∀ p, (((s.publishFragment m (c, K)).setProducer c
      (.bulkLoop type cryptoInfo frags first)).producers p).pc.enqueuing = (s.producers p).pc.enqueuing :=
    fun p => by rw [← Henq p, Sys.setPhase_pc]
  have HwaitIn : ∀ p, (((s.publishFragment m (c, K)).setProducer c
      (.bulkLoop type cryptoInfo frags first)).producers p).pc.waiting = (s.producers p).pc.waiting :=
    fun p => by rw [← Hwait p, Sys.setPhase_pc]
  have HcountedIn : ∀ p, (((s.publishFragment m (c, K)).setProducer c
      (.bulkLoop type cryptoInfo frags first)).producers p).pc.counted = (s.producers p).pc.counted :=
    fun p => by rw [← Hcounted p, Sys.setPhase_pc]
  have HactiveIn : ∀ p, (((s.publishFragment m (c, K)).setProducer c
      (.bulkLoop type cryptoInfo frags first)).producers p).pc.active = (s.producers p).pc.active :=
    fun p => by rw [← Hactive p, Sys.setPhase_pc]
  refine {
    queueSize := ?queueSize,
    threadCount := ?threadCount,
    cursor := ?cursor,
    enqMutex := ?enqMutex,
    deqMutex := ?deqMutex,
    claimed := ?claimed,
    sawFree := ?sawFree,
    filled := ?filled,
    filledSimple := ?filledSimple,
    simpleType := ?simpleType,
    bulkType := ?bulkType,
    taking := ?taking,
    owned := ?owned,
    exclusive := ?exclusive,
    noFrag := ?noFrag,
    pastWork := ?pastWork,
    ownedSimple := ?ownedSimple,
    ready := ?ready,
    frag := ?frag,
    zero := ?zero,
    fragInj := ?fragInj,
    readyPhase := ?readyPhase,
    leader := ?leader,
    leaderPending := ?leaderPending,
    count := ?count,
    event := ?event,
    eventLeader := ?eventLeader,
    woken := ?woken,
    first := ?first,
    shape := ?shape,
    fresh := ?fresh,
    ticket := ?ticket,
    planLength := ?planLength,
    planRest := ?planRest,
    filledData := ?filledData,
    slotReady := ?slotReady,
    slotOwned := ?slotOwned,
    ring := ?ring }
  case claimed =>
    intro p k hk
    rw [Hclaimed] at hk; cases hk
  case sawFree =>
    intro p k hk
    rw [HsawFree] at hk; cases hk
  case filled =>
    intro p k type2
    by_cases hp : p = c
    · subst hp; rw [Hself]; simp [ProducerPc.filledItem]
    · rw [Hne p hp]
      intro hk
      have := ProducerPc.filledItem_holds _ _ hk
      rw [hother p hp] at this; cases this
  case filledSimple =>
    intro p k
    by_cases hp : p = c
    · subst hp; rw [Hself]; simp [ProducerPc.filledSimple]
    · rw [Hne p hp]
      intro hk
      have := ProducerPc.filledSimple_holds _ _ hk
      rw [hother p hp] at this; cases this
  case taking =>
    intro y k hk
    have := h.taking y k (by simpa using hk)
    simp only [Sys.setPhase_pool, Sys.setProducer_pool, Sys.publishFragment_pool,
      publishWorkItem_State]
    split_ifs
    · rfl
    · exact this
  case owned =>
    intro y k hk
    obtain ⟨o1, o2⟩ := h.owned y k (by simpa using hk)
    have hkm := hnotfree k (by rw [o1]; decide)
    simpa [hkm] using And.intro o1 o2
  case ready =>
    intro k hk
    by_cases hkm : k = m
    · subst hkm
      refine ⟨?_, by simp⟩
      intro c2 j2 ht
      simp only [Sys.setPhase_tag, Sys.setProducer_tag, Sys.publishFragment_tag, if_true,
        Option.some.injEq, Prod.mk.injEq] at ht
      obtain ⟨rfl, rfl⟩ := ht
      refine ⟨(hfok _ _ _).2 ⟨hcact, hKlt, hmK, hFF, by rw [hWT]; exact hcrypto⟩, ?_⟩
      rw [hph]; simp
    · have hk' : (s.pool.WorkItemQueue k).State = .WorkItemReady := by simpa [hkm] using hk
      obtain ⟨r1, r2⟩ := h.ready k hk'
      refine ⟨?_, by simpa [hkm] using r2⟩
      intro c2 j2 ht
      obtain ⟨f1, f2⟩ := r1 c2 j2 (by simpa [hkm] using ht)
      refine ⟨(hfok c2 j2 k).2 f1, ?_⟩
      rw [hph, if_neg (hnotK c2 j2 _ f2 (by simp))]
      exact f2
  case frag =>
    intro y c2 j2 k ph hf hp
    obtain ⟨f1, f2⟩ := h.frag y c2 j2 k ph (by simpa using hf) (by simpa using hp)
    refine ⟨(hfok c2 j2 k).2 f1, ?_⟩
    rw [hph, if_neg (hnotK c2 j2 _ f2 (WorkerPc.phase_ne _ _ _ (by simpa using hp)).1)]
    exact f2
  case zero =>
    intro y c2 j2 k hf hp
    obtain ⟨h1, h2, h3⟩ := h.zero y c2 j2 k (by simpa using hf) (by simpa using hp)
    refine ⟨?_, by simpa using h2, by simpa using h3⟩
    rw [hphne c2 (hall c2 h1)]; exact h1
  case readyPhase =>
    intro c2 j2 hact hj
    rw [Hactive] at hact
    rw [hph] at hj
    by_cases e : c2 = c ∧ j2 = K
    · obtain ⟨rfl, rfl⟩ := e
      simp [← hmK]
    · rw [if_neg e] at hj
      obtain ⟨r1, r2⟩ := h.readyPhase c2 j2 hact hj
      have hkm := hnotfree _ (by rw [r1]; decide)
      simpa [hkm] using And.intro r1 r2
  case leader =>
    intro c2 ph hc h0 h1 h2
    rw [Hcounted] at hc
    rw [hph] at h0
    have e : ¬ (c2 = c ∧ 0 = K) := by
      intro e
      rw [if_pos e] at h0
      injection h0 with h0
      exact h2 h0.symm
    rw [if_neg e] at h0
    obtain ⟨r1, r2⟩ := h.leader c2 ph hc h0 h1 h2
    have hkm := hnotfree _ (by rw [r1]; decide)
    simpa [hkm] using And.intro r1 r2
  case leaderPending =>
    intro c2 hc h0
    rw [Henq] at hc
    have := h.holder_unique c2 c (ProducerPc.enqueuing_holds _ hc) hholds
    subst this
    rw [hph] at h0
    have e : ¬ (c2 = c2 ∧ 0 = K) := by
      intro e
      rw [if_pos e] at h0
      cases h0
    rw [if_neg e] at h0
    have hK0 : K ≠ 0 := fun e0 => e ⟨rfl, e0.symm⟩
    have := h.leaderPending c2 hc h0
    have hne := h.follower_ne c2 K hcact hKlt hK0
    rw [← hmK] at hne
    simpa [Ne.symm hne] using this
  case count =>
    intro c2 hc
    rw [Hcounted] at hc
    have := h.count c2 hc
    by_cases e : c2 = c
    · subst e
      rw [hphc, countP_set_same _ _ _ _ hphK (by rfl)]
      simpa using this
    · rw [hphne c2 e]
      simpa using this
  case event =>
    intro c2 hc he
    rw [Hcounted] at hc
    have := h.event c2 hc (by simpa using he)
    rw [hphne c2 (hall c2 this)]; exact this
  case woken =>
    intro c2 first2 hc
    by_cases e : c2 = c
    · subst e
      rw [Hself] at hc; cases hc
    · rw [Hne c2 e] at hc
      have := h.woken c2 first2 hc
      rw [hphne c2 e]; exact this
  case shape =>
    intro c2 n hn
    by_cases e : c2 = c
    · subst e
      rw [Hself] at hn
      simp only [ProducerPc.pendingCount, Option.some.injEq] at hn
      subst hn
      simp only [Sys.setPhase_length, Sys.setProducer_phases, Sys.publishFragment_producers,
        Sys.setPhase_pool, Sys.setProducer_pool, Sys.publishFragment_pool, publishWorkItem_size]
      refine ⟨by omega, s2, s3, ?_⟩
      intro j2 ph hj2
      rw [hph] at hj2
      by_cases e2 : j2 = K
      · subst e2
        rw [if_pos ⟨rfl, rfl⟩] at hj2
        injection hj2 with hj2
        subst hj2
        simp only [reduceCtorEq, false_iff, not_le]
        omega
      · rw [if_neg (fun e3 => e2 e3.2)] at hj2
        have := s4 j2 ph hj2
        rw [this]
        constructor <;> intro; omega; omega
    · rw [Hne c2 e] at hn
      obtain ⟨t1, t2, t3, t4⟩ := h.shape c2 n hn
      rw [hphne c2 e]
      exact ⟨t1, t2, by simpa using t3, t4⟩
  case fresh =>
    intro p n hp hn
    by_cases e : p = c
    · subst e
      rw [Hself] at hp; cases hp
    · rw [Hne p e] at hp hn
      rw [hphne p e]
      exact h.fresh p n hp hn
  case ticket =>
    intro p n hp hn
    by_cases e : p = c
    · subst e
      rw [Hself] at hn
      simp only [ProducerPc.pendingCount, Option.some.injEq] at hn
      subst hn
      rw [Hself]
      simp only [Sys.setPhase_length, Sys.setProducer_phases, Sys.publishFragment_producers,
        Sys.setPhase_enqTicket, Sys.setProducer_enqTicket, Sys.publishFragment_enqTicket,
        Sys.setPhase_leaderTicket, Sys.setProducer_leaderTicket, ProducerPc.claimedItem, if_true]
      omega
    · rw [Hholds, hother p e] at hp; cases hp
  case ring =>
    intro w hw
    rw [Hwait] at hw
    obtain ⟨r1, r2, r3, r4, r5⟩ := h.ring w hw
    have := r4 c m hsaw hclm
    have hwc : w ≠ c := by
      rintro rfl
      rw [hpc] at hw; cases hw
    rw [hphne w hwc]
    simp only [Sys.setPhase_pool, Sys.setProducer_pool, Sys.publishFragment_pool,
      publishWorkItem_size, Sys.setPhase_enqTicket, Sys.setProducer_enqTicket,
      Sys.publishFragment_enqTicket, Sys.setPhase_leaderTicket, Sys.setProducer_leaderTicket,
      Sys.publishFragment_producers, Hclaimed, HsawFree]
    refine ⟨r1, r2, ?_, ?_, ?_⟩
    · intro p k hk; cases hk
    · intro p k hk; cases hk
    · intro e; omega
  case planLength =>
    intro p n hn
    by_cases e : p = c
    · subst e
      simpa using h.planLength p _ hpend
    · rw [Hne p e] at hn
      rw [hphne p e]
      simpa using h.planLength p n hn
  case planRest =>
    intro p type2 ci rest
    by_cases e : p = c
    · subst e
      rw [Hself]
      intro hr
      simpa using h.planRest p type2 ci rest (by rw [hpc]; exact hr)
    · rw [Hne p e]
      simpa using h.planRest p type2 ci rest
  case filledData =>
    intro p k type2 n
    by_cases e : p = c
    · subst e; rw [Hself]; simp [ProducerPc.filledItem]
    · rw [Hne p e]
      intro hk
      have := ProducerPc.filledItem_holds _ _ hk
      rw [hother p e] at this; cases this
  case slotReady =>
    intro k c2 j2 hk ht
    by_cases hkm : k = m
    · subst hkm
      simp only [Sys.setPhase_tag, Sys.setProducer_tag, Sys.publishFragment_tag, if_true,
        Option.some.injEq, Prod.mk.injEq] at ht
      obtain ⟨rfl, rfl⟩ := ht
      have := h.filledData c k type _ (by rw [hpc]; rfl) hpend
      rw [← hKeq] at this
      simpa [Sys.SlotData] using this
    · have hk2 : (s.pool.WorkItemQueue k).State = .WorkItemReady := by simpa [hkm] using hk
      simpa [Sys.SlotData] using h.slotReady k c2 j2 hk2 (by simpa [hkm] using ht)
  case slotOwned =>
    intro y k c2 j2 hk hf
    simpa [Sys.SlotData] using h.slotOwned y k c2 j2 (by simpa using hk) (by simpa using hf)
  case queueSize => exact h.queueSize
  case threadCount => exact h.threadCount
  case cursor => exact h.cursor
  case enqMutex => simpa [Sys.SlotData, Sys.FragOK, HholdsIn, HbulkTypeIn, HsimpleTypeIn, HfirstIn, HenqIn, HwaitIn, HcountedIn, HactiveIn] using h.enqMutex
  case deqMutex => exact h.deqMutex
  case simpleType => simpa [Sys.SlotData, Sys.FragOK, HholdsIn, HbulkTypeIn, HsimpleTypeIn, HfirstIn, HenqIn, HwaitIn, HcountedIn, HactiveIn] using h.simpleType
  case bulkType => simpa [Sys.SlotData, Sys.FragOK, HholdsIn, HbulkTypeIn, HsimpleTypeIn, HfirstIn, HenqIn, HwaitIn, HcountedIn, HactiveIn] using h.bulkType
  case exclusive => exact h.exclusive
  case noFrag => exact h.noFrag
  case pastWork => exact h.pastWork
  case ownedSimple => simpa [Sys.SlotData, Sys.FragOK, HholdsIn, HbulkTypeIn, HsimpleTypeIn, HfirstIn, HenqIn, HwaitIn, HcountedIn, HactiveIn] using h.ownedSimple
  case fragInj => exact h.fragInj
  case eventLeader => simpa [Sys.SlotData, Sys.FragOK, HholdsIn, HbulkTypeIn, HsimpleTypeIn, HfirstIn, HenqIn, HwaitIn, HcountedIn, HactiveIn] using h.eventLeader
  case first => simpa [Sys.SlotData, Sys.FragOK, HholdsIn, HbulkTypeIn, HsimpleTypeIn, HfirstIn, HenqIn, HwaitIn, HcountedIn, HactiveIn] using h.first

theorem inv_producer_bulkFilled (s : Sys) (h : s.Inv) (c first m : Nat)
    (type : EncryptionThreadPoolWorkType) (cryptoInfo : Nat) (frags : List Fragment)
    (hpc : (s.producers c).pc = .bulkFilled type cryptoInfo frags first m) :
    (({ s with pool := publishWorkItem s.pool m,
               tag := Function.update s.tag m
                 (some (c, (s.producers c).phases.length - frags.length - 1)) }.setProducer c
      (.bulkLoop type cryptoInfo frags first)).setPhase
        (some (c, (s.producers c).phases.length - frags.length - 1)) .ready).Inv :=
  inv_producer_bulkFilled_aux s h c first m _ type cryptoInfo frags hpc rfl

theorem inv_producer_bulkFirstFree (s : Sys) (h : s.Inv) (c first : Nat)
    (type : EncryptionThreadPoolWorkType) (cryptoInfo : Nat) (frags : List Fragment)
    (hpc : (s.producers c).pc = .bulkFirstFree type cryptoInfo frags first) :
    ((s.setPool (s.pool.setCount first (frags.length : Int))).setProducer c
      (.bulkLoop type cryptoInfo frags first)).Inv := by
  have hholds : (s.producers c).pc.holds = true := by rw [hpc]; rfl
  have hsaw : (s.producers c).pc.sawFree = some first := by rw [hpc]; rfl
  have hfree := h.sawFree c first hsaw
  have hfirst := h.first c first (by rw [hpc]; rfl)
  have hpend : (s.producers c).pc.pendingCount = some frags.length := by rw [hpc]; rfl
  have hncount : (s.producers c).pc.counted = false := by rw [hpc]; rfl
  have hlen := h.fresh c _ hncount hpend
  obtain ⟨s1, s2, s3, s4⟩ := h.shape c _ hpend
  have hallp : ∀ (j : Nat) (ph : FragPhase), (s.producers c).phases[j]? = some ph → ph = .pending := by
    intro j ph hj
    exact (s4 j ph hj).2 (by omega)
  have hcnt0 : (s.producers c).phases.countP FragPhase.isDecremented = 0 := by
    rw [List.countP_eq_zero]
    intro ph hph
    obtain ⟨j, hj⟩ := List.mem_iff_getElem?.1 hph
    rw [hallp j ph hj]
    simp [FragPhase.isDecremented]
  have hother : ∀ p, p ≠ c → (s.producers p).pc.holds = false := by
    intro p hp
    by_contra hcon
    exact hp (h.holder_unique p c (by simpa using hcon) hholds)
  have hnotc : ∀ c2, (s.producers c2).pc.counted = true →
      c2 ≠ c ∧ (s.producers c2).leaderTicket % s.pool.ThreadQueueSize ≠ first := by
    intro c2 hc2
    have hne : c2 ≠ c := by
      rintro rfl
      rw [hncount] at hc2; cases hc2
    refine ⟨hne, ?_⟩
    intro e
    rcases h.leader_cases c2 hc2 with ⟨h1, -⟩ | ⟨-, h2, -⟩ | ⟨-, h2, -⟩
    · have := h.pending_enqueuing c2 hc2 h1
      exact hne (h.holder_unique c2 c (ProducerPc.enqueuing_holds _ this) hholds)
    · rw [e, hfree] at h2; cases h2
    · rw [e, hfree] at h2; cases h2
  have hnoev : (s.pool.WorkItemQueue first).ItemCompletedEvent ≠ .live true := by
    intro e
    obtain ⟨c2, a1, a2⟩ := h.eventLeader first e
    exact (hnotc c2 (ProducerPc.active_counted _ a1)).2 a2.symm
  have Hne : ∀ p, p ≠ c → ((s.setPool (s.pool.setCount first (frags.length : Int))).setProducer c
      (.bulkLoop type cryptoInfo frags first)).producers p = s.producers p :=
    fun p hp => Sys.setProducer_ne _ _ _ _ hp
  have Hself : (((s.setPool (s.pool.setCount first (frags.length : Int))).setProducer c
      (.bulkLoop type cryptoInfo frags first)).producers c).pc
      = .bulkLoop type cryptoInfo frags first := Sys.setProducer_self_pc _ _ _
  have Hholds : ∀ p, (((s.setPool (s.pool.setCount first (frags.length : Int))).setProducer c
      (.bulkLoop type cryptoInfo frags first)).producers p).pc.holds
      = (s.producers p).pc.holds := by
    intro p; by_cases hp : p = c
    · subst hp; rw [Hself, hpc]; rfl
    · rw [Hne p hp]
  have Hclaimed : ∀ p, (((s.setPool (s.pool.setCount first (frags.length : Int))).setProducer c
      (.bulkLoop type cryptoInfo frags first)).producers p).pc.claimedItem
      = (s.producers p).pc.claimedItem := by
    intro p; by_cases hp : p = c
    · subst hp; rw [Hself, hpc]; rfl
    · rw [Hne p hp]
  have HbulkType : ∀ p, (((s.setPool (s.pool.setCount first (frags.length : Int))).setProducer c
      (.bulkLoop type cryptoInfo frags first)).producers p).pc.bulkType
      = (s.producers p).pc.bulkType := by
    intro p; by_cases hp : p = c
    · subst hp; rw [Hself, hpc]; rfl
    · rw [Hne p hp]
  have HsimpleType : ∀ p, (((s.setPool (s.pool.setCount first (frags.length : Int))).setProducer c
      (.bulkLoop type cryptoInfo frags first)).producers p).pc.simpleType
      = (s.producers p).pc.simpleType := by
    intro p; by_cases hp : p = c
    · subst hp; rw [Hself, hpc]; rfl
    · rw [Hne p hp]
  have Hfirst : ∀ p, (((s.setPool (s.pool.setCount first (frags.length : Int))).setProducer c
      (.bulkLoop type cryptoInfo frags first)).producers p).pc.first
      = (s.producers p).pc.first := by
    intro p; by_cases hp : p = c
    · subst hp; rw [Hself, hpc]; rfl
    · rw [Hne p hp]
  have Hpending : ∀ p, (((s.setPool (s.pool.setCount first (frags.length : Int))).setProducer c
      (.bulkLoop type cryptoInfo frags first)).producers p).pc.pendingCount
      = (s.producers p).pc.pendingCount := by
    intro p; by_cases hp : p = c
    · subst hp; rw [Hself, hpc]; rfl
    · rw [Hne p hp]
  have Hwait : ∀ p, (((s.setPool (s.pool.setCount first (frags.length : Int))).setProducer c
      (.bulkLoop type cryptoInfo frags first)).producers p).pc.waiting
      = (s.producers p).pc.waiting := by
    intro p; by_cases hp : p = c
    · subst hp; rw [Hself, hpc]; rfl
    · rw [Hne p hp]
  have Hactive : ∀ p, (s.producers p).pc.active = true →
      (((s.setPool (s.pool.setCount first (frags.length : Int))).setProducer c
      (.bulkLoop type cryptoInfo frags first)).producers p).pc.active = true := by
    intro p; by_cases hp : p = c
    · subst hp; rw [Hself]; intro _; rfl
    · rw [Hne p hp]; exact id
  have hfok : ∀ c2 j2 k, s.FragOK c2 j2 k →
      ((s.setPool (s.pool.setCount first (frags.length : Int))).setProducer c
      (.bulkLoop type cryptoInfo frags first)).FragOK c2 j2 k := by
    intro c2 j2 k ⟨f1, f2, f3, f4, f5⟩
    exact ⟨Hactive c2 f1, by simpa using f2, by simpa using f3, by simpa using f4,
      by simpa using f5⟩
  refine {
    queueSize := ?queueSize,
    threadCount := ?threadCount,
    cursor := ?cursor,
    enqMutex := ?enqMutex,
    deqMutex := ?deqMutex,
    claimed := ?claimed,
    sawFree := ?sawFree,
    filled := ?filled,
    filledSimple := ?filledSimple,
    simpleType := ?simpleType,
    bulkType := ?bulkType,
    taking := ?taking,
    owned := ?owned,
    exclusive := ?exclusive,
    noFrag := ?noFrag,
    pastWork := ?pastWork,
    ownedSimple := ?ownedSimple,
    ready := ?ready,
    frag := ?frag,
    zero := ?zero,
    fragInj := ?fragInj,
    readyPhase := ?readyPhase,
    leader := ?leader,
    leaderPending := ?leaderPending,
    count := ?count,
    event := ?event,
    eventLeader := ?eventLeader,
    woken := ?woken,
    first := ?first,
    shape := ?shape,
    fresh := ?fresh,
    ticket := ?ticket,
    planLength := ?planLength,
    planRest := ?planRest,
    filledData := ?filledData,
    slotReady := ?slotReady,
    slotOwned := ?slotOwned,
    ring := ?ring }
  case sawFree =>
    intro p k
    by_cases hp : p = c
    · subst hp; rw [Hself]; simp [ProducerPc.sawFree]
    · rw [Hne p hp]
      simpa using h.sawFree p k
  case filled =>
    intro p k type2
    by_cases hp : p = c
    · subst hp; rw [Hself]; simp [ProducerPc.filledItem]
    · rw [Hne p hp]
      simpa using h.filled p k type2
  case filledSimple =>
    intro p k
    by_cases hp : p = c
    · subst hp; rw [Hself]; simp [ProducerPc.filledSimple]
    · rw [Hne p hp]
      simpa using h.filledSimple p k
  case ready =>
    intro k hk
    obtain ⟨r1, r2⟩ := h.ready k (by simpa using hk)
    refine ⟨?_, by simpa using r2⟩
    intro c2 j2 ht
    obtain ⟨f1, f2⟩ := r1 c2 j2 ht
    exact ⟨hfok c2 j2 k f1, by simpa using f2⟩
  case frag =>
    intro y c2 j2 k ph hf hp
    obtain ⟨f1, f2⟩ := h.frag y c2 j2 k ph hf hp
    exact ⟨hfok c2 j2 k f1, by simpa using f2⟩
  case readyPhase =>
    intro c2 j2 hact hj
    by_cases e : c2 = c
    · subst e
      have := hallp j2 _ (by simpa using hj)
      cases this
    · rw [Hne c2 e] at hact hj
      simpa using h.readyPhase c2 j2 hact hj
  case leader =>
    intro c2 ph hc h0 h1 h2
    by_cases e : c2 = c
    · subst e
      exact absurd (hallp 0 _ (by simpa using h0)) h1
    · rw [Hne c2 e] at hc h0
      simpa using h.leader c2 ph hc h0 h1 h2
  case leaderPending =>
    intro c2 hc h0
    by_cases e : c2 = c
    · subst e
      simpa [← hfirst] using hfree
    · rw [Hne c2 e] at hc h0
      simpa using h.leaderPending c2 hc h0
  case count =>
    intro c2 hc
    by_cases e : c2 = c
    · subst e
      simp [← hfirst, hcnt0, hlen]
    · rw [Hne c2 e] at hc
      have := h.count c2 hc
      simpa [(hnotc c2 hc).2] using this
  case event =>
    intro c2 hc he
    by_cases e : c2 = c
    · subst e
      exact absurd (by simpa [← hfirst] using he) hnoev
    · rw [Hne c2 e] at hc
      simpa using h.event c2 hc (by simpa using he)
  case eventLeader =>
    intro k hk
    obtain ⟨c2, a1, a2⟩ := h.eventLeader k (by simpa using hk)
    exact ⟨c2, Hactive c2 a1, by simpa using a2⟩
  case woken =>
    intro p first2
    by_cases hp : p = c
    · subst hp
      rw [Hself]
      intro e; cases e
    · rw [Hne p hp]
      exact h.woken p first2
  case fresh =>
    intro p n
    by_cases hp : p = c
    · subst hp
      rw [Hself]
      intro e; cases e
    · rw [Hne p hp]
      exact h.fresh p n
  case ring =>
    intro w hw
    rw [Hwait] at hw
    obtain ⟨r1, r2, r3, r4, r5⟩ := h.ring w hw
    simp only [Sys.setProducer_leaderTicket, Sys.setProducer_phases, Sys.setProducer_enqTicket,
      Sys.setProducer_pool, Sys.setPool_pool, Sys.setPool_producers, Sys.setPool_enqTicket,
      Pool.setCount_size, Hclaimed]
    refine ⟨r1, r2, r3, ?_, r5⟩
    intro p k
    by_cases hp : p = c
    · subst hp; rw [Hself]; simp [ProducerPc.sawFree]
    · rw [Hne p hp]
      exact r4 p k
  case planRest =>
    intro p type2 ci rest
    by_cases hp : p = c
    · subst hp
      rw [Hself]
      intro hr
      simpa using h.planRest p type2 ci rest (by rw [hpc]; exact hr)
    · rw [Hne p hp]
      exact h.planRest p type2 ci rest
  case filledData =>
    intro p k type2 n
    by_cases hp : p = c
    · subst hp; rw [Hself]; simp [ProducerPc.filledItem]
    · rw [Hne p hp]
      simpa [Sys.SlotData] using h.filledData p k type2 n
  case queueSize => exact h.queueSize
  case threadCount => exact h.threadCount
  case cursor => exact h.cursor
  case enqMutex => simpa [Sys.SlotData, Hholds, Hclaimed, HbulkType, HsimpleType, Hfirst, Hpending, Hwait] using h.enqMutex
  case deqMutex => exact h.deqMutex
  case claimed => simpa [Sys.SlotData, Hholds, Hclaimed, HbulkType, HsimpleType, Hfirst, Hpending, Hwait] using h.claimed
  case simpleType => simpa [Sys.SlotData, Hholds, Hclaimed, HbulkType, HsimpleType, Hfirst, Hpending, Hwait] using h.simpleType
  case bulkType => simpa [Sys.SlotData, Hholds, Hclaimed, HbulkType, HsimpleType, Hfirst, Hpending, Hwait] using h.bulkType
  case taking => simpa [Sys.SlotData, Hholds, Hclaimed, HbulkType, HsimpleType, Hfirst, Hpending, Hwait] using h.taking
  case owned => simpa [Sys.SlotData, Hholds, Hclaimed, HbulkType, HsimpleType, Hfirst, Hpending, Hwait] using h.owned
  case exclusive => exact h.exclusive
  case noFrag => exact h.noFrag
  case pastWork => exact h.pastWork
  case ownedSimple => simpa [Sys.SlotData, Hholds, Hclaimed, HbulkType, HsimpleType, Hfirst, Hpending, Hwait] using h.ownedSimple
  case zero => simpa [Sys.SlotData, Hholds, Hclaimed, HbulkType, HsimpleType, Hfirst, Hpending, Hwait] using h.zero
  case fragInj => exact h.fragInj
  case first => simpa [Sys.SlotData, Hholds, Hclaimed, HbulkType, HsimpleType, Hfirst, Hpending, Hwait] using h.first
  case shape => simpa [Sys.SlotData, Hholds, Hclaimed, HbulkType, HsimpleType, Hfirst, Hpending, Hwait] using h.shape
  case ticket => simpa [Sys.SlotData, Hholds, Hclaimed, HbulkType, HsimpleType, Hfirst, Hpending, Hwait] using h.ticket
  case planLength => simpa [Sys.SlotData, Hholds, Hclaimed, HbulkType, HsimpleType, Hfirst, Hpending, Hwait] using h.planLength
  case slotReady => simpa [Sys.SlotData, Hholds, Hclaimed, HbulkType, HsimpleType, Hfirst, Hpending, Hwait] using h.slotReady
  case slotOwned => simpa [Sys.SlotData, Hholds, Hclaimed, HbulkType, HsimpleType, Hfirst, Hpending, Hwait] using h.slotOwned

theorem inv_producer_bulkLoop_nil (s : Sys) (h : s.Inv) (c first : Nat)
    (type : EncryptionThreadPoolWorkType) (cryptoInfo : Nat)
    (hpc : (s.producers c).pc = .bulkLoop type cryptoInfo [] first) :
    ({ s with enqueueOwner := none }.setProducer c (.bulkWaiting first)).Inv := by
  have hholds : (s.producers c).pc.holds = true := by rw [hpc]; rfl
  have hpend : (s.producers c).pc.pendingCount = some 0 := by rw [hpc]; rfl
  obtain ⟨s1, s2, s3, s4⟩ := h.shape c _ hpend
  have hticket := h.ticket c _ hholds hpend
  rw [hpc] at hticket
  simp only [ProducerPc.claimedItem, if_true] at hticket
  have hother : ∀ p, p ≠ c → (s.producers p).pc.holds = false := by
    intro p hp
    by_contra hcon
    exact hp (h.holder_unique p c (by simpa using hcon) hholds)
  have Hne : ∀ p, p ≠ c → ({ s with enqueueOwner := none }.setProducer c
      (.bulkWaiting first)).producers p = s.producers p :=
    fun p hp => Sys.setProducer_ne _ _ _ _ hp
  have Hself : (({ s with enqueueOwner := none }.setProducer c
      (.bulkWaiting first)).producers c).pc = .bulkWaiting first := Sys.setProducer_self_pc _ _ _
  have Hholds : ∀ p, (({ s with enqueueOwner := none }.setProducer c
      (.bulkWaiting first)).producers p).pc.holds = false := by
    intro p; by_cases hp : p = c
    · subst hp; rw [Hself]; rfl
    · rw [Hne p hp]; exact hother p hp
  have Hclaimed : ∀ p, (({ s with enqueueOwner := none }.setProducer c
      (.bulkWaiting first)).producers p).pc.claimedItem = none := by
    intro p
    rcases hk : (({ s with enqueueOwner := none }.setProducer c
      (.bulkWaiting first)).producers p).pc.claimedItem with _ | k
    · exact hk
    · have := ProducerPc.claimedItem_holds _ _ hk
      rw [Hholds] at this; cases this
  have HsawFree : ∀ p, (({ s with enqueueOwner := none }.setProducer c
      (.bulkWaiting first)).producers p).pc.sawFree = none := by
    intro p
    rcases hk : (({ s with enqueueOwner := none }.setProducer c
      (.bulkWaiting first)).producers p).pc.sawFree with _ | k
    · exact hk
    · have := ProducerPc.sawFree_holds _ _ hk
      rw [Hholds] at this; cases this
  have HsimpleType : ∀ p, (({ s with enqueueOwner := none }.setProducer c
      (.bulkWaiting first)).producers p).pc.simpleType = (s.producers p).pc.simpleType := by
    intro p; by_cases hp : p = c
    · subst hp; rw [Hself, hpc]; rfl
    · rw [Hne p hp]
  have Hfirst : ∀ p, (({ s with enqueueOwner := none }.setProducer c
      (.bulkWaiting first)).producers p).pc.first = (s.producers p).pc.first := by
    intro p; by_cases hp : p = c
    · subst hp; rw [Hself, hpc]; rfl
    · rw [Hne p hp]
  have Hpending : ∀ p, (({ s with enqueueOwner := none }.setProducer c
      (.bulkWaiting first)).producers p).pc.pendingCount = (s.producers p).pc.pendingCount := by
    intro p; by_cases hp : p = c
    · subst hp; rw [Hself, hpc]; rfl
    · rw [Hne p hp]
  have Hcounted : ∀ p, (({ s with enqueueOwner := none }.setProducer c
      (.bulkWaiting first)).producers p).pc.counted = (s.producers p).pc.counted := by
    intro p; by_cases hp : p = c
    · subst hp; rw [Hself, hpc]; rfl
    · rw [Hne p hp]
  have Hactive : ∀ p, (({ s with enqueueOwner := none }.setProducer c
      (.bulkWaiting first)).producers p).pc.active = (s.producers p).pc.active := by
    intro p; by_cases hp : p = c
    · subst hp; rw [Hself, hpc]; rfl
    · rw [Hne p hp]
  have Henq : ∀ p, (({ s with enqueueOwner := none }.setProducer c
      (.bulkWaiting first)).producers p).pc.enqueuing = false := by
    intro p
    by_contra hcon
    have := ProducerPc.enqueuing_holds _ (by simpa using hcon)
    rw [Hholds] at this; cases this
  refine {
    queueSize := ?queueSize,
    threadCount := ?threadCount,
    cursor := ?cursor,
    enqMutex := ?enqMutex,
    deqMutex := ?deqMutex,
    claimed := ?claimed,
    sawFree := ?sawFree,
    filled := ?filled,
    filledSimple := ?filledSimple,
    simpleType := ?simpleType,
    bulkType := ?bulkType,
    taking := ?taking,
    owned := ?owned,
    exclusive := ?exclusive,
    noFrag := ?noFrag,
    pastWork := ?pastWork,
    ownedSimple := ?ownedSimple,
    ready := ?ready,
    frag := ?frag,
    zero := ?zero,
    fragInj := ?fragInj,
    readyPhase := ?readyPhase,
    leader := ?leader,
    leaderPending := ?leaderPending,
    count := ?count,
    event := ?event,
    eventLeader := ?eventLeader,
    woken := ?woken,
    first := ?first,
    shape := ?shape,
    fresh := ?fresh,
    ticket := ?ticket,
    planLength := ?planLength,
    planRest := ?planRest,
    filledData := ?filledData,
    slotReady := ?slotReady,
    slotOwned := ?slotOwned,
    ring := ?ring }
  case enqMutex =>
    intro p
    rw [Hholds]
    simp
  case claimed =>
    intro p k hk
    rw [Hclaimed] at hk; cases hk
  case sawFree =>
    intro p k hk
    rw [HsawFree] at hk; cases hk
  case filled =>
    intro p k type2 hk
    have := ProducerPc.filledItem_holds _ _ hk
    rw [Hholds] at this; cases this
  case filledSimple =>
    intro p k hk
    have := ProducerPc.filledSimple_holds _ _ hk
    rw [Hholds] at this; cases this
  case bulkType =>
    intro p type2
    by_cases hp : p = c
    · subst hp; rw [Hself]; simp [ProducerPc.bulkType]
    · rw [Hne p hp]; exact h.bulkType p type2
  case leaderPending =>
    intro c2 hc
    rw [Henq] at hc; cases hc
  case woken =>
    intro p first2
    by_cases hp : p = c
    · subst hp
      rw [Hself]
      intro e; cases e
    · rw [Hne p hp]
      exact h.woken p first2
  case ticket =>
    intro p n hp
    rw [Hholds] at hp; cases hp
  case ring =>
    intro w hw
    simp only [Sys.setProducer_leaderTicket, Sys.setProducer_phases, Sys.setProducer_enqTicket,
      Sys.setProducer_pool, Hclaimed, HsawFree]
    by_cases e : w = c
    · subst e
      refine ⟨by omega, by omega, ?_, ?_, ?_⟩
      · intro p k hk; cases hk
      · intro p k hk; cases hk
      · intro e; omega
    · rw [Hne w e] at hw
      obtain ⟨r1, r2, r3, r4, r5⟩ := h.ring w hw
      refine ⟨r1, r2, ?_, ?_, ?_⟩
      · intro p k hk; cases hk
      · intro p k hk; cases hk
      · intro e2
        obtain ⟨p, k, hk⟩ := r5 e2
        have := h.holder_unique p c (ProducerPc.claimedItem_holds _ _ hk) hholds
        subst this
        rw [hpc] at hk; cases hk
  case planRest =>
    intro p type2 ci rest
    by_cases hp : p = c
    · subst hp; rw [Hself]; intro e; cases e
    · rw [Hne p hp]
      exact h.planRest p type2 ci rest
  case filledData =>
    intro p k type2 n hk
    have := ProducerPc.filledItem_holds _ _ hk
    rw [Hholds] at this; cases this
  case queueSize => exact h.queueSize
  case threadCount => exact h.threadCount
  case cursor => exact h.cursor
  case deqMutex => exact h.deqMutex
  case simpleType => simpa [Sys.SlotData, Sys.FragOK, HsimpleType, Hfirst, Hpending, Hcounted, Hactive] using h.simpleType
  case taking => exact h.taking
  case owned => exact h.owned
  case exclusive => exact h.exclusive
  case noFrag => exact h.noFrag
  case pastWork => exact h.pastWork
  case ownedSimple => exact h.ownedSimple
  case ready => simpa [Sys.SlotData, Sys.FragOK, HsimpleType, Hfirst, Hpending, Hcounted, Hactive] using h.ready
  case frag => simpa [Sys.SlotData, Sys.FragOK, HsimpleType, Hfirst, Hpending, Hcounted, Hactive] using h.frag
  case zero => simpa [Sys.SlotData, Sys.FragOK, HsimpleType, Hfirst, Hpending, Hcounted, Hactive] using h.zero
  case fragInj => exact h.fragInj
  case readyPhase => simpa [Sys.SlotData, Sys.FragOK, HsimpleType, Hfirst, Hpending, Hcounted, Hactive] using h.readyPhase
  case leader => simpa [Sys.SlotData, Sys.FragOK, HsimpleType, Hfirst, Hpending, Hcounted, Hactive] using h.leader
  case count => simpa [Sys.SlotData, Sys.FragOK, HsimpleType, Hfirst, Hpending, Hcounted, Hactive] using h.count
  case event => simpa [Sys.SlotData, Sys.FragOK, HsimpleType, Hfirst, Hpending, Hcounted, Hactive] using h.event
  case eventLeader => simpa [Sys.SlotData, Sys.FragOK, HsimpleType, Hfirst, Hpending, Hcounted, Hactive] using h.eventLeader
  case first => simpa [Sys.SlotData, Sys.FragOK, HsimpleType, Hfirst, Hpending, Hcounted, Hactive] using h.first
  case shape => simpa [Sys.SlotData, Sys.FragOK, HsimpleType, Hfirst, Hpending, Hcounted, Hactive] using h.shape
  case fresh => simpa [Sys.SlotData, Sys.FragOK, HsimpleType, Hfirst, Hpending, Hcounted, Hactive] using h.fresh
  case planLength => simpa [Sys.SlotData, Sys.FragOK, HsimpleType, Hfirst, Hpending, Hcounted, Hactive] using h.planLength
  case slotReady => simpa [Sys.SlotData, Sys.FragOK, HsimpleType, Hfirst, Hpending, Hcounted, Hactive] using h.slotReady
  case slotOwned => simpa [Sys.SlotData, Sys.FragOK, HsimpleType, Hfirst, Hpending, Hcounted, Hactive] using h.slotOwned

theorem inv_producer_bulkWaiting (s : Sys) (h : s.Inv) (c first : Nat)
    (hpc : (s.producers c).pc = .bulkWaiting first)
    (hev : (s.pool.WorkItemQueue first).ItemCompletedEvent = .live true) :
    ((s.setPool (s.pool.setItemEvent first (.live false))).setProducer c (.bulkWoken first)).Inv := by
  have hfirst := h.first c first (by rw [hpc]; rfl)
  have hcc : (s.producers c).pc.counted = true := by rw [hpc]; rfl
  have hall := h.event c hcc (by rw [← hfirst]; exact hev)
  have hnoworker : ∀ y j, (s.workers y).frag ≠ some (c, j) := by
    intro y j hf
    obtain ⟨k, ph, p1, p2, p3, p4, p5⟩ := h.frag_phase y c j hf
    have hd := hall _ (List.getElem?_mem p3)
    subst hd
    have hzpc := WorkerPc.phase_decremented _ _ p1
    exact (h.zero y c j k hf hzpc).2.1 (by rw [← hfirst]; exact hev)
  have Hne : ∀ p, p ≠ c → ((s.setPool (s.pool.setItemEvent first (.live false))).setProducer c
      (.bulkWoken first)).producers p = s.producers p :=
    fun p hp => Sys.setProducer_ne _ _ _ _ hp
  have Hself : (((s.setPool (s.pool.setItemEvent first (.live false))).setProducer c
      (.bulkWoken first)).producers c).pc = .bulkWoken first := Sys.setProducer_self_pc _ _ _
  have Hholds : ∀ p, (((s.setPool (s.pool.setItemEvent first (.live false))).setProducer c
      (.bulkWoken first)).producers p).pc.holds = (s.producers p).pc.holds := by
    intro p; by_cases hp : p = c
    · subst hp; rw [Hself, hpc]; rfl
    · rw [Hne p hp]
  have Hclaimed : ∀ p, (((s.setPool (s.pool.setItemEvent first (.live false))).setProducer c
      (.bulkWoken first)).producers p).pc.claimedItem = (s.producers p).pc.claimedItem := by
    intro p; by_cases hp : p = c
    · subst hp; rw [Hself, hpc]; rfl
    · rw [Hne p hp]
  have HsawFree : ∀ p, (((s.setPool (s.pool.setItemEvent first (.live false))).setProducer c
      (.bulkWoken first)).producers p).pc.sawFree = (s.producers p).pc.sawFree := by
    intro p; by_cases hp : p = c
    · subst hp; rw [Hself, hpc]; rfl
    · rw [Hne p hp]
  have Hfilled : ∀ p, (((s.setPool (s.pool.setItemEvent first (.live false))).setProducer c
      (.bulkWoken first)).producers p).pc.filledItem = (s.producers p).pc.filledItem := by
    intro p; by_cases hp : p = c
    · subst hp; rw [Hself, hpc]; rfl
    · rw [Hne p hp]
  have HfilledSimple : ∀ p, (((s.setPool (s.pool.setItemEvent first (.live false))).setProducer c
      (.bulkWoken first)).producers p).pc.filledSimple = (s.producers p).pc.filledSimple := by
    intro p; by_cases hp : p = c
    · subst hp; rw [Hself, hpc]; rfl
    · rw [Hne p hp]
  have HbulkType : ∀ p, (((s.setPool (s.pool.setItemEvent first (.live false))).setProducer c
      (.bulkWoken first)).producers p).pc.bulkType = (s.producers p).pc.bulkType := by
    intro p; by_cases hp : p = c
    · subst hp; rw [Hself, hpc]; rfl
    · rw [Hne p hp]
  have HsimpleType : ∀ p, (((s.setPool (s.pool.setItemEvent first (.live false))).setProducer c
      (.bulkWoken first)).producers p).pc.simpleType = (s.producers p).pc.simpleType := by
    intro p; by_cases hp : p = c
    · subst hp; rw [Hself, hpc]; rfl
    · rw [Hne p hp]
  have Hfirst : ∀ p, (((s.setPool (s.pool.setItemEvent first (.live false))).setProducer c
      (.bulkWoken first)).producers p).pc.first = (s.producers p).pc.first := by
    intro p; by_cases hp : p = c
    · subst hp; rw [Hself, hpc]; rfl
    · rw [Hne p hp]
  have Hpending : ∀ p, (((s.setPool (s.pool.setItemEvent first (.live false))).setProducer c
      (.bulkWoken first)).producers p).pc.pendingCount = (s.producers p).pc.pendingCount := by
    intro p; by_cases hp : p = c
    · subst hp; rw [Hself, hpc]; rfl
    · rw [Hne p hp]
  have Hcounted : ∀ p, (((s.setPool (s.pool.setItemEvent first (.live false))).setProducer c
      (.bulkWoken first)).producers p).pc.counted = (s.producers p).pc.counted := by
    intro p; by_cases hp : p = c
    · subst hp; rw [Hself, hpc]; rfl
    · rw [Hne p hp]
  have Henq : ∀ p, (((s.setPool (s.pool.setItemEvent first (.live false))).setProducer c
      (.bulkWoken first)).producers p).pc.enqueuing = (s.producers p).pc.enqueuing := by
    intro p; by_cases hp : p = c
    · subst hp; rw [Hself, hpc]; rfl
    · rw [Hne p hp]
  have Hactive : ∀ p, (((s.setPool (s.pool.setItemEvent first (.live false))).setProducer c
      (.bulkWoken first)).producers p).pc.active = true →
      p ≠ c ∧ (s.producers p).pc.active = true := by
    intro p; by_cases hp : p = c
    · subst hp; rw [Hself]; intro e; cases e
    · rw [Hne p hp]; exact fun e => ⟨hp, e⟩
  have hfok : ∀ c2 j2 k, c2 ≠ c → s.FragOK c2 j2 k →
      ((s.setPool (s.pool.setItemEvent first (.live false))).setProducer c
      (.bulkWoken first)).FragOK c2 j2 k := by
    intro c2 j2 k hc2 ⟨f1, f2, f3, f4, f5⟩
    refine ⟨by rw [Hne c2 hc2]; exact f1, by simpa using f2, by simpa using f3, by simpa using f4,
      by simpa using f5⟩
  refine {
    queueSize := ?queueSize,
    threadCount := ?threadCount,
    cursor := ?cursor,
    enqMutex := ?enqMutex,
    deqMutex := ?deqMutex,
    claimed := ?claimed,
    sawFree := ?sawFree,
    filled := ?filled,
    filledSimple := ?filledSimple,
    simpleType := ?simpleType,
    bulkType := ?bulkType,
    taking := ?taking,
    owned := ?owned,
    exclusive := ?exclusive,
    noFrag := ?noFrag,
    pastWork := ?pastWork,
    ownedSimple := ?ownedSimple,
    ready := ?ready,
    frag := ?frag,
    zero := ?zero,
    fragInj := ?fragInj,
    readyPhase := ?readyPhase,
    leader := ?leader,
    leaderPending := ?leaderPending,
    count := ?count,
    event := ?event,
    eventLeader := ?eventLeader,
    woken := ?woken,
    first := ?first,
    shape := ?shape,
    fresh := ?fresh,
    ticket := ?ticket,
    planLength := ?planLength,
    planRest := ?planRest,
    filledData := ?filledData,
    slotReady := ?slotReady,
    slotOwned := ?slotOwned,
    ring := ?ring }
  case ready =>
    intro k hk
    obtain ⟨r1, r2⟩ := h.ready k (by simpa using hk)
    refine ⟨?_, by simpa using r2⟩
    intro c2 j2 ht
    obtain ⟨f1, f2⟩ := r1 c2 j2 ht
    have hc2 : c2 ≠ c := by
      rintro rfl
      have := hall _ (List.getElem?_mem f2)
      cases this
    exact ⟨hfok c2 j2 k hc2 f1, by simpa using f2⟩
  case frag =>
    intro y c2 j2 k ph hf hp
    obtain ⟨f1, f2⟩ := h.frag y c2 j2 k ph hf hp
    have hc2 : c2 ≠ c := by
      rintro rfl
      exact hnoworker y j2 hf
    exact ⟨hfok c2 j2 k hc2 f1, by simpa using f2⟩
  case zero =>
    intro y c2 j2 k hf hp
    obtain ⟨h1, h2, h3⟩ := h.zero y c2 j2 k hf hp
    refine ⟨by simpa using h1, ?_, h3⟩
    simp only [Sys.setProducer_pool, Sys.setPool_pool, Pool.setItemEvent_ItemCompletedEvent,
      Sys.setProducer_leaderTicket, Sys.setPool_producers, Pool.setItemEvent_size]
    split_ifs
    · simp
    · exact h2
  case readyPhase =>
    intro c2 j2 hact hj
    obtain ⟨hc2, hact2⟩ := Hactive c2 hact
    simpa using h.readyPhase c2 j2 hact2 (by simpa using hj)
  case event =>
    intro c2 hc he
    rw [Hcounted] at hc
    simp only [Sys.setProducer_pool, Sys.setPool_pool, Pool.setItemEvent_ItemCompletedEvent,
      Sys.setProducer_leaderTicket, Sys.setPool_producers, Pool.setItemEvent_size] at he
    split_ifs at he
    · cases he
    · simpa using h.event c2 hc he
  case eventLeader =>
    intro k hk
    simp only [Sys.setProducer_pool, Sys.setPool_pool, Pool.setItemEvent_ItemCompletedEvent] at hk
    split_ifs at hk with hkf
    · cases hk
    · obtain ⟨c2, a1, a2⟩ := h.eventLeader k hk
      have hc2 : c2 ≠ c := by
        rintro rfl
        exact hkf (a2.trans hfirst.symm)
      exact ⟨c2, by rw [Hne c2 hc2]; exact a1, by simpa using a2⟩
  case woken =>
    intro p first2
    by_cases hp : p = c
    · subst hp
      intro _
      simpa using hall
    · rw [Hne p hp]
      exact h.woken p first2
  case ring =>
    intro w hw
    have hwc : w ≠ c := by
      rintro rfl
      rw [Hself] at hw; cases hw
    rw [Hne w hwc] at hw ⊢
    simpa [Hclaimed, HsawFree] using h.ring w hw
  case planRest =>
    intro p type2 ci rest
    by_cases hp : p = c
    · subst hp; rw [Hself]; intro e; cases e
    · rw [Hne p hp]
      exact h.planRest p type2 ci rest
  case queueSize => exact h.queueSize
  case threadCount => exact h.threadCount
  case cursor => exact h.cursor
  case enqMutex => simpa [Sys.SlotData, Hholds, Hclaimed, HsawFree, Hfilled, HfilledSimple, HbulkType, HsimpleType, Hfirst, Hpending, Hcounted, Henq] using h.enqMutex
  case deqMutex => exact h.deqMutex
  case claimed => simpa [Sys.SlotData, Hholds, Hclaimed, HsawFree, Hfilled, HfilledSimple, HbulkType, HsimpleType, Hfirst, Hpending, Hcounted, Henq] using h.claimed
  case sawFree => simpa [Sys.SlotData, Hholds, Hclaimed, HsawFree, Hfilled, HfilledSimple, HbulkType, HsimpleType, Hfirst, Hpending, Hcounted, Henq] using h.sawFree
  case filled => simpa [Sys.SlotData, Hholds, Hclaimed, HsawFree, Hfilled, HfilledSimple, HbulkType, HsimpleType, Hfirst, Hpending, Hcounted, Henq] using h.filled
  case filledSimple => simpa [Sys.SlotData, Hholds, Hclaimed, HsawFree, Hfilled, HfilledSimple, HbulkType, HsimpleType, Hfirst, Hpending, Hcounted, Henq] using h.filledSimple
  case simpleType => simpa [Sys.SlotData, Hholds, Hclaimed, HsawFree, Hfilled, HfilledSimple, HbulkType, HsimpleType, Hfirst, Hpending, Hcounted, Henq] using h.simpleType
  case bulkType => simpa [Sys.SlotData, Hholds, Hclaimed, HsawFree, Hfilled, HfilledSimple, HbulkType, HsimpleType, Hfirst, Hpending, Hcounted, Henq] using h.bulkType
  case taking => simpa [Sys.SlotData, Hholds, Hclaimed, HsawFree, Hfilled, HfilledSimple, HbulkType, HsimpleType, Hfirst, Hpending, Hcounted, Henq] using h.taking
  case owned => simpa [Sys.SlotData, Hholds, Hclaimed, HsawFree, Hfilled, HfilledSimple, HbulkType, HsimpleType, Hfirst, Hpending, Hcounted, Henq] using h.owned
  case exclusive => exact h.exclusive
  case noFrag => exact h.noFrag
  case pastWork => exact h.pastWork
  case ownedSimple => simpa [Sys.SlotData, Hholds, Hclaimed, HsawFree, Hfilled, HfilledSimple, HbulkType, HsimpleType, Hfirst, Hpending, Hcounted, Henq] using h.ownedSimple
  case fragInj => exact h.fragInj
  case leader => simpa [Sys.SlotData, Hholds, Hclaimed, HsawFree, Hfilled, HfilledSimple, HbulkType, HsimpleType, Hfirst, Hpending, Hcounted, Henq] using h.leader
  case leaderPending => simpa [Sys.SlotData, Hholds, Hclaimed, HsawFree, Hfilled, HfilledSimple, HbulkType, HsimpleType, Hfirst, Hpending, Hcounted, Henq] using h.leaderPending
  case count => simpa [Sys.SlotData, Hholds, Hclaimed, HsawFree, Hfilled, HfilledSimple, HbulkType, HsimpleType, Hfirst, Hpending, Hcounted, Henq] using h.count
  case first => simpa [Sys.SlotData, Hholds, Hclaimed, HsawFree, Hfilled, HfilledSimple, HbulkType, HsimpleType, Hfirst, Hpending, Hcounted, Henq] using h.first
  case shape => simpa [Sys.SlotData, Hholds, Hclaimed, HsawFree, Hfilled, HfilledSimple, HbulkType, HsimpleType, Hfirst, Hpending, Hcounted, Henq] using h.shape
  case fresh => simpa [Sys.SlotData, Hholds, Hclaimed, HsawFree, Hfilled, HfilledSimple, HbulkType, HsimpleType, Hfirst, Hpending, Hcounted, Henq] using h.fresh
  case ticket => simpa [Sys.SlotData, Hholds, Hclaimed, HsawFree, Hfilled, HfilledSimple, HbulkType, HsimpleType, Hfirst, Hpending, Hcounted, Henq] using h.ticket
  case planLength => simpa [Sys.SlotData, Hholds, Hclaimed, HsawFree, Hfilled, HfilledSimple, HbulkType, HsimpleType, Hfirst, Hpending, Hcounted, Henq] using h.planLength
  case filledData => simpa [Sys.SlotData, Hholds, Hclaimed, HsawFree, Hfilled, HfilledSimple, HbulkType, HsimpleType, Hfirst, Hpending, Hcounted, Henq] using h.filledData
  case slotReady => simpa [Sys.SlotData, Hholds, Hclaimed, HsawFree, Hfilled, HfilledSimple, HbulkType, HsimpleType, Hfirst, Hpending, Hcounted, Henq] using h.slotReady
  case slotOwned => simpa [Sys.SlotData, Hholds, Hclaimed, HsawFree, Hfilled, HfilledSimple, HbulkType, HsimpleType, Hfirst, Hpending, Hcounted, Henq] using h.slotOwned

theorem inv_producer_bulkWoken (s : Sys) (h : s.Inv) (c first : Nat)
    (hpc : (s.producers c).pc = .bulkWoken first) :
    ((s.setPool (s.pool.freeWorkItem first)).setProducer c .idle).Inv := by
  have hfirst := h.first c first (by rw [hpc]; rfl)
  have hcc : (s.producers c).pc.counted = true := by rw [hpc]; rfl
  have hall := h.woken c first hpc
  obtain ⟨ph0, hph0⟩ := h.phase0 c hcc
  have hd := hall _ (List.getElem?_mem hph0)
  subst hd
  obtain ⟨hbusy, htag⟩ := h.leader c _ hcc hph0 (by simp) (by simp)
  rw [← hfirst] at hbusy htag
  have hnoown : ∀ y, (s.workers y).pc.owned ≠ some first := by
    intro y hy
    obtain ⟨-, o2⟩ := h.owned y first hy
    rw [htag] at o2
    obtain ⟨k, ph, p1, p2, -⟩ := h.frag_phase y c 0 o2.symm
    have := p2.1
    rw [hpc] at this; cases this
  have hnotbusy : ∀ k, (s.pool.WorkItemQueue k).State ≠ .WorkItemBusy → k ≠ first := by
    rintro k hk rfl
    exact hk hbusy
  have Hne : ∀ p, p ≠ c → ((s.setPool (s.pool.freeWorkItem first)).setProducer c .idle).producers p
      = s.producers p := fun p hp => Sys.setProducer_ne _ _ _ _ hp
  have Hself : (((s.setPool (s.pool.freeWorkItem first)).setProducer c .idle).producers c).pc
      = .idle := Sys.setProducer_self_pc _ _ _
  have Hholds : ∀ p, (((s.setPool (s.pool.freeWorkItem first)).setProducer c .idle).producers
      p).pc.holds = (s.producers p).pc.holds := by
    intro p; by_cases hp : p = c
    · subst hp; rw [Hself, hpc]; rfl
    · rw [Hne p hp]
  have Hclaimed : ∀ p, (((s.setPool (s.pool.freeWorkItem first)).setProducer c .idle).producers
      p).pc.claimedItem = (s.producers p).pc.claimedItem := by
    intro p; by_cases hp : p = c
    · subst hp; rw [Hself, hpc]; rfl
    · rw [Hne p hp]
  have HsawFree : ∀ p, (((s.setPool (s.pool.freeWorkItem first)).setProducer c .idle).producers
      p).pc.sawFree = (s.producers p).pc.sawFree := by
    intro p; by_cases hp : p = c
    · subst hp; rw [Hself, hpc]; rfl
    · rw [Hne p hp]
  have Hfilled : ∀ p, (((s.setPool (s.pool.freeWorkItem first)).setProducer c .idle).producers
      p).pc.filledItem = (s.producers p).pc.filledItem := by
    intro p; by_cases hp : p = c
    · subst hp; rw [Hself, hpc]; rfl
    · rw [Hne p hp]
  have HfilledSimple : ∀ p, (((s.setPool (s.pool.freeWorkItem first)).setProducer c
      .idle).producers p).pc.filledSimple = (s.producers p).pc.filledSimple := by
    intro p; by_cases hp : p = c
    · subst hp; rw [Hself, hpc]; rfl
    · rw [Hne p hp]
  have HbulkType : ∀ p, (((s.setPool (s.pool.freeWorkItem first)).setProducer c .idle).producers
      p).pc.bulkType = (s.producers p).pc.bulkType := by
    intro p; by_cases hp : p = c
    · subst hp; rw [Hself, hpc]; rfl
    · rw [Hne p hp]
  have HsimpleType : ∀ p, (((s.setPool (s.pool.freeWorkItem first)).setProducer c .idle).producers
      p).pc.simpleType = (s.producers p).pc.simpleType := by
    intro p; by_cases hp : p = c
    · subst hp; rw [Hself, hpc]; rfl
    · rw [Hne p hp]
  have Henq : ∀ p, (((s.setPool (s.pool.freeWorkItem first)).setProducer c .idle).producers
      p).pc.enqueuing = (s.producers p).pc.enqueuing := by
    intro p; by_cases hp : p = c
    · subst hp; rw [Hself, hpc]; rfl
    · rw [Hne p hp]
  have Hwait : ∀ p, (((s.setPool (s.pool.freeWorkItem first)).setProducer c .idle).producers
      p).pc.waiting = (s.producers p).pc.waiting := by
    intro p; by_cases hp : p = c
    · subst hp; rw [Hself, hpc]; rfl
    · rw [Hne p hp]
  have Hactive : ∀ p, (((s.setPool (s.pool.freeWorkItem first)).setProducer c .idle).producers
      p).pc.active = (s.producers p).pc.active := by
    intro p; by_cases hp : p = c
    · subst hp; rw [Hself, hpc]; rfl
    · rw [Hne p hp]
  have hfok : ∀ c2 j2 k, ((s.setPool (s.pool.freeWorkItem first)).setProducer c .idle).FragOK
      c2 j2 k ↔ s.FragOK c2 j2 k := by
    intro c2 j2 k
    simp [Sys.FragOK, Hactive]
  refine {
    queueSize := ?queueSize,
    threadCount := ?threadCount,
    cursor := ?cursor,
    enqMutex := ?enqMutex,
    deqMutex := ?deqMutex,
    claimed := ?claimed,
    sawFree := ?sawFree,
    filled := ?filled,
    filledSimple := ?filledSimple,
    simpleType := ?simpleType,
    bulkType := ?bulkType,
    taking := ?taking,
    owned := ?owned,
    exclusive := ?exclusive,
    noFrag := ?noFrag,
    pastWork := ?pastWork,
    ownedSimple := ?ownedSimple,
    ready := ?ready,
    frag := ?frag,
    zero := ?zero,
    fragInj := ?fragInj,
    readyPhase := ?readyPhase,
    leader := ?leader,
    leaderPending := ?leaderPending,
    count := ?count,
    event := ?event,
    eventLeader := ?eventLeader,
    woken := ?woken,
    first := ?first,
    shape := ?shape,
    fresh := ?fresh,
    ticket := ?ticket,
    planLength := ?planLength,
    planRest := ?planRest,
    filledData := ?filledData,
    slotReady := ?slotReady,
    slotOwned := ?slotOwned,
    ring := ?ring }
  case sawFree =>
    intro p k hk
    rw [HsawFree] at hk
    have := h.sawFree p k hk
    simp only [Sys.setProducer_pool, Sys.setPool_pool, Pool.freeWorkItem_State]
    split_ifs
    · rfl
    · exact this
  case taking =>
    intro y k hk
    have := h.taking y k hk
    have hkf := hnotbusy k (by rw [this]; decide)
    simpa [hkf] using this
  case owned =>
    intro y k hk
    have hkf : k ≠ first := by
      rintro rfl
      exact hnoown y hk
    simpa [hkf] using h.owned y k hk
  case ready =>
    intro k hk
    have hkf : k ≠ first := by
      rintro rfl
      simp at hk
    have hk2 : (s.pool.WorkItemQueue k).State = .WorkItemReady := by simpa [hkf] using hk
    obtain ⟨r1, r2⟩ := h.ready k hk2
    refine ⟨?_, by simpa using r2⟩
    intro c2 j2 ht
    obtain ⟨f1, f2⟩ := r1 c2 j2 ht
    exact ⟨(hfok c2 j2 k).2 f1, by simpa using f2⟩
  case frag =>
    intro y c2 j2 k ph hf hp
    obtain ⟨f1, f2⟩ := h.frag y c2 j2 k ph hf hp
    exact ⟨(hfok c2 j2 k).2 f1, by simpa using f2⟩
  case readyPhase =>
    intro c2 j2 hact hj
    rw [Hactive] at hact
    obtain ⟨r1, r2⟩ := h.readyPhase c2 j2 hact (by simpa using hj)
    have hkf := hnotbusy _ (by rw [r1]; decide)
    simpa [hkf] using And.intro r1 r2
  case leader =>
    intro c2 ph hc h0 h1 h2
    have hc2 : c2 ≠ c := by
      rintro rfl
      rw [Hself] at hc; cases hc
    rw [Hne c2 hc2] at hc h0
    obtain ⟨r1, r2⟩ := h.leader c2 ph hc h0 h1 h2
    have hkf : (s.producers c2).leaderTicket % s.pool.ThreadQueueSize ≠ first := by
      intro e
      rw [e, htag] at r2
      injection r2 with r2
      injection r2 with r2
      exact hc2 r2.symm
    simpa [hkf] using And.intro r1 r2
  case leaderPending =>
    intro c2 hc h0
    rw [Henq] at hc
    have := h.leaderPending c2 hc (by simpa using h0)
    simp only [Sys.setProducer_pool, Sys.setPool_pool, Pool.freeWorkItem_State,
      Sys.setProducer_leaderTicket, Sys.setPool_producers, Pool.freeWorkItem_size]
    split_ifs
    · rfl
    · exact this
  case count =>
    intro c2 hc
    have hc2 : c2 ≠ c := by
      rintro rfl
      rw [Hself] at hc; cases hc
    rw [Hne c2 hc2] at hc ⊢
    simpa using h.count c2 hc
  case event =>
    intro c2 hc
    have hc2 : c2 ≠ c := by
      rintro rfl
      rw [Hself] at hc; cases hc
    rw [Hne c2 hc2] at hc ⊢
    simpa using h.event c2 hc
  case woken =>
    intro p first2
    by_cases hp : p = c
    · subst hp
      rw [Hself]
      intro e; cases e
    · rw [Hne p hp]
      exact h.woken p first2
  case first =>
    intro p first2
    by_cases hp : p = c
    · subst hp
      rw [Hself]
      intro e; cases e
    · rw [Hne p hp]
      simpa using h.first p first2
  case shape =>
    intro p n
    by_cases hp : p = c
    · subst hp
      rw [Hself]
      intro e; cases e
    · rw [Hne p hp]
      simpa using h.shape p n
  case fresh =>
    intro p n
    by_cases hp : p = c
    · subst hp
      rw [Hself]
      intro _ e; cases e
    · rw [Hne p hp]
      exact h.fresh p n
  case ticket =>
    intro p n
    by_cases hp : p = c
    · subst hp
      rw [Hself]
      intro e; cases e
    · rw [Hne p hp]
      simpa [Hclaimed] using h.ticket p n
  case planLength =>
    intro p n
    by_cases hp : p = c
    · subst hp; rw [Hself]; intro e; cases e
    · rw [Hne p hp]
      exact h.planLength p n
  case planRest =>
    intro p type2 ci rest
    by_cases hp : p = c
    · subst hp; rw [Hself]; intro e; cases e
    · rw [Hne p hp]
      exact h.planRest p type2 ci rest
  case filledData =>
    intro p k type2 n
    by_cases hp : p = c
    · subst hp; rw [Hself]; intro e; cases e
    · rw [Hne p hp]
      simpa [Sys.SlotData, hp] using h.filledData p k type2 n
  case slotReady =>
    intro k c2 j2 hk ht
    have hkf : k ≠ first := by
      rintro rfl
      simp at hk
    have hk2 : (s.pool.WorkItemQueue k).State = .WorkItemReady := by simpa [hkf] using hk
    simpa [Sys.SlotData] using h.slotReady k c2 j2 hk2 ht
  case queueSize => exact h.queueSize
  case threadCount => exact h.threadCount
  case cursor => exact h.cursor
  case enqMutex => simpa [Sys.SlotData, Hholds, Hclaimed, HsawFree, Hfilled, HfilledSimple, HbulkType, HsimpleType, Henq, Hwait, Hactive] using h.enqMutex
  case deqMutex => exact h.deqMutex
  case claimed => simpa [Sys.SlotData, Hholds, Hclaimed, HsawFree, Hfilled, HfilledSimple, HbulkType, HsimpleType, Henq, Hwait, Hactive] using h.claimed
  case filled => simpa [Sys.SlotData, Hholds, Hclaimed, HsawFree, Hfilled, HfilledSimple, HbulkType, HsimpleType, Henq, Hwait, Hactive] using h.filled
  case filledSimple => simpa [Sys.SlotData, Hholds, Hclaimed, HsawFree, Hfilled, HfilledSimple, HbulkType, HsimpleType, Henq, Hwait, Hactive] using h.filledSimple
  case simpleType => simpa [Sys.SlotData, Hholds, Hclaimed, HsawFree, Hfilled, HfilledSimple, HbulkType, HsimpleType, Henq, Hwait, Hactive] using h.simpleType
  case bulkType => simpa [Sys.SlotData, Hholds, Hclaimed, HsawFree, Hfilled, HfilledSimple, HbulkType, HsimpleType, Henq, Hwait, Hactive] using h.bulkType
  case exclusive => exact h.exclusive
  case noFrag => exact h.noFrag
  case pastWork => exact h.pastWork
  case ownedSimple => simpa [Sys.SlotData, Hholds, Hclaimed, HsawFree, Hfilled, HfilledSimple, HbulkType, HsimpleType, Henq, Hwait, Hactive] using h.ownedSimple
  case zero => simpa [Sys.SlotData, Hholds, Hclaimed, HsawFree, Hfilled, HfilledSimple, HbulkType, HsimpleType, Henq, Hwait, Hactive] using h.zero
  case fragInj => exact h.fragInj
  case eventLeader => simpa [Sys.SlotData, Hholds, Hclaimed, HsawFree, Hfilled, HfilledSimple, HbulkType, HsimpleType, Henq, Hwait, Hactive] using h.eventLeader
  case slotOwned => simpa [Sys.SlotData, Hholds, Hclaimed, HsawFree, Hfilled, HfilledSimple, HbulkType, HsimpleType, Henq, Hwait, Hactive] using h.slotOwned
  case ring => simpa [Sys.SlotData, Hholds, Hclaimed, HsawFree, Hfilled, HfilledSimple, HbulkType, HsimpleType, Henq, Hwait, Hactive] using h.ring

@[simp]
theorem Sys.beginBulk_pool (s : Sys) (c : Nat) (type : EncryptionThreadPoolWorkType)
    (cryptoInfo : Nat) (frags : List Fragment) :
    (s.beginBulk c type cryptoInfo frags).pool = s.pool := rfl

@[simp]
theorem Sys.beginBulk_enqueueOwner (s : Sys) (c : Nat) (type : EncryptionThreadPoolWorkType)
    (cryptoInfo : Nat) (frags : List Fragment) :
    (s.beginBulk c type cryptoInfo frags).enqueueOwner = some c := rfl

@[simp]
theorem Sys.beginBulk_dequeueOwner (s : Sys) (c : Nat) (type : EncryptionThreadPoolWorkType)
    (cryptoInfo : Nat) (frags : List Fragment) :
    (s.beginBulk c type cryptoInfo frags).dequeueOwner = s.dequeueOwner := rfl

@[simp]
theorem Sys.beginBulk_workers (s : Sys) (c : Nat) (type : EncryptionThreadPoolWorkType)
    (cryptoInfo : Nat) (frags : List Fragment) :
    (s.beginBulk c type cryptoInfo frags).workers = s.workers := rfl

@[simp]
theorem Sys.beginBulk_tag (s : Sys) (c : Nat) (type : EncryptionThreadPoolWorkType)
    (cryptoInfo : Nat) (frags : List Fragment) :
    (s.beginBulk c type cryptoInfo frags).tag = s.tag := rfl

@[simp]
theorem Sys.beginBulk_enqTicket (s : Sys) (c : Nat) (type : EncryptionThreadPoolWorkType)
    (cryptoInfo : Nat) (frags : List Fragment) :
    (s.beginBulk c type cryptoInfo frags).enqTicket = s.enqTicket := rfl

@[simp]
theorem Sys.beginBulk_self (s : Sys) (c : Nat) (type : EncryptionThreadPoolWorkType)
    (cryptoInfo : Nat) (frags : List Fragment) :
    (s.beginBulk c type cryptoInfo frags).producers c
      = { pc := .bulkLocked type cryptoInfo frags s.pool.EnqueuePosition
          phases := List.replicate frags.length .pending
          leaderTicket := s.enqTicket
          op := type
          cryptoInfo := cryptoInfo
          plan := frags } := by
  simp [Sys.beginBulk]

@[simp]
theorem Sys.beginBulk_ne (s : Sys) (c : Nat) (type : EncryptionThreadPoolWorkType)
    (cryptoInfo : Nat) (frags : List Fragment) (p : Nat) (hp : p ≠ c) :
    (s.beginBulk c type cryptoInfo frags).producers p = s.producers p := by
  simp [Sys.beginBulk, Function.update_apply, hp]

theorem inv_doWork_aux (s : Sys) (h : s.Inv) (c : Nat) (type : EncryptionThreadPoolWorkType)
    (cryptoInfo : Nat) (frags : List Fragment)
    (hpc : (s.producers c).pc = .idle) (hown : s.enqueueOwner = none)
    (hty : type.isCrypto = true)
    (hl1 : 1 ≤ frags.length) (hl2 : frags.length < s.pool.ThreadQueueSize) :
    (s.beginBulk c type cryptoInfo frags).Inv := by
  have hnone : ∀ p, (s.producers p).pc.holds = false := by
    intro p
    by_contra hcon
    have := (h.enqMutex p).1 (by simpa using hcon)
    rw [hown] at this; cases this
  have hnoworker : ∀ y j, (s.workers y).frag ≠ some (c, j) := by
    intro y j hf
    obtain ⟨k, ph, p1, p2, -⟩ := h.frag_phase y c j hf
    have := p2.1
    rw [hpc] at this; cases this
  have Hne : ∀ p, p ≠ c → (s.beginBulk c type cryptoInfo frags).producers p = s.producers p :=
    fun p hp => Sys.beginBulk_ne _ _ _ _ _ _ hp
  have Hself := Sys.beginBulk_self s c type cryptoInfo frags
  have hfok : ∀ c2 j2 k, c2 ≠ c → s.FragOK c2 j2 k →
      (s.beginBulk c type cryptoInfo frags).FragOK c2 j2 k := by
    intro c2 j2 k hc2 hf
    unfold Sys.FragOK
    rw [Hne c2 hc2]
    exact hf
  have hactne : ∀ c2, (s.producers c2).pc.active = true → c2 ≠ c := by
    rintro c2 hc2 rfl
    rw [hpc] at hc2; cases hc2
  have hsd : ∀ c2 j2 k, c2 ≠ c → s.SlotData c2 j2 k →
      (s.beginBulk c type cryptoInfo frags).SlotData c2 j2 k := by
    intro c2 j2 k hc2 hf
    unfold Sys.SlotData
    rw [Hne c2 hc2]
    exact hf
  refine {
    queueSize := ?queueSize,
    threadCount := ?threadCount,
    cursor := ?cursor,
    enqMutex := ?enqMutex,
    deqMutex := ?deqMutex,
    claimed := ?claimed,
    sawFree := ?sawFree,
    filled := ?filled,
    filledSimple := ?filledSimple,
    simpleType := ?simpleType,
    bulkType := ?bulkType,
    taking := ?taking,
    owned := ?owned,
    exclusive := ?exclusive,
    noFrag := ?noFrag,
    pastWork := ?pastWork,
    ownedSimple := ?ownedSimple,
    ready := ?ready,
    frag := ?frag,
    zero := ?zero,
    fragInj := ?fragInj,
    readyPhase := ?readyPhase,
    leader := ?leader,
    leaderPending := ?leaderPending,
    count := ?count,
    event := ?event,
    eventLeader := ?eventLeader,
    woken := ?woken,
    first := ?first,
    shape := ?shape,
    fresh := ?fresh,
    ticket := ?ticket,
    planLength := ?planLength,
    planRest := ?planRest,
    filledData := ?filledData,
    slotReady := ?slotReady,
    slotOwned := ?slotOwned,
    ring := ?ring }
  case enqMutex =>
    intro p
    by_cases hp : p = c
    · subst hp; rw [Hself]; simp [ProducerPc.holds]
    · rw [Hne p hp, hnone p]
      simp only [Sys.beginBulk_enqueueOwner]
      constructor
      · intro e; cases e
      · intro e; exact absurd (Option.some.inj e).symm hp
  case claimed =>
    intro p k
    by_cases hp : p = c
    · subst hp; rw [Hself]; simp [ProducerPc.claimedItem]
    · rw [Hne p hp]; exact h.claimed p k
  case sawFree =>
    intro p k
    by_cases hp : p = c
    · subst hp; rw [Hself]; simp [ProducerPc.sawFree]
    · rw [Hne p hp]; exact h.sawFree p k
  case filled =>
    intro p k type2
    by_cases hp : p = c
    · subst hp; rw [Hself]; simp [ProducerPc.filledItem]
    · rw [Hne p hp]; exact h.filled p k type2
  case filledSimple =>
    intro p k
    by_cases hp : p = c
    · subst hp; rw [Hself]; simp [ProducerPc.filledSimple]
    · rw [Hne p hp]; exact h.filledSimple p k
  case simpleType =>
    intro p type2
    by_cases hp : p = c
    · subst hp; rw [Hself]; simp [ProducerPc.simpleType]
    · rw [Hne p hp]; exact h.simpleType p type2
  case bulkType =>
    intro p type2
    by_cases hp : p = c
    · subst hp; rw [Hself]
      simp only [ProducerPc.bulkType, Option.some.injEq]
      rintro rfl; exact hty
    · rw [Hne p hp]; exact h.bulkType p type2
  case ready =>
    intro k hk
    obtain ⟨r1, r2⟩ := h.ready k hk
    refine ⟨?_, r2⟩
    intro c2 j2 ht
    obtain ⟨f1, f2⟩ := r1 c2 j2 ht
    have hc2 := hactne c2 f1.1
    refine ⟨hfok c2 j2 k hc2 f1, ?_⟩
    rw [Hne c2 hc2]; exact f2
  case frag =>
    intro y c2 j2 k ph hf hp
    obtain ⟨f1, f2⟩ := h.frag y c2 j2 k ph hf hp
    have hc2 := hactne c2 f1.1
    refine ⟨hfok c2 j2 k hc2 f1, ?_⟩
    rw [Hne c2 hc2]; exact f2
  case zero =>
    intro y c2 j2 k hf hp
    obtain ⟨h1, h2, h3⟩ := h.zero y c2 j2 k hf hp
    have hc2 : c2 ≠ c := by
      rintro rfl
      exact hnoworker y j2 hf
    rw [Hne c2 hc2]
    exact ⟨h1, h2, h3⟩
  case readyPhase =>
    intro c2 j2
    by_cases hp : c2 = c
    · subst hp; rw [Hself]; intro e; cases e
    · rw [Hne c2 hp]; exact h.readyPhase c2 j2
  case leader =>
    intro c2 ph
    by_cases hp : c2 = c
    · subst hp; rw [Hself]; intro e; cases e
    · rw [Hne c2 hp]; exact h.leader c2 ph
  case leaderPending =>
    intro c2
    by_cases hp : c2 = c
    · subst hp; rw [Hself]; intro e; cases e
    · rw [Hne c2 hp]; exact h.leaderPending c2
  case count =>
    intro c2
    by_cases hp : c2 = c
    · subst hp; rw [Hself]; intro e; cases e
    · rw [Hne c2 hp]; exact h.count c2
  case event =>
    intro c2
    by_cases hp : c2 = c
    · subst hp; rw [Hself]; intro e; cases e
    · rw [Hne c2 hp]; exact h.event c2
  case eventLeader =>
    intro k hk
    obtain ⟨c2, a1, a2⟩ := h.eventLeader k hk
    have hc2 := hactne c2 a1
    exact ⟨c2, by rw [Hne c2 hc2]; exact a1, by rw [Hne c2 hc2]; exact a2⟩
  case woken =>
    intro c2 first2
    by_cases hp : c2 = c
    · subst hp; rw [Hself]; intro e; cases e
    · rw [Hne c2 hp]; exact h.woken c2 first2
  case first =>
    intro c2 first2
    by_cases hp : c2 = c
    · subst hp; rw [Hself]
      simp only [ProducerPc.first, Option.some.injEq]
      rintro rfl
      exact h.cursor
    · rw [Hne c2 hp]; exact h.first c2 first2
  case shape =>
    intro c2 n
    by_cases hp : c2 = c
    · subst hp; rw [Hself]
      simp only [ProducerPc.pendingCount, Option.some.injEq, List.length_replicate]
      rintro rfl
      refine ⟨le_refl _, hl1, hl2, ?_⟩
      intro j ph hj
      rw [List.getElem?_replicate] at hj
      split_ifs at hj
      injection hj with hj
      subst hj
      simp
    · rw [Hne c2 hp]; exact h.shape c2 n
  case fresh =>
    intro c2 n
    by_cases hp : c2 = c
    · subst hp; rw [Hself]
      simp only [ProducerPc.pendingCount, Option.some.injEq, List.length_replicate]
      rintro - rfl
      rfl
    · rw [Hne c2 hp]; exact h.fresh c2 n
  case ticket =>
    intro c2 n
    by_cases hp : c2 = c
    · subst hp; rw [Hself]
      simp only [ProducerPc.pendingCount, Option.some.injEq, List.length_replicate,
        ProducerPc.claimedItem, if_true, Sys.beginBulk_enqTicket]
      rintro - rfl
      omega
    · rw [Hne c2 hp, hnone c2]; intro e; cases e
  case ring =>
    intro w
    by_cases hp : w = c
    · subst hp; rw [Hself]; intro e; cases e
    · rw [Hne w hp]
      intro hw
      obtain ⟨r1, r2, r3, r4, r5⟩ := h.ring w hw
      refine ⟨r1, r2, ?_, ?_, ?_⟩
      · intro p k
        by_cases hpc2 : p = c
        · subst hpc2; rw [Hself]; simp [ProducerPc.claimedItem]
        · rw [Hne p hpc2]; exact r3 p k
      · intro p k
        by_cases hpc2 : p = c
        · subst hpc2; rw [Hself]; simp [ProducerPc.sawFree]
        · rw [Hne p hpc2]; exact r4 p k
      · intro e
        obtain ⟨p, k, hk⟩ := r5 e
        have := ProducerPc.claimedItem_holds _ _ hk
        rw [hnone p] at this; cases this
  case planLength =>
    intro c2 n
    by_cases hp : c2 = c
    · subst hp; rw [Hself]; simp
    · rw [Hne c2 hp]; exact h.planLength c2 n
  case planRest =>
    intro c2 type2 ci rest
    by_cases hp : c2 = c
    · subst hp; rw [Hself]
      simp only [ProducerPc.rest, Option.some.injEq, Prod.mk.injEq]
      rintro ⟨rfl, rfl, rfl⟩
      simp
    · rw [Hne c2 hp]; exact h.planRest c2 type2 ci rest
  case filledData =>
    intro c2 k type2 n
    by_cases hp : c2 = c
    · subst hp; rw [Hself]; simp [ProducerPc.filledItem]
    · intro a b
      rw [Hne c2 hp] at a b ⊢
      exact hsd c2 _ k hp (h.filledData c2 k type2 n a b)
  case slotReady =>
    intro k c2 j2 hk ht
    obtain ⟨f1, -⟩ := (h.ready k hk).1 c2 j2 ht
    exact hsd c2 j2 k (hactne c2 f1.1) (h.slotReady k c2 j2 hk ht)
  case slotOwned =>
    intro y k c2 j2 hk hf
    have hc2 : c2 ≠ c := by
      rintro rfl
      exact hnoworker y j2 hf
    exact hsd c2 j2 k hc2 (h.slotOwned y k c2 j2 hk hf)
  case queueSize => exact h.queueSize
  case threadCount => exact h.threadCount
  case cursor => exact h.cursor
  case deqMutex => exact h.deqMutex
  case taking => exact h.taking
  case owned => exact h.owned
  case exclusive => exact h.exclusive
  case noFrag => exact h.noFrag
  case pastWork => exact h.pastWork
  case ownedSimple => exact h.ownedSimple
  case fragInj => exact h.fragInj

theorem inv_doWork (s : Sys) (h : s.Inv) (c : Nat) (type : EncryptionThreadPoolWorkType)
    (data startUnitNo unitCount cryptoInfo : Nat)
    (hpc : (s.producers c).pc = .idle) (hown : s.enqueueOwner = none)
    (hty : type = .EncryptDataUnitsWork ∨ type = .DecryptDataUnitsWork)
    (hu : ¬ (unitCount = 0 ∨ (!s.pool.ThreadPoolRunning) = true ∨ unitCount = 1)) :
    ({ s with
       enqueueOwner := some c
       producers := Function.update s.producers c
                      { pc := .bulkLocked type cryptoInfo
                          (queuedFragments unitCount s.pool.ThreadCount data startUnitNo)
                          s.pool.EnqueuePosition
                        phases := List.replicate
                          (queuedFragments unitCount s.pool.ThreadCount data startUnitNo).length
                          .pending
                        leaderTicket := s.enqTicket
                        op := type
                        cryptoInfo := cryptoInfo
                        plan := queuedFragments unitCount s.pool.ThreadCount data startUnitNo } } :
      Sys).Inv := by
  have hlen := queuedFragments_length unitCount s.pool.ThreadCount data startUnitNo
  obtain ⟨t1, t2⟩ := h.threadCount
  have := inv_doWork_aux s h c type cryptoInfo
    (queuedFragments unitCount s.pool.ThreadCount data startUnitNo) hpc hown
    (by rcases hty with rfl | rfl <;> rfl)
    (by rw [hlen]; simp only [not_or] at hu; omega)
    (by rw [hlen]; omega)
  exact this

theorem workerStep_inv (s t : Sys) (x : Nat) (h : s.Inv) (hs : workerStep s x = some t) : t.Inv := by
  unfold workerStep at hs
  split_ifs at hs with hstop
  split at hs
  · split at hs
    · cases hs
    · rename_i hpc _ hown
      injection hs with hs
      subst hs
      exact inv_worker_loopHead s h x hpc hown
  · rename_i i hpc
    split_ifs at hs with hr
    injection hs with hs
    subst hs
    exact inv_worker_claimed s h x i hpc hr
  · rename_i i hpc
    injection hs with hs
    subst hs
    rcases htag : s.tag i with _ | ⟨c, j⟩
    · exact inv_worker_taking_simple s h x i hpc htag
    · exact inv_worker_taking_fragment s h x i c j hpc htag
  · rename_i i hpc
    injection hs with hs
    subst hs
    exact inv_worker_taken s h x i hpc
  · rename_i i hpc
    split at hs
    · rename_i hty
      injection hs with hs
      subst hs
      exact inv_worker_working_fragment s h x i hpc (by rw [hty]; rfl)
    · rename_i hty
      injection hs with hs
      subst hs
      exact inv_worker_working_fragment s h x i hpc (by rw [hty]; rfl)
    · rename_i hne1 hne2
      injection hs with hs
      subst hs
      apply inv_worker_working_simple s h x i hpc
      cases hty : (s.pool.WorkItemQueue i).WorkType
      · exact absurd hty hne2
      · exact absurd hty hne1
      · rfl
      · rfl
  · rename_i i hpc
    injection hs with hs
    subst hs
    exact inv_worker_executed s h x i hpc
  · rename_i i hpc
    split at hs
    · cases hs
    · rename_i f hf
      injection hs with hs
      subst hs
      exact inv_worker_freed s h x i f hpc hf
  · rename_i i hpc
    split at hs
    · cases hs
    · rename_i f hf
      injection hs with hs
      subst hs
      exact inv_worker_decremented_true s h x i f hpc hf
  · rename_i i hpc
    injection hs with hs
    subst hs
    exact inv_worker_decremented_false s h x i hpc

theorem producerStep_inv (s t : Sys) (c : Nat) (h : s.Inv) (hs : producerStep s c = some t) :
    t.Inv := by
  unfold producerStep at hs
  split at hs
  · cases hs
  · rename_i type payload m hpc
    split_ifs at hs with hfree
    injection hs with hs
    subst hs
    exact inv_producer_simpleClaimed s h c m type payload hpc hfree
  · rename_i type payload m hpc
    injection hs with hs
    subst hs
    exact inv_producer_simpleFree s h c m type payload hpc
  · rename_i m hpc
    injection hs with hs
    subst hs
    exact inv_producer_simpleFilled s h c m hpc
  · rename_i type ci frags first hpc
    split_ifs at hs with hfree
    injection hs with hs
    subst hs
    exact inv_producer_bulkLocked s h c first type ci frags hpc hfree
  · rename_i type ci frags first hpc
    injection hs with hs
    subst hs
    exact inv_producer_bulkFirstFree s h c first type ci frags hpc
  · rename_i type ci first hpc
    injection hs with hs
    subst hs
    exact inv_producer_bulkLoop_nil s h c first type ci hpc
  · rename_i type ci f frags first hpc
    injection hs with hs
    subst hs
    exact inv_producer_bulkLoop_cons s h c first type ci f frags hpc
  · rename_i type ci f frags first m hpc
    split_ifs at hs with hfree
    injection hs with hs
    subst hs
    exact inv_producer_bulkClaimed s h c first m type ci f frags hpc hfree
  · rename_i type ci f frags first m hpc
    injection hs with hs
    subst hs
    exact inv_producer_bulkFree s h c first m type ci f frags hpc
  · rename_i type ci frags first m hpc
    injection hs with hs
    subst hs
    exact inv_producer_bulkFilled s h c first m type ci frags hpc
  · rename_i first hpc
    split_ifs at hs with hev
    injection hs with hs
    subst hs
    exact inv_producer_bulkWaiting s h c first hpc hev
  · rename_i first hpc
    injection hs with hs
    subst hs
    exact inv_producer_bulkWoken s h c first hpc

/-- Every step of the system keeps the invariant. -/
theorem Sys.step_inv (s t : Sys) (a : Action) (h : s.Inv) (hs : s.step a = some t) : t.Inv := by
  cases a with
  | worker x => exact workerStep_inv s t x h hs
  | producer c => exact producerStep_inv s t c h hs
  | beginSimple c type payload =>
    simp only [Sys.step] at hs
    split at hs
    · rename_i hpc hown
      split_ifs at hs with hrun hty
      injection hs with hs
      subst hs
      exact inv_beginSimple s h c type payload hpc hown hty
    · cases hs
  | doWork c type data startUnitNo unitCount cryptoInfo =>
    simp only [Sys.step] at hs
    split at hs
    · rename_i hpc hown
      split_ifs at hs with hu hty
      injection hs with hs
      subst hs
      exact inv_doWork s h c type data startUnitNo unitCount cryptoInfo hpc hown hty hu
    · cases hs

/-- The invariant holds in every state the system reaches. -/
theorem Sys.reachable_inv (s t : Sys) (h : s.Inv) (hr : Sys.Reachable s t) : t.Inv := by
  induction hr with
  | refl => exact h
  | step u v a _ hstep ih => exact Sys.step_inv u v a ih hstep

/-- The invariant holds when the system starts on a pool whose slots are all
free and whose events are not signalled. -/
theorem Sys.start_inv_of (p : Pool) (hQ : 0 < p.ThreadQueueSize)
    (hTC : 1 ≤ p.ThreadCount ∧ p.ThreadCount < p.ThreadQueueSize)
    (hEP : p.EnqueuePosition < p.ThreadQueueSize)
    (hfree : ∀ i, (p.WorkItemQueue i).State = .WorkItemFree)
    (hev : ∀ i, (p.WorkItemQueue i).ItemCompletedEvent ≠ .live true) :
    (Sys.start p).Inv := by
  refine {
    queueSize := ?queueSize,
    threadCount := ?threadCount,
    cursor := ?cursor,
    enqMutex := ?enqMutex,
    deqMutex := ?deqMutex,
    claimed := ?claimed,
    sawFree := ?sawFree,
    filled := ?filled,
    filledSimple := ?filledSimple,
    simpleType := ?simpleType,
    bulkType := ?bulkType,
    taking := ?taking,
    owned := ?owned,
    exclusive := ?exclusive,
    noFrag := ?noFrag,
    pastWork := ?pastWork,
    ownedSimple := ?ownedSimple,
    ready := ?ready,
    frag := ?frag,
    zero := ?zero,
    fragInj := ?fragInj,
    readyPhase := ?readyPhase,
    leader := ?leader,
    leaderPending := ?leaderPending,
    count := ?count,
    event := ?event,
    eventLeader := ?eventLeader,
    woken := ?woken,
    first := ?first,
    shape := ?shape,
    fresh := ?fresh,
    ticket := ?ticket,
    planLength := ?planLength,
    planRest := ?planRest,
    filledData := ?filledData,
    slotReady := ?slotReady,
    slotOwned := ?slotOwned,
    ring := ?ring }
  case queueSize => exact hQ
  case threadCount => exact hTC
  case cursor => exact (Nat.mod_eq_of_lt hEP).symm
  case enqMutex => (intros; simp_all [Sys.start, ProducerPc.holds, ProducerPc.claimedItem, ProducerPc.sawFree, ProducerPc.filledItem, ProducerPc.filledSimple, ProducerPc.simpleType, ProducerPc.bulkType, ProducerPc.first, ProducerPc.pendingCount, ProducerPc.enqueuing, ProducerPc.waiting, ProducerPc.active, ProducerPc.counted, ProducerPc.rest, WorkerPc.holds, WorkerPc.owned, WorkerPc.phase, WorkerPc.pastWork])
  case deqMutex => (intros; simp_all [Sys.start, ProducerPc.holds, ProducerPc.claimedItem, ProducerPc.sawFree, ProducerPc.filledItem, ProducerPc.filledSimple, ProducerPc.simpleType, ProducerPc.bulkType, ProducerPc.first, ProducerPc.pendingCount, ProducerPc.enqueuing, ProducerPc.waiting, ProducerPc.active, ProducerPc.counted, ProducerPc.rest, WorkerPc.holds, WorkerPc.owned, WorkerPc.phase, WorkerPc.pastWork])
  case claimed => (intros; simp_all [Sys.start, ProducerPc.holds, ProducerPc.claimedItem, ProducerPc.sawFree, ProducerPc.filledItem, ProducerPc.filledSimple, ProducerPc.simpleType, ProducerPc.bulkType, ProducerPc.first, ProducerPc.pendingCount, ProducerPc.enqueuing, ProducerPc.waiting, ProducerPc.active, ProducerPc.counted, ProducerPc.rest, WorkerPc.holds, WorkerPc.owned, WorkerPc.phase, WorkerPc.pastWork])
  case sawFree => (intros; simp_all [Sys.start, ProducerPc.holds, ProducerPc.claimedItem, ProducerPc.sawFree, ProducerPc.filledItem, ProducerPc.filledSimple, ProducerPc.simpleType, ProducerPc.bulkType, ProducerPc.first, ProducerPc.pendingCount, ProducerPc.enqueuing, ProducerPc.waiting, ProducerPc.active, ProducerPc.counted, ProducerPc.rest, WorkerPc.holds, WorkerPc.owned, WorkerPc.phase, WorkerPc.pastWork])
  case filled => (intros; simp_all [Sys.start, ProducerPc.holds, ProducerPc.claimedItem, ProducerPc.sawFree, ProducerPc.filledItem, ProducerPc.filledSimple, ProducerPc.simpleType, ProducerPc.bulkType, ProducerPc.first, ProducerPc.pendingCount, ProducerPc.enqueuing, ProducerPc.waiting, ProducerPc.active, ProducerPc.counted, ProducerPc.rest, WorkerPc.holds, WorkerPc.owned, WorkerPc.phase, WorkerPc.pastWork])
  case filledSimple => (intros; simp_all [Sys.start, ProducerPc.holds, ProducerPc.claimedItem, ProducerPc.sawFree, ProducerPc.filledItem, ProducerPc.filledSimple, ProducerPc.simpleType, ProducerPc.bulkType, ProducerPc.first, ProducerPc.pendingCount, ProducerPc.enqueuing, ProducerPc.waiting, ProducerPc.active, ProducerPc.counted, ProducerPc.rest, WorkerPc.holds, WorkerPc.owned, WorkerPc.phase, WorkerPc.pastWork])
  case simpleType => (intros; simp_all [Sys.start, ProducerPc.holds, ProducerPc.claimedItem, ProducerPc.sawFree, ProducerPc.filledItem, ProducerPc.filledSimple, ProducerPc.simpleType, ProducerPc.bulkType, ProducerPc.first, ProducerPc.pendingCount, ProducerPc.enqueuing, ProducerPc.waiting, ProducerPc.active, ProducerPc.counted, ProducerPc.rest, WorkerPc.holds, WorkerPc.owned, WorkerPc.phase, WorkerPc.pastWork])
  case bulkType => (intros; simp_all [Sys.start, ProducerPc.holds, ProducerPc.claimedItem, ProducerPc.sawFree, ProducerPc.filledItem, ProducerPc.filledSimple, ProducerPc.simpleType, ProducerPc.bulkType, ProducerPc.first, ProducerPc.pendingCount, ProducerPc.enqueuing, ProducerPc.waiting, ProducerPc.active, ProducerPc.counted, ProducerPc.rest, WorkerPc.holds, WorkerPc.owned, WorkerPc.phase, WorkerPc.pastWork])
  case taking => (intros; simp_all [Sys.start, ProducerPc.holds, ProducerPc.claimedItem, ProducerPc.sawFree, ProducerPc.filledItem, ProducerPc.filledSimple, ProducerPc.simpleType, ProducerPc.bulkType, ProducerPc.first, ProducerPc.pendingCount, ProducerPc.enqueuing, ProducerPc.waiting, ProducerPc.active, ProducerPc.counted, ProducerPc.rest, WorkerPc.holds, WorkerPc.owned, WorkerPc.phase, WorkerPc.pastWork])
  case owned => (intros; simp_all [Sys.start, ProducerPc.holds, ProducerPc.claimedItem, ProducerPc.sawFree, ProducerPc.filledItem, ProducerPc.filledSimple, ProducerPc.simpleType, ProducerPc.bulkType, ProducerPc.first, ProducerPc.pendingCount, ProducerPc.enqueuing, ProducerPc.waiting, ProducerPc.active, ProducerPc.counted, ProducerPc.rest, WorkerPc.holds, WorkerPc.owned, WorkerPc.phase, WorkerPc.pastWork])
  case exclusive => (intros; simp_all [Sys.start, ProducerPc.holds, ProducerPc.claimedItem, ProducerPc.sawFree, ProducerPc.filledItem, ProducerPc.filledSimple, ProducerPc.simpleType, ProducerPc.bulkType, ProducerPc.first, ProducerPc.pendingCount, ProducerPc.enqueuing, ProducerPc.waiting, ProducerPc.active, ProducerPc.counted, ProducerPc.rest, WorkerPc.holds, WorkerPc.owned, WorkerPc.phase, WorkerPc.pastWork])
  case noFrag => (intros; simp_all [Sys.start, ProducerPc.holds, ProducerPc.claimedItem, ProducerPc.sawFree, ProducerPc.filledItem, ProducerPc.filledSimple, ProducerPc.simpleType, ProducerPc.bulkType, ProducerPc.first, ProducerPc.pendingCount, ProducerPc.enqueuing, ProducerPc.waiting, ProducerPc.active, ProducerPc.counted, ProducerPc.rest, WorkerPc.holds, WorkerPc.owned, WorkerPc.phase, WorkerPc.pastWork])
  case pastWork => (intros; simp_all [Sys.start, ProducerPc.holds, ProducerPc.claimedItem, ProducerPc.sawFree, ProducerPc.filledItem, ProducerPc.filledSimple, ProducerPc.simpleType, ProducerPc.bulkType, ProducerPc.first, ProducerPc.pendingCount, ProducerPc.enqueuing, ProducerPc.waiting, ProducerPc.active, ProducerPc.counted, ProducerPc.rest, WorkerPc.holds, WorkerPc.owned, WorkerPc.phase, WorkerPc.pastWork])
  case ownedSimple => (intros; simp_all [Sys.start, ProducerPc.holds, ProducerPc.claimedItem, ProducerPc.sawFree, ProducerPc.filledItem, ProducerPc.filledSimple, ProducerPc.simpleType, ProducerPc.bulkType, ProducerPc.first, ProducerPc.pendingCount, ProducerPc.enqueuing, ProducerPc.waiting, ProducerPc.active, ProducerPc.counted, ProducerPc.rest, WorkerPc.holds, WorkerPc.owned, WorkerPc.phase, WorkerPc.pastWork])
  case ready => (intros; simp_all [Sys.start, ProducerPc.holds, ProducerPc.claimedItem, ProducerPc.sawFree, ProducerPc.filledItem, ProducerPc.filledSimple, ProducerPc.simpleType, ProducerPc.bulkType, ProducerPc.first, ProducerPc.pendingCount, ProducerPc.enqueuing, ProducerPc.waiting, ProducerPc.active, ProducerPc.counted, ProducerPc.rest, WorkerPc.holds, WorkerPc.owned, WorkerPc.phase, WorkerPc.pastWork])
  case frag => (intros; simp_all [Sys.start, ProducerPc.holds, ProducerPc.claimedItem, ProducerPc.sawFree, ProducerPc.filledItem, ProducerPc.filledSimple, ProducerPc.simpleType, ProducerPc.bulkType, ProducerPc.first, ProducerPc.pendingCount, ProducerPc.enqueuing, ProducerPc.waiting, ProducerPc.active, ProducerPc.counted, ProducerPc.rest, WorkerPc.holds, WorkerPc.owned, WorkerPc.phase, WorkerPc.pastWork])
  case zero => (intros; simp_all [Sys.start, ProducerPc.holds, ProducerPc.claimedItem, ProducerPc.sawFree, ProducerPc.filledItem, ProducerPc.filledSimple, ProducerPc.simpleType, ProducerPc.bulkType, ProducerPc.first, ProducerPc.pendingCount, ProducerPc.enqueuing, ProducerPc.waiting, ProducerPc.active, ProducerPc.counted, ProducerPc.rest, WorkerPc.holds, WorkerPc.owned, WorkerPc.phase, WorkerPc.pastWork])
  case fragInj => (intros; simp_all [Sys.start, ProducerPc.holds, ProducerPc.claimedItem, ProducerPc.sawFree, ProducerPc.filledItem, ProducerPc.filledSimple, ProducerPc.simpleType, ProducerPc.bulkType, ProducerPc.first, ProducerPc.pendingCount, ProducerPc.enqueuing, ProducerPc.waiting, ProducerPc.active, ProducerPc.counted, ProducerPc.rest, WorkerPc.holds, WorkerPc.owned, WorkerPc.phase, WorkerPc.pastWork])
  case readyPhase => (intros; simp_all [Sys.start, ProducerPc.holds, ProducerPc.claimedItem, ProducerPc.sawFree, ProducerPc.filledItem, ProducerPc.filledSimple, ProducerPc.simpleType, ProducerPc.bulkType, ProducerPc.first, ProducerPc.pendingCount, ProducerPc.enqueuing, ProducerPc.waiting, ProducerPc.active, ProducerPc.counted, ProducerPc.rest, WorkerPc.holds, WorkerPc.owned, WorkerPc.phase, WorkerPc.pastWork])
  case leader => (intros; simp_all [Sys.start, ProducerPc.holds, ProducerPc.claimedItem, ProducerPc.sawFree, ProducerPc.filledItem, ProducerPc.filledSimple, ProducerPc.simpleType, ProducerPc.bulkType, ProducerPc.first, ProducerPc.pendingCount, ProducerPc.enqueuing, ProducerPc.waiting, ProducerPc.active, ProducerPc.counted, ProducerPc.rest, WorkerPc.holds, WorkerPc.owned, WorkerPc.phase, WorkerPc.pastWork])
  case leaderPending => (intros; simp_all [Sys.start, ProducerPc.holds, ProducerPc.claimedItem, ProducerPc.sawFree, ProducerPc.filledItem, ProducerPc.filledSimple, ProducerPc.simpleType, ProducerPc.bulkType, ProducerPc.first, ProducerPc.pendingCount, ProducerPc.enqueuing, ProducerPc.waiting, ProducerPc.active, ProducerPc.counted, ProducerPc.rest, WorkerPc.holds, WorkerPc.owned, WorkerPc.phase, WorkerPc.pastWork])
  case count => (intros; simp_all [Sys.start, ProducerPc.holds, ProducerPc.claimedItem, ProducerPc.sawFree, ProducerPc.filledItem, ProducerPc.filledSimple, ProducerPc.simpleType, ProducerPc.bulkType, ProducerPc.first, ProducerPc.pendingCount, ProducerPc.enqueuing, ProducerPc.waiting, ProducerPc.active, ProducerPc.counted, ProducerPc.rest, WorkerPc.holds, WorkerPc.owned, WorkerPc.phase, WorkerPc.pastWork])
  case event => (intros; simp_all [Sys.start, ProducerPc.holds, ProducerPc.claimedItem, ProducerPc.sawFree, ProducerPc.filledItem, ProducerPc.filledSimple, ProducerPc.simpleType, ProducerPc.bulkType, ProducerPc.first, ProducerPc.pendingCount, ProducerPc.enqueuing, ProducerPc.waiting, ProducerPc.active, ProducerPc.counted, ProducerPc.rest, WorkerPc.holds, WorkerPc.owned, WorkerPc.phase, WorkerPc.pastWork])
  case eventLeader => (intros; simp_all [Sys.start, ProducerPc.holds, ProducerPc.claimedItem, ProducerPc.sawFree, ProducerPc.filledItem, ProducerPc.filledSimple, ProducerPc.simpleType, ProducerPc.bulkType, ProducerPc.first, ProducerPc.pendingCount, ProducerPc.enqueuing, ProducerPc.waiting, ProducerPc.active, ProducerPc.counted, ProducerPc.rest, WorkerPc.holds, WorkerPc.owned, WorkerPc.phase, WorkerPc.pastWork])
  case woken => (intros; simp_all [Sys.start, ProducerPc.holds, ProducerPc.claimedItem, ProducerPc.sawFree, ProducerPc.filledItem, ProducerPc.filledSimple, ProducerPc.simpleType, ProducerPc.bulkType, ProducerPc.first, ProducerPc.pendingCount, ProducerPc.enqueuing, ProducerPc.waiting, ProducerPc.active, ProducerPc.counted, ProducerPc.rest, WorkerPc.holds, WorkerPc.owned, WorkerPc.phase, WorkerPc.pastWork])
  case first => (intros; simp_all [Sys.start, ProducerPc.holds, ProducerPc.claimedItem, ProducerPc.sawFree, ProducerPc.filledItem, ProducerPc.filledSimple, ProducerPc.simpleType, ProducerPc.bulkType, ProducerPc.first, ProducerPc.pendingCount, ProducerPc.enqueuing, ProducerPc.waiting, ProducerPc.active, ProducerPc.counted, ProducerPc.rest, WorkerPc.holds, WorkerPc.owned, WorkerPc.phase, WorkerPc.pastWork])
  case shape => (intros; simp_all [Sys.start, ProducerPc.holds, ProducerPc.claimedItem, ProducerPc.sawFree, ProducerPc.filledItem, ProducerPc.filledSimple, ProducerPc.simpleType, ProducerPc.bulkType, ProducerPc.first, ProducerPc.pendingCount, ProducerPc.enqueuing, ProducerPc.waiting, ProducerPc.active, ProducerPc.counted, ProducerPc.rest, WorkerPc.holds, WorkerPc.owned, WorkerPc.phase, WorkerPc.pastWork])
  case fresh => (intros; simp_all [Sys.start, ProducerPc.holds, ProducerPc.claimedItem, ProducerPc.sawFree, ProducerPc.filledItem, ProducerPc.filledSimple, ProducerPc.simpleType, ProducerPc.bulkType, ProducerPc.first, ProducerPc.pendingCount, ProducerPc.enqueuing, ProducerPc.waiting, ProducerPc.active, ProducerPc.counted, ProducerPc.rest, WorkerPc.holds, WorkerPc.owned, WorkerPc.phase, WorkerPc.pastWork])
  case ticket => (intros; simp_all [Sys.start, ProducerPc.holds, ProducerPc.claimedItem, ProducerPc.sawFree, ProducerPc.filledItem, ProducerPc.filledSimple, ProducerPc.simpleType, ProducerPc.bulkType, ProducerPc.first, ProducerPc.pendingCount, ProducerPc.enqueuing, ProducerPc.waiting, ProducerPc.active, ProducerPc.counted, ProducerPc.rest, WorkerPc.holds, WorkerPc.owned, WorkerPc.phase, WorkerPc.pastWork])
  case planLength => (intros; simp_all [Sys.start, ProducerPc.holds, ProducerPc.claimedItem, ProducerPc.sawFree, ProducerPc.filledItem, ProducerPc.filledSimple, ProducerPc.simpleType, ProducerPc.bulkType, ProducerPc.first, ProducerPc.pendingCount, ProducerPc.enqueuing, ProducerPc.waiting, ProducerPc.active, ProducerPc.counted, ProducerPc.rest, WorkerPc.holds, WorkerPc.owned, WorkerPc.phase, WorkerPc.pastWork])
  case planRest => (intros; simp_all [Sys.start, ProducerPc.holds, ProducerPc.claimedItem, ProducerPc.sawFree, ProducerPc.filledItem, ProducerPc.filledSimple, ProducerPc.simpleType, ProducerPc.bulkType, ProducerPc.first, ProducerPc.pendingCount, ProducerPc.enqueuing, ProducerPc.waiting, ProducerPc.active, ProducerPc.counted, ProducerPc.rest, WorkerPc.holds, WorkerPc.owned, WorkerPc.phase, WorkerPc.pastWork])
  case filledData => (intros; simp_all [Sys.start, ProducerPc.holds, ProducerPc.claimedItem, ProducerPc.sawFree, ProducerPc.filledItem, ProducerPc.filledSimple, ProducerPc.simpleType, ProducerPc.bulkType, ProducerPc.first, ProducerPc.pendingCount, ProducerPc.enqueuing, ProducerPc.waiting, ProducerPc.active, ProducerPc.counted, ProducerPc.rest, WorkerPc.holds, WorkerPc.owned, WorkerPc.phase, WorkerPc.pastWork])
  case slotReady => (intros; simp_all [Sys.start, ProducerPc.holds, ProducerPc.claimedItem, ProducerPc.sawFree, ProducerPc.filledItem, ProducerPc.filledSimple, ProducerPc.simpleType, ProducerPc.bulkType, ProducerPc.first, ProducerPc.pendingCount, ProducerPc.enqueuing, ProducerPc.waiting, ProducerPc.active, ProducerPc.counted, ProducerPc.rest, WorkerPc.holds, WorkerPc.owned, WorkerPc.phase, WorkerPc.pastWork])
  case slotOwned => (intros; simp_all [Sys.start, ProducerPc.holds, ProducerPc.claimedItem, ProducerPc.sawFree, ProducerPc.filledItem, ProducerPc.filledSimple, ProducerPc.simpleType, ProducerPc.bulkType, ProducerPc.first, ProducerPc.pendingCount, ProducerPc.enqueuing, ProducerPc.waiting, ProducerPc.active, ProducerPc.counted, ProducerPc.rest, WorkerPc.holds, WorkerPc.owned, WorkerPc.phase, WorkerPc.pastWork])
  case ring => (intros; simp_all [Sys.start, ProducerPc.holds, ProducerPc.claimedItem, ProducerPc.sawFree, ProducerPc.filledItem, ProducerPc.filledSimple, ProducerPc.simpleType, ProducerPc.bulkType, ProducerPc.first, ProducerPc.pendingCount, ProducerPc.enqueuing, ProducerPc.waiting, ProducerPc.active, ProducerPc.counted, ProducerPc.rest, WorkerPc.holds, WorkerPc.owned, WorkerPc.phase, WorkerPc.pastWork])

/-! ## The pool that `EncryptionThreadPoolStart` leaves -/

theorem EncryptionThreadPoolStop_not_running (p : Pool) :
    (EncryptionThreadPoolStop p).ThreadPoolRunning = false := by
  unfold EncryptionThreadPoolStop
  split_ifs with h
  · simpa using h
  · rfl

theorem initWorkItems_frame (h : Host) (n i : Nat) (p : Pool) :
    (initWorkItems h n i p).2.ThreadQueueSize = p.ThreadQueueSize ∧
    (initWorkItems h n i p).2.ThreadPoolCount = p.ThreadPoolCount ∧
    (initWorkItems h n i p).2.EnqueuePosition = p.EnqueuePosition ∧
    (initWorkItems h n i p).2.ThreadPoolRunning = p.ThreadPoolRunning := by
  induction n generalizing i p with
  | zero => exact ⟨rfl, rfl, rfl, rfl⟩
  | succ n ih =>
    simp only [initWorkItems]
    split_ifs
    · have := ih (i + 1) ((SetWorkItemState p i .WorkItemFree).setItem i
        { (SetWorkItemState p i .WorkItemFree).WorkItemQueue i with ItemCompletedEvent := .live false })
      exact this
    · exact ⟨rfl, rfl, rfl, rfl⟩

theorem initWorkItems_queue (h : Host) (n i : Nat) (p : Pool)
    (hok : (initWorkItems h n i p).1 = true) (k : Nat) :
    (k < i ∨ i + n ≤ k → (initWorkItems h n i p).2.WorkItemQueue k = p.WorkItemQueue k) ∧
    (i ≤ k → k < i + n →
      ((initWorkItems h n i p).2.WorkItemQueue k).State = .WorkItemFree ∧
      ((initWorkItems h n i p).2.WorkItemQueue k).ItemCompletedEvent = .live false) := by
  induction n generalizing i p with
  | zero =>
    refine ⟨fun _ => rfl, fun h1 h2 => ?_⟩
    omega
  | succ n ih =>
    simp only [initWorkItems] at hok ⊢
    split_ifs at hok ⊢ with hc
    have := ih (i + 1) ((SetWorkItemState p i .WorkItemFree).setItem i
        { (SetWorkItemState p i .WorkItemFree).WorkItemQueue i with ItemCompletedEvent := .live false })
        hok
    obtain ⟨a1, a2⟩ := this
    constructor
    · intro hk
      rw [a1 (by omega)]
      have hki : k ≠ i := by omega
      simp [Pool.setItem_queue, SetWorkItemState_queue, hki]
    · intro h1 h2
      by_cases hki : k = i
      · subst hki
        rw [a1 (by omega)]
        simp [Pool.setItem_queue, SetWorkItemState_queue]
      · exact a2 (by omega) (by omega)

theorem startThreads_frame (h : Host) (g n : Nat) (p : Pool) :
    (startThreads h g n p).2.ThreadQueueSize = p.ThreadQueueSize ∧
    (startThreads h g n p).2.WorkItemQueue = p.WorkItemQueue ∧
    (startThreads h g n p).2.EnqueuePosition = p.EnqueuePosition ∧
    (startThreads h g n p).2.ThreadPoolRunning = p.ThreadPoolRunning ∧
    ((startThreads h g n p).1 = true → (startThreads h g n p).2.ThreadCount = p.ThreadCount + n) := by
  induction n generalizing p with
  | zero => exact ⟨rfl, rfl, rfl, rfl, fun _ => rfl⟩
  | succ n ih =>
    simp only [startThreads]
    split_ifs with h1 h2 h3 h4 h5
    all_goals first
      | (refine ⟨rfl, rfl, rfl, rfl, fun e => ?_⟩; cases e)
      | (split <;> first
          | (refine ⟨rfl, rfl, rfl, rfl, fun e => ?_⟩; cases e)
          | (rename_i j hj
             refine ⟨(ih _).1, (ih _).2.1, (ih _).2.2.1, (ih _).2.2.2.1, fun e => ?_⟩
             rw [(ih _).2.2.2.2 e]
             simp only
             omega))
      | (refine ⟨(ih _).1, (ih _).2.1, (ih _).2.2.1, (ih _).2.2.2.1, fun e => ?_⟩
         rw [(ih _).2.2.2.2 e]
         simp only
         omega)

theorem Sys.start_inv_core (host : Host) (g N : Nat) (PQ : Pool)
    (hI1 : (initWorkItems host TC_ENC_THREAD_POOL_QUEUE_SIZE 0 PQ).1 = true)
    (hT1 : (startThreads host g N
      { (initWorkItems host TC_ENC_THREAD_POOL_QUEUE_SIZE 0 PQ).2 with ThreadCount := 0 }).1 = true)
    (hN : 1 ≤ N ∧ N < PQ.ThreadQueueSize) (hEP : PQ.EnqueuePosition = 0)
    (hqueue : ∀ i, TC_ENC_THREAD_POOL_QUEUE_SIZE ≤ i → PQ.WorkItemQueue i = WorkItem.zero) :
    (Sys.start { (startThreads host g N
      { (initWorkItems host TC_ENC_THREAD_POOL_QUEUE_SIZE 0 PQ).2 with ThreadCount := 0 }).2 with
      ThreadPoolRunning := true }).Inv := by
  obtain ⟨i1, -, i3, -⟩ := initWorkItems_frame host TC_ENC_THREAD_POOL_QUEUE_SIZE 0 PQ
  have hq := initWorkItems_queue host TC_ENC_THREAD_POOL_QUEUE_SIZE 0 PQ hI1
  generalize initWorkItems host TC_ENC_THREAD_POOL_QUEUE_SIZE 0 PQ = I at *
  obtain ⟨t1, t2, t3, -, t5⟩ := startThreads_frame host g N { I.2 with ThreadCount := 0 }
  have t5 := t5 hT1
  generalize startThreads host g N { I.2 with ThreadCount := 0 } = T at *
  have u1 : T.2.ThreadQueueSize = PQ.ThreadQueueSize := t1.trans i1
  have u2 : T.2.ThreadCount = N := by rw [t5]; exact Nat.zero_add N
  have u3 : T.2.EnqueuePosition = 0 := (t3.trans i3).trans hEP
  have u4 : ∀ k, T.2.WorkItemQueue k = I.2.WorkItemQueue k := fun k => by rw [t2]
  apply Sys.start_inv_of
  · show 0 < T.2.ThreadQueueSize
    omega
  · show 1 ≤ T.2.ThreadCount ∧ T.2.ThreadCount < T.2.ThreadQueueSize
    omega
  · show T.2.EnqueuePosition < T.2.ThreadQueueSize
    omega
  · intro k
    show (T.2.WorkItemQueue k).State = _
    rw [u4]
    by_cases hk : k < TC_ENC_THREAD_POOL_QUEUE_SIZE
    · exact ((hq k).2 (Nat.zero_le k) (by omega)).1
    · rw [(hq k).1 (Or.inr (by omega)), hqueue k (by omega)]
      rfl
  · intro k
    show (T.2.WorkItemQueue k).ItemCompletedEvent ≠ _
    rw [u4]
    by_cases hk : k < TC_ENC_THREAD_POOL_QUEUE_SIZE
    · rw [((hq k).2 (Nat.zero_le k) (by omega)).2]
      simp
    · rw [(hq k).1 (Or.inr (by omega)), hqueue k (by omega)]
      simp [WorkItem.zero]

/-- The invariant holds when the system starts on the pool that a successful
`EncryptionThreadPoolStart` leaves. -/
theorem Sys.start_inv (host : Host) (free : Nat) (p0 : Pool)
    (hstop : p0.ThreadPoolRunning = false)
    (hcnt : 1 ≤ p0.ThreadPoolCount ∧ p0.ThreadPoolCount < p0.ThreadQueueSize)
    (hun : ∀ i, TC_ENC_THREAD_POOL_QUEUE_SIZE ≤ i → p0.WorkItemQueue i = WorkItem.zero)
    (hrun : (EncryptionThreadPoolStart host free p0).2.ThreadPoolRunning = true) :
    (Sys.start (EncryptionThreadPoolStart host free p0).2).Inv := by
  generalize hR : EncryptionThreadPoolStart host free p0 = R at hrun ⊢
  unfold EncryptionThreadPoolStart at hR
  by_cases hg : (GetCpuCount host).2 > 1
  · by_cases h1 : (if (GetCpuCount host).1 > free then (GetCpuCount host).1 - free
        else (GetCpuCount host).1) < 2
    · simp only [hstop, hg, h1, Bool.false_eq_true, ↓reduceIte] at hR
      subst hR
      simp [hstop] at hrun
    · cases h2 : host.readyEventCreated
      · simp only [hstop, hg, h1, h2, Bool.false_eq_true, Bool.not_false, ↓reduceIte] at hR
        subst hR
        simp [hstop] at hrun
      · cases h3 : host.completedEventCreated
        · simp only [hstop, hg, h1, h2, h3, Bool.false_eq_true, Bool.not_false, Bool.not_true,
            ↓reduceIte] at hR
          subst hR
          simp [hstop] at hrun
        · cases h4 : host.dequeueMutexCreated
          · simp only [hstop, hg, h1, h2, h3, h4, Bool.false_eq_true, Bool.not_false, Bool.not_true,
              ↓reduceIte] at hR
            subst hR
            simp [hstop] at hrun
          · cases h5 : host.enqueueMutexCreated
            · simp only [hstop, hg, h1, h2, h3, h4, h5, Bool.false_eq_true, Bool.not_false,
                Bool.not_true, ↓reduceIte] at hR
              subst hR
              simp [hstop] at hrun
            · simp only [hstop, hg, h1, h2, h3, h4, h5, Bool.false_eq_true, Bool.not_false,
                Bool.not_true, ↓reduceIte] at hR
              generalize hI : initWorkItems host TC_ENC_THREAD_POOL_QUEUE_SIZE 0 _ = I at hR
              cases hI1 : I.1
              · simp only [hI1, Bool.not_false, ↓reduceIte] at hR
                subst hR
                simp [EncryptionThreadPoolStop_not_running] at hrun
              · simp only [hI1, Bool.not_true, Bool.false_eq_true, ↓reduceIte] at hR
                generalize hT : startThreads host _ _ _ = T at hR
                cases hT1 : T.1
                · simp only [hT1, Bool.not_false, ↓reduceIte] at hR
                  subst hR
                  simp [EncryptionThreadPoolStop_not_running] at hrun
                · simp only [hT1, Bool.not_true, Bool.false_eq_true, ↓reduceIte] at hR
                  subst hR
                  subst hT
                  subst hI
                  apply Sys.start_inv_core host _ _ _ hI1 hT1
                  · show 1 ≤ _ ∧ _ < TC_ENC_THREAD_POOL_QUEUE_SIZE
                    have hM : TC_ENC_THREAD_POOL_MAX_THREAD_COUNT = 256 := rfl
                    have hS : TC_ENC_THREAD_POOL_QUEUE_SIZE = 512 := rfl
                    rw [hM, hS]
                    generalize (if (GetCpuCount host).1 > free then (GetCpuCount host).1 - free
                      else (GetCpuCount host).1) = cpu at h1 ⊢
                    split_ifs <;> omega
                  · rfl
                  · intro i hi
                    show (if i < TC_ENC_THREAD_POOL_QUEUE_SIZE then WorkItem.zero
                      else p0.WorkItemQueue i) = WorkItem.zero
                    rw [if_neg (by omega)]
                    exact hun i hi
  · by_cases h1 : (if (GetCpuCount host).1 > free then (GetCpuCount host).1 - free
        else (GetCpuCount host).1) < 2
    · simp only [hstop, hg, h1, Bool.false_eq_true, ↓reduceIte] at hR
      subst hR
      simp [hstop] at hrun
    · cases h2 : host.readyEventCreated
      · simp only [hstop, hg, h1, h2, Bool.false_eq_true, Bool.not_false, ↓reduceIte] at hR
        subst hR
        simp [hstop] at hrun
      · cases h3 : host.completedEventCreated
        · simp only [hstop, hg, h1, h2, h3, Bool.false_eq_true, Bool.not_false, Bool.not_true,
            ↓reduceIte] at hR
          subst hR
          simp [hstop] at hrun
        · cases h4 : host.dequeueMutexCreated
          · simp only [hstop, hg, h1, h2, h3, h4, Bool.false_eq_true, Bool.not_false, Bool.not_true,
              ↓reduceIte] at hR
            subst hR
            simp [hstop] at hrun
          · cases h5 : host.enqueueMutexCreated
            · simp only [hstop, hg, h1, h2, h3, h4, h5, Bool.false_eq_true, Bool.not_false,
                Bool.not_true, ↓reduceIte] at hR
              subst hR
              simp [hstop] at hrun
            · simp only [hstop, hg, h1, h2, h3, h4, h5, Bool.false_eq_true, Bool.not_false,
                Bool.not_true, ↓reduceIte] at hR
              generalize hI : initWorkItems host TC_ENC_THREAD_POOL_QUEUE_SIZE 0 _ = I at hR
              cases hI1 : I.1
              · simp only [hI1, Bool.not_false, ↓reduceIte] at hR
                subst hR
                simp [EncryptionThreadPoolStop_not_running] at hrun
              · simp only [hI1, Bool.not_true, Bool.false_eq_true, ↓reduceIte] at hR
                generalize hT : startThreads host _ _ _ = T at hR
                cases hT1 : T.1
                · simp only [hT1, Bool.not_false, ↓reduceIte] at hR
                  subst hR
                  simp [EncryptionThreadPoolStop_not_running] at hrun
                · simp only [hT1, Bool.not_true, Bool.false_eq_true, ↓reduceIte] at hR
                  subst hR
                  subst hT
                  subst hI
                  apply Sys.start_inv_core host _ _ _ hI1 hT1
                  · show 1 ≤ _ ∧ _ < p0.ThreadQueueSize
                    generalize (if (GetCpuCount host).1 > free then (GetCpuCount host).1 - free
                      else (GetCpuCount host).1) = cpu at h1 ⊢
                    split_ifs <;> omega
                  · rfl
                  · intro i hi
                    show (if i < TC_ENC_THREAD_POOL_QUEUE_SIZE then WorkItem.zero
                      else p0.WorkItemQueue i) = WorkItem.zero
                    rw [if_neg (by omega)]
                    exact hun i hi

theorem SlotTransition.refl (a : WorkItemState) : SlotTransition a a := Or.inl rfl

theorem workerStep_state (s t : Sys) (x : Nat) (h : s.Inv) (hs : workerStep s x = some t) (i : Nat) :
    SlotTransition (s.pool.WorkItemQueue i).State (t.pool.WorkItemQueue i).State := by
  unfold workerStep at hs
  split_ifs at hs with hstop
  split at hs
  · split at hs
    · cases hs
    · injection hs with hs
      subst hs
      exact SlotTransition.refl _
  · split_ifs at hs with hr
    injection hs with hs
    subst hs
    exact SlotTransition.refl _
  · rename_i k hpc
    injection hs with hs
    subst hs
    by_cases hik : i = k
    · subst hik
      exact Or.inr (Or.inr (Or.inl ⟨h.taking x i hpc, by simp⟩))
    · left; simp [hik]
  · injection hs with hs
    subst hs
    exact SlotTransition.refl _
  · rename_i k hpc
    split at hs
    · injection hs with hs
      subst hs
      left; simp
    · injection hs with hs
      subst hs
      left; simp
    · injection hs with hs
      subst hs
      by_cases hik : i = k
      · subst hik
        exact Or.inr (Or.inr (Or.inr ⟨(h.owned x i (by rw [hpc]; rfl)).1, by simp⟩))
      · left; simp [hik]
  · rename_i k hpc
    injection hs with hs
    subst hs
    by_cases hik : i = k
    · subst hik
      split_ifs with hff
      · exact Or.inr (Or.inr (Or.inr ⟨(h.owned x i (by rw [hpc]; rfl)).1, by simp⟩))
      · left; simp
    · left
      split_ifs <;> simp [hik]
  · split at hs
    · cases hs
    · injection hs with hs
      subst hs
      left; simp
  · split at hs
    · cases hs
    · injection hs with hs
      subst hs
      left; simp
  · injection hs with hs
    subst hs
    exact SlotTransition.refl _

theorem producerStep_state (s t : Sys) (c : Nat) (h : s.Inv) (hs : producerStep s c = some t)
    (i : Nat) : SlotTransition (s.pool.WorkItemQueue i).State (t.pool.WorkItemQueue i).State := by
  unfold producerStep at hs
  split at hs
  · cases hs
  · split_ifs at hs with hfree
    injection hs with hs
    subst hs
    exact SlotTransition.refl _
  · injection hs with hs
    subst hs
    left; simp
  · rename_i m hpc
    injection hs with hs
    subst hs
    by_cases hik : i = m
    · subst hik
      exact Or.inr (Or.inl ⟨h.sawFree c i (by rw [hpc]; rfl), by simp⟩)
    · left; simp [hik]
  · split_ifs at hs with hfree
    injection hs with hs
    subst hs
    exact SlotTransition.refl _
  · injection hs with hs
    subst hs
    left; simp
  · injection hs with hs
    subst hs
    exact SlotTransition.refl _
  · injection hs with hs
    subst hs
    exact Or.inl rfl
  · split_ifs at hs with hfree
    injection hs with hs
    subst hs
    exact SlotTransition.refl _
  · injection hs with hs
    subst hs
    left; simp
  · rename_i type ci frags first m hpc
    injection hs with hs
    subst hs
    by_cases hik : i = m
    · subst hik
      exact Or.inr (Or.inl ⟨h.sawFree c i (by rw [hpc]; rfl), by simp⟩)
    · left; simp [hik]
  · split_ifs at hs with hev
    injection hs with hs
    subst hs
    left; simp
  · rename_i first hpc
    injection hs with hs
    subst hs
    by_cases hik : i = first
    · subst hik
      have hfirst := h.first c i (by rw [hpc]; rfl)
      have hcc : (s.producers c).pc.counted = true := by rw [hpc]; rfl
      obtain ⟨ph0, hph0⟩ := h.phase0 c hcc
      have hd := h.woken c i hpc _ (List.getElem?_mem hph0)
      subst hd
      have hb := (h.leader c _ hcc hph0 (by simp) (by simp)).1
      rw [← hfirst] at hb
      exact Or.inr (Or.inr (Or.inr ⟨hb, by simp⟩))
    · left; simp [hik]

/-- Every step of the system changes the state of a slot, if at all, by
`Free -> Ready`, `Ready -> Busy` or `Busy -> Free`. -/
theorem Sys.step_state (s t : Sys) (a : Action) (h : s.Inv) (hs : s.step a = some t) (i : Nat) :
    SlotTransition (s.pool.WorkItemQueue i).State (t.pool.WorkItemQueue i).State := by
  cases a with
  | worker x => exact workerStep_state s t x h hs i
  | producer c => exact producerStep_state s t c h hs i
  | beginSimple c type payload =>
    simp only [Sys.step] at hs
    split at hs
    · split_ifs at hs with hrun hty
      injection hs with hs
      subst hs
      exact Or.inl rfl
    · cases hs
  | doWork c type data startUnitNo unitCount cryptoInfo =>
    simp only [Sys.step] at hs
    split at hs
    · split_ifs at hs with hu hty
      injection hs with hs
      subst hs
      exact SlotTransition.refl _
    · cases hs

/-- The invariant holds after every run of the system. -/
theorem Sys.run_inv (schedule : List Action) (s : Sys) (h : s.Inv) : (s.run schedule).Inv := by
  induction schedule generalizing s with
  | nil => exact h
  | cons a schedule ih =>
    simp only [Sys.run]
    split
    · rename_i t ht
      exact ih t (Sys.step_inv s t a h ht)
    · exact ih s h

theorem workerStep_event (s t : Sys) (x : Nat) (hs : workerStep s x = some t) (i : Nat) :
    (t.pool.WorkItemQueue i).ItemCompletedEvent = (s.pool.WorkItemQueue i).ItemCompletedEvent ∨
    ∃ k, (s.workers x).pc = .decremented k true ∧
      (s.pool.WorkItemQueue k).FirstFragment = some i := by
  unfold workerStep at hs
  split_ifs at hs with hstop
  split at hs
  · split at hs
    · cases hs
    · injection hs with hs
      subst hs
      exact Or.inl rfl
  · split_ifs at hs with hr
    injection hs with hs
    subst hs
    exact Or.inl rfl
  · injection hs with hs
    subst hs
    left; simp
  · injection hs with hs
    subst hs
    exact Or.inl rfl
  · split at hs
    · injection hs with hs
      subst hs
      left; simp
    · injection hs with hs
      subst hs
      left; simp
    · injection hs with hs
      subst hs
      left; simp
  · injection hs with hs
    subst hs
    left
    split_ifs <;> simp
  · split at hs
    · cases hs
    · injection hs with hs
      subst hs
      left; simp
  · rename_i k hpc
    split at hs
    · cases hs
    · rename_i f hf
      injection hs with hs
      subst hs
      by_cases hif : i = f
      · subst hif
        exact Or.inr ⟨k, hpc, hf⟩
      · left; simp [hif]
  · injection hs with hs
    subst hs
    exact Or.inl rfl

theorem producerStep_event (s t : Sys) (c : Nat) (hs : producerStep s c = some t) (i : Nat) :
    (t.pool.WorkItemQueue i).ItemCompletedEvent = (s.pool.WorkItemQueue i).ItemCompletedEvent ∨
    (t.pool.WorkItemQueue i).ItemCompletedEvent = .live false := by
  unfold producerStep at hs
  split at hs
  · cases hs
  · split_ifs at hs with hfree
    injection hs with hs
    subst hs
    exact Or.inl rfl
  · injection hs with hs
    subst hs
    left; simp
  · injection hs with hs
    subst hs
    left; simp
  · split_ifs at hs with hfree
    injection hs with hs
    subst hs
    exact Or.inl rfl
  · injection hs with hs
    subst hs
    left; simp
  · injection hs with hs
    subst hs
    exact Or.inl rfl
  · injection hs with hs
    subst hs
    exact Or.inl rfl
  · split_ifs at hs with hfree
    injection hs with hs
    subst hs
    exact Or.inl rfl
  · injection hs with hs
    subst hs
    left; simp
  · injection hs with hs
    subst hs
    left; simp
  · rename_i first hpc
    split_ifs at hs with hev
    injection hs with hs
    subst hs
    by_cases hif : i = first
    · subst hif
      right; simp
    · left; simp [hif]
  · injection hs with hs
    subst hs
    left; simp

/-- A step that signals the event of a slot is the step of a worker whose
decrement of line 331 has given zero, on the first fragment of its work item. -/
theorem Sys.step_event (s t : Sys) (a : Action) (hs : s.step a = some t) (i : Nat)
    (ht : (t.pool.WorkItemQueue i).ItemCompletedEvent = .live true)
    (hne : (s.pool.WorkItemQueue i).ItemCompletedEvent ≠ .live true) :
    ∃ x k, a = .worker x ∧ (s.workers x).pc = .decremented k true ∧
      (s.pool.WorkItemQueue k).FirstFragment = some i := by
  cases a with
  | worker x =>
    rcases workerStep_event s t x hs i with e | ⟨k, h1, h2⟩
    · rw [e] at ht; exact absurd ht hne
    · exact ⟨x, k, rfl, h1, h2⟩
  | producer c =>
    rcases producerStep_event s t c hs i with e | e
    · rw [e] at ht; exact absurd ht hne
    · rw [e] at ht; cases ht
  | beginSimple c type payload =>
    simp only [Sys.step] at hs
    split at hs
    · split_ifs at hs with hrun hty
      injection hs with hs
      subst hs
      exact absurd ht hne
    · cases hs
  | doWork c type data startUnitNo unitCount cryptoInfo =>
    simp only [Sys.step] at hs
    split at hs
    · split_ifs at hs with hu hty
      injection hs with hs
      subst hs
      exact absurd ht hne
    · cases hs

theorem FragPhase.isExecuted_decremented (l : List FragPhase)
    (h : ∀ ph ∈ l, ph = .decremented) : ∀ ph ∈ l, ph.isExecuted = true := by
  intro ph hph
  rw [h ph hph]
  rfl

theorem ProducerPc.active_first (pc : ProducerPc) (h : pc.active = true) :
    ∃ first, pc.first = some first := by
  cases pc <;> simp [ProducerPc.active, ProducerPc.enqueuing, ProducerPc.waiting,
    ProducerPc.first] at h ⊢

/-! ## C3 : the bulk dispatch is synchronous -/

/-- C3. Let the pool be started by `EncryptionThreadPoolStart` and let producers
(calls of `EncryptionThreadPoolDoWork` on the queued path, and of the two
asynchronous enqueue functions) and workers (`EncryptionThreadProc`) take their
steps in any order, `schedule`. In the state `s` reached:
for a producer `c` that is in `EncryptionThreadPoolDoWork` past line 676 with
first fragment `first`, the operation has as many fragments as its plan,
`OutstandingFragmentCount` of `first` is that number minus the number of
fragments whose worker has done the decrement of line 331, and if the event of
`first` is signalled, or the wait of line 709 has returned, every fragment has
been run through the cipher;
a step that signals the event of a slot `i` is the step of line 332 of a worker
whose decrement has given zero, `i` is the first fragment of a producer whose
fragments have all been run through the cipher, and the counter of `i` is zero;
a worker that is about to run the cipher on a slot holds a fragment of the plan
of a producer, and the slot carries the work type and the `Encryption` member
of that fragment. -/
theorem dispatch_bulk_synchronous (host : Host) (encryptionFreeCpuCount : Nat) (p0 : Pool)
    (schedule : List Action)
    (hstop : p0.ThreadPoolRunning = false)
    (hcnt : 1 ≤ p0.ThreadPoolCount ∧ p0.ThreadPoolCount < p0.ThreadQueueSize)
    (hun : ∀ i, TC_ENC_THREAD_POOL_QUEUE_SIZE ≤ i → p0.WorkItemQueue i = WorkItem.zero)
    (hrun : (EncryptionThreadPoolStart host encryptionFreeCpuCount p0).2.ThreadPoolRunning = true) :
    (∀ c first,
      (((Sys.start (EncryptionThreadPoolStart host encryptionFreeCpuCount p0).2).run
        schedule).producers c).pc.first = some first →
      (((Sys.start (EncryptionThreadPoolStart host encryptionFreeCpuCount p0).2).run
        schedule).producers c).pc.counted = true →
      (((Sys.start (EncryptionThreadPoolStart host encryptionFreeCpuCount p0).2).run
          schedule).producers c).plan.length
        = (((Sys.start (EncryptionThreadPoolStart host encryptionFreeCpuCount p0).2).run
          schedule).producers c).phases.length ∧
      (((Sys.start (EncryptionThreadPoolStart host encryptionFreeCpuCount p0).2).run
          schedule).pool.WorkItemQueue first).OutstandingFragmentCount
        = ((((Sys.start (EncryptionThreadPoolStart host encryptionFreeCpuCount p0).2).run
            schedule).producers c).phases.length : Int)
          - (((Sys.start (EncryptionThreadPoolStart host encryptionFreeCpuCount p0).2).run
            schedule).producers c).phases.countP FragPhase.isDecremented ∧
      ((((Sys.start (EncryptionThreadPoolStart host encryptionFreeCpuCount p0).2).run
          schedule).pool.WorkItemQueue first).ItemCompletedEvent = .live true ∨
        (((Sys.start (EncryptionThreadPoolStart host encryptionFreeCpuCount p0).2).run
          schedule).producers c).pc = .bulkWoken first →
        ((Sys.start (EncryptionThreadPoolStart host encryptionFreeCpuCount p0).2).run
          schedule).AllExecuted c)) ∧
    (∀ a t i,
      ((Sys.start (EncryptionThreadPoolStart host encryptionFreeCpuCount p0).2).run schedule).step a
        = some t →
      (t.pool.WorkItemQueue i).ItemCompletedEvent = .live true →
      (((Sys.start (EncryptionThreadPoolStart host encryptionFreeCpuCount p0).2).run
        schedule).pool.WorkItemQueue i).ItemCompletedEvent ≠ .live true →
      ∃ x k c, a = .worker x ∧
        (((Sys.start (EncryptionThreadPoolStart host encryptionFreeCpuCount p0).2).run
          schedule).workers x).pc = .decremented k true ∧
        (((Sys.start (EncryptionThreadPoolStart host encryptionFreeCpuCount p0).2).run
          schedule).pool.WorkItemQueue k).FirstFragment = some i ∧
        (((Sys.start (EncryptionThreadPoolStart host encryptionFreeCpuCount p0).2).run
          schedule).producers c).pc.first = some i ∧
        (((Sys.start (EncryptionThreadPoolStart host encryptionFreeCpuCount p0).2).run
          schedule).producers c).pc.counted = true ∧
        (((Sys.start (EncryptionThreadPoolStart host encryptionFreeCpuCount p0).2).run
          schedule).pool.WorkItemQueue i).OutstandingFragmentCount = 0 ∧
        ((Sys.start (EncryptionThreadPoolStart host encryptionFreeCpuCount p0).2).run
          schedule).AllExecuted c) ∧
    (∀ x k,
      (((Sys.start (EncryptionThreadPoolStart host encryptionFreeCpuCount p0).2).run
        schedule).workers x).pc = .working k →
      (((Sys.start (EncryptionThreadPoolStart host encryptionFreeCpuCount p0).2).run
        schedule).pool.WorkItemQueue k).WorkType.isCrypto = true →
      ∃ c j, (((Sys.start (EncryptionThreadPoolStart host encryptionFreeCpuCount p0).2).run
          schedule).workers x).frag = some (c, j) ∧
        (((Sys.start (EncryptionThreadPoolStart host encryptionFreeCpuCount p0).2).run
          schedule).producers c).phases[j]? = some .taken ∧
        ((Sys.start (EncryptionThreadPoolStart host encryptionFreeCpuCount p0).2).run
          schedule).SlotData c j k) := by
  have hinv := Sys.run_inv schedule _ (Sys.start_inv host encryptionFreeCpuCount p0 hstop hcnt hun hrun)
  generalize (Sys.start (EncryptionThreadPoolStart host encryptionFreeCpuCount p0).2).run schedule
    = s at hinv ⊢
  refine ⟨?_, ?_, ?_⟩
  · intro c first hfirst hcc
    have hf := hinv.first c first hfirst
    obtain ⟨n, hn⟩ := ProducerPc.counted_pendingCount _ hcc
    refine ⟨hinv.planLength c n hn, by rw [hf]; exact hinv.count c hcc, ?_⟩
    rintro (hev | hw)
    · exact FragPhase.isExecuted_decremented _ (hinv.event c hcc (by rw [← hf]; exact hev))
    · exact FragPhase.isExecuted_decremented _ (hinv.woken c first hw)
  · intro a t i hs ht hne
    obtain ⟨x, k, ha, hpc, hff⟩ := Sys.step_event s t a hs i ht hne
    rcases hfx : (s.workers x).frag with _ | ⟨c, j⟩
    · exact absurd hfx (hinv.pastWork x (by rw [hpc]; rfl))
    · obtain ⟨⟨hact, hjlt, hi, hff2, hcr⟩, hphj⟩ :=
        hinv.frag x c j k .decremented hfx (by rw [hpc]; rfl)
      rw [hff] at hff2
      injection hff2 with hff2
      obtain ⟨hall, -, -⟩ := hinv.zero x c j k hfx hpc
      have hcc := ProducerPc.active_counted _ hact
      obtain ⟨first, hfirst⟩ := ProducerPc.active_first _ hact
      have hf := hinv.first c first hfirst
      have hcount := hinv.count c hcc
      have hcp : (s.producers c).phases.countP FragPhase.isDecremented
          = (s.producers c).phases.length := by
        rw [List.countP_eq_length]
        intro ph hph
        rw [hall ph hph]; rfl
      refine ⟨x, k, c, ha, hpc, hff, by rw [hfirst, hf, hff2], hcc, ?_,
        FragPhase.isExecuted_decremented _ hall⟩
      rw [hff2, hcount, hcp]
      simp
  · intro x k hpc hty
    rcases hfx : (s.workers x).frag with _ | ⟨c, j⟩
    · have := hinv.ownedSimple x k (by rw [hpc]; rfl) hfx
      rw [hty] at this; cases this
    · exact ⟨c, j, rfl, (hinv.frag x c j k .taken hfx (by rw [hpc]; rfl)).2,
        hinv.slotOwned x k c j (by rw [hpc]; rfl) hfx⟩

set_option maxRecDepth 100000 in
/-- C3 on the pool started on a host with 2 CPUs, along the sample schedule. -/
theorem dispatch_bulk_synchronous_witness :
    (Pool.initial.ThreadPoolRunning = false ∧
      (1 ≤ Pool.initial.ThreadPoolCount ∧ Pool.initial.ThreadPoolCount < Pool.initial.ThreadQueueSize) ∧
      (∀ i, TC_ENC_THREAD_POOL_QUEUE_SIZE ≤ i → Pool.initial.WorkItemQueue i = WorkItem.zero) ∧
      (EncryptionThreadPoolStart (Host.plain 2) 0 Pool.initial).2.ThreadPoolRunning = true) ∧
    ∀ c first,
      (((Sys.start (EncryptionThreadPoolStart (Host.plain 2) 0 Pool.initial).2).run
        Schedule.sample).producers c).pc = .bulkWoken first →
      ((Sys.start (EncryptionThreadPoolStart (Host.plain 2) 0 Pool.initial).2).run
        Schedule.sample).AllExecuted c :=
  ⟨⟨rfl, by decide, fun _ _ => rfl, by decide⟩,
    fun c first hw =>
      ((dispatch_bulk_synchronous (Host.plain 2) 0 Pool.initial Schedule.sample rfl (by decide)
        (fun _ _ => rfl) (by decide)).1 c first (by rw [hw]; rfl) (by rw [hw]; rfl)).2.2 (Or.inr hw)⟩

/-! ## C7 : the state machine of a slot -/

/-- A worker takes a step only while `StopPending` is clear. -/
theorem workerStep_stopPending (s t : Sys) (x : Nat) (hs : workerStep s x = some t) :
    s.pool.StopPending = false := by
  unfold workerStep at hs
  split_ifs at hs with hstop
  simpa using hstop

/-- With `StopPending` set, lines 214-226 set the claimed slot busy whatever
its state. -/
theorem workerDequeue_stopPending (p : Pool) (hstop : p.StopPending = true) :
    ∃ q, workerDequeue p = .done (p.DequeuePosition, q) ∧
      (q.WorkItemQueue p.DequeuePosition).State = .WorkItemBusy := by
  unfold workerDequeue
  simp only [hstop, Bool.not_true, Bool.false_and, Bool.false_eq_true, if_false]
  exact ⟨_, rfl, by simp⟩

/-- C7, amended. Let the pool be started by `EncryptionThreadPoolStart` and
let producers and workers take their steps in any order, `schedule`. In the
state reached every slot is free, ready or busy, and every step changes the
state of a slot, if at all, by `Free -> Ready`, `Ready -> Busy` or
`Busy -> Free`; a worker takes such a step only while `StopPending` is clear.
Once `StopPending` is set, a worker leaves its wait and sets the slot it has
claimed busy whatever its state. -/
theorem slot_state_machine (host : Host) (encryptionFreeCpuCount : Nat) (p0 : Pool)
    (schedule : List Action)
    (hstop : p0.ThreadPoolRunning = false)
    (hcnt : 1 ≤ p0.ThreadPoolCount ∧ p0.ThreadPoolCount < p0.ThreadQueueSize)
    (hun : ∀ i, TC_ENC_THREAD_POOL_QUEUE_SIZE ≤ i → p0.WorkItemQueue i = WorkItem.zero)
    (hrun : (EncryptionThreadPoolStart host encryptionFreeCpuCount p0).2.ThreadPoolRunning = true) :
    (∀ i, GetWorkItemState ((Sys.start (EncryptionThreadPoolStart host encryptionFreeCpuCount
        p0).2).run schedule).pool i = .WorkItemFree ∨
      GetWorkItemState ((Sys.start (EncryptionThreadPoolStart host encryptionFreeCpuCount
        p0).2).run schedule).pool i = .WorkItemReady ∨
      GetWorkItemState ((Sys.start (EncryptionThreadPoolStart host encryptionFreeCpuCount
        p0).2).run schedule).pool i = .WorkItemBusy) ∧
    (∀ a t i,
      ((Sys.start (EncryptionThreadPoolStart host encryptionFreeCpuCount p0).2).run schedule).step a
        = some t →
      SlotTransition
        (GetWorkItemState ((Sys.start (EncryptionThreadPoolStart host encryptionFreeCpuCount
          p0).2).run schedule).pool i)
        (GetWorkItemState t.pool i)) ∧
    (∀ x t,
      ((Sys.start (EncryptionThreadPoolStart host encryptionFreeCpuCount p0).2).run schedule).step
        (.worker x) = some t →
      ((Sys.start (EncryptionThreadPoolStart host encryptionFreeCpuCount p0).2).run
        schedule).pool.StopPending = false) ∧
    (∀ p : Pool, p.StopPending = true →
      ∃ q, workerDequeue p = .done (p.DequeuePosition, q) ∧
        GetWorkItemState q p.DequeuePosition = .WorkItemBusy) := by
  have hinv := Sys.run_inv schedule _ (Sys.start_inv host encryptionFreeCpuCount p0 hstop hcnt hun hrun)
  generalize (Sys.start (EncryptionThreadPoolStart host encryptionFreeCpuCount p0).2).run schedule
    = s at hinv ⊢
  refine ⟨?_, ?_, ?_, ?_⟩
  · intro i
    unfold GetWorkItemState
    cases (s.pool.WorkItemQueue i).State
    · exact Or.inl rfl
    · exact Or.inr (Or.inl rfl)
    · exact Or.inr (Or.inr rfl)
  · intro a t i hs
    exact Sys.step_state s t a hinv hs i
  · intro x t hs
    exact workerStep_stopPending s t x hs
  · intro p hp
    exact workerDequeue_stopPending p hp

set_option maxRecDepth 100000 in
/-- C7, amended, on the pool started on a host with 2 CPUs, along the sample
schedule. -/
theorem slot_state_machine_witness :
    (Pool.initial.ThreadPoolRunning = false ∧
      (1 ≤ Pool.initial.ThreadPoolCount ∧ Pool.initial.ThreadPoolCount < Pool.initial.ThreadQueueSize) ∧
      (∀ i, TC_ENC_THREAD_POOL_QUEUE_SIZE ≤ i → Pool.initial.WorkItemQueue i = WorkItem.zero) ∧
      (EncryptionThreadPoolStart (Host.plain 2) 0 Pool.initial).2.ThreadPoolRunning = true) ∧
    ∀ a t i,
      ((Sys.start (EncryptionThreadPoolStart (Host.plain 2) 0 Pool.initial).2).run
        Schedule.sample).step a = some t →
      SlotTransition
        (GetWorkItemState ((Sys.start (EncryptionThreadPoolStart (Host.plain 2) 0
          Pool.initial).2).run Schedule.sample).pool i)
        (GetWorkItemState t.pool i) :=
  ⟨⟨rfl, by decide, fun _ _ => rfl, by decide⟩,
    (slot_state_machine (Host.plain 2) 0 Pool.initial Schedule.sample rfl (by decide)
      (fun _ _ => rfl) (by decide)).2.1⟩

set_option maxRecDepth 100000 in
/-- C7 fails on the code. On the pool started on a host with 2 CPUs, after
`EncryptionThreadPoolStop` has executed `StopPending = TRUE;
TC_SET_EVENT (WorkItemReadyEvent);`, a worker that goes through lines 214-226
finds slot 0 free and leaves it busy: the slot goes `Free -> Busy`. -/
theorem slot_state_machine_counterexample :
    GetWorkItemState
      { (EncryptionThreadPoolStart (Host.plain 2) 0 Pool.initial).2 with
        StopPending := true
        WorkItemReadyEvent :=
          TC_SET_EVENT (EncryptionThreadPoolStart (Host.plain 2) 0 Pool.initial).2.WorkItemReadyEvent }
      0 = .WorkItemFree ∧
    GetWorkItemState
      (workerDequeue
        { (EncryptionThreadPoolStart (Host.plain 2) 0 Pool.initial).2 with
          StopPending := true
          WorkItemReadyEvent :=
            TC_SET_EVENT (EncryptionThreadPoolStart (Host.plain 2) 0
              Pool.initial).2.WorkItemReadyEvent }).state.2
      0 = .WorkItemBusy ∧
    ¬ SlotTransition .WorkItemFree .WorkItemBusy := by
  refine ⟨by decide, by decide, ?_⟩
  unfold SlotTransition
  simp

/-! ## C11 : processor groups of the workers -/

theorem cumulativeCpuCount_zero (h : Host) :
    cumulativeCpuCount h 0 = h.GetActiveProcessorCount 0 := by
  simp [cumulativeCpuCount, List.range_succ]

theorem cumulativeCpuCount_succ (h : Host) (j : Nat) :
    cumulativeCpuCount h (j + 1) = cumulativeCpuCount h j + h.GetActiveProcessorCount (j + 1) := by
  unfold cumulativeCpuCount
  rw [List.range_succ, List.map_append, List.sum_append]
  simp

theorem cumulativeCpuCount_mono (h : Host) (j n : Nat) :
    cumulativeCpuCount h j ≤ cumulativeCpuCount h (j + n) := by
  induction n with
  | zero => exact Nat.le_refl _
  | succ n ih =>
    rw [← Nat.add_assoc, cumulativeCpuCount_succ]
    omega

/-- The scan of lines 462-472 from group `j + 1` on, with the running total of
group `j` accumulated, when the running totals fit a `uint32`. -/
theorem groupScan_succ (h : Host) (i : Nat) (n j : Nat)
    (hfit : cumulativeCpuCount h (j + n) < 2 ^ 32) :
    groupScan h i n (j + 1) (cumulativeCpuCount h j)
      = (List.range' (j + 1) n).find? fun k => decide (i ≤ cumulativeCpuCount h k) := by
  induction n generalizing j with
  | zero => rfl
  | succ n ih =>
    have hm := cumulativeCpuCount_mono h (j + 1) n
    have hs := cumulativeCpuCount_succ h j
    have e : j + (n + 1) = j + 1 + n := by omega
    rw [e] at hfit
    have h1 : (cumulativeCpuCount h j + h.GetActiveProcessorCount (j + 1) % 2 ^ 32) % 2 ^ 32
        = cumulativeCpuCount h (j + 1) := by
      rw [Nat.add_mod_mod, ← hs]
      exact Nat.mod_eq_of_lt (by omega)
    simp only [groupScan, h1, List.range']
    rw [List.find?_cons]
    by_cases hc : i ≤ cumulativeCpuCount h (j + 1)
    · simp [hc]
    · simp only [ge_iff_le, hc, if_false, decide_False]
      exact ih (j + 1) hfit

/-- The scan of lines 462-472 stores the first group whose running CPU total
reaches or exceeds the index `ThreadCount` of the worker. -/
theorem groupScan_eq (h : Host) (i n : Nat) (hfit : cumulativeCpuCount h (n - 1) < 2 ^ 32) :
    groupScan h i n 0 0 = firstGroupReaching h n i := by
  unfold firstGroupReaching
  rw [List.range_eq_range']
  cases n with
  | zero => rfl
  | succ n =>
    have hm := cumulativeCpuCount_mono h 0 n
    rw [Nat.zero_add] at hm
    have hz := cumulativeCpuCount_zero h
    have h1 : (0 + h.GetActiveProcessorCount 0 % 2 ^ 32) % 2 ^ 32 = cumulativeCpuCount h 0 := by
      rw [Nat.zero_add, Nat.mod_mod, hz]
      exact Nat.mod_eq_of_lt (by simp only [Nat.add_sub_cancel] at hfit; omega)
    simp only [groupScan, h1, List.range']
    rw [List.find?_cons]
    by_cases hc : i ≤ cumulativeCpuCount h 0
    · simp [hc]
    · simp only [ge_iff_le, hc, if_false, decide_False]
      have := groupScan_succ h i n 0 (by simpa using hfit)
      simpa using this

set_option maxRecDepth 100000 in
/-- C11 fails on the code. The scan of lines 462-472 compares the running CPU
total with the index `ThreadCount` of the worker, not with `ThreadCount + 1`: it
stores the first group whose running total reaches or exceeds `i`. On a host
with 1 CPU in group 0 and 3 CPUs in group 1, `EncryptionThreadPoolStart (0)`
starts 4 workers in the groups 0, 0, 1, 1: worker 1 is in group 0, where the
first group whose running total reaches 2 is group 1, and group 0 has two
workers for its one CPU. -/
theorem group_placement_off_by_one :
    (∀ (h : Host) (i groupCount : Nat), cumulativeCpuCount h (groupCount - 1) < 2 ^ 32 →
      groupScan h i groupCount 0 0 = firstGroupReaching h groupCount i) ∧
    (EncryptionThreadPoolStart Host.twoGroups 0 Pool.initial).1 = true ∧
    (EncryptionThreadPoolStart Host.twoGroups 0 Pool.initial).2.ThreadPoolRunning = true ∧
    (EncryptionThreadPoolStart Host.twoGroups 0 Pool.initial).2.ThreadCount = 4 ∧
    (List.range 4).map (EncryptionThreadPoolStart Host.twoGroups 0 Pool.initial).2.ThreadProcessorGroups
      = [0, 0, 1, 1] ∧
    (EncryptionThreadPoolStart Host.twoGroups 0 Pool.initial).2.Workers.map WorkerThread.group
      = [some 0, some 0, some 1, some 1] ∧
    (List.range 4).map (specWorkerGroup Host.twoGroups 2) = [some 0, some 1, some 1, some 1] ∧
    Host.twoGroups.GetActiveProcessorCount 0 = 1 ∧
    ((EncryptionThreadPoolStart Host.twoGroups 0 Pool.initial).2.Workers.filter
      fun t => decide (t.group = some 0)).length = 2 := by
  refine ⟨fun h i n hfit => groupScan_eq h i n hfit, by decide, by decide, by decide, by decide,
    by decide, by decide, by decide, by decide⟩

/-! ## C12 : lemmas on the lifecycle and the fragment loop -/

theorem initWorkItems_threadCount (h : Host) (n i : Nat) (p : Pool) :
    (initWorkItems h n i p).2.ThreadCount = p.ThreadCount := by
  induction n generalizing i p with
  | zero => rfl
  | succ n ih =>
    simp only [initWorkItems]
    split_ifs
    · have := ih (i + 1) ((SetWorkItemState p i .WorkItemFree).setItem i
        { (SetWorkItemState p i .WorkItemFree).WorkItemQueue i with ItemCompletedEvent := .live false })
      exact this
    · rfl

theorem startThreads_capacity (h : Host) (g n : Nat) (p : Pool) :
    (startThreads h g n p).2.ThreadPoolCount = p.ThreadPoolCount ∧
    (startThreads h g n p).2.ThreadCount ≤ p.ThreadCount + n := by
  induction n generalizing p with
  | zero => exact ⟨rfl, Nat.le_refl _⟩
  | succ n ih =>
    simp only [startThreads]
    cases groupScan h p.ThreadCount g 0 0 <;> simp only <;> split_ifs <;>
      first
        | exact ⟨rfl, by simp⟩
        | (refine ⟨(ih _).1.trans rfl, (ih _).2.trans ?_⟩
           simp only
           omega)

theorem EncryptionThreadPoolStop_capacity (p : Pool) (hc : p.Capacity) :
    (EncryptionThreadPoolStop p).Capacity := by
  unfold EncryptionThreadPoolStop
  split_ifs with h
  · exact hc
  · exact ⟨hc.1, Nat.zero_le _, hc.2.2⟩

theorem EncryptionThreadPoolStop_stopped (p : Pool) (h : p.ThreadPoolRunning = false) :
    EncryptionThreadPoolStop p = p := by
  unfold EncryptionThreadPoolStop
  simp [h]

theorem initWorkItems_capacity (h : Host) (n : Nat) (p : Pool) (hc : p.Capacity) :
    (initWorkItems h n 0 p).2.Capacity := by
  have f := initWorkItems_frame h n 0 p
  have t := initWorkItems_threadCount h n 0 p
  unfold Pool.Capacity
  rw [f.1, f.2.1, t]
  exact hc

theorem startThreads_capacity_of (h : Host) (g n : Nat) (p : Pool)
    (hc : p.ThreadQueueSize = 2 * p.ThreadPoolCount ∧ 0 < p.ThreadPoolCount ∧
      p.ThreadPoolCount ≤ TC_ENC_THREAD_POOL_MAX_THREAD_COUNT)
    (hn : n ≤ p.ThreadPoolCount) :
    (startThreads h g n { p with ThreadCount := 0 }).2.Capacity := by
  have f := startThreads_frame h g n { p with ThreadCount := 0 }
  have t := startThreads_capacity h g n { p with ThreadCount := 0 }
  unfold Pool.Capacity
  rw [f.1, t.1]
  refine ⟨hc.1, ?_, hc.2.1, hc.2.2⟩
  have := t.2
  simp only at this
  show _ ≤ p.ThreadPoolCount
  omega

theorem Pool.Capacity.running (p : Pool) (b : Bool) (hc : p.Capacity) :
    Pool.Capacity { p with ThreadPoolRunning := b } := hc

/-- The function `EncryptionThreadPoolStart` keeps the capacity of the pool. -/
theorem EncryptionThreadPoolStart_capacity (h : Host) (free : Nat) (p : Pool) (hc : p.Capacity) :
    (EncryptionThreadPoolStart h free p).2.Capacity := by
  generalize hR : EncryptionThreadPoolStart h free p = R
  unfold EncryptionThreadPoolStart at hR
  have hM : TC_ENC_THREAD_POOL_MAX_THREAD_COUNT = 256 := rfl
  have hS : TC_ENC_THREAD_POOL_QUEUE_SIZE = 512 := rfl
  obtain ⟨c1, c2, c3, c4⟩ := hc
  cases hstop : p.ThreadPoolRunning
  swap
  · simp only [hstop, ↓reduceIte] at hR
    subst hR
    exact ⟨c1, c2, c3, c4⟩
  by_cases hg : (GetCpuCount h).2 > 1
  · by_cases h1 : (if (GetCpuCount h).1 > free then (GetCpuCount h).1 - free
        else (GetCpuCount h).1) < 2
    · simp only [hstop, hg, h1, Bool.false_eq_true, ↓reduceIte] at hR
      subst hR
      exact ⟨rfl, by show p.ThreadCount ≤ 256; omega, by show 0 < 256; omega, Nat.le_refl _⟩
    · cases h2 : h.readyEventCreated
      · simp only [hstop, hg, h1, h2, Bool.false_eq_true, Bool.not_false, ↓reduceIte] at hR
        subst hR
        exact ⟨rfl, by show p.ThreadCount ≤ 256; omega, by show 0 < 256; omega, Nat.le_refl _⟩
      · cases h3 : h.completedEventCreated
        · simp only [hstop, hg, h1, h2, h3, Bool.false_eq_true, Bool.not_false, Bool.not_true,
            ↓reduceIte] at hR
          subst hR
          exact ⟨rfl, by show p.ThreadCount ≤ 256; omega, by show 0 < 256; omega, Nat.le_refl _⟩
        · cases h4 : h.dequeueMutexCreated
          · simp only [hstop, hg, h1, h2, h3, h4, Bool.false_eq_true, Bool.not_false, Bool.not_true,
              ↓reduceIte] at hR
            subst hR
            exact ⟨rfl, by show p.ThreadCount ≤ 256; omega, by show 0 < 256; omega, Nat.le_refl _⟩
          · cases h5 : h.enqueueMutexCreated
            · simp only [hstop, hg, h1, h2, h3, h4, h5, Bool.false_eq_true, Bool.not_false,
                Bool.not_true, ↓reduceIte] at hR
              subst hR
              exact ⟨rfl, by show p.ThreadCount ≤ 256; omega, by show 0 < 256; omega, Nat.le_refl _⟩
            · simp only [hstop, hg, h1, h2, h3, h4, h5, Bool.false_eq_true, Bool.not_false,
                Bool.not_true, ↓reduceIte] at hR
              generalize hI : initWorkItems h TC_ENC_THREAD_POOL_QUEUE_SIZE 0 _ = I at hR
              have cI : I.2.Capacity := by
                rw [← hI]
                apply initWorkItems_capacity
                exact ⟨rfl, by show p.ThreadCount ≤ 256; omega, by show 0 < 256; omega, Nat.le_refl _⟩
              have tI : I.2.ThreadPoolCount = 256 := by
                rw [← hI]
                exact (initWorkItems_frame h _ 0 _).2.1
              cases hI1 : I.1
              · simp only [hI1, Bool.not_false, ↓reduceIte] at hR
                subst hR
                exact EncryptionThreadPoolStop_capacity _ cI
              · simp only [hI1, Bool.not_true, Bool.false_eq_true, ↓reduceIte] at hR
                have cT := startThreads_capacity_of h (GetCpuCount h).2
                  (if (if (GetCpuCount h).1 > free then (GetCpuCount h).1 - free
                    else (GetCpuCount h).1) > 256 then 256
                    else (if (GetCpuCount h).1 > free then (GetCpuCount h).1 - free
                    else (GetCpuCount h).1)) I.2 ⟨cI.1, cI.2.2⟩
                  (by rw [tI]; split_ifs <;> omega)
                generalize hT : startThreads h _ _ _ = T at hR
                have cT2 : T.2.Capacity := by
                  rw [← hT]
                  exact cT
                cases hT1 : T.1
                · simp only [hT1, Bool.not_false, ↓reduceIte] at hR
                  subst hR
                  exact EncryptionThreadPoolStop_capacity _ cT2
                · simp only [hT1, Bool.not_true, Bool.false_eq_true, ↓reduceIte] at hR
                  subst hR
                  exact cT2
  · by_cases h1 : (if (GetCpuCount h).1 > free then (GetCpuCount h).1 - free
        else (GetCpuCount h).1) < 2
    · simp only [hstop, hg, h1, Bool.false_eq_true, ↓reduceIte] at hR
      subst hR
      exact ⟨c1, c2, c3, c4⟩
    · cases h2 : h.readyEventCreated
      · simp only [hstop, hg, h1, h2, Bool.false_eq_true, Bool.not_false, ↓reduceIte] at hR
        subst hR
        exact ⟨c1, c2, c3, c4⟩
      · cases h3 : h.completedEventCreated
        · simp only [hstop, hg, h1, h2, h3, Bool.false_eq_true, Bool.not_false, Bool.not_true,
            ↓reduceIte] at hR
          subst hR
          exact ⟨c1, c2, c3, c4⟩
        · cases h4 : h.dequeueMutexCreated
          · simp only [hstop, hg, h1, h2, h3, h4, Bool.false_eq_true, Bool.not_false, Bool.not_true,
              ↓reduceIte] at hR
            subst hR
            exact ⟨c1, c2, c3, c4⟩
          · cases h5 : h.enqueueMutexCreated
            · simp only [hstop, hg, h1, h2, h3, h4, h5, Bool.false_eq_true, Bool.not_false,
                Bool.not_true, ↓reduceIte] at hR
              subst hR
              exact ⟨c1, c2, c3, c4⟩
            · simp only [hstop, hg, h1, h2, h3, h4, h5, Bool.false_eq_true, Bool.not_false,
                Bool.not_true, ↓reduceIte] at hR
              generalize hI : initWorkItems h TC_ENC_THREAD_POOL_QUEUE_SIZE 0 _ = I at hR
              have cI : I.2.Capacity := by
                rw [← hI]
                apply initWorkItems_capacity
                exact ⟨c1, c2, c3, c4⟩
              have tI : I.2.ThreadPoolCount = p.ThreadPoolCount := by
                rw [← hI]
                exact (initWorkItems_frame h _ 0 _).2.1
              cases hI1 : I.1
              · simp only [hI1, Bool.not_false, ↓reduceIte] at hR
                subst hR
                exact EncryptionThreadPoolStop_capacity _ cI
              · simp only [hI1, Bool.not_true, Bool.false_eq_true, ↓reduceIte] at hR
                have cT := startThreads_capacity_of h (GetCpuCount h).2
                  (if (if (GetCpuCount h).1 > free then (GetCpuCount h).1 - free
                    else (GetCpuCount h).1) > p.ThreadPoolCount then p.ThreadPoolCount
                    else (if (GetCpuCount h).1 > free then (GetCpuCount h).1 - free
                    else (GetCpuCount h).1)) I.2 ⟨cI.1, cI.2.2⟩
                  (by rw [tI]; split_ifs <;> omega)
                generalize hT : startThreads h _ _ _ = T at hR
                have cT2 : T.2.Capacity := by
                  rw [← hT]
                  exact cT
                cases hT1 : T.1
                · simp only [hT1, Bool.not_false, ↓reduceIte] at hR
                  subst hR
                  exact EncryptionThreadPoolStop_capacity _ cT2
                · simp only [hT1, Bool.not_true, Bool.false_eq_true, ↓reduceIte] at hR
                  subst hR
                  exact cT2

theorem Pool.initial_capacity : Pool.initial.Capacity :=
  ⟨rfl, Nat.zero_le _, by show 0 < 64; omega, by show 64 ≤ 256; omega⟩

theorem LifecycleCall.apply_capacity (c : LifecycleCall) (p : Pool) (hc : p.Capacity) :
    (c.apply p).Capacity := by
  cases c with
  | start h free => exact EncryptionThreadPoolStart_capacity h free p hc
  | stop => exact EncryptionThreadPoolStop_capacity p hc

theorem foldl_capacity (calls : List LifecycleCall) (p : Pool) (hc : p.Capacity) :
    (calls.foldl (fun p c => c.apply p) p).Capacity := by
  induction calls generalizing p with
  | nil => exact hc
  | cons c cs ih => exact ih _ (c.apply_capacity p hc)

/-- Every pool that calls of the lifecycle functions lead to has the capacity. -/
theorem Pool.lifecycle_capacity (calls : List LifecycleCall) : (Pool.lifecycle calls).Capacity :=
  foldl_capacity calls _ Pool.initial_capacity

/-- The number of fragments is at most `ThreadCount`. -/
theorem fragmentPlan_le (unitCount ThreadCount : Nat) :
    (fragmentPlan unitCount ThreadCount).1 ≤ ThreadCount := by
  unfold fragmentPlan
  split_ifs with h
  · exact h
  · exact Nat.le_refl _

theorem fragmentPlan_fst (unitCount ThreadCount : Nat) :
    (fragmentPlan unitCount ThreadCount).1 = min unitCount ThreadCount := by
  unfold fragmentPlan
  split_ifs with h
  · simp [h]
  · simp only [not_le] at h
    simp [le_of_lt h]

/-- The slots claimed from the ticket `t` on are the slots of the tickets
`t, t + 1, ...`. -/
theorem claimedSlots_tickets (n : Nat) (p : Pool) (t : Nat) (hq : 0 < p.ThreadQueueSize)
    (h : p.EnqueuePosition = t % p.ThreadQueueSize) :
    claimedSlots n p = (List.range' t n).map fun k => k % p.ThreadQueueSize := by
  induction n generalizing p t with
  | zero => rfl
  | succ n ih =>
    have := ih (claimEnqueueSlot p).2 (t + 1) hq (claimEnqueueSlot_cursor p t hq h)
    simp only [claimedSlots, List.range', List.map_cons, claimEnqueueSlot_fst, h]
    rw [this]
    rfl

theorem claimedSlots_eq (n : Nat) (p : Pool) (h : p.EnqueuePosition < p.ThreadQueueSize) :
    claimedSlots n p
      = (List.range n).map fun j => (p.EnqueuePosition + j) % p.ThreadQueueSize := by
  rw [claimedSlots_tickets n p p.EnqueuePosition (by omega) (Nat.mod_eq_of_lt h).symm,
    List.range'_eq_map_range, List.map_map]
  rfl

theorem claimedSlots_nodup (n : Nat) (p : Pool) (h : p.EnqueuePosition < p.ThreadQueueSize)
    (hn : n ≤ p.ThreadQueueSize) : (claimedSlots n p).Nodup := by
  rw [claimedSlots_eq n p h]
  refine List.Nodup.map_on ?_ (List.nodup_range n)
  intro a ha b hb e
  rw [List.mem_range] at ha hb
  have := slot_inj (p.EnqueuePosition + a) (p.EnqueuePosition + b) p.ThreadQueueSize
    (by omega) (by omega) e
  omega

/-- One iteration of the fragment loop on a free slot: the cursor moves on and
the slot at the cursor holds the fragment, ready. -/
theorem enqueueFragment_done (type : EncryptionThreadPoolWorkType) (cryptoInfo first : Nat)
    (f : Fragment) (w : World)
    (hfree : (w.pool.WorkItemQueue w.pool.EnqueuePosition).State = .WorkItemFree) :
    ∃ w1, enqueueFragment type cryptoInfo first f w = .done w1 ∧
      w1.pool.ThreadQueueSize = w.pool.ThreadQueueSize ∧
      w1.pool.EnqueuePosition = (claimEnqueueSlot w.pool).2.EnqueuePosition ∧
      ∀ k, w1.pool.WorkItemQueue k =
        if k = w.pool.EnqueuePosition then
          { w.pool.WorkItemQueue k with
            State := .WorkItemReady
            WorkType := type
            FirstFragment := some first
            payload := .Encryption cryptoInfo f.Data f.StartUnitNo f.UnitCount }
        else w.pool.WorkItemQueue k := by
  unfold enqueueFragment
  have hf : GetWorkItemState (claimEnqueueSlot w.pool).2 (claimEnqueueSlot w.pool).1
      = .WorkItemFree := hfree
  simp only [hf, ne_eq, not_true_eq_false, if_false]
  refine ⟨_, rfl, rfl, rfl, fun k => ?_⟩
  simp only [publishWorkItem_queue, Pool.setItem_queue, claimEnqueueSlot_queue,
    claimEnqueueSlot_fst]
  by_cases hk : k = w.pool.EnqueuePosition
  · subst hk
    simp
  · simp [hk]

/-- The fragment loop on free slots: it returns, the cursor has moved by the
number of fragments, the slot of the ticket `t + j` holds fragment `j`, ready,
and no other slot has changed. -/
theorem enqueueFragments_done (type : EncryptionThreadPoolWorkType) (cryptoInfo first : Nat)
    (fs : List Fragment) (w : World) (t : Nat)
    (hq : 0 < w.pool.ThreadQueueSize)
    (hE : w.pool.EnqueuePosition = t % w.pool.ThreadQueueSize)
    (hn : fs.length ≤ w.pool.ThreadQueueSize)
    (hfree : ∀ j, j < fs.length →
      (w.pool.WorkItemQueue ((t + j) % w.pool.ThreadQueueSize)).State = .WorkItemFree) :
    ∃ w1, enqueueFragments type cryptoInfo first fs w = .done w1 ∧
      w1.pool.ThreadQueueSize = w.pool.ThreadQueueSize ∧
      w1.pool.EnqueuePosition = (t + fs.length) % w.pool.ThreadQueueSize ∧
      (∀ j f, fs[j]? = some f →
        w1.pool.WorkItemQueue ((t + j) % w.pool.ThreadQueueSize) =
          { w.pool.WorkItemQueue ((t + j) % w.pool.ThreadQueueSize) with
            State := .WorkItemReady
            WorkType := type
            FirstFragment := some first
            payload := .Encryption cryptoInfo f.Data f.StartUnitNo f.UnitCount }) ∧
      (∀ k, (∀ j, j < fs.length → k ≠ (t + j) % w.pool.ThreadQueueSize) →
        w1.pool.WorkItemQueue k = w.pool.WorkItemQueue k) := by
  induction fs generalizing w t with
  | nil =>
    refine ⟨w, rfl, rfl, hE, fun j f hj => ?_, fun k _ => rfl⟩
    simp at hj
  | cons f fs ih =>
    have h0 : (w.pool.WorkItemQueue w.pool.EnqueuePosition).State = .WorkItemFree := by
      rw [hE]
      exact hfree 0 (by simp)
    obtain ⟨w1, e1, q1, c1, i1⟩ := enqueueFragment_done type cryptoInfo first f w h0
    have c1' : w1.pool.EnqueuePosition = (t + 1) % w1.pool.ThreadQueueSize := by
      rw [c1, q1]
      exact claimEnqueueSlot_cursor w.pool t hq hE
    simp only [List.length_cons] at hn hfree
    have hne : ∀ j, j < fs.length →
        (t + 1 + j) % w.pool.ThreadQueueSize ≠ w.pool.EnqueuePosition := by
      intro j hj e
      rw [hE] at e
      exact slot_ne t (t + 1 + j) _ (by omega) (by omega) e.symm
    obtain ⟨w2, e2, q2, c2, i2, f2⟩ := ih w1 (t + 1) (by rw [q1]; exact hq) c1' (by rw [q1]; omega)
      (by
        intro j hj
        rw [q1, i1, if_neg (hne j hj)]
        have := hfree (j + 1) (by omega)
        rwa [show t + (j + 1) = t + 1 + j by omega] at this)
    rw [q1] at q2 c2 i2 f2
    refine ⟨w2, ?_, q2, ?_, ?_, ?_⟩
    · simp only [enqueueFragments, e1, Outcome.bind]
      exact e2
    · rw [c2, List.length_cons]
      congr 1
      omega
    · intro j g hj
      cases j with
      | zero =>
        simp only [List.getElem?_cons_zero, Option.some.injEq] at hj
        subst hj
        rw [Nat.add_zero, ← hE]
        rw [f2 _ (fun j hj => (hne j hj).symm), i1, if_pos rfl]
      | succ j =>
        simp only [List.getElem?_cons_succ] at hj
        have hj' : j < fs.length := by
          rcases Nat.lt_or_ge j fs.length with h | h
          · exact h
          · rw [List.getElem?_eq_none h] at hj
            cases hj
        have := i2 j g hj
        rw [show t + (j + 1) = t + 1 + j by omega, this, i1, if_neg (hne j hj')]
    · intro k hk
      have hk0 : k ≠ w.pool.EnqueuePosition := by
        rw [hE]
        exact hk 0 (by simp)
      rw [f2 k (fun j hj => by
        have := hk (j + 1) (by simp; omega)
        rwa [show t + (j + 1) = t + 1 + j by omega] at this), i1, if_neg hk0]

/-- The queued path of `EncryptionThreadPoolDoWork` up to the release of the
enqueue mutex, on free slots: it returns, fragment `j` is in the slot `j`
positions after the cursor, ready and pointing to the first fragment, and the
first fragment carries the number of fragments. -/
theorem DoWorkEnqueue_done (type : EncryptionThreadPoolWorkType)
    (data startUnitNo unitCount cryptoInfo : Nat) (w : World)
    (hE : w.pool.EnqueuePosition < w.pool.ThreadQueueSize)
    (h1 : 1 ≤ (fragmentPlan unitCount w.pool.ThreadCount).1)
    (hn : (fragmentPlan unitCount w.pool.ThreadCount).1 ≤ w.pool.ThreadQueueSize)
    (hfree : ∀ j, j < (fragmentPlan unitCount w.pool.ThreadCount).1 →
      GetWorkItemState w.pool ((w.pool.EnqueuePosition + j) % w.pool.ThreadQueueSize)
        = .WorkItemFree) :
    ∃ w1, DoWorkEnqueue type data startUnitNo unitCount cryptoInfo w = .done w1 ∧
      (w1.pool.WorkItemQueue w.pool.EnqueuePosition).OutstandingFragmentCount
        = ((fragmentPlan unitCount w.pool.ThreadCount).1 : Int) ∧
      w1.pool.EnqueuePosition
        = (w.pool.EnqueuePosition + (fragmentPlan unitCount w.pool.ThreadCount).1)
            % w.pool.ThreadQueueSize ∧
      ∀ j f, (queuedFragments unitCount w.pool.ThreadCount data startUnitNo)[j]? = some f →
        GetWorkItemState w1.pool ((w.pool.EnqueuePosition + j) % w.pool.ThreadQueueSize)
          = .WorkItemReady ∧
        (w1.pool.WorkItemQueue ((w.pool.EnqueuePosition + j) % w.pool.ThreadQueueSize)).FirstFragment
          = some w.pool.EnqueuePosition ∧
        (w1.pool.WorkItemQueue ((w.pool.EnqueuePosition + j) % w.pool.ThreadQueueSize)).WorkType
          = type ∧
        (w1.pool.WorkItemQueue ((w.pool.EnqueuePosition + j) % w.pool.ThreadQueueSize)).payload
          = .Encryption cryptoInfo f.Data f.StartUnitNo f.UnitCount := by
  have hmod : w.pool.EnqueuePosition % w.pool.ThreadQueueSize = w.pool.EnqueuePosition :=
    Nat.mod_eq_of_lt hE
  have h0 : GetWorkItemState w.pool w.pool.EnqueuePosition = .WorkItemFree := by
    have := hfree 0 h1
    rwa [Nat.add_zero, hmod] at this
  unfold DoWorkEnqueue
  simp only [h0, ne_eq, not_true_eq_false, if_false]
  have hlen := fragmentLoop_length (fragmentPlan unitCount w.pool.ThreadCount).1
    (fragmentPlan unitCount w.pool.ThreadCount).2.1 (fragmentPlan unitCount w.pool.ThreadCount).2.2
    data startUnitNo
  obtain ⟨w1, e1, q1, c1, i1, f1⟩ := enqueueFragments_done type cryptoInfo w.pool.EnqueuePosition
    (fragmentLoop (fragmentPlan unitCount w.pool.ThreadCount).1
      (fragmentPlan unitCount w.pool.ThreadCount).2.1 (fragmentPlan unitCount w.pool.ThreadCount).2.2
      data startUnitNo)
    { w with pool := w.pool.setCount w.pool.EnqueuePosition (fragmentPlan unitCount w.pool.ThreadCount).1 }
    w.pool.EnqueuePosition (by show 0 < w.pool.ThreadQueueSize; omega) hmod.symm
    (by rw [hlen]; exact hn)
    (by
      intro j hj
      rw [hlen] at hj
      have := hfree j hj
      unfold GetWorkItemState at this
      show ((w.pool.setCount _ _).WorkItemQueue _).State = _
      rw [Pool.setCount_State]
      exact this)
  refine ⟨w1, e1, ?_, ?_, ?_⟩
  · have hhead : (fragmentLoop (fragmentPlan unitCount w.pool.ThreadCount).1
        (fragmentPlan unitCount w.pool.ThreadCount).2.1
        (fragmentPlan unitCount w.pool.ThreadCount).2.2 data startUnitNo)[0]? ≠ none := by
      rw [ne_eq, List.getElem?_eq_none_iff, hlen]
      omega
    obtain ⟨f, hf⟩ := Option.ne_none_iff_exists'.mp hhead
    have := i1 0 f hf
    simp only [Pool.setCount_size, Nat.add_zero, hmod] at this
    rw [this]
    simp [Pool.setCount_queue]
  · rw [c1, hlen]
    rfl
  · intro j f hj
    have := i1 j f hj
    simp only [Pool.setCount_size] at this
    unfold GetWorkItemState
    rw [this]
    exact ⟨rfl, rfl, rfl, rfl⟩

/-! ## C12 : the capacity of the queue -/

/-- C12. Capacity invariant. In every pool state that calls of
`EncryptionThreadPoolStart` (whatever the host answers) and
`EncryptionThreadPoolStop`, in any order, lead to from the static variables as
loaded, `ThreadQueueSize = 2 * ThreadPoolCount` and
`ThreadCount ≤ ThreadPoolCount`. So the number of fragments of a call of
`EncryptionThreadPoolDoWork`, at most `ThreadCount`, is less than the queue
size. Wherever the enqueue cursor `e` stands, the slots that the fragment loop
claims are the slots `(e + j) % ThreadQueueSize`, pairwise distinct, and none
but the first is the slot `e` of the first fragment. When these slots are free,
the enqueue part of the call returns with fragment `j` in the slot
`(e + j) % ThreadQueueSize`, ready and pointing to the slot of the first
fragment, which carries the number of fragments. -/
theorem capacity_invariant (calls : List LifecycleCall) :
    (Pool.lifecycle calls).ThreadQueueSize = 2 * (Pool.lifecycle calls).ThreadPoolCount ∧
    (Pool.lifecycle calls).ThreadCount ≤ (Pool.lifecycle calls).ThreadPoolCount ∧
    (∀ unitCount,
      (fragmentPlan unitCount (Pool.lifecycle calls).ThreadCount).1
        ≤ (Pool.lifecycle calls).ThreadCount ∧
      (fragmentPlan unitCount (Pool.lifecycle calls).ThreadCount).1
        < (Pool.lifecycle calls).ThreadQueueSize) ∧
    (∀ unitCount e, e < (Pool.lifecycle calls).ThreadQueueSize →
      claimedSlots (fragmentPlan unitCount (Pool.lifecycle calls).ThreadCount).1
          { Pool.lifecycle calls with EnqueuePosition := e }
        = (List.range (fragmentPlan unitCount (Pool.lifecycle calls).ThreadCount).1).map
            (fun j => (e + j) % (Pool.lifecycle calls).ThreadQueueSize) ∧
      (claimedSlots (fragmentPlan unitCount (Pool.lifecycle calls).ThreadCount).1
          { Pool.lifecycle calls with EnqueuePosition := e }).Nodup ∧
      ∀ j, 0 < j → j < (fragmentPlan unitCount (Pool.lifecycle calls).ThreadCount).1 →
        (e + j) % (Pool.lifecycle calls).ThreadQueueSize ≠ e) ∧
    (∀ (w : World) (type : EncryptionThreadPoolWorkType) (data startUnitNo unitCount cryptoInfo : Nat),
      w.pool.ThreadQueueSize = (Pool.lifecycle calls).ThreadQueueSize →
      w.pool.ThreadCount = (Pool.lifecycle calls).ThreadCount →
      w.pool.EnqueuePosition < w.pool.ThreadQueueSize →
      1 ≤ (fragmentPlan unitCount w.pool.ThreadCount).1 →
      (∀ j, j < (fragmentPlan unitCount w.pool.ThreadCount).1 →
        GetWorkItemState w.pool ((w.pool.EnqueuePosition + j) % w.pool.ThreadQueueSize)
          = .WorkItemFree) →
      ∃ w1, DoWorkEnqueue type data startUnitNo unitCount cryptoInfo w = .done w1 ∧
        (w1.pool.WorkItemQueue w.pool.EnqueuePosition).OutstandingFragmentCount
          = ((fragmentPlan unitCount w.pool.ThreadCount).1 : Int) ∧
        ∀ j f, (queuedFragments unitCount w.pool.ThreadCount data startUnitNo)[j]? = some f →
          GetWorkItemState w1.pool ((w.pool.EnqueuePosition + j) % w.pool.ThreadQueueSize)
            = .WorkItemReady ∧
          (w1.pool.WorkItemQueue
              ((w.pool.EnqueuePosition + j) % w.pool.ThreadQueueSize)).FirstFragment
            = some w.pool.EnqueuePosition ∧
          (w1.pool.WorkItemQueue ((w.pool.EnqueuePosition + j) % w.pool.ThreadQueueSize)).WorkType
            = type ∧
          (w1.pool.WorkItemQueue ((w.pool.EnqueuePosition + j) % w.pool.ThreadQueueSize)).payload
            = .Encryption cryptoInfo f.Data f.StartUnitNo f.UnitCount) := by
  obtain ⟨c1, c2, c3, c4⟩ := Pool.lifecycle_capacity calls
  have hfrag : ∀ unitCount,
      (fragmentPlan unitCount (Pool.lifecycle calls).ThreadCount).1
        < (Pool.lifecycle calls).ThreadQueueSize := by
    intro unitCount
    have := fragmentPlan_le unitCount (Pool.lifecycle calls).ThreadCount
    omega
  refine ⟨c1, c2, fun unitCount => ⟨fragmentPlan_le _ _, hfrag unitCount⟩, ?_, ?_⟩
  · intro unitCount e he
    refine ⟨claimedSlots_eq _ { Pool.lifecycle calls with EnqueuePosition := e } he,
      claimedSlots_nodup _ { Pool.lifecycle calls with EnqueuePosition := e } he
        (Nat.le_of_lt (hfrag unitCount)), ?_⟩
    intro j h0 hj
    have hn := hfrag unitCount
    have := slot_ne e (e + j) (Pool.lifecycle calls).ThreadQueueSize (by omega) (by omega)
    rw [Nat.mod_eq_of_lt he] at this
    exact fun h => this h.symm
  · intro w type data startUnitNo unitCount cryptoInfo hq ht hE h1 hfree
    have hn : (fragmentPlan unitCount w.pool.ThreadCount).1 ≤ w.pool.ThreadQueueSize := by
      rw [hq, ht]
      exact Nat.le_of_lt (hfrag unitCount)
    obtain ⟨w1, e1, k1, _, i1⟩ :=
      DoWorkEnqueue_done type data startUnitNo unitCount cryptoInfo w hE h1 hn hfree
    exact ⟨w1, e1, k1, i1⟩

set_option maxRecDepth 100000 in
/-- C12 on the pool started on a host with 2 CPUs: 2 workers, 128 slots, and a
call for 5 data units with the cursor at the last slot claims the slots 127 and
0. -/
theorem capacity_invariant_witness :
    (Pool.lifecycle [.start (Host.plain 2) 0]).ThreadCount = 2 ∧
    (Pool.lifecycle [.start (Host.plain 2) 0]).ThreadQueueSize = 128 ∧
    (fragmentPlan 5 (Pool.lifecycle [.start (Host.plain 2) 0]).ThreadCount).1 = 2 ∧
    (List.range (fragmentPlan 5 (Pool.lifecycle [.start (Host.plain 2) 0]).ThreadCount).1).map
        (fun j => (127 + j) % (Pool.lifecycle [.start (Host.plain 2) 0]).ThreadQueueSize)
      = [127, 0] ∧
    claimedSlots (fragmentPlan 5 (Pool.lifecycle [.start (Host.plain 2) 0]).ThreadCount).1
        { Pool.lifecycle [.start (Host.plain 2) 0] with EnqueuePosition := 127 }
      = (List.range (fragmentPlan 5 (Pool.lifecycle [.start (Host.plain 2) 0]).ThreadCount).1).map
          (fun j => (127 + j) % (Pool.lifecycle [.start (Host.plain 2) 0]).ThreadQueueSize) :=
  ⟨by decide, by decide, by decide, by decide,
    ((capacity_invariant [.start (Host.plain 2) 0]).2.2.2.1 5 127 (by decide)).1⟩

end EncryptionThreadPool
